import Mathlib

/-!
User-level copy-on-write fork of JOS (`lib/fork.c`).

A shallow embedding of `pgfault`, `duppage`, `fork` and `sfork`.  The C code runs
against the kernel's system calls and the read-only page-table windows `uvpd` and
`uvpt`; these live outside `lib/fork.c` and are modelled here as operations on an
explicit kernel state `Kern`.
-/

namespace Jos

/-! ## Finite tables -/

/-- Look a key up in an association list; the first entry for the key wins. -/
def Tbl.get {β : Type} : List (Nat × β) → Nat → Option β
  | [], _ => none
  | (k, v) :: r, a => if a = k then some v else Tbl.get r a

/-- Remove every entry for a key. -/
def Tbl.del {β : Type} (t : List (Nat × β)) (a : Nat) : List (Nat × β) :=
  t.filter (fun p => decide (p.1 ≠ a))

/-- Bind a key, replacing any earlier entry for it. -/
def Tbl.put {β : Type} (t : List (Nat × β)) (a : Nat) (v : β) : List (Nat × β) :=
  (a, v) :: Tbl.del t a

/-! ## Constants -/

/-- Source, `lib/fork.c`: `#define PTE_COW 0x800`. -/
def PTE_COW : Nat := 0x800

/-- Modelled from the spec: `inc/mmu.h` is not among the sources; the *present*
permission, bit 0 of an x86 page-table entry. -/
def PTE_P : Nat := 0x001

/-- Modelled from the spec: `inc/mmu.h` is not among the sources; the *writable*
permission, bit 1 of an x86 page-table entry. -/
def PTE_W : Nat := 0x002

/-- Modelled from the spec: `inc/mmu.h` is not among the sources; the
*user-accessible* permission, bit 2 of an x86 page-table entry. -/
def PTE_U : Nat := 0x004

/-- Modelled from the spec: `inc/mmu.h` is not among the sources; the three bits of
a page-table entry left to software, of which `PTE_COW` is one (comment at
`lib/fork.c:6-7`). -/
def PTE_AVAIL : Nat := 0xE00

/-- Modelled from the spec: `inc/mmu.h` is not among the sources; the permission
bits a system call accepts. -/
def PTE_SYSCALL : Nat := PTE_AVAIL ||| PTE_P ||| PTE_W ||| PTE_U

/-- Modelled from the spec: `inc/mmu.h` is not among the sources; the *write* flag
of a page-fault error code. -/
def FEC_WR : Nat := 0x2

/-- Modelled from the spec: `inc/mmu.h` is not among the sources; the *protection
violation* flag of a page-fault error code (the page was present). -/
def FEC_PR : Nat := 0x1

/-- Modelled from the spec: `inc/mmu.h` is not among the sources; the *user mode*
flag of a page-fault error code. -/
def FEC_U : Nat := 0x4

/-- Modelled from the spec: `inc/env.h` is not among the sources; the status of a
context that may be scheduled. -/
def ENV_RUNNABLE : Nat := 2

/-- Modelled from the spec: `inc/env.h` is not among the sources; the status of a
context that exists but may not be scheduled. -/
def ENV_NOT_RUNNABLE : Nat := 4

/-- Modelled from the spec: `inc/error.h` is not among the sources; the negative of
this is returned for a context identifier that names no context. -/
def E_BAD_ENV : Int := 2

/-- Modelled from the spec: `inc/error.h` is not among the sources; the negative of
this is returned for an invalid argument. -/
def E_INVAL : Int := 3

/-- Modelled from the spec: `inc/mmu.h` and `inc/memlayout.h` are not among the
sources.  The page size, the number of entries of a page table and the addresses
of the user memory layout are taken as parameters. -/
structure Layout where
  /-- Bytes of a page. -/
  PGSIZE : Nat
  /-- Page-table entries per page table, i.e. pages per page-directory entry. -/
  NPTENTRIES : Nat
  /-- Top of the user-addressable range. -/
  UTOP : Nat
  /-- Top of the one-page user exception stack. -/
  UXSTACKTOP : Nat
  /-- Top of the normal user stack. -/
  USTACKTOP : Nat
  /-- Scratch address used by the page-fault handler. -/
  PFTEMP : Nat
deriving DecidableEq, Repr

/-- What `lib/fork.c` needs of a layout: pages and page tables are not empty, the
32-bit page counter of the walk cannot wrap, and the exception stack is one
page-aligned page below `UTOP`. -/
def Layout.WF (L : Layout) : Prop :=
  0 < L.PGSIZE ∧ 0 < L.NPTENTRIES ∧ L.UTOP ≤ 2 ^ 32 ∧
  L.UTOP / L.PGSIZE + L.NPTENTRIES ≤ 2 ^ 32 ∧
  L.PGSIZE ≤ L.UXSTACKTOP ∧ L.UXSTACKTOP ≤ L.UTOP ∧ L.UXSTACKTOP % L.PGSIZE = 0

instance (L : Layout) : Decidable L.WF := by
  unfold Layout.WF; infer_instance

/-- What running the code on its stack needs of a layout besides `Layout.WF`: the
scratch page of `PFTEMP` is page-aligned, the top page of the normal stack is a
page-aligned page above the scratch page, and the exception stack lies above the
normal stack. -/
def Layout.WFS (L : Layout) : Prop :=
  L.PFTEMP % L.PGSIZE = 0 ∧ L.PFTEMP + L.PGSIZE ≤ L.USTACKTOP - L.PGSIZE ∧
  L.PGSIZE ≤ L.USTACKTOP ∧ L.USTACKTOP % L.PGSIZE = 0 ∧
  L.USTACKTOP ≤ L.UXSTACKTOP - L.PGSIZE

instance (L : Layout) : Decidable L.WFS := by
  unfold Layout.WFS; infer_instance

/-- The layout of JOS on 32-bit x86: 4096-byte pages, 1024 entries per page table,
`UTOP = UXSTACKTOP = 0xeec00000`, the normal stack two pages below, and `PFTEMP`
the last page of the 4 MB region that starts at `UTEMP = 0x400000`. -/
def josLayout : Layout :=
  { PGSIZE := 4096, NPTENTRIES := 1024, UTOP := 0xeec00000, UXSTACKTOP := 0xeec00000,
    USTACKTOP := 0xeebfe000, PFTEMP := 0x7ff000 }

/-- A six-page toy layout (three page tables of two pages, 4-byte pages) on which
the walk can be evaluated step by step. -/
def toyLayout : Layout :=
  { PGSIZE := 4, NPTENTRIES := 2, UTOP := 24, UXSTACKTOP := 24,
    USTACKTOP := 16, PFTEMP := 4 }

/-- Modelled from the spec: `inc/mmu.h` is not among the sources; the page index of
an address ("a page index is an address divided by the page size"). -/
def PGNUM (L : Layout) (la : Nat) : Nat := la / L.PGSIZE

/-- Modelled from the spec: `inc/types.h` is not among the sources; round `a` down
to a multiple of `n`. -/
def ROUNDDOWN (a n : Nat) : Nat := a - a % n

/-! ## Kernel state -/

/-- Mapping of one page: the physical page and the permission bits. -/
structure Mapping where
  frame : Nat
  perm : Nat
deriving DecidableEq, Repr

/-- Page table: entries by index within the table. -/
abbrev PageTable := List (Nat × Mapping)

/-- Context ("environment"): its two-level page table, whether a fault upcall is
registered, its scheduling status, and the user-level variable `thisenv`. -/
structure Env where
  pgdir : List (Nat × PageTable)
  pgfault_upcall : Bool
  status : Nat
  thisenv : Nat
deriving DecidableEq, Repr

/-- Requests made to the kernel, as logged in `Kern.log`. -/
inductive Req where
  | exofork
  | page_alloc (envid : Int) (va perm : Nat)
  | page_map (srcenvid : Int) (srcva : Nat) (dstenvid : Int) (dstva perm : Nat)
  | page_unmap (envid : Int) (va : Nat)
  | env_set_pgfault_upcall (envid : Int)
  | env_set_status (envid : Int) (status : Nat)
deriving DecidableEq, Repr

/-- Kernel state: the running context, the contexts by identifier, the bytes of
the physical pages (by page, then by offset; a missing byte reads as 0), the
results the kernel is going to give to the next requests for reasons that are
outside this model (`script`: a negative head makes the next request fail with
that code), and the requests made so far, oldest first. -/
structure Kern where
  cur : Nat
  envs : List (Nat × Env)
  mem : List (Nat × List (Nat × Nat))
  script : List Int
  log : List Req
deriving DecidableEq, Repr

/-! ## The kernel collaborator -/

/-- Mapping of page `pn` in a context: the entry `pn % NPTENTRIES` of the page
table that the directory entry `pn / NPTENTRIES` points to, if there is one. -/
def Env.lookup (L : Layout) (e : Env) (pn : Nat) : Option Mapping :=
  match Tbl.get e.pgdir (pn / L.NPTENTRIES) with
  | none => none
  | some t => Tbl.get t (pn % L.NPTENTRIES)

/-- Install a mapping for page `pn`, creating the page table when the directory
entry is not present. -/
def Env.set (L : Layout) (e : Env) (pn : Nat) (m : Mapping) : Env :=
  let t := (Tbl.get e.pgdir (pn / L.NPTENTRIES)).getD []
  { e with pgdir := Tbl.put e.pgdir (pn / L.NPTENTRIES) (Tbl.put t (pn % L.NPTENTRIES) m) }

/-- Remove the mapping of page `pn`; the page table itself stays. -/
def Env.unset (L : Layout) (e : Env) (pn : Nat) : Env :=
  match Tbl.get e.pgdir (pn / L.NPTENTRIES) with
  | none => e
  | some t =>
    { e with pgdir := Tbl.put e.pgdir (pn / L.NPTENTRIES) (Tbl.del t (pn % L.NPTENTRIES)) }

/-- Mapping of page `pn` in context `id`. -/
def Kern.mapping (L : Layout) (k : Kern) (id pn : Nat) : Option Mapping :=
  match Tbl.get k.envs id with
  | none => none
  | some e => e.lookup L pn

/-- Bytes of a physical page, by offset. -/
def Kern.page (k : Kern) (frame : Nat) : List (Nat × Nat) :=
  (Tbl.get k.mem frame).getD []

/-- Byte at offset `off` of a physical page. -/
def Kern.byte (k : Kern) (frame off : Nat) : Nat :=
  (Tbl.get (k.page frame) off).getD 0

/-- Byte that context `id` reads at virtual address `va`, if the page is mapped. -/
def Kern.read (L : Layout) (k : Kern) (id va : Nat) : Option Nat :=
  match k.mapping L id (PGNUM L va) with
  | none => none
  | some m => some (k.byte m.frame (va % L.PGSIZE))

/-- Physical pages referred to by a list of page tables. -/
def framesOfDir (d : List (Nat × PageTable)) : List Nat :=
  d.flatMap (fun t => t.2.map (fun x => x.2.frame))

/-- Physical pages referred to by any context. -/
def Kern.frames (k : Kern) : List Nat :=
  k.envs.flatMap (fun e => framesOfDir e.2.pgdir)

/-- Modelled from the spec: the kernel's page allocator is not among the sources.
"Maps a fresh physical page": a page that no context refers to. -/
def Kern.freshFrame (k : Kern) : Nat :=
  k.frames.foldr max 0 + 1

/-- Modelled from the spec: the kernel's context allocator is not among the
sources.  "New context identifier": positive, not the running context and not in
use. -/
def Kern.freshEnv (k : Kern) : Nat :=
  (k.envs.map (fun e => e.1)).foldr max k.cur + 1

/-- Modelled from the spec: `envid2env` of the kernel is not among the sources.
Identifier 0 names the running context. -/
def Kern.envid2env (k : Kern) (envid : Int) : Option (Nat × Env) :=
  if envid < 0 then none
  else
    let id := if envid = 0 then k.cur else envid.toNat
    match Tbl.get k.envs id with
    | none => none
    | some e => some (id, e)

/-- Replace the record of context `id`. -/
def Kern.setEnv (k : Kern) (id : Nat) (e : Env) : Kern :=
  { k with envs := Tbl.put k.envs id e }

/-- Entry into the kernel: the request is logged and the next scripted result is
consumed; `some e` when the script makes this request fail with code `e`. -/
def Kern.enter (k : Kern) (r : Req) : Option Int × Kern :=
  match k.script with
  | [] => (none, { k with log := k.log ++ [r] })
  | e :: rest =>
    (if e < 0 then some e else none, { k with log := k.log ++ [r], script := rest })

/-- Modelled from the spec: the kernel is not among the sources.
create-child-context: "new context identifier, empty address space, not runnable";
this is the return in the parent, the child's return of 0 is `fork_resume 0`. -/
def sys_exofork (k : Kern) : Int × Kern :=
  match k.enter Req.exofork with
  | (some e, k1) => (e, k1)
  | (none, k1) =>
    let id := k1.freshEnv
    ((id : Int), k1.setEnv id
      { pgdir := [], pgfault_upcall := false, status := ENV_NOT_RUNNABLE, thisenv := k1.cur })

/-- Modelled from the spec: the kernel is not among the sources.  allocate-page:
"maps a fresh physical page; error if address range invalid or out of memory"
(out of memory is a scripted failure).  The fresh page reads as zeroes. -/
def sys_page_alloc (L : Layout) (envid : Int) (va perm : Nat) (k : Kern) : Int × Kern :=
  match k.enter (Req.page_alloc envid va perm) with
  | (some e, k1) => (e, k1)
  | (none, k1) =>
    match k1.envid2env envid with
    | none => (-E_BAD_ENV, k1)
    | some (id, e) =>
      if L.UTOP ≤ va ∨ va % L.PGSIZE ≠ 0 then (-E_INVAL, k1)
      else
        let f := k1.freshFrame
        (0, { k1.setEnv id (e.set L (PGNUM L va) { frame := f, perm := perm }) with
              mem := Tbl.put k1.mem f [] })

/-- Modelled from the spec: the kernel is not among the sources.  map-page:
"shares one physical page between two contexts with the given permission in the
destination; error if source mapping absent". -/
def sys_page_map (L : Layout) (srcenvid : Int) (srcva : Nat) (dstenvid : Int)
    (dstva perm : Nat) (k : Kern) : Int × Kern :=
  match k.enter (Req.page_map srcenvid srcva dstenvid dstva perm) with
  | (some e, k1) => (e, k1)
  | (none, k1) =>
    match k1.envid2env srcenvid, k1.envid2env dstenvid with
    | some (_, se), some (did, de) =>
      match se.lookup L (PGNUM L srcva) with
      | none => (-E_INVAL, k1)
      | some m => (0, k1.setEnv did (de.set L (PGNUM L dstva) { frame := m.frame, perm := perm }))
    | _, _ => (-E_BAD_ENV, k1)

/-- Modelled from the spec: the kernel is not among the sources.  unmap-page:
"removes a mapping". -/
def sys_page_unmap (L : Layout) (envid : Int) (va : Nat) (k : Kern) : Int × Kern :=
  match k.enter (Req.page_unmap envid va) with
  | (some e, k1) => (e, k1)
  | (none, k1) =>
    match k1.envid2env envid with
    | none => (-E_BAD_ENV, k1)
    | some (id, e) => (0, k1.setEnv id (e.unset L (PGNUM L va)))

/-- Modelled from the spec: the kernel is not among the sources.  set-fault-upcall:
"registers the address invoked on a protected-access fault"; the only upcall of
this program is `_pgfault_upcall`. -/
def sys_env_set_pgfault_upcall (envid : Int) (k : Kern) : Int × Kern :=
  match k.enter (Req.env_set_pgfault_upcall envid) with
  | (some e, k1) => (e, k1)
  | (none, k1) =>
    match k1.envid2env envid with
    | none => (-E_BAD_ENV, k1)
    | some (id, e) => (0, k1.setEnv id { e with pgfault_upcall := true })

/-- Modelled from the spec: the kernel is not among the sources.  set-runnable:
"transitions context to schedulable". -/
def sys_env_set_status (envid : Int) (status : Nat) (k : Kern) : Int × Kern :=
  match k.enter (Req.env_set_status envid status) with
  | (some e, k1) => (e, k1)
  | (none, k1) =>
    match k1.envid2env envid with
    | none => (-E_BAD_ENV, k1)
    | some (id, e) => (0, k1.setEnv id { e with status := status })

/-- Modelled from the spec: the kernel is not among the sources; the identifier of
the running context. -/
def sys_getenvid (k : Kern) : Int := (k.cur : Int)

/-- Modelled from the spec: `uvpd` is declared outside the sources.  The flag bits
of page-directory entry `i` of the running context; the kernel creates page tables
present, writable and user-accessible. -/
def uvpd (k : Kern) (i : Nat) : Nat :=
  match Tbl.get k.envs k.cur with
  | none => 0
  | some e => if (Tbl.get e.pgdir i).isSome then PTE_P ||| PTE_W ||| PTE_U else 0

/-- Modelled from the spec: `uvpt` is declared outside the sources.  address-space
view: "exposes current permission bits for any page index in the calling
context"; 0 where nothing is mapped. -/
def uvpt (L : Layout) (k : Kern) (pn : Nat) : Nat :=
  match k.mapping L k.cur pn with
  | none => 0
  | some m => m.perm

/-- Modelled from the spec: `lib/string.c` is not among the sources.
`memmove(dst, src, PGSIZE)` for page-aligned `dst` and `src` in the running
context: "copy the full page contents" of the source page into the destination
page.  Nothing is copied when one of the two is unmapped. -/
def memmove_page (L : Layout) (dst src : Nat) (k : Kern) : Kern :=
  match k.mapping L k.cur (PGNUM L dst), k.mapping L k.cur (PGNUM L src) with
  | some d, some s => { k with mem := Tbl.put k.mem d.frame (k.page s.frame) }
  | _, _ => k

/-- Whether a request asks to map the page at source address `va` somewhere. -/
def Req.isMapOf (va : Nat) : Req → Bool
  | Req.page_map _ sva _ _ _ => decide (sva = va)
  | _ => false

/-- Whether a request is one a page walk makes: an allocation or a mapping of a
page. -/
def Req.isPaging : Req → Bool
  | Req.page_alloc _ _ _ => true
  | Req.page_map _ _ _ _ _ => true
  | _ => false

/-- Whether a request asks to change the scheduling status of a context. -/
def Req.isSetStatus : Req → Bool
  | Req.env_set_status _ _ => true
  | _ => false

/-- Whether page-directory entry `i` of context `id` is present. -/
def Kern.pde (k : Kern) (id i : Nat) : Bool :=
  match Tbl.get k.envs id with
  | none => false
  | some e => (Tbl.get e.pgdir i).isSome

/-- Whether the fault upcall of context `id` is registered. -/
def Kern.upcall (k : Kern) (id : Nat) : Bool :=
  match Tbl.get k.envs id with
  | none => false
  | some e => e.pgfault_upcall

/-! ## `lib/fork.c` -/

/-- How a call ends: it returns a value (0 for a `void` function), it aborts in
`panic` with the given format string and code, or the fuel of a loop ran out
(shown below not to happen). -/
inductive Outcome where
  | ret (v : Int)
  | panic (msg : String) (r : Int)
  | nofuel
deriving DecidableEq, Repr

/-- The two fields of `struct UTrapframe` that `pgfault` reads. -/
structure UTrapframe where
  utf_fault_va : Nat
  utf_err : Nat
deriving DecidableEq, Repr

/-- Source `pgfault`, `lib/fork.c:14-49`. -/
def pgfault (L : Layout) (utf : UTrapframe) (k : Kern) : Outcome × Kern :=
  let addr := utf.utf_fault_va
  let err := utf.utf_err
  if err &&& FEC_WR = 0 ∨ uvpt L k (PGNUM L addr) &&& PTE_COW = 0 then
    (Outcome.panic "pgfault: not a copy-on-write page" 0, k)
  else
    match sys_page_alloc L 0 L.PFTEMP (PTE_U ||| PTE_W ||| PTE_P) k with
    | (r, k1) =>
      if r < 0 then (Outcome.panic "sys_page_alloc: %e" r, k1)
      else
        let k2 := memmove_page L L.PFTEMP (ROUNDDOWN addr L.PGSIZE) k1
        match sys_page_map L 0 L.PFTEMP 0 (ROUNDDOWN addr L.PGSIZE)
            (PTE_U ||| PTE_W ||| PTE_P) k2 with
        | (r, k3) =>
          if r < 0 then (Outcome.panic "sys_page_map: %e" r, k3)
          else
            match sys_page_unmap L 0 L.PFTEMP k3 with
            | (r, k4) =>
              if r < 0 then (Outcome.panic "sys_page_unmap: %e" r, k4)
              else (Outcome.ret 0, k4)

/-- The first kernel call of `pgfault`, `lib/fork.c:38`, on the state at entry. -/
def pgfault_alloc (L : Layout) (k : Kern) : Int × Kern :=
  sys_page_alloc L 0 L.PFTEMP (PTE_U ||| PTE_W ||| PTE_P) k

/-- The second kernel call of `pgfault`, `lib/fork.c:43`, on the state the
allocation and the `memmove` of line 41 leave. -/
def pgfault_map (L : Layout) (utf : UTrapframe) (k : Kern) : Int × Kern :=
  sys_page_map L 0 L.PFTEMP 0 (ROUNDDOWN utf.utf_fault_va L.PGSIZE) (PTE_U ||| PTE_W ||| PTE_P)
    (memmove_page L L.PFTEMP (ROUNDDOWN utf.utf_fault_va L.PGSIZE) (pgfault_alloc L k).2)

/-- The third kernel call of `pgfault`, `lib/fork.c:47`, on the state the re-map
leaves. -/
def pgfault_unmap (L : Layout) (utf : UTrapframe) (k : Kern) : Int × Kern :=
  sys_page_unmap L 0 L.PFTEMP (pgfault_map L utf k).2

/-- The permission `duppage` computes (`lib/fork.c:69-71`) from the entry
`uvpt[pn]`. -/
def dupperm (pte : Nat) : Nat :=
  if pte &&& (PTE_COW ||| PTE_W) ≠ 0 then PTE_U ||| PTE_P ||| PTE_COW else PTE_U ||| PTE_P

/-- Source `duppage`, `lib/fork.c:62-82`.  `va` is a 32-bit pointer. -/
def duppage (L : Layout) (envid : Int) (pn : Nat) (k : Kern) : Int × Kern :=
  let perm := dupperm (uvpt L k pn)
  let va := (pn * L.PGSIZE) % 2 ^ 32
  match sys_page_map L 0 va envid va perm k with
  | (r, k1) =>
    if r < 0 then (r, k1)
    else if uvpt L k1 pn &&& (PTE_COW ||| PTE_W) ≠ 0 then
      match sys_page_map L 0 va 0 va perm k1 with
      | (r, k2) => if r < 0 then (r, k2) else (0, k2)
    else (0, k1)

/-- The page walk of `fork`, `lib/fork.c:121-138`, from page `pn` on: the requests
that the text of the loop makes; `pn` is a 32-bit `unsigned`.  Every iteration uses
one unit of fuel.  The result is `none` when the walk reaches `PGNUM(UTOP)` and
`some o` when `fork` ends inside the loop with `o`.  The writes of the running code
to its own stack are not part of it, see `run_forkWalk`. -/
def forkWalk (L : Layout) (envid : Int) : Nat → Nat → Kern → Option Outcome × Kern
  | 0, _, k => (some Outcome.nofuel, k)
  | fuel + 1, pn, k =>
    if pn < PGNUM L L.UTOP then
      if uvpd k (pn / L.NPTENTRIES) &&& PTE_P = 0 then
        forkWalk L envid fuel ((pn + (L.NPTENTRIES - 1) + 1) % 2 ^ 32) k
      else if uvpt L k pn &&& PTE_P = 0 then
        forkWalk L envid fuel ((pn + 1) % 2 ^ 32) k
      else
        let va := (pn * L.PGSIZE) % 2 ^ 32
        if va = L.UXSTACKTOP - L.PGSIZE then
          match sys_page_alloc L envid va (PTE_U ||| PTE_W ||| PTE_P) k with
          | (r, k1) =>
            if r < 0 then (some (Outcome.panic "sys_page_alloc: %e" r), k1)
            else forkWalk L envid fuel ((pn + 1) % 2 ^ 32) k1
        else
          match duppage L envid pn k with
          | (r, k1) =>
            if r < 0 then (some (Outcome.panic "duppage: %e" r), k1)
            else forkWalk L envid fuel ((pn + 1) % 2 ^ 32) k1
    else (none, k)

/-- The child's side of `fork` and `sfork` (`lib/fork.c:117`):
`thisenv = &envs[ENVX(sys_getenvid())]`. -/
def fix_thisenv (k : Kern) : Kern :=
  match Tbl.get k.envs k.cur with
  | none => k
  | some e => k.setEnv k.cur { e with thisenv := (sys_getenvid k).toNat }

/-- The end of `fork` and of `sfork`, `lib/fork.c:140-146` and `194-200`. -/
def forkFinish (envid : Int) (k : Kern) : Outcome × Kern :=
  match sys_env_set_pgfault_upcall envid k with
  | (r, k1) =>
    if r < 0 then (Outcome.panic "sys_env_set_pgfault_upcall: %e" r, k1)
    else
      match sys_env_set_status envid ENV_RUNNABLE k1 with
      | (r, k2) =>
        if r < 0 then (Outcome.panic "sys_env_set_status: %e" r, k2)
        else (Outcome.ret envid, k2)

/-- Modelled from the spec: `lib/pgfault.c` is not among the sources.  "Ensure the
Page-Fault Handler is installed in the calling context (idempotent)": when the
upcall of the caller is registered, nothing is requested.  The first installation
is the one that gives the caller its exception stack ("each context owns a private,
freshly allocated page there at all times a handler is installed"; "first-time
exception-stack allocation is the handler-installation routine's responsibility"):
it allocates the page below `UXSTACKTOP` and registers the upcall, and a failure
of either request is fatal ("every other kernel-call failure during ... handler
installation").  The result is `none` when the handler is installed. -/
def set_pgfault_handler (L : Layout) (k : Kern) : Option Outcome × Kern :=
  if k.upcall k.cur then (none, k)
  else
    match sys_page_alloc L 0 (L.UXSTACKTOP - L.PGSIZE) (PTE_U ||| PTE_W ||| PTE_P) k with
    | (r, k1) =>
      if r < 0 then (some (Outcome.panic "set_pgfault_handler: %e" r), k1)
      else
        match sys_env_set_pgfault_upcall 0 k1 with
        | (r, k2) =>
          if r < 0 then (some (Outcome.panic "set_pgfault_handler: %e" r), k2)
          else (none, k2)

/-- Source `fork`, `lib/fork.c:113-147`, from the return of `sys_exofork` with value
`envid` on.  The parent runs it with the value `sys_exofork` gave; the child, when
first scheduled, runs it with 0.  The walk gets fuel for `PGNUM(UTOP)` iterations
and the final test of the loop condition. -/
def fork_resume (L : Layout) (envid : Int) (k : Kern) : Outcome × Kern :=
  if envid < 0 then (Outcome.ret envid, k)
  else if envid = 0 then (Outcome.ret 0, fix_thisenv k)
  else
    match forkWalk L envid (PGNUM L L.UTOP + 1) 0 k with
    | (none, k1) => forkFinish envid k1
    | (some o, k1) => (o, k1)

/-- Source `fork`, `lib/fork.c:100-147`: the requests that the text of `fork` makes
in the calling context.  The writes of the running code to its own stack, and the
faults they raise once `duppage` has re-mapped the stack, are added in `run_fork`. -/
def fork (L : Layout) (k : Kern) : Outcome × Kern :=
  match set_pgfault_handler L k with
  | (some o, k0) => (o, k0)
  | (none, k0) =>
    match sys_exofork k0 with
    | (envid, k1) => fork_resume L envid k1

/-- The page walk of `sfork`, `lib/fork.c:171-192`, from page `pn` on: the requests
that the text of the loop makes.  A failed direct mapping leaves `sfork` with
`return r`, the other failures with `panic`.  The result is `none` when the walk
reaches `PGNUM(UTOP)` and `some o` when `sfork` ends inside the loop with `o`.
The writes of the running code to its own stack are not part of it, see
`run_sforkWalk`. -/
def sforkWalk (L : Layout) (envid : Int) : Nat → Nat → Kern → Option Outcome × Kern
  | 0, _, k => (some Outcome.nofuel, k)
  | fuel + 1, pn, k =>
    if pn < PGNUM L L.UTOP then
      if uvpd k (pn / L.NPTENTRIES) &&& PTE_P = 0 then
        sforkWalk L envid fuel ((pn + (L.NPTENTRIES - 1) + 1) % 2 ^ 32) k
      else
        let perm := uvpt L k pn &&& PTE_SYSCALL
        if perm &&& PTE_P = 0 then
          sforkWalk L envid fuel ((pn + 1) % 2 ^ 32) k
        else
          let va := (pn * L.PGSIZE) % 2 ^ 32
          if va = L.UXSTACKTOP - L.PGSIZE then
            match sys_page_alloc L envid va (PTE_U ||| PTE_W ||| PTE_P) k with
            | (r, k1) =>
              if r < 0 then (some (Outcome.panic "sys_page_alloc: %e" r), k1)
              else sforkWalk L envid fuel ((pn + 1) % 2 ^ 32) k1
          else if va = L.USTACKTOP - L.PGSIZE then
            match duppage L envid pn k with
            | (r, k1) =>
              if r < 0 then (some (Outcome.panic "duppage: %e" r), k1)
              else sforkWalk L envid fuel ((pn + 1) % 2 ^ 32) k1
          else
            match sys_page_map L 0 va envid va perm k with
            | (r, k1) =>
              if r < 0 then (some (Outcome.ret r), k1)
              else sforkWalk L envid fuel ((pn + 1) % 2 ^ 32) k1
    else (none, k)

/-- Source `sfork`, `lib/fork.c:163-201`, from the return of `sys_exofork` with
value `envid` on. -/
def sfork_resume (L : Layout) (envid : Int) (k : Kern) : Outcome × Kern :=
  if envid < 0 then (Outcome.ret envid, k)
  else if envid = 0 then (Outcome.ret 0, fix_thisenv k)
  else
    match sforkWalk L envid (PGNUM L L.UTOP + 1) 0 k with
    | (none, k1) => forkFinish envid k1
    | (some o, k1) => (o, k1)

/-- Source `sfork`, `lib/fork.c:150-201`: the requests that the text of `sfork`
makes in the calling context.  The writes of the running code to its own stack are
added in `run_sfork`. -/
def sfork (L : Layout) (k : Kern) : Outcome × Kern :=
  match set_pgfault_handler L k with
  | (some o, k0) => (o, k0)
  | (none, k0) =>
    match sys_exofork k0 with
    | (envid, k1) => sfork_resume L envid k1

/-- The shape `fork` and `sfork` share around their page walks (`lib/fork.c:111-119`
and `140-146`, `161-169` and `194-200`): install the handler, create the child,
return at once when that failed or in the child, otherwise run `walk` and end with
`forkFinish`. -/
def forkWith (L : Layout) (walk : Int → Kern → Option Outcome × Kern) (k : Kern) :
    Outcome × Kern :=
  match set_pgfault_handler L k with
  | (some o, k0) => (o, k0)
  | (none, k0) =>
    match sys_exofork k0 with
    | (envid, k1) =>
      if envid < 0 then (Outcome.ret envid, k1)
      else if envid = 0 then (Outcome.ret 0, fix_thisenv k1)
      else
        match walk envid k1 with
        | (none, k2) => forkFinish envid k2
        | (some o, k2) => (o, k2)

/-- What every step of a page walk for the child `c` keeps: the requests it adds
to the log never ask to map the page at `xva`, and ask to re-map a page of the
caller only if that page was writable or copy-on-write; a page of a context other
than `c` keeps its physical page; no page of the caller becomes writable or
copy-on-write. -/
def WalkRel (L : Layout) (c xva : Nat) (k k1 : Kern) : Prop :=
  (∃ rest, k1.log = k.log ++ rest ∧ ∀ r ∈ rest, Req.isMapOf xva r = false ∧
    ∀ s sva dva perm, r = Req.page_map s sva 0 dva perm →
      ∃ p, p < PGNUM L L.UTOP ∧ dva = p * L.PGSIZE ∧
        uvpt L k p &&& (PTE_COW ||| PTE_W) ≠ 0) ∧
  (∀ id p m, id ≠ c → k.mapping L id p = some m →
    ∃ m1, k1.mapping L id p = some m1 ∧ m1.frame = m.frame) ∧
  (∀ p, uvpt L k1 p &&& (PTE_COW ||| PTE_W) ≠ 0 → uvpt L k p &&& (PTE_COW ||| PTE_W) ≠ 0)

/-- The shape the two page walks share: skip a whole page table when its directory
entry is not present, otherwise run `body` on the page. -/
def walkWith (L : Layout) (body : Nat → Kern → Option Outcome × Kern) :
    Nat → Nat → Kern → Option Outcome × Kern
  | 0, _, k => (some Outcome.nofuel, k)
  | fuel + 1, pn, k =>
    if pn < PGNUM L L.UTOP then
      if uvpd k (pn / L.NPTENTRIES) &&& PTE_P = 0 then
        walkWith L body fuel ((pn + (L.NPTENTRIES - 1) + 1) % 2 ^ 32) k
      else
        match body pn k with
        | (some o, k1) => (some o, k1)
        | (none, k1) => walkWith L body fuel ((pn + 1) % 2 ^ 32) k1
    else (none, k)

/-- What the walk of `fork` does with page `pn` once the directory entry is
present, `lib/fork.c:127-137`. -/
def forkBody (L : Layout) (envid : Int) (pn : Nat) (k : Kern) : Option Outcome × Kern :=
  if uvpt L k pn &&& PTE_P = 0 then (none, k)
  else if (pn * L.PGSIZE) % 2 ^ 32 = L.UXSTACKTOP - L.PGSIZE then
    match sys_page_alloc L envid ((pn * L.PGSIZE) % 2 ^ 32) (PTE_U ||| PTE_W ||| PTE_P) k with
    | (r, k1) => if r < 0 then (some (Outcome.panic "sys_page_alloc: %e" r), k1) else (none, k1)
  else
    match duppage L envid pn k with
    | (r, k1) => if r < 0 then (some (Outcome.panic "duppage: %e" r), k1) else (none, k1)

/-- What the walk of `sfork` does with page `pn` once the directory entry is
present, `lib/fork.c:177-191`. -/
def sforkBody (L : Layout) (envid : Int) (pn : Nat) (k : Kern) : Option Outcome × Kern :=
  if (uvpt L k pn &&& PTE_SYSCALL) &&& PTE_P = 0 then (none, k)
  else if (pn * L.PGSIZE) % 2 ^ 32 = L.UXSTACKTOP - L.PGSIZE then
    match sys_page_alloc L envid ((pn * L.PGSIZE) % 2 ^ 32) (PTE_U ||| PTE_W ||| PTE_P) k with
    | (r, k1) => if r < 0 then (some (Outcome.panic "sys_page_alloc: %e" r), k1) else (none, k1)
  else if (pn * L.PGSIZE) % 2 ^ 32 = L.USTACKTOP - L.PGSIZE then
    match duppage L envid pn k with
    | (r, k1) => if r < 0 then (some (Outcome.panic "duppage: %e" r), k1) else (none, k1)
  else
    match sys_page_map L 0 ((pn * L.PGSIZE) % 2 ^ 32) envid ((pn * L.PGSIZE) % 2 ^ 32)
        (uvpt L k pn &&& PTE_SYSCALL) k with
    | (r, k1) => if r < 0 then (some (Outcome.ret r), k1) else (none, k1)

/-! ## Running user code -/

/-- The scheduler gives the processor to context `id`. -/
def Kern.run (k : Kern) (id : Nat) : Kern := { k with cur := id }

/-- Write byte `b` at offset `off` of a physical page. -/
def Kern.poke (k : Kern) (frame off b : Nat) : Kern :=
  { k with mem := Tbl.put k.mem frame (Tbl.put (k.page frame) off b) }

/-- Modelled from the spec: the trap path of the kernel is not among the sources.
The trap frame of a write fault of the running context at `va`: "the faulting
virtual address and a flag set indicating write access"; the protection flag is
set when the page was present. -/
def write_fault (L : Layout) (k : Kern) (va : Nat) : UTrapframe :=
  { utf_fault_va := va,
    utf_err := FEC_WR ||| FEC_U ||| (if uvpt L k (PGNUM L va) &&& PTE_P ≠ 0 then FEC_PR else 0) }

/-- The exception-stack page is mapped present, user-accessible and writable in
the running context: the runtime can switch to it to deliver a fault. -/
def Kern.xstackWritable (L : Layout) (k : Kern) : Prop :=
  uvpt L k (PGNUM L (L.UXSTACKTOP - L.PGSIZE)) &&& PTE_P ≠ 0 ∧
  uvpt L k (PGNUM L (L.UXSTACKTOP - L.PGSIZE)) &&& PTE_U ≠ 0 ∧
  uvpt L k (PGNUM L (L.UXSTACKTOP - L.PGSIZE)) &&& PTE_W ≠ 0

instance (L : Layout) (k : Kern) : Decidable (k.xstackWritable L) := by
  unfold Kern.xstackWritable; infer_instance

/-- Modelled from the spec: the trap path of the kernel and `lib/pfentry.S` are not
among the sources.  A user-mode store of byte `b` at `va` by the running context.
With a present, user-accessible, writable mapping the byte is written.  Otherwise
the fault-delivery contract applies: "the runtime suspends normal execution,
switches to the context's private exception stack, and invokes the registered
fault-upcall with the faulting virtual address and a flag set indicating write
access; returning from the handler resumes the original instruction".  A context
without a registered upcall, or without a writable exception stack to switch to, is
destroyed.  Every attempt of the instruction uses one unit of fuel. -/
def store (L : Layout) (va b : Nat) : Nat → Kern → Outcome × Kern
  | 0, k => (Outcome.nofuel, k)
  | fuel + 1, k =>
    let pte := uvpt L k (PGNUM L va)
    if pte &&& PTE_P ≠ 0 ∧ pte &&& PTE_U ≠ 0 ∧ pte &&& PTE_W ≠ 0 then
      match k.mapping L k.cur (PGNUM L va) with
      | some m => (Outcome.ret 0, k.poke m.frame (va % L.PGSIZE) b)
      | none => (Outcome.panic "unmapped" 0, k)
    else
      match Tbl.get k.envs k.cur with
      | none => (Outcome.panic "no context" 0, k)
      | some e =>
        if e.pgfault_upcall then
          if k.xstackWritable L then
            match pgfault L (write_fault L k va) k with
            | (Outcome.ret _, k1) => store L va b fuel k1
            | (o, k1) => (o, k1)
          else (Outcome.panic "user fault, no exception stack" 0, k)
        else (Outcome.panic "user fault, no upcall" 0, k)

/-! ## Running on the stack -/

/-- The top page of the normal stack is mapped present, user-accessible and
writable in the running context: a write of the running code to its stack does
not fault. -/
def Kern.stackWritable (L : Layout) (k : Kern) : Prop :=
  uvpt L k (PGNUM L (L.USTACKTOP - L.PGSIZE)) &&& PTE_P ≠ 0 ∧
  uvpt L k (PGNUM L (L.USTACKTOP - L.PGSIZE)) &&& PTE_U ≠ 0 ∧
  uvpt L k (PGNUM L (L.USTACKTOP - L.PGSIZE)) &&& PTE_W ≠ 0

instance (L : Layout) (k : Kern) : Decidable (k.stackWritable L) := by
  unfold Kern.stackWritable; infer_instance

/-- Modelled from the spec: the trap path of the kernel and `lib/pfentry.S` are not
among the sources.  A user-mode write at `va` by the running context whose value is
of no interest: the fault delivery of `store` without the byte.  With a present,
user-accessible, writable mapping nothing happens; otherwise the registered upcall
runs `pgfault` on the exception stack and "returning from the handler resumes the
original instruction"; a context without a registered upcall, or without a writable
exception stack, is destroyed.  The result is `none` when the write has completed.
Every attempt of the instruction uses one unit of fuel. -/
def touch (L : Layout) (va : Nat) : Nat → Kern → Option Outcome × Kern
  | 0, k => (some Outcome.nofuel, k)
  | fuel + 1, k =>
    let pte := uvpt L k (PGNUM L va)
    if pte &&& PTE_P ≠ 0 ∧ pte &&& PTE_U ≠ 0 ∧ pte &&& PTE_W ≠ 0 then (none, k)
    else
      match Tbl.get k.envs k.cur with
      | none => (some (Outcome.panic "no context" 0), k)
      | some e =>
        if e.pgfault_upcall then
          if k.xstackWritable L then
            match pgfault L (write_fault L k va) k with
            | (Outcome.ret _, k1) => touch L va fuel k1
            | (o, k1) => (some o, k1)
          else (some (Outcome.panic "user fault, no exception stack" 0), k)
        else (some (Outcome.panic "user fault, no upcall" 0), k)

/-- The running code writes to its stack: the call that follows in the text of
`fork` or `sfork` pushes its arguments and its return address on the top page of
the normal stack, on which JOS runs user code.  Two attempts are enough: the write
completes at once, or after one run of the handler, or never (shown below). -/
def stack_touch (L : Layout) (k : Kern) : Option Outcome × Kern :=
  touch L (L.USTACKTOP - L.PGSIZE) 2 k

/-- What the walk of `fork` does with page `pn` (`forkBody`, `lib/fork.c:127-137`)
when a context runs it on its stack: after the allocation or the `duppage` has
returned without ending `fork`, the code goes on to the next call, which writes to
the stack. -/
def run_forkBody (L : Layout) (envid : Int) (pn : Nat) (k : Kern) : Option Outcome × Kern :=
  if uvpt L k pn &&& PTE_P = 0 then (none, k)
  else if (pn * L.PGSIZE) % 2 ^ 32 = L.UXSTACKTOP - L.PGSIZE then
    match sys_page_alloc L envid ((pn * L.PGSIZE) % 2 ^ 32) (PTE_U ||| PTE_W ||| PTE_P) k with
    | (r, k1) =>
      if r < 0 then (some (Outcome.panic "sys_page_alloc: %e" r), k1) else stack_touch L k1
  else
    match duppage L envid pn k with
    | (r, k1) => if r < 0 then (some (Outcome.panic "duppage: %e" r), k1) else stack_touch L k1

/-- What the walk of `sfork` does with page `pn` (`sforkBody`, `lib/fork.c:177-191`)
when a context runs it on its stack. -/
def run_sforkBody (L : Layout) (envid : Int) (pn : Nat) (k : Kern) : Option Outcome × Kern :=
  if (uvpt L k pn &&& PTE_SYSCALL) &&& PTE_P = 0 then (none, k)
  else if (pn * L.PGSIZE) % 2 ^ 32 = L.UXSTACKTOP - L.PGSIZE then
    match sys_page_alloc L envid ((pn * L.PGSIZE) % 2 ^ 32) (PTE_U ||| PTE_W ||| PTE_P) k with
    | (r, k1) =>
      if r < 0 then (some (Outcome.panic "sys_page_alloc: %e" r), k1) else stack_touch L k1
  else if (pn * L.PGSIZE) % 2 ^ 32 = L.USTACKTOP - L.PGSIZE then
    match duppage L envid pn k with
    | (r, k1) => if r < 0 then (some (Outcome.panic "duppage: %e" r), k1) else stack_touch L k1
  else
    match sys_page_map L 0 ((pn * L.PGSIZE) % 2 ^ 32) envid ((pn * L.PGSIZE) % 2 ^ 32)
        (uvpt L k pn &&& PTE_SYSCALL) k with
    | (r, k1) => if r < 0 then (some (Outcome.ret r), k1) else stack_touch L k1

/-- The page walk of `fork`, `lib/fork.c:121-138`, as a context runs it on its
stack: the loop of `forkWalk`, in the shape `walkWith` that `forkWalk_eq` shows it
to have, with the write to the stack after each call that returned. -/
def run_forkWalk (L : Layout) (envid : Int) (fuel pn : Nat) (k : Kern) :
    Option Outcome × Kern :=
  walkWith L (run_forkBody L envid) fuel pn k

/-- The page walk of `sfork`, `lib/fork.c:171-192`, as a context runs it on its
stack: the loop of `sforkWalk`, in the shape `walkWith` that `sforkWalk_eq` shows
it to have, with the write to the stack after each call that returned. -/
def run_sforkWalk (L : Layout) (envid : Int) (fuel pn : Nat) (k : Kern) :
    Option Outcome × Kern :=
  walkWith L (run_sforkBody L envid) fuel pn k

/-- Source `fork`, `lib/fork.c:113-147`, from the return of `sys_exofork` with value
`envid` on, as a context runs it on its stack. -/
def run_fork_resume (L : Layout) (envid : Int) (k : Kern) : Outcome × Kern :=
  if envid < 0 then (Outcome.ret envid, k)
  else if envid = 0 then (Outcome.ret 0, fix_thisenv k)
  else
    match run_forkWalk L envid (PGNUM L L.UTOP + 1) 0 k with
    | (none, k1) => forkFinish envid k1
    | (some o, k1) => (o, k1)

/-- Source `fork`, `lib/fork.c:100-147`, as the calling context runs it on its
stack: the requests of `fork` and, between them, the faults that the writes of the
running code to its stack raise once `duppage` has re-mapped the stack page
copy-on-write. -/
def run_fork (L : Layout) (k : Kern) : Outcome × Kern :=
  match set_pgfault_handler L k with
  | (some o, k0) => (o, k0)
  | (none, k0) =>
    match sys_exofork k0 with
    | (envid, k1) => run_fork_resume L envid k1

/-- Source `sfork`, `lib/fork.c:163-201`, from the return of `sys_exofork` with
value `envid` on, as a context runs it on its stack. -/
def run_sfork_resume (L : Layout) (envid : Int) (k : Kern) : Outcome × Kern :=
  if envid < 0 then (Outcome.ret envid, k)
  else if envid = 0 then (Outcome.ret 0, fix_thisenv k)
  else
    match run_sforkWalk L envid (PGNUM L L.UTOP + 1) 0 k with
    | (none, k1) => forkFinish envid k1
    | (some o, k1) => (o, k1)

/-- Source `sfork`, `lib/fork.c:150-201`, as the calling context runs it on its
stack. -/
def run_sfork (L : Layout) (k : Kern) : Outcome × Kern :=
  match set_pgfault_handler L k with
  | (some o, k0) => (o, k0)
  | (none, k0) =>
    match sys_exofork k0 with
    | (envid, k1) => run_sfork_resume L envid k1

/-- What every step of a page walk that runs on its stack keeps: the requests it
adds to the log never ask to map the page at `xva`, and ask to re-map a page of the
caller only if that page was writable or copy-on-write; a page of the caller is
writable or copy-on-write afterwards only if it was before; the registered upcalls
are as before. -/
def RunRel (L : Layout) (xva : Nat) (k k1 : Kern) : Prop :=
  (∃ rest, k1.log = k.log ++ rest ∧ ∀ r ∈ rest, Req.isMapOf xva r = false ∧
    ∀ s sva dva perm, r = Req.page_map s sva 0 dva perm →
      ∃ p, p < PGNUM L L.UTOP ∧ dva = p * L.PGSIZE ∧
        uvpt L k p &&& (PTE_COW ||| PTE_W) ≠ 0) ∧
  (∀ p, uvpt L k1 p &&& (PTE_COW ||| PTE_W) ≠ 0 → uvpt L k p &&& (PTE_COW ||| PTE_W) ≠ 0) ∧
  (∀ id, k1.upcall id = k.upcall id)

/-! ## A small machine -/

/-- A parent on the toy layout: page 0 read-only (physical page 10), page 2
writable (11), page 3, the top page of the normal stack, writable (12), and
page 5, the exception stack, writable (13); its page-fault handler is installed. -/
def toyEnv : Env :=
  { pgdir := [(0, [(0, { frame := 10, perm := PTE_P ||| PTE_U })]),
              (1, [(0, { frame := 11, perm := PTE_P ||| PTE_U ||| PTE_W }),
                   (1, { frame := 12, perm := PTE_P ||| PTE_U ||| PTE_W })]),
              (2, [(1, { frame := 13, perm := PTE_P ||| PTE_U ||| PTE_W })])],
    pgfault_upcall := true, status := ENV_RUNNABLE, thisenv := 1 }

/-- The toy parent running as context 1, with byte 65 at offset 0 of page 2 and no
scripted failure. -/
def toyKern : Kern :=
  { cur := 1, envs := [(1, toyEnv)], mem := [(11, [(0, 65)])], script := [], log := [] }

/-- A parent on the toy layout whose page 0 is read-only and carries one of the
bits left to software (0x400) and whose scratch page 1 of `PFTEMP` is read-only;
page 3, the top page of its stack, and its exception-stack page 5 are writable and
its page-fault handler is installed. -/
def toyEnvRO : Env :=
  { pgdir := [(0, [(0, { frame := 10, perm := PTE_P ||| PTE_U ||| 0x400 }),
                   (1, { frame := 11, perm := PTE_P ||| PTE_U })]),
              (1, [(1, { frame := 12, perm := PTE_P ||| PTE_U ||| PTE_W })]),
              (2, [(1, { frame := 13, perm := PTE_P ||| PTE_U ||| PTE_W })])],
    pgfault_upcall := true, status := ENV_RUNNABLE, thisenv := 1 }

/-- The parent `toyEnvRO` running as context 1. -/
def toyKernRO : Kern :=
  { cur := 1, envs := [(1, toyEnvRO)], mem := [], script := [], log := [] }

/-- A context on the toy layout that maps page 2 copy-on-write (physical page 11,
byte 65 at offset 0) and, at the scratch page 1 of `PFTEMP`, a second
copy-on-write page (physical page 10). -/
def toyKernCow : Kern :=
  { cur := 1,
    envs := [(1, { pgdir := [(0, [(1, { frame := 10, perm := PTE_P ||| PTE_U ||| PTE_COW })]),
                            (1, [(0, { frame := 11, perm := PTE_P ||| PTE_U ||| PTE_COW })])],
                   pgfault_upcall := true, status := ENV_RUNNABLE, thisenv := 1 })],
    mem := [(11, [(0, 65)])], script := [], log := [] }

/-- The toy parent when the kernel has no free context: the next request fails
with code -5. -/
def toyKernNoEnv : Kern := { toyKern with script := [-5] }

/-- The toy parent when the kernel runs out of memory at the second request: the
first request succeeds, the next fails with code -4. -/
def toyKernNoMem : Kern := { toyKern with script := [0, -4] }

/-- A context on the toy layout as a `fork` leaves it: page 2 is mapped
copy-on-write (physical page 11, byte 65 at offset 0); page 3, the top page of the
normal stack, and page 5, the exception stack, are writable. -/
def toyKernForked : Kern :=
  { cur := 1,
    envs := [(1, { pgdir := [(1, [(0, { frame := 11, perm := PTE_P ||| PTE_U ||| PTE_COW }),
                                  (1, { frame := 12, perm := PTE_P ||| PTE_U ||| PTE_W })]),
                            (2, [(1, { frame := 13, perm := PTE_P ||| PTE_U ||| PTE_W })])],
                   pgfault_upcall := true, status := ENV_RUNNABLE, thisenv := 1 })],
    mem := [(11, [(0, 65)])], script := [], log := [] }

/-- The toy parent with one more writable page, at the scratch page 1 of `PFTEMP`
(physical page 14, byte 70 at offset 1). -/
def toyKernScratch : Kern :=
  { cur := 1,
    envs := [(1, { pgdir := [(0, [(0, { frame := 10, perm := PTE_P ||| PTE_U }),
                                  (1, { frame := 14, perm := PTE_P ||| PTE_U ||| PTE_W })]),
                            (1, [(0, { frame := 11, perm := PTE_P ||| PTE_U ||| PTE_W }),
                                 (1, { frame := 12, perm := PTE_P ||| PTE_U ||| PTE_W })]),
                            (2, [(1, { frame := 13, perm := PTE_P ||| PTE_U ||| PTE_W })])],
                   pgfault_upcall := true, status := ENV_RUNNABLE, thisenv := 1 })],
    mem := [(11, [(0, 65)]), (14, [(1, 70)])], script := [], log := [] }

/-- The toy parent when its exception-stack page 5 is writable and carries
copy-on-write (permission 0x807). -/
def toyKernXCow : Kern :=
  { cur := 1,
    envs := [(1, { pgdir := [(0, [(0, { frame := 10, perm := PTE_P ||| PTE_U })]),
                            (1, [(0, { frame := 11, perm := PTE_P ||| PTE_U ||| PTE_W }),
                                 (1, { frame := 12, perm := PTE_P ||| PTE_U ||| PTE_W })]),
                            (2, [(1, { frame := 13,
                                       perm := PTE_P ||| PTE_U ||| PTE_W ||| PTE_COW })])],
                   pgfault_upcall := true, status := ENV_RUNNABLE, thisenv := 1 })],
    mem := [(11, [(0, 65)])], script := [], log := [] }

/-- A context on the toy layout that has not installed a page-fault handler yet
and has no exception stack: page 2 and the stack page 3 are writable.  The kernel
has no free context: its first two requests succeed, the third fails with -5. -/
def toyKernFirst : Kern :=
  { cur := 1,
    envs := [(1, { pgdir := [(1, [(0, { frame := 11, perm := PTE_P ||| PTE_U ||| PTE_W }),
                                  (1, { frame := 12, perm := PTE_P ||| PTE_U ||| PTE_W })])],
                   pgfault_upcall := false, status := ENV_RUNNABLE, thisenv := 1 })],
    mem := [(11, [(0, 65)])], script := [0, 0, -5], log := [] }

/-- What holds of the requests of a call that took the kernel from `k` to the
result `F`: either none of them changes a scheduling status, or the last two are
the registration of the upcall and the activation of one child `c`, made after a
walk that left every present page of the caller mapped in `c`. -/
def ActivatedLast (L : Layout) (k : Kern) (F : Outcome × Kern) : Prop :=
  ∃ rest, F.2.log = k.log ++ rest ∧
    ((∀ r ∈ rest, Req.isSetStatus r = false) ∨
     ∃ c pre kw, 0 < c ∧ c.toNat ≠ k.cur ∧
       rest = pre ++ [Req.env_set_pgfault_upcall c, Req.env_set_status c ENV_RUNNABLE] ∧
       (∀ r ∈ pre, Req.isSetStatus r = false) ∧
       kw.log = k.log ++ pre ∧
       (∀ q m, q < PGNUM L L.UTOP → k.mapping L k.cur q = some m → m.perm &&& PTE_P ≠ 0 →
         ∃ mc, kw.mapping L c.toNat q = some mc ∧ mc.perm &&& PTE_P ≠ 0) ∧
       ¬ (sys_env_set_pgfault_upcall c kw).1 < 0 ∧
       (∃ e, Tbl.get (sys_env_set_pgfault_upcall c kw).2.envs c.toNat = some e ∧
         e.pgfault_upcall = true) ∧
       F.2 = (sys_env_set_status c ENV_RUNNABLE (sys_env_set_pgfault_upcall c kw).2).2 ∧
       (F.1 = Outcome.ret c ∨
         ∃ r, r < 0 ∧ F.1 = Outcome.panic "sys_env_set_status: %e" r))

/-- The page a request hands to context `c`, if it is an allocation in `c` or a
mapping into `c`. -/
def Req.pageFor (L : Layout) (c : Int) : Req → Option Nat
  | Req.page_alloc e va _ => if e = c then some (PGNUM L va) else none
  | Req.page_map _ _ d dva _ => if d = c then some (PGNUM L dva) else none
  | _ => none

/-- The page walk of `fork` as the spec words it, without the skip: "iterate every
page index from address zero up to the top of the user-addressable range" and, "for
each page index with a present mapping" (directory entry and table entry present),
allocate the exception-stack page in the child or invoke `duppage`; a failure is
fatal.  `n` indices remain, `pn` is the next one. -/
def forkWalkEvery (L : Layout) (envid : Int) : Nat → Nat → Kern → Option Outcome × Kern
  | 0, _, k => (none, k)
  | n + 1, pn, k =>
    if uvpd k (pn / L.NPTENTRIES) &&& PTE_P ≠ 0 ∧ uvpt L k pn &&& PTE_P ≠ 0 then
      if (pn * L.PGSIZE) % 2 ^ 32 = L.UXSTACKTOP - L.PGSIZE then
        match sys_page_alloc L envid ((pn * L.PGSIZE) % 2 ^ 32) (PTE_U ||| PTE_W ||| PTE_P) k with
        | (r, k1) =>
          if r < 0 then (some (Outcome.panic "sys_page_alloc: %e" r), k1)
          else forkWalkEvery L envid n (pn + 1) k1
      else
        match duppage L envid pn k with
        | (r, k1) =>
          if r < 0 then (some (Outcome.panic "duppage: %e" r), k1)
          else forkWalkEvery L envid n (pn + 1) k1
    else forkWalkEvery L envid n (pn + 1) k

/-! ## `lib/math.c`: representation -/

/-- Source `union Dtype`, `inc/math.h:6-9`, as the four 16-bit words `d_un[0]` to
`d_un[3]` that overlay `d_dbl`; on x86 `d_un[3]` holds the sign, the exponent and
the top four fraction bits. -/
structure Dtype where
  u0 : Nat
  u1 : Nat
  u2 : Nat
  u3 : Nat
deriving DecidableEq, Repr

/-- The word `w[i]`. -/
def Dtype.get (x : Dtype) : Nat → Nat
  | 0 => x.u0
  | 1 => x.u1
  | 2 => x.u2
  | _ => x.u3

/-- The assignment `w[i] = v` to a `uint16_t`: the value is cut to 16 bits. -/
def Dtype.set (x : Dtype) (i v : Nat) : Dtype :=
  match i with
  | 0 => { x with u0 := v % 65536 }
  | 1 => { x with u1 := v % 65536 }
  | 2 => { x with u2 := v % 65536 }
  | _ => { x with u3 := v % 65536 }

/-- Source, `lib/math.c:16`: subscript of the most significant word. -/
def D0 : Nat := 3
/-- Source, `lib/math.c:17`. -/
def D1 : Nat := D0 - 1
/-- Source, `lib/math.c:18`. -/
def D2 : Nat := D1 - 1
/-- Source, `lib/math.c:19`. -/
def D3 : Nat := D2 - 1
/-- Source, `lib/math.c:20`: the number of fraction bits in `D0`. -/
def DOFF : Nat := 4
/-- Source, `lib/math.c:21`: total number of fraction bits. -/
def NBITS : Nat := 48 + DOFF
/-- Source, `lib/math.c:22`: bias added to the exponent. -/
def DBIAS : Nat := 1023
/-- Source, `lib/math.c:24`: sign bit. -/
def DSIGN : Nat := 1 <<< 15
/-- Source, `lib/math.c:25`: fraction part in `D0`. -/
def DFRAC : Nat := (1 <<< DOFF) - 1
/-- Source, `lib/math.c:26`: `0x7fff & ~DFRAC`, the exponent field. -/
def DEXP : Nat := 0x7fff &&& (0xffff ^^^ DFRAC)
/-- Source, `lib/math.c:29`: maximum exponent value. -/
def DMAXE : Nat := (1 <<< (15 - DOFF)) - 1
/-- Source, `lib/math.c:32`: NaN representation. -/
def DNAN : Nat := DSIGN ||| (DMAXE <<< DOFF) ||| (1 <<< (DOFF - 1))

/-- Source, `lib/math.c:35`: `DINIT(u0, ux)` is `{ (ux), (ux), (ux), (u0) }`. -/
def DINIT (u0 ux : Nat) : Dtype := { u0 := ux, u1 := ux, u2 := ux, u3 := u0 }

/-- Source, `lib/math.c:39`. -/
def dmin : Dtype := DINIT (1 <<< DOFF) 0
/-- Source, `lib/math.c:42`. -/
def dinf : Dtype := DINIT (DMAXE <<< DOFF) 0
/-- Source, `lib/math.c:43`. -/
def dnan : Dtype := DINIT DNAN 0

/-- Source, `inc/math.h:22-26`. -/
def FP_ZERO : Int := 0
/-- Source, `inc/math.h:23`. -/
def FP_NORMAL : Int := 1
/-- Source, `inc/math.h:24`. -/
def FP_SUBNORMAL : Int := 2
/-- Source, `inc/math.h:25`. -/
def FP_NAN : Int := 3
/-- Source, `inc/math.h:26`. -/
def FP_INFINITE : Int := 4

/-! ## The C operators on `double` -/

/-- Sign bit of a `double`. -/
def Dtype.sign (x : Dtype) : Bool := decide (x.u3 / 32768 % 2 = 1)

/-- Exponent field of a `double`. -/
def Dtype.expo (x : Dtype) : Nat := x.u3 / 16 % 2048

/-- Fraction field of a `double`, 52 bits. -/
def Dtype.frac (x : Dtype) : Nat :=
  x.u3 % 16 * 2 ^ 48 + x.u2 % 65536 * 2 ^ 32 + x.u1 % 65536 * 2 ^ 16 + x.u0 % 65536

/-- Whether a `double` is a NaN. -/
def Dtype.isNaN (x : Dtype) : Bool := decide (x.expo = 2047 ∧ x.frac ≠ 0)

/-- Whether a `double` is an infinity. -/
def Dtype.isInf (x : Dtype) : Bool := decide (x.expo = 2047 ∧ x.frac = 0)

/-- Whether a `double` is finite: zero, subnormal or normal. -/
def Dtype.isFinite (x : Dtype) : Bool := decide (x.expo ≠ 2047)

/-- Magnitude of a `double` in units of `2^-1074`, the weight of the last fraction
bit of a subnormal: `frac` for exponent field 0 and `(2^52 + frac) * 2^(e - 1)` for
exponent field `e > 0`.  (An infinity gets a magnitude above every finite one.) -/
def Dtype.mag (x : Dtype) : Nat :=
  if x.expo = 0 then x.frac else (2 ^ 52 + x.frac) * 2 ^ (x.expo - 1)

/-- Value of a finite `double` in units of `2^-1074`. -/
def Dtype.scaled (x : Dtype) : Int := if x.sign then -(x.mag : Int) else (x.mag : Int)

/-- Value of a finite `double`. -/
def Dtype.val (x : Dtype) : ℚ := (x.scaled : ℚ) / 2 ^ 1074

/-- The `double` with the given sign, exponent field and fraction field. -/
def Dtype.pack (neg : Bool) (e f : Nat) : Dtype :=
  { u0 := f % 65536, u1 := f / 2 ^ 16 % 65536, u2 := f / 2 ^ 32 % 65536,
    u3 := (if neg then 32768 else 0) + e % 2048 * 16 + f / 2 ^ 48 % 16 }

/-- For `m ≥ 2^52`, the number of low bits of `m` that do not fit the 53-bit
significand: the largest `k` below 2048 with `2^(52+k) ≤ m`, found bit by bit. -/
def Dtype.excess (m : Nat) : Nat :=
  [1024, 512, 256, 128, 64, 32, 16, 8, 4, 2, 1].foldl
    (fun k s => if 2 ^ (52 + k + s) ≤ m then k + s else k) 0

/-- The `double` nearest to `±m * 2^-1074`, ties to the even fraction (IEEE 754
round-to-nearest-even); an infinity on overflow. -/
def Dtype.round (neg : Bool) (m : Nat) : Dtype :=
  if m < 2 ^ 52 then Dtype.pack neg 0 m
  else
    let k := Dtype.excess m
    let q := m / 2 ^ k
    let r := m % 2 ^ k
    let q1 := if 2 ^ k < 2 * r ∨ (2 * r = 2 ^ k ∧ q % 2 = 1) then q + 1 else q
    let k1 := if q1 = 2 ^ 53 then k + 1 else k
    let q2 := if q1 = 2 ^ 53 then 2 ^ 52 else q1
    if 2047 ≤ k1 + 1 then Dtype.pack neg 2047 0 else Dtype.pack neg (k1 + 1) (q2 - 2 ^ 52)

/-- The `double` with the given 64-bit pattern. -/
def Dtype.ofBits (b : Nat) : Dtype :=
  { u0 := b % 65536, u1 := b / 2 ^ 16 % 65536, u2 := b / 2 ^ 32 % 65536, u3 := b / 2 ^ 48 % 65536 }

/-- The C operator unary `-` on `double`: the sign bit is flipped. -/
def dneg (x : Dtype) : Dtype := { x with u3 := x.u3 ^^^ 32768 }

/-- The C operator `+` on `double`: IEEE 754 binary64 addition, rounded to nearest
with ties to even.  A sum that a `double` represents is exact. -/
def dadd (x y : Dtype) : Dtype :=
  if x.isNaN then x
  else if y.isNaN then y
  else if x.isInf then (if y.isInf ∧ x.sign ≠ y.sign then dnan else x)
  else if y.isInf then y
  else
    let s := x.scaled + y.scaled
    if s = 0 then Dtype.pack (x.sign && y.sign) 0 0
    else Dtype.round (decide (s < 0)) s.natAbs

/-- The C operator binary `-` on `double`. -/
def dsub (x y : Dtype) : Dtype := dadd x (dneg y)

/-- The C operator `<` on `double`: false when an operand is a NaN. -/
def dlt (x y : Dtype) : Bool := !x.isNaN && !y.isNaN && decide (x.scaled < y.scaled)

/-- The C operator `<=` on `double`: false when an operand is a NaN. -/
def dle (x y : Dtype) : Bool := !x.isNaN && !y.isNaN && decide (x.scaled ≤ y.scaled)

/-- The constant `0.0`. -/
def d_zero : Dtype := { u0 := 0, u1 := 0, u2 := 0, u3 := 0 }

/-- The constant `1.0`. -/
def d_one : Dtype := { u0 := 0, u1 := 0, u2 := 0, u3 := 0x3ff0 }

/-- A C `int` after an arithmetic operation: the result wraps to 32 bits. -/
def wrap32 (i : Int) : Int := (i + 2 ^ 31) % 2 ^ 32 - 2 ^ 31
/-! ## `lib/math.c`: the functions -/

/-- Source `dclassify`, `lib/math.c:61-75`.  The function takes
`w = (uint16_t *) &x`, the address of its own parameter `x` (a 32-bit pointer), not
the `double` that `x` points to.  The four words it tests are therefore the two
halves of the pointer (`w[0]`, `w[1]`) and the two 16-bit words that follow the
parameter in memory (`w[2]`, `w[3]`), given here as the 32-bit word `next`. -/
def dclassify (x next : Nat) : Int :=
  let w : Dtype :=
    { u0 := x % 65536, u1 := x / 65536 % 65536, u2 := next % 65536, u3 := next / 65536 % 65536 }
  let e := (w.get D0 &&& DEXP) >>> DOFF
  let frac := decide (w.get D0 &&& DFRAC ≠ 0) || decide (w.get D1 ≠ 0) ||
    decide (w.get D2 ≠ 0) || decide (w.get D3 ≠ 0)
  if e = DMAXE then (if frac then FP_NAN else FP_INFINITE)
  else if e = 0 then (if frac then FP_SUBNORMAL else FP_ZERO)
  else FP_NORMAL

/-- Source, `lib/math.c:84-89`: the table `mask` of `dtrunc`. -/
def dtrunc_mask : List Nat :=
  [0x0000, 0x0001, 0x0003, 0x0007, 0x000f, 0x001f, 0x003f, 0x007f,
   0x00ff, 0x01ff, 0x03ff, 0x07ff, 0x0fff, 0x1fff, 0x3fff, 0x7fff]

/-- Source, `lib/math.c:90`: the table `sub` of `dtrunc`. -/
def dtrunc_sub : List Nat := [D3, D2, D1, D0]

/-- Source `dtrunc`, `lib/math.c:81-135`: the class returned and the value left in
`*x`. -/
def dtrunc (x : Dtype) (texp : Int) : Int × Dtype :=
  let w := x
  let e : Int := (((w.get D0 &&& DEXP) >>> DOFF : Nat) : Int)
  let frac := decide (w.get D0 &&& DFRAC ≠ 0) || decide (w.get D1 ≠ 0) ||
    decide (w.get D2 ≠ 0) || decide (w.get D3 ≠ 0)
  if e = DMAXE then (if frac then FP_NAN else FP_INFINITE, w)
  else if e = 0 ∧ frac = false then (FP_ZERO, w)
  else
    let dropbits : Int := wrap32 (wrap32 ((NBITS : Int) - wrap32 (e - DBIAS)) - texp)
    if dropbits ≤ 0 then (FP_ZERO, w)
    else if dropbits ≥ NBITS then
      (if e ≠ 0 then FP_NORMAL else FP_SUBNORMAL,
        (((w.set D3 0).set D2 0).set D1 0).set D0 0)
    else
      let dropwords := dropbits.toNat >>> 4
      let dropbits := dropbits.toNat &&& 0xF
      let frac := w.get (dtrunc_sub.getD dropwords 0) &&& dtrunc_mask.getD dropbits 0
      let w := w.set (dtrunc_sub.getD dropwords 0)
        (w.get (dtrunc_sub.getD dropwords 0) &&& (0xffff ^^^ dtrunc_mask.getD dropbits 0))
      let frac := if dropwords = 3 then frac ||| w.get D1 else frac
      let w := if dropwords = 3 then w.set D1 0 else w
      let frac := if dropwords = 3 ∨ dropwords = 2 then frac ||| w.get D2 else frac
      let w := if dropwords = 3 ∨ dropwords = 2 then w.set D2 0 else w
      let frac := if dropwords = 3 ∨ dropwords = 2 ∨ dropwords = 1 then frac ||| w.get D3 else frac
      let w := if dropwords = 3 ∨ dropwords = 2 ∨ dropwords = 1 then w.set D3 0 else w
      if frac = 0 then (FP_ZERO, w)
      else (if e ≠ 0 then FP_NORMAL else FP_SUBNORMAL, w)

/-- The first loop of `dnorm`, `lib/math.c:153-159`: shift left by 16 bits while the
top word is 0.  Every test of the loop condition uses one unit of fuel; `none` when
the fuel runs out. -/
def dnorm_loop1 : Nat → Int → Dtype → Option (Int × Dtype)
  | 0, _, _ => none
  | fuel + 1, e, w =>
    if w.get D0 = 0 then
      let w := w.set D0 (w.get D1)
      let w := w.set D1 (w.get D2)
      let w := w.set D2 (w.get D3)
      let w := w.set D3 0
      dnorm_loop1 fuel (wrap32 (e - 16)) w
    else some (e, w)

/-- The second loop of `dnorm`, `lib/math.c:162-167`: shift right by one bit while
the top word has a bit above the implicit one. -/
def dnorm_loop2 : Nat → Int → Dtype → Option (Int × Dtype)
  | 0, _, _ => none
  | fuel + 1, e, w =>
    if w.get D0 ≥ 1 <<< (DOFF + 1) then
      let w := w.set D3 ((w.get D3 >>> 1) ||| (w.get D2 <<< 15))
      let w := w.set D2 ((w.get D2 >>> 1) ||| (w.get D1 <<< 15))
      let w := w.set D1 ((w.get D1 >>> 1) ||| (w.get D0 <<< 15))
      let w := w.set D0 (w.get D0 >>> 1)
      dnorm_loop2 fuel (wrap32 (e + 1)) w
    else some (e, w)

/-- The third loop of `dnorm`, `lib/math.c:170-175`: shift left by one bit while
the implicit bit is not set. -/
def dnorm_loop3 : Nat → Int → Dtype → Option (Int × Dtype)
  | 0, _, _ => none
  | fuel + 1, e, w =>
    if w.get D0 < 1 <<< DOFF then
      let w := w.set D0 ((w.get D0 <<< 1) ||| (w.get D1 >>> 15))
      let w := w.set D1 ((w.get D1 <<< 1) ||| (w.get D2 >>> 15))
      let w := w.set D2 ((w.get D2 <<< 1) ||| (w.get D3 >>> 15))
      let w := w.set D3 (w.get D3 <<< 1)
      dnorm_loop3 fuel (wrap32 (e - 1)) w
    else some (e, w)

/-- Source `dnorm`, `lib/math.c:141-182`: the exponent returned and the words left.
Each loop gets fuel for 64 tests, more than the 64 bits of the words allow. -/
def dnorm (w : Dtype) : Option (Int × Dtype) :=
  if w.get D0 &&& DFRAC = 0 ∧ w.get D1 = 0 ∧ w.get D2 = 0 ∧ w.get D3 = 0 then some (0, w)
  else
    let sign := w.get D0 &&& DSIGN
    let w := w.set D0 (w.get D0 &&& DFRAC)
    match dnorm_loop1 64 0 w with
    | none => none
    | some (e, w) =>
      match dnorm_loop2 64 e w with
      | none => none
      | some (e, w) =>
        match dnorm_loop3 64 e w with
        | none => none
        | some (e, w) => some (e, w.set D0 ((w.get D0 &&& DFRAC) ||| sign))

/-- The loop of `dscale`, `lib/math.c:220-225`: shift right by 16 bits while
`e <= -16`. -/
def dscale_loop : Nat → Int → Dtype → Option (Int × Dtype)
  | 0, _, _ => none
  | fuel + 1, e, w =>
    if e ≤ -16 then
      let w := w.set D3 (w.get D2)
      let w := w.set D2 (w.get D1)
      let w := w.set D1 (w.get D0)
      let w := w.set D0 0
      dscale_loop fuel (wrap32 (e + 16)) w
    else some (e, w)

/-- Source `dscale`, `lib/math.c:187-250`: the class returned and the value left in
`*x`. -/
def dscale (x : Dtype) (exp : Int) : Option (Int × Dtype) :=
  let w := x
  let e : Int := (((w.get D0 &&& DEXP) >>> DOFF : Nat) : Int)
  let frac := decide (w.get D0 &&& DFRAC ≠ 0) || decide (w.get D1 ≠ 0) ||
    decide (w.get D2 ≠ 0) || decide (w.get D3 ≠ 0)
  if e = DMAXE then some (if frac then FP_NAN else FP_INFINITE, w)
  else
    match (if e = 0 then dnorm w else some (e, w)) with
    | none => none
    | some (e, w) =>
      if e = 0 then some (FP_ZERO, w)
      else
        let e := wrap32 (e + exp)
        if e ≥ DMAXE then
          some (FP_INFINITE, if w.get D0 &&& DSIGN ≠ 0 then dneg dinf else dinf)
        else if e > 0 then
          some (FP_NORMAL,
            w.set D0 ((w.get D0 &&& (0xffff ^^^ DEXP)) ||| ((e.toNat % 65536) <<< DOFF)))
        else
          let sign := w.get D0 &&& DSIGN
          let w := w.set D0 ((1 <<< DOFF) ||| (w.get D0 &&& DFRAC))
          let under : Dtype := (((w.set D0 sign).set D1 0).set D2 0).set D3 0
          if e ≥ -((NBITS : Int) + 1) then
            match dscale_loop 64 e w with
            | none => none
            | some (e, w) =>
              let e := wrap32 (-e)
              let w :=
                if e ≠ 0 then
                  let w := w.set D3 ((w.get D3 >>> e.toNat) ||| (w.get D2 <<< (16 - e.toNat)))
                  let w := w.set D2 ((w.get D2 >>> e.toNat) ||| (w.get D1 <<< (16 - e.toNat)))
                  let w := w.set D1 ((w.get D1 >>> e.toNat) ||| (w.get D0 <<< (16 - e.toNat)))
                  w.set D0 (w.get D0 >>> e.toNat)
                else w
              if w.get D0 ≠ 0 ∨ w.get D1 ≠ 0 ∨ w.get D2 ≠ 0 ∨ w.get D3 ≠ 0 then
                some (FP_SUBNORMAL, w.set D0 (w.get D0 ||| sign))
              else
                some (FP_ZERO, (((w.set D0 sign).set D1 0).set D2 0).set D3 0)
          else some (FP_ZERO, under)

/-- Source `dunscale`, `lib/math.c:255-281`: the class returned, the value left in
`*x` and the exponent stored in `*exp`. -/
def dunscale (x : Dtype) : Option (Int × Dtype × Int) :=
  let w := x
  let e : Int := (((w.get D0 &&& DEXP) >>> DOFF : Nat) : Int)
  let frac := decide (w.get D0 &&& DFRAC ≠ 0) || decide (w.get D1 ≠ 0) ||
    decide (w.get D2 ≠ 0) || decide (w.get D3 ≠ 0)
  if e = DMAXE then some (if frac then FP_NAN else FP_INFINITE, w, 0)
  else
    match (if e ≠ 0 then some (e, w) else dnorm w) with
    | none => none
    | some (e, w) =>
      if e ≠ 0 then
        some (FP_NORMAL,
          w.set D0 ((w.get D0 &&& (0xffff ^^^ DEXP)) ||| ((DBIAS - 1) <<< DOFF)),
          wrap32 (wrap32 (e + 1) - DBIAS))
      else some (FP_ZERO, w, 0)

/-- Source `ceil`, `lib/math.c:283-291`. -/
def ceil (x : Dtype) : Dtype :=
  match dtrunc x 0 with
  | (t, x) => if (t = FP_NORMAL ∨ t = FP_SUBNORMAL) ∧ dlt d_zero x = true then dadd x d_one else x

/-- Source `floor`, `lib/math.c:308-316`. -/
def floor (x : Dtype) : Dtype :=
  match dtrunc x 0 with
  | (t, x) => if (t = FP_NORMAL ∨ t = FP_SUBNORMAL) ∧ dlt x d_zero = true then dsub x d_one else x

/-- The `for` loop of `fmod`, `lib/math.c:356-363`: try to subtract `y * 2^n` for
`n`, `n - 1`, ..., 0; the value of `n` and of `x` when the loop is left. -/
def fmod_for (y : Dtype) : Nat → Int → Dtype → Option (Int × Dtype)
  | 0, _, _ => none
  | fuel + 1, n, x =>
    if n ≥ 0 then
      match dscale y n with
      | none => none
      | some (_, t) =>
        if dle t x = true then some (n, dsub x t)
        else fmod_for y fuel (wrap32 (n - 1)) x
    else some (n, x)

/-- The `while` loop of `fmod`, `lib/math.c:348-364`; the value of `x` when the loop
is left. -/
def fmod_while (y : Dtype) (yexp : Int) : Nat → Int → Dtype → Option Dtype
  | 0, _, _ => none
  | fuel + 1, n, x =>
    if n ≥ 0 then
      match dunscale x with
      | none => none
      | some (c, _, xexp) =>
        if c = FP_ZERO then some x
        else if wrap32 (xexp - yexp) < 0 then some x
        else
          match fmod_for y ((wrap32 (xexp - yexp)).toNat + 2) (wrap32 (xexp - yexp)) x with
          | none => none
          | some (n, x) => fmod_while y yexp fuel n x
    else some x

/-- Source `fmod`, `lib/math.c:318-368`.  `px`, `nx` and `py`, `ny` are what the two
calls of `dclassify` read: the addresses of `x` and `y` and the memory words after
the parameter.  The `while` loop gets fuel for 4200 iterations; `none` when a loop
runs out of fuel. -/
def fmod (x y : Dtype) (px nx py ny : Nat) : Option Dtype :=
  let xtype := dclassify px nx
  let ytype := dclassify py ny
  if xtype = FP_NAN ∨ xtype = FP_ZERO ∨ ytype = FP_INFINITE then some x
  else if ytype = FP_NAN then some y
  else if xtype = FP_INFINITE ∨ ytype = FP_ZERO then some dnan
  else
    let sign := dlt x d_zero
    let x := if dlt x d_zero then dneg x else x
    let y := if dlt y d_zero then dneg y else y
    match dunscale y with
    | none => none
    | some (_, _, yexp) =>
      match fmod_while y yexp 4200 0 x with
      | none => none
      | some x => some (if sign then dneg x else x)

/-- Source `frexp`, `lib/math.c:370-387`: the value returned and the exponent stored
in `*exp`. -/
def frexp (num : Dtype) : Option (Dtype × Int) :=
  match dunscale num with
  | none => none
  | some (t, num, binexp) =>
    if t = FP_NAN ∨ t = FP_INFINITE then some (num, 0)
    else if t = FP_ZERO then some (d_zero, 0)
    else some (num, binexp)

/-- Source `ldexp`, `lib/math.c:389-397`.  `px` and `next` are what `dclassify`
reads: the address of `x` and the memory word after the parameter. -/
def ldexp (x : Dtype) (exp : Int) (px next : Nat) : Option Dtype :=
  if dclassify px next = FP_NORMAL ∨ dclassify px next = FP_SUBNORMAL then
    match dscale x exp with
    | none => none
    | some (_, x) => some x
  else some x

/-- Source `modf`, `lib/math.c:399-413`: the value returned and the value stored in
`*iptr`. -/
def modf (x : Dtype) : Dtype × Dtype :=
  match dtrunc x 0 with
  | (t, i) =>
    if t = FP_NAN then (x, i)
    else if t = FP_INFINITE ∨ t = FP_ZERO then (d_zero, i)
    else (dsub x i, i)

/-! ## Tables and page tables -/

theorem Tbl.get_del {β : Type} (t : List (Nat × β)) (a b : Nat) :
    Tbl.get (Tbl.del t a) b = if b = a then none else Tbl.get t b := by
  induction t with
  | nil => simp [Tbl.del, Tbl.get]
  | cons p r ih =>
    obtain ⟨k, v⟩ := p
    unfold Tbl.del at ih ⊢
    by_cases hk : k = a
    · subst hk
      simp only [List.filter_cons, ne_eq, not_true_eq_false, decide_False, Bool.false_eq_true,
        if_false, ih]
      by_cases hb : b = k
      · simp [hb]
      · simp [hb, Tbl.get]
    · simp only [List.filter_cons, ne_eq, hk, not_false_eq_true, decide_True, if_true, Tbl.get, ih]
      by_cases hb : b = a
      · have : b ≠ k := fun h => hk (h ▸ hb)
        simp [hb, this]
        intro h; exact absurd h.symm hk
      · simp [hb]

theorem Tbl.get_put {β : Type} (t : List (Nat × β)) (a b : Nat) (v : β) :
    Tbl.get (Tbl.put t a v) b = if b = a then some v else Tbl.get t b := by
  unfold Tbl.put
  by_cases hb : b = a
  · simp [Tbl.get, hb]
  · simp [Tbl.get, hb, Tbl.get_del]

theorem Tbl.mem_of_get {β : Type} (t : List (Nat × β)) (a : Nat) (v : β)
    (h : Tbl.get t a = some v) : (a, v) ∈ t := by
  induction t with
  | nil => simp [Tbl.get] at h
  | cons p r ih =>
    obtain ⟨k, w⟩ := p
    by_cases hk : a = k
    · simp [Tbl.get, hk] at h
      simp [hk, h]
    · simp only [Tbl.get, hk, if_false] at h
      exact List.mem_cons_of_mem _ (ih h)

theorem pn_eq_of_div_mod {n p q : Nat} (hd : q / n = p / n) (hm : q % n = p % n) : q = p := by
  rw [← Nat.div_add_mod q n, ← Nat.div_add_mod p n, hd, hm]

theorem Env.lookup_set (L : Layout) (e : Env) (pn q : Nat) (m : Mapping) :
    (e.set L pn m).lookup L q = if q = pn then some m else e.lookup L q := by
  unfold Env.lookup Env.set
  simp only [Tbl.get_put]
  by_cases hd : q / L.NPTENTRIES = pn / L.NPTENTRIES
  · by_cases hm : q % L.NPTENTRIES = pn % L.NPTENTRIES
    · have := pn_eq_of_div_mod hd hm
      simp [this, Tbl.get_put]
    · have hne : q ≠ pn := fun h => hm (by rw [h])
      simp only [hd, if_true, hm, if_false, hne]
      cases Tbl.get e.pgdir (pn / L.NPTENTRIES) <;> simp [Tbl.get, Tbl.get_put, Tbl.get_del, hm]
  · have hne : q ≠ pn := fun h => hd (by rw [h])
    simp [hd, hne]

theorem Env.lookup_unset (L : Layout) (e : Env) (pn q : Nat) :
    (e.unset L pn).lookup L q = if q = pn then none else e.lookup L q := by
  unfold Env.unset
  cases hg : Tbl.get e.pgdir (pn / L.NPTENTRIES) with
  | none =>
    by_cases hq : q = pn
    · simp [Env.lookup, hq, hg]
    · simp [hq]
  | some t =>
    simp only [Env.lookup, Tbl.get_put]
    by_cases hd : q / L.NPTENTRIES = pn / L.NPTENTRIES
    · by_cases hm : q % L.NPTENTRIES = pn % L.NPTENTRIES
      · have := pn_eq_of_div_mod hd hm
        simp [this, Tbl.get_del]
      · have hne : q ≠ pn := fun h => hm (by rw [h])
        simp [hd, hm, hne, hg, Tbl.get_del]
    · have hne : q ≠ pn := fun h => hd (by rw [h])
      simp [hd, hne]

theorem Kern.mapping_setEnv (L : Layout) (k : Kern) (id id2 pn : Nat) (e : Env) :
    (k.setEnv id e).mapping L id2 pn = if id2 = id then e.lookup L pn else k.mapping L id2 pn := by
  unfold Kern.mapping Kern.setEnv
  simp only [Tbl.get_put]
  by_cases h : id2 = id <;> simp [h]

/-! ## What a kernel request changes -/

theorem Kern.enter_cur (k : Kern) (r : Req) : (k.enter r).2.cur = k.cur := by
  unfold Kern.enter; cases k.script <;> rfl

theorem Kern.enter_envs (k : Kern) (r : Req) : (k.enter r).2.envs = k.envs := by
  unfold Kern.enter; cases k.script <;> rfl

theorem Kern.enter_mem (k : Kern) (r : Req) : (k.enter r).2.mem = k.mem := by
  unfold Kern.enter; cases k.script <;> rfl

theorem Kern.enter_log (k : Kern) (r : Req) : (k.enter r).2.log = k.log ++ [r] := by
  unfold Kern.enter; cases k.script <;> rfl

theorem Kern.enter_script (k : Kern) (r : Req) : (k.enter r).2.script = k.script.tail := by
  unfold Kern.enter; cases k.script <;> rfl

theorem Kern.enter_neg (k : Kern) (r : Req) (e : Int) (h : (k.enter r).1 = some e) : e < 0 := by
  unfold Kern.enter at h
  cases hs : k.script with
  | nil => simp [hs] at h
  | cons a rest =>
    simp only [hs] at h
    by_cases ha : a < 0
    · simp only [ha, if_true, Option.some.injEq] at h; omega
    · simp [ha] at h

theorem Kern.enter_some_iff (k : Kern) (r : Req) (e : Int) :
    (k.enter r).1 = some e ↔ k.script.head? = some e ∧ e < 0 := by
  unfold Kern.enter
  cases hs : k.script with
  | nil => simp
  | cons a rest =>
    by_cases ha : a < 0
    · simp only [ha, if_true, Option.some.injEq, List.head?_cons]
      constructor
      · intro h; exact ⟨h, h ▸ ha⟩
      · intro h; exact h.1
    · simp only [ha, if_false, List.head?_cons, Option.some.injEq]
      constructor
      · intro h; cases h
      · intro h; exact absurd (h.1 ▸ h.2) ha

theorem Kern.enter_none_iff (k : Kern) (r : Req) :
    (k.enter r).1 = none ↔ ∀ e, k.script.head? = some e → 0 ≤ e := by
  unfold Kern.enter
  cases hs : k.script with
  | nil => simp
  | cons a rest =>
    by_cases ha : a < 0
    · simp only [ha, if_true, List.head?_cons, Option.some.injEq, forall_eq_apply_imp_iff,
        forall_eq, false_iff, not_le]
      simp [ha]
    · simp only [ha, if_false, List.head?_cons, Option.some.injEq, forall_eq_apply_imp_iff,
        forall_eq, true_iff]
      omega

theorem Kern.mapping_congr (L : Layout) (k k1 : Kern) (h : k1.envs = k.envs) (id pn : Nat) :
    k1.mapping L id pn = k.mapping L id pn := by
  unfold Kern.mapping; rw [h]

theorem Kern.envid2env_congr (k k1 : Kern) (h : k1.envs = k.envs) (hc : k1.cur = k.cur)
    (envid : Int) : k1.envid2env envid = k.envid2env envid := by
  unfold Kern.envid2env; rw [h, hc]

theorem Kern.envid2env_some (k : Kern) (envid : Int) (id : Nat) (e : Env)
    (h : k.envid2env envid = some (id, e)) :
    0 ≤ envid ∧ id = (if envid = 0 then k.cur else envid.toNat) ∧ Tbl.get k.envs id = some e := by
  unfold Kern.envid2env at h
  by_cases hneg : envid < 0
  · simp [hneg] at h
  · simp only [hneg, if_false] at h
    split at h
    · simp at h
    · rename_i e1 he
      simp only [Option.some.injEq, Prod.mk.injEq] at h
      refine ⟨by omega, h.1.symm, ?_⟩
      rw [← h.1, ← h.2]; exact he

theorem Kern.frames_congr (k k1 : Kern) (h : k1.envs = k.envs) : k1.freshFrame = k.freshFrame := by
  unfold Kern.freshFrame Kern.frames; rw [h]

theorem sys_page_map_cases (L : Layout) (s : Int) (sva : Nat) (d : Int) (dva perm : Nat)
    (k : Kern) :
    (∃ e, e < 0 ∧ sys_page_map L s sva d dva perm k =
        (e, (k.enter (Req.page_map s sva d dva perm)).2)) ∨
    (∃ sid se did de m, k.envid2env s = some (sid, se) ∧ k.envid2env d = some (did, de) ∧
        se.lookup L (PGNUM L sva) = some m ∧
        (k.enter (Req.page_map s sva d dva perm)).1 = none ∧
        sys_page_map L s sva d dva perm k =
          (0, (k.enter (Req.page_map s sva d dva perm)).2.setEnv did
                (de.set L (PGNUM L dva) { frame := m.frame, perm := perm }))) := by
  unfold sys_page_map
  have hcur := Kern.enter_cur k (Req.page_map s sva d dva perm)
  have henvs := Kern.enter_envs k (Req.page_map s sva d dva perm)
  have hneg := Kern.enter_neg k (Req.page_map s sva d dva perm)
  rcases hk : k.enter (Req.page_map s sva d dva perm) with ⟨o, k1⟩
  rw [hk] at hcur henvs hneg
  simp only at hcur henvs hneg
  cases o with
  | some e => exact Or.inl ⟨e, hneg e rfl, rfl⟩
  | none =>
    simp only [Kern.envid2env_congr k k1 henvs hcur]
    cases hs : k.envid2env s with
    | none => exact Or.inl ⟨-E_BAD_ENV, by decide, by simp⟩
    | some ps =>
      obtain ⟨sid, se⟩ := ps
      cases hd : k.envid2env d with
      | none => exact Or.inl ⟨-E_BAD_ENV, by decide, by simp⟩
      | some pd =>
        obtain ⟨did, de⟩ := pd
        cases hm : se.lookup L (PGNUM L sva) with
        | none => exact Or.inl ⟨-E_INVAL, by decide, by simp [hm]⟩
        | some m => exact Or.inr ⟨sid, se, did, de, m, rfl, rfl, hm, trivial, by simp [hm]⟩

theorem sys_page_alloc_cases (L : Layout) (envid : Int) (va perm : Nat) (k : Kern) :
    (∃ e, e < 0 ∧ sys_page_alloc L envid va perm k =
        (e, (k.enter (Req.page_alloc envid va perm)).2)) ∨
    (∃ id en, k.envid2env envid = some (id, en) ∧ va < L.UTOP ∧ va % L.PGSIZE = 0 ∧
        (k.enter (Req.page_alloc envid va perm)).1 = none ∧
        sys_page_alloc L envid va perm k =
          (0, { (k.enter (Req.page_alloc envid va perm)).2.setEnv id
                  (en.set L (PGNUM L va) { frame := k.freshFrame, perm := perm }) with
                mem := Tbl.put k.mem k.freshFrame [] })) := by
  unfold sys_page_alloc
  have hcur := Kern.enter_cur k (Req.page_alloc envid va perm)
  have henvs := Kern.enter_envs k (Req.page_alloc envid va perm)
  have hmem := Kern.enter_mem k (Req.page_alloc envid va perm)
  have hneg := Kern.enter_neg k (Req.page_alloc envid va perm)
  rcases hk : k.enter (Req.page_alloc envid va perm) with ⟨o, k1⟩
  rw [hk] at hcur henvs hneg hmem
  simp only at hcur henvs hneg hmem
  cases o with
  | some e => exact Or.inl ⟨e, hneg e rfl, rfl⟩
  | none =>
    simp only [Kern.envid2env_congr k k1 henvs hcur, Kern.frames_congr k k1 henvs, hmem]
    cases hs : k.envid2env envid with
    | none => exact Or.inl ⟨-E_BAD_ENV, by decide, by simp⟩
    | some ps =>
      obtain ⟨id, en⟩ := ps
      by_cases hva : L.UTOP ≤ va ∨ va % L.PGSIZE ≠ 0
      · exact Or.inl ⟨-E_INVAL, by decide, by simp [hva]⟩
      · refine Or.inr ⟨id, en, rfl, ?_, ?_, trivial, by simp [hva]⟩
        · omega
        · by_contra h; exact hva (Or.inr h)

theorem sys_page_unmap_cases (L : Layout) (envid : Int) (va : Nat) (k : Kern) :
    (∃ e, e < 0 ∧ sys_page_unmap L envid va k = (e, (k.enter (Req.page_unmap envid va)).2)) ∨
    (∃ id en, k.envid2env envid = some (id, en) ∧
        (k.enter (Req.page_unmap envid va)).1 = none ∧
        sys_page_unmap L envid va k =
          (0, (k.enter (Req.page_unmap envid va)).2.setEnv id (en.unset L (PGNUM L va)))) := by
  unfold sys_page_unmap
  have hcur := Kern.enter_cur k (Req.page_unmap envid va)
  have henvs := Kern.enter_envs k (Req.page_unmap envid va)
  have hneg := Kern.enter_neg k (Req.page_unmap envid va)
  rcases hk : k.enter (Req.page_unmap envid va) with ⟨o, k1⟩
  rw [hk] at hcur henvs hneg
  simp only at hcur henvs hneg
  cases o with
  | some e => exact Or.inl ⟨e, hneg e rfl, rfl⟩
  | none =>
    simp only [Kern.envid2env_congr k k1 henvs hcur]
    cases hs : k.envid2env envid with
    | none => exact Or.inl ⟨-E_BAD_ENV, by decide, by simp⟩
    | some ps =>
      obtain ⟨id, en⟩ := ps
      exact Or.inr ⟨id, en, rfl, trivial, by simp⟩

theorem sys_env_set_pgfault_upcall_cases (envid : Int) (k : Kern) :
    (∃ e, e < 0 ∧ sys_env_set_pgfault_upcall envid k =
        (e, (k.enter (Req.env_set_pgfault_upcall envid)).2)) ∨
    (∃ id en, k.envid2env envid = some (id, en) ∧
        (k.enter (Req.env_set_pgfault_upcall envid)).1 = none ∧
        sys_env_set_pgfault_upcall envid k =
          (0, (k.enter (Req.env_set_pgfault_upcall envid)).2.setEnv id
                { en with pgfault_upcall := true })) := by
  unfold sys_env_set_pgfault_upcall
  have hcur := Kern.enter_cur k (Req.env_set_pgfault_upcall envid)
  have henvs := Kern.enter_envs k (Req.env_set_pgfault_upcall envid)
  have hneg := Kern.enter_neg k (Req.env_set_pgfault_upcall envid)
  rcases hk : k.enter (Req.env_set_pgfault_upcall envid) with ⟨o, k1⟩
  rw [hk] at hcur henvs hneg
  simp only at hcur henvs hneg
  cases o with
  | some e => exact Or.inl ⟨e, hneg e rfl, rfl⟩
  | none =>
    simp only [Kern.envid2env_congr k k1 henvs hcur]
    cases hs : k.envid2env envid with
    | none => exact Or.inl ⟨-E_BAD_ENV, by decide, by simp⟩
    | some ps =>
      obtain ⟨id, en⟩ := ps
      exact Or.inr ⟨id, en, rfl, trivial, by simp⟩

theorem sys_env_set_status_cases (envid : Int) (st : Nat) (k : Kern) :
    (∃ e, e < 0 ∧ sys_env_set_status envid st k =
        (e, (k.enter (Req.env_set_status envid st)).2)) ∨
    (∃ id en, k.envid2env envid = some (id, en) ∧
        (k.enter (Req.env_set_status envid st)).1 = none ∧
        sys_env_set_status envid st k =
          (0, (k.enter (Req.env_set_status envid st)).2.setEnv id { en with status := st })) := by
  unfold sys_env_set_status
  have hcur := Kern.enter_cur k (Req.env_set_status envid st)
  have henvs := Kern.enter_envs k (Req.env_set_status envid st)
  have hneg := Kern.enter_neg k (Req.env_set_status envid st)
  rcases hk : k.enter (Req.env_set_status envid st) with ⟨o, k1⟩
  rw [hk] at hcur henvs hneg
  simp only at hcur henvs hneg
  cases o with
  | some e => exact Or.inl ⟨e, hneg e rfl, rfl⟩
  | none =>
    simp only [Kern.envid2env_congr k k1 henvs hcur]
    cases hs : k.envid2env envid with
    | none => exact Or.inl ⟨-E_BAD_ENV, by decide, by simp⟩
    | some ps =>
      obtain ⟨id, en⟩ := ps
      exact Or.inr ⟨id, en, rfl, trivial, by simp⟩

/-! ## Observing the state after a request -/

theorem uvpd_present (k : Kern) (i : Nat) : uvpd k i &&& PTE_P ≠ 0 ↔ k.pde k.cur i = true := by
  unfold uvpd Kern.pde
  cases Tbl.get k.envs k.cur with
  | none => simp
  | some e =>
    simp only
    by_cases hg : (Tbl.get e.pgdir i).isSome = true
    · simp only [hg, if_true, iff_true]
      decide
    · simp [hg]

theorem Kern.pde_of_mapping (L : Layout) (k : Kern) (id pn : Nat) (m : Mapping)
    (h : k.mapping L id pn = some m) : k.pde id (pn / L.NPTENTRIES) = true := by
  unfold Kern.mapping at h
  unfold Kern.pde
  cases he : Tbl.get k.envs id with
  | none => simp [he] at h
  | some e =>
    simp only [he] at h ⊢
    unfold Env.lookup at h
    cases ht : Tbl.get e.pgdir (pn / L.NPTENTRIES) with
    | none => simp [ht] at h
    | some t => rfl

theorem Kern.pde_setEnv_set (L : Layout) (k : Kern) (id id2 pn i : Nat) (e : Env) (m : Mapping) :
    (k.setEnv id (e.set L pn m)).pde id2 i =
      if id2 = id then (decide (i = pn / L.NPTENTRIES) || (Tbl.get e.pgdir i).isSome)
      else k.pde id2 i := by
  unfold Kern.pde Kern.setEnv Env.set
  simp only [Tbl.get_put]
  by_cases h : id2 = id
  · by_cases hi : i = pn / L.NPTENTRIES <;> simp [h, hi, Tbl.get_put]
  · simp [h]

theorem Kern.pde_congr (k k1 : Kern) (h : k1.envs = k.envs) (id i : Nat) :
    k1.pde id i = k.pde id i := by
  unfold Kern.pde; rw [h]

theorem Kern.pde_of_get (k : Kern) (id i : Nat) (e : Env) (h : Tbl.get k.envs id = some e) :
    k.pde id i = (Tbl.get e.pgdir i).isSome := by
  unfold Kern.pde; rw [h]

theorem Kern.mapping_of_get (L : Layout) (k : Kern) (id pn : Nat) (e : Env)
    (h : Tbl.get k.envs id = some e) : k.mapping L id pn = e.lookup L pn := by
  unfold Kern.mapping; rw [h]

/-- What `sys_page_map` does to the observable state. -/
theorem sys_page_map_obs (L : Layout) (s : Int) (sva : Nat) (d : Int) (dva perm : Nat)
    (k : Kern) :
    (sys_page_map L s sva d dva perm k).2.cur = k.cur ∧
    (sys_page_map L s sva d dva perm k).2.mem = k.mem ∧
    (sys_page_map L s sva d dva perm k).2.log = k.log ++ [Req.page_map s sva d dva perm] ∧
    (sys_page_map L s sva d dva perm k).2.script = k.script.tail ∧
    (∀ id i, k.pde id i = true → (sys_page_map L s sva d dva perm k).2.pde id i = true) ∧
    ((sys_page_map L s sva d dva perm k).1 < 0 →
      (sys_page_map L s sva d dva perm k).2.envs = k.envs) ∧
    (¬ (sys_page_map L s sva d dva perm k).1 < 0 →
      (sys_page_map L s sva d dva perm k).1 = 0 ∧
      ∃ sid se did de m, k.envid2env s = some (sid, se) ∧ k.envid2env d = some (did, de) ∧
        k.mapping L sid (PGNUM L sva) = some m ∧
        ∀ id q, (sys_page_map L s sva d dva perm k).2.mapping L id q =
          if id = did ∧ q = PGNUM L dva then some { frame := m.frame, perm := perm }
          else k.mapping L id q) := by
  have hcur := Kern.enter_cur k (Req.page_map s sva d dva perm)
  have henvs := Kern.enter_envs k (Req.page_map s sva d dva perm)
  have hmem := Kern.enter_mem k (Req.page_map s sva d dva perm)
  have hlog := Kern.enter_log k (Req.page_map s sva d dva perm)
  have hscr := Kern.enter_script k (Req.page_map s sva d dva perm)
  rcases sys_page_map_cases L s sva d dva perm k with ⟨e, he, h⟩ | ⟨sid, se, did, de, m, hs, hd, hm, _, h⟩
  · rw [h]
    refine ⟨hcur, hmem, hlog, hscr, ?_, fun _ => henvs, fun hn => absurd he hn⟩
    intro id i hp; rw [Kern.pde_congr _ _ henvs]; exact hp
  · rw [h]
    have hds := (Kern.envid2env_some k d did de hd).2.2
    have hss := (Kern.envid2env_some k s sid se hs).2.2
    refine ⟨hcur, hmem, hlog, hscr, ?_, fun hn => absurd hn (by simp), fun _ => ⟨rfl, ?_⟩⟩
    · intro id i hp
      rw [Kern.pde_setEnv_set]
      by_cases hid : id = did
      · subst hid
        rw [Kern.pde_of_get k id i de hds] at hp
        simp [hp]
      · simp only [hid, if_false]
        rw [Kern.pde_congr _ _ henvs]; exact hp
    · refine ⟨sid, se, did, de, m, hs, hd, ?_, ?_⟩
      · rw [Kern.mapping_of_get L k sid _ se hss]; exact hm
      · intro id q
        rw [Kern.mapping_setEnv, Env.lookup_set]
        by_cases hid : id = did
        · subst hid
          by_cases hq : q = PGNUM L dva
          · simp [hq]
          · simp [hq, Kern.mapping_of_get L k id q de hds]
        · simp [hid, Kern.mapping_congr L k _ henvs]

theorem le_foldr_max (l : List Nat) (b x : Nat) (h : x ∈ l) : x ≤ l.foldr max b := by
  induction l with
  | nil => cases h
  | cons a r ih =>
    simp only [List.foldr_cons]
    rcases List.mem_cons.mp h with h1 | h1
    · subst h1; exact Nat.le_max_left _ _
    · exact Nat.le_trans (ih h1) (Nat.le_max_right _ _)

theorem base_le_foldr_max (l : List Nat) (b : Nat) : b ≤ l.foldr max b := by
  induction l with
  | nil => exact Nat.le_refl _
  | cons a r ih => exact Nat.le_trans ih (Nat.le_max_right _ _)

/-- A fresh physical page is one that no context maps. -/
theorem Kern.lt_freshFrame (L : Layout) (k : Kern) (id pn : Nat) (m : Mapping)
    (h : k.mapping L id pn = some m) : m.frame < k.freshFrame := by
  unfold Kern.mapping at h
  cases he : Tbl.get k.envs id with
  | none => simp [he] at h
  | some e =>
    simp only [he] at h
    unfold Env.lookup at h
    cases ht : Tbl.get e.pgdir (pn / L.NPTENTRIES) with
    | none => simp [ht] at h
    | some t =>
      simp only [ht] at h
      have h1 := Tbl.mem_of_get _ _ _ he
      have h2 := Tbl.mem_of_get _ _ _ ht
      have h3 := Tbl.mem_of_get _ _ _ h
      have hmem : m.frame ∈ k.frames := by
        unfold Kern.frames framesOfDir
        simp only [List.mem_flatMap, List.mem_map]
        exact ⟨(id, e), h1, (pn / L.NPTENTRIES, t), h2, (pn % L.NPTENTRIES, m), h3, rfl⟩
      unfold Kern.freshFrame
      exact Nat.lt_succ_of_le (le_foldr_max _ _ _ hmem)

/-- A fresh context identifier is positive, is not the running context and names no
context. -/
theorem Kern.freshEnv_spec (k : Kern) :
    0 < k.freshEnv ∧ k.freshEnv ≠ k.cur ∧ Tbl.get k.envs k.freshEnv = none := by
  refine ⟨Nat.succ_pos _, ?_, ?_⟩
  · unfold Kern.freshEnv
    have := base_le_foldr_max (k.envs.map (fun e => e.1)) k.cur
    omega
  · cases hg : Tbl.get k.envs k.freshEnv with
    | none => rfl
    | some e =>
      have h1 := Tbl.mem_of_get _ _ _ hg
      have h2 : k.freshEnv ∈ k.envs.map (fun e => e.1) := List.mem_map.mpr ⟨_, h1, rfl⟩
      have h3 := le_foldr_max _ k.cur _ h2
      unfold Kern.freshEnv at h3
      omega

/-- What `sys_page_alloc` does to the observable state. -/
theorem sys_page_alloc_obs (L : Layout) (envid : Int) (va perm : Nat) (k : Kern) :
    (sys_page_alloc L envid va perm k).2.cur = k.cur ∧
    (sys_page_alloc L envid va perm k).2.log = k.log ++ [Req.page_alloc envid va perm] ∧
    (sys_page_alloc L envid va perm k).2.script = k.script.tail ∧
    (∀ id i, k.pde id i = true → (sys_page_alloc L envid va perm k).2.pde id i = true) ∧
    ((sys_page_alloc L envid va perm k).1 < 0 →
      (sys_page_alloc L envid va perm k).2.envs = k.envs ∧
      (sys_page_alloc L envid va perm k).2.mem = k.mem) ∧
    (¬ (sys_page_alloc L envid va perm k).1 < 0 →
      (sys_page_alloc L envid va perm k).1 = 0 ∧
      (sys_page_alloc L envid va perm k).2.mem = Tbl.put k.mem k.freshFrame [] ∧
      ∃ did de, k.envid2env envid = some (did, de) ∧ va < L.UTOP ∧ va % L.PGSIZE = 0 ∧
        ∀ id q, (sys_page_alloc L envid va perm k).2.mapping L id q =
          if id = did ∧ q = PGNUM L va then some { frame := k.freshFrame, perm := perm }
          else k.mapping L id q) := by
  have hcur := Kern.enter_cur k (Req.page_alloc envid va perm)
  have henvs := Kern.enter_envs k (Req.page_alloc envid va perm)
  have hmem := Kern.enter_mem k (Req.page_alloc envid va perm)
  have hlog := Kern.enter_log k (Req.page_alloc envid va perm)
  have hscr := Kern.enter_script k (Req.page_alloc envid va perm)
  rcases sys_page_alloc_cases L envid va perm k with ⟨e, he, h⟩ | ⟨did, de, hd, hva, hal, _, h⟩
  · rw [h]
    refine ⟨hcur, hlog, hscr, ?_, fun _ => ⟨henvs, hmem⟩, fun hn => absurd he hn⟩
    intro id i hp; rw [Kern.pde_congr _ _ henvs]; exact hp
  · rw [h]
    have hds := (Kern.envid2env_some k envid did de hd).2.2
    refine ⟨hcur, hlog, hscr, ?_, fun hn => absurd hn (by simp), fun _ => ⟨rfl, rfl, ?_⟩⟩
    · intro id i hp
      have : ∀ (k2 : Kern) (mm : List (Nat × List (Nat × Nat))),
          Kern.pde { k2 with mem := mm } id i = Kern.pde k2 id i := fun _ _ => rfl
      rw [this, Kern.pde_setEnv_set]
      by_cases hid : id = did
      · subst hid
        rw [Kern.pde_of_get k id i de hds] at hp
        simp [hp]
      · simp only [hid, if_false]
        rw [Kern.pde_congr _ _ henvs]; exact hp
    · refine ⟨did, de, hd, hva, hal, ?_⟩
      intro id q
      have : ∀ (k2 : Kern) (mm : List (Nat × List (Nat × Nat))),
          Kern.mapping L { k2 with mem := mm } id q = Kern.mapping L k2 id q := fun _ _ => rfl
      rw [this, Kern.mapping_setEnv, Env.lookup_set]
      by_cases hid : id = did
      · subst hid
        by_cases hq : q = PGNUM L va
        · simp [hq]
        · simp [hq, Kern.mapping_of_get L k id q de hds]
      · simp [hid, Kern.mapping_congr L k _ henvs]

/-- What `sys_page_unmap` does to the observable state. -/
theorem sys_page_unmap_obs (L : Layout) (envid : Int) (va : Nat) (k : Kern) :
    (sys_page_unmap L envid va k).2.cur = k.cur ∧
    (sys_page_unmap L envid va k).2.mem = k.mem ∧
    (sys_page_unmap L envid va k).2.log = k.log ++ [Req.page_unmap envid va] ∧
    (sys_page_unmap L envid va k).2.script = k.script.tail ∧
    ((sys_page_unmap L envid va k).1 < 0 → (sys_page_unmap L envid va k).2.envs = k.envs) ∧
    (¬ (sys_page_unmap L envid va k).1 < 0 →
      (sys_page_unmap L envid va k).1 = 0 ∧
      ∃ did de, k.envid2env envid = some (did, de) ∧
        ∀ id q, (sys_page_unmap L envid va k).2.mapping L id q =
          if id = did ∧ q = PGNUM L va then none else k.mapping L id q) := by
  have hcur := Kern.enter_cur k (Req.page_unmap envid va)
  have henvs := Kern.enter_envs k (Req.page_unmap envid va)
  have hmem := Kern.enter_mem k (Req.page_unmap envid va)
  have hlog := Kern.enter_log k (Req.page_unmap envid va)
  have hscr := Kern.enter_script k (Req.page_unmap envid va)
  rcases sys_page_unmap_cases L envid va k with ⟨e, he, h⟩ | ⟨did, de, hd, _, h⟩
  · rw [h]
    exact ⟨hcur, hmem, hlog, hscr, fun _ => henvs, fun hn => absurd he hn⟩
  · rw [h]
    have hds := (Kern.envid2env_some k envid did de hd).2.2
    refine ⟨hcur, hmem, hlog, hscr, fun hn => absurd hn (by simp), fun _ => ⟨rfl, did, de, hd, ?_⟩⟩
    intro id q
    rw [Kern.mapping_setEnv, Env.lookup_unset]
    by_cases hid : id = did
    · subst hid
      by_cases hq : q = PGNUM L va
      · simp [hq]
      · simp [hq, Kern.mapping_of_get L k id q de hds]
    · simp [hid, Kern.mapping_congr L k _ henvs]

/-! ## Permission bits -/

theorem lor_eq_zero_iff (a b : Nat) : a ||| b = 0 ↔ a = 0 ∧ b = 0 := by
  constructor
  · intro h
    constructor
    · apply Nat.eq_of_testBit_eq; intro i
      have := congrArg (fun x => x.testBit i) h
      simp at this; simp [this.1]
    · apply Nat.eq_of_testBit_eq; intro i
      have := congrArg (fun x => x.testBit i) h
      simp at this; simp [this.2]
  · rintro ⟨rfl, rfl⟩; rfl

theorem cow_or_w (x : Nat) :
    x &&& (PTE_COW ||| PTE_W) ≠ 0 ↔ (x &&& PTE_W ≠ 0 ∨ x &&& PTE_COW ≠ 0) := by
  rw [Nat.and_or_distrib_left, ne_eq, lor_eq_zero_iff]
  constructor
  · intro h
    by_cases hw : x &&& PTE_W = 0
    · right; intro hc; exact h ⟨hc, hw⟩
    · left; exact hw
  · rintro (h | h) ⟨h1, h2⟩
    · exact h h2
    · exact h h1

theorem dupperm_eq (x : Nat) :
    dupperm x = if x &&& PTE_W ≠ 0 ∨ x &&& PTE_COW ≠ 0 then PTE_U ||| PTE_P ||| PTE_COW
      else PTE_U ||| PTE_P := by
  unfold dupperm
  by_cases h : x &&& (PTE_COW ||| PTE_W) ≠ 0
  · rw [if_pos h, if_pos ((cow_or_w x).mp h)]
  · rw [if_neg h, if_neg (fun h2 => h ((cow_or_w x).mpr h2))]

theorem dupperm_not_w (x : Nat) : dupperm x &&& PTE_W = 0 := by
  unfold dupperm; split <;> decide

theorem dupperm_present (x : Nat) : dupperm x &&& PTE_P ≠ 0 := by
  unfold dupperm; split <;> decide

theorem dupperm_cow (x : Nat) :
    dupperm x &&& (PTE_COW ||| PTE_W) ≠ 0 ↔ x &&& (PTE_COW ||| PTE_W) ≠ 0 := by
  unfold dupperm
  by_cases h : x &&& (PTE_COW ||| PTE_W) ≠ 0
  · simp only [h, if_true, iff_true, ne_eq, not_false_eq_true]; decide
  · simp only [h, if_false, iff_false]; decide

theorem uvpt_of_mapping (L : Layout) (k : Kern) (pn : Nat) (m : Mapping)
    (h : k.mapping L k.cur pn = some m) : uvpt L k pn = m.perm := by
  unfold uvpt; rw [h]

theorem mapping_of_uvpt (L : Layout) (k : Kern) (pn : Nat) (h : uvpt L k pn ≠ 0) :
    ∃ m, k.mapping L k.cur pn = some m ∧ m.perm = uvpt L k pn := by
  unfold uvpt at h ⊢
  cases hm : k.mapping L k.cur pn with
  | none => simp [hm] at h
  | some m => exact ⟨m, rfl, rfl⟩

theorem ne_zero_of_and_ne_zero (x y : Nat) (h : x &&& y ≠ 0) : x ≠ 0 := by
  intro hx; subst hx; simp at h

theorem uvpt_after_map (L : Layout) (s : Int) (sva : Nat) (d : Int) (dva perm : Nat)
    (k : Kern) (pn : Nat) :
    uvpt L (sys_page_map L s sva d dva perm k).2 pn = uvpt L k pn ∨
    uvpt L (sys_page_map L s sva d dva perm k).2 pn = perm := by
  obtain ⟨hcur, -, -, -, -, hneg, hok⟩ := sys_page_map_obs L s sva d dva perm k
  unfold uvpt
  rw [hcur]
  by_cases hr : (sys_page_map L s sva d dva perm k).1 < 0
  · left; rw [Kern.mapping_congr L k _ (hneg hr)]
  · obtain ⟨-, sid, se, did, de, m, -, -, -, hmap⟩ := hok hr
    rw [hmap]
    by_cases hc : k.cur = did ∧ pn = PGNUM L dva
    · right; simp [hc]
    · left; simp only [hc, if_false]

/-- The test of `duppage` before its second request reads `uvpt[pn]` after the
first request; it comes out as it would have before it. -/
theorem duppage_retest (L : Layout) (envid : Int) (pn va : Nat) (k : Kern) :
    uvpt L (sys_page_map L 0 va envid va (dupperm (uvpt L k pn)) k).2 pn
        &&& (PTE_COW ||| PTE_W) ≠ 0 ↔
      uvpt L k pn &&& (PTE_COW ||| PTE_W) ≠ 0 := by
  rcases uvpt_after_map L 0 va envid va (dupperm (uvpt L k pn)) k pn with h | h
  · rw [h]
  · rw [h]; exact dupperm_cow _

/-! ## `duppage` -/

/-- C6.  `duppage` first asks for a mapping of the parent's page `pn` into `envid`
at the same address, with permission present and user-accessible, plus
copy-on-write exactly when the parent's entry has writable or copy-on-write, and
never writable.  When that request fails, `duppage` returns its error, has made no
other request and the mappings are as before.  When it succeeds and the parent's
entry had writable or copy-on-write, `duppage` asks to re-map the parent's own page
with the same permission and returns that request's error, or 0 when it succeeded;
when the entry had neither, no second request is made and `duppage` returns 0. -/
theorem duppage_requests (L : Layout) (envid : Int) (pn : Nat) (k : Kern) :
    let pte := uvpt L k pn
    let perm := if pte &&& PTE_W ≠ 0 ∨ pte &&& PTE_COW ≠ 0 then PTE_U ||| PTE_P ||| PTE_COW
      else PTE_U ||| PTE_P
    let va := (pn * L.PGSIZE) % 2 ^ 32
    let r1 := sys_page_map L 0 va envid va perm k
    let r2 := sys_page_map L 0 va 0 va perm r1.2
    perm &&& PTE_W = 0 ∧
    (r1.1 < 0 →
      duppage L envid pn k = r1 ∧
      (duppage L envid pn k).2.log = k.log ++ [Req.page_map 0 va envid va perm] ∧
      (duppage L envid pn k).2.envs = k.envs) ∧
    (¬ r1.1 < 0 → (pte &&& PTE_W ≠ 0 ∨ pte &&& PTE_COW ≠ 0) →
      (duppage L envid pn k).2.log =
        k.log ++ [Req.page_map 0 va envid va perm, Req.page_map 0 va 0 va perm] ∧
      (duppage L envid pn k).2 = r2.2 ∧
      (duppage L envid pn k).1 = (if r2.1 < 0 then r2.1 else 0)) ∧
    (¬ r1.1 < 0 → ¬ (pte &&& PTE_W ≠ 0 ∨ pte &&& PTE_COW ≠ 0) →
      duppage L envid pn k = (0, r1.2) ∧
      (duppage L envid pn k).2.log = k.log ++ [Req.page_map 0 va envid va perm]) := by
  intro pte perm va r1 r2
  have hperm : perm = dupperm (uvpt L k pn) := (dupperm_eq _).symm
  have hr1 : r1 = sys_page_map L 0 va envid va (dupperm (uvpt L k pn)) k := by
    show sys_page_map L 0 va envid va perm k = _
    rw [hperm]
  have hretest := duppage_retest L envid pn va k
  rw [← hr1] at hretest
  obtain ⟨-, -, hlog1, -, -, hneg1, -⟩ := sys_page_map_obs L 0 va envid va perm k
  obtain ⟨-, -, hlog2, -, -, -, -⟩ := sys_page_map_obs L 0 va 0 va perm r1.2
  have hd : duppage L envid pn k =
      if r1.1 < 0 then (r1.1, r1.2)
      else if uvpt L r1.2 pn &&& (PTE_COW ||| PTE_W) ≠ 0 then
        (if r2.1 < 0 then (r2.1, r2.2) else (0, r2.2))
      else (0, r1.2) := by
    show duppage L envid pn k =
      if (sys_page_map L 0 va envid va perm k).1 < 0 then _ else _
    unfold duppage
    simp only [← hperm]
  refine ⟨?_, ?_, ?_, ?_⟩
  · rw [hperm]; exact dupperm_not_w _
  · intro h
    rw [hd, if_pos h]
    exact ⟨rfl, hlog1, hneg1 h⟩
  · intro h hc
    have hc2 := hretest.mpr ((cow_or_w _).mpr hc)
    rw [hd, if_neg h, if_pos hc2]
    by_cases h2 : r2.1 < 0
    · simp only [h2, if_true]
      refine ⟨?_, trivial, trivial⟩
      rw [hlog2, hlog1]; simp
    · simp only [h2, if_false]
      refine ⟨?_, trivial, trivial⟩
      rw [hlog2, hlog1]; simp
  · intro h hc
    have hc2 : ¬ (uvpt L r1.2 pn &&& (PTE_COW ||| PTE_W) ≠ 0) :=
      fun h2 => hc ((cow_or_w _).mp (hretest.mp h2))
    rw [hd, if_neg h, if_neg hc2]
    exact ⟨rfl, hlog1⟩

theorem duppage_unfold (L : Layout) (envid : Int) (pn : Nat) (k : Kern) :
    duppage L envid pn k =
      if (sys_page_map L 0 ((pn * L.PGSIZE) % 2 ^ 32) envid ((pn * L.PGSIZE) % 2 ^ 32)
            (dupperm (uvpt L k pn)) k).1 < 0 then
        sys_page_map L 0 ((pn * L.PGSIZE) % 2 ^ 32) envid ((pn * L.PGSIZE) % 2 ^ 32)
            (dupperm (uvpt L k pn)) k
      else if uvpt L k pn &&& (PTE_COW ||| PTE_W) ≠ 0 then
        (if (sys_page_map L 0 ((pn * L.PGSIZE) % 2 ^ 32) 0 ((pn * L.PGSIZE) % 2 ^ 32)
              (dupperm (uvpt L k pn))
              (sys_page_map L 0 ((pn * L.PGSIZE) % 2 ^ 32) envid ((pn * L.PGSIZE) % 2 ^ 32)
                (dupperm (uvpt L k pn)) k).2).1 < 0 then
          sys_page_map L 0 ((pn * L.PGSIZE) % 2 ^ 32) 0 ((pn * L.PGSIZE) % 2 ^ 32)
              (dupperm (uvpt L k pn))
              (sys_page_map L 0 ((pn * L.PGSIZE) % 2 ^ 32) envid ((pn * L.PGSIZE) % 2 ^ 32)
                (dupperm (uvpt L k pn)) k).2
         else
          (0, (sys_page_map L 0 ((pn * L.PGSIZE) % 2 ^ 32) 0 ((pn * L.PGSIZE) % 2 ^ 32)
              (dupperm (uvpt L k pn))
              (sys_page_map L 0 ((pn * L.PGSIZE) % 2 ^ 32) envid ((pn * L.PGSIZE) % 2 ^ 32)
                (dupperm (uvpt L k pn)) k).2).2))
      else (0, (sys_page_map L 0 ((pn * L.PGSIZE) % 2 ^ 32) envid ((pn * L.PGSIZE) % 2 ^ 32)
            (dupperm (uvpt L k pn)) k).2) := by
  have hre := duppage_retest L envid pn ((pn * L.PGSIZE) % 2 ^ 32) k
  unfold duppage
  dsimp only
  generalize sys_page_map L 0 ((pn * L.PGSIZE) % 2 ^ 32) envid ((pn * L.PGSIZE) % 2 ^ 32)
    (dupperm (uvpt L k pn)) k = r1 at hre ⊢
  obtain ⟨r, k1⟩ := r1
  dsimp only at hre ⊢
  generalize sys_page_map L 0 ((pn * L.PGSIZE) % 2 ^ 32) 0 ((pn * L.PGSIZE) % 2 ^ 32)
    (dupperm (uvpt L k pn)) k1 = r2
  obtain ⟨r', k2⟩ := r2
  dsimp only
  by_cases h : uvpt L k pn &&& (PTE_COW ||| PTE_W) ≠ 0
  · rw [if_pos (hre.mpr h), if_pos h]
  · rw [if_neg (fun h2 => h (hre.mp h2)), if_neg h]

/-- What `duppage` does to the observable state, for a page whose address fits a
32-bit pointer. -/
theorem duppage_obs (L : Layout) (envid : Int) (pn : Nat) (k : Kern)
    (hpn : PGNUM L ((pn * L.PGSIZE) % 2 ^ 32) = pn) :
    (duppage L envid pn k).2.cur = k.cur ∧
    (duppage L envid pn k).2.mem = k.mem ∧
    (∀ id q, q ≠ pn → (duppage L envid pn k).2.mapping L id q = k.mapping L id q) ∧
    (∀ id q, id ≠ k.cur → id ≠ (if envid = 0 then k.cur else envid.toNat) →
      (duppage L envid pn k).2.mapping L id q = k.mapping L id q) ∧
    (∀ id i, k.pde id i = true → (duppage L envid pn k).2.pde id i = true) ∧
    ((duppage L envid pn k).2.log =
        k.log ++ [Req.page_map 0 ((pn * L.PGSIZE) % 2 ^ 32) envid ((pn * L.PGSIZE) % 2 ^ 32)
          (dupperm (uvpt L k pn))] ∨
     (uvpt L k pn &&& (PTE_COW ||| PTE_W) ≠ 0 ∧
      (duppage L envid pn k).2.log =
        k.log ++ [Req.page_map 0 ((pn * L.PGSIZE) % 2 ^ 32) envid ((pn * L.PGSIZE) % 2 ^ 32)
            (dupperm (uvpt L k pn)),
          Req.page_map 0 ((pn * L.PGSIZE) % 2 ^ 32) 0 ((pn * L.PGSIZE) % 2 ^ 32)
            (dupperm (uvpt L k pn))])) ∧
    (¬ (duppage L envid pn k).1 < 0 →
      (duppage L envid pn k).1 = 0 ∧
      ∃ m did de, k.mapping L k.cur pn = some m ∧ k.envid2env envid = some (did, de) ∧
        (duppage L envid pn k).2.mapping L did pn =
          some { frame := m.frame, perm := dupperm m.perm } ∧
        (did ≠ k.cur → (duppage L envid pn k).2.mapping L k.cur pn =
          some { frame := m.frame,
                 perm := if m.perm &&& (PTE_COW ||| PTE_W) ≠ 0 then dupperm m.perm
                         else m.perm })) := by
  rw [duppage_unfold]
  generalize hva : (pn * L.PGSIZE) % 2 ^ 32 = va at hpn ⊢
  generalize hperm : dupperm (uvpt L k pn) = perm
  obtain ⟨hcur1, hmem1, hlog1, -, hpde1, hneg1, hok1⟩ := sys_page_map_obs L 0 va envid va perm k
  generalize hr1 : sys_page_map L 0 va envid va perm k = r1 at hcur1 hmem1 hlog1 hpde1 hneg1 hok1 ⊢
  obtain ⟨hcur2, hmem2, hlog2, -, hpde2, hneg2, hok2⟩ := sys_page_map_obs L 0 va 0 va perm r1.2
  generalize hr2 : sys_page_map L 0 va 0 va perm r1.2 = r2 at hcur2 hmem2 hlog2 hpde2 hneg2 hok2 ⊢
  have hframe1 : ¬ r1.1 < 0 → ∀ id q, q ≠ pn → r1.2.mapping L id q = k.mapping L id q := by
    intro h id q hq
    obtain ⟨-, sid, se, did, de, m, -, -, -, hmap⟩ := hok1 h
    rw [hmap, hpn]
    simp [hq]
  have hframe1n : r1.1 < 0 → ∀ id q, r1.2.mapping L id q = k.mapping L id q :=
    fun h id q => Kern.mapping_congr L k _ (hneg1 h) id q
  have hframe2 : ∀ id q, q ≠ pn → r2.2.mapping L id q = r1.2.mapping L id q := by
    intro id q hq
    by_cases h : r2.1 < 0
    · exact Kern.mapping_congr L _ _ (hneg2 h) id q
    · obtain ⟨-, sid, se, did, de, m, -, -, -, hmap⟩ := hok2 h
      rw [hmap, hpn]
      simp [hq]
  have hid1 : ∀ id q, id ≠ (if envid = 0 then k.cur else envid.toNat) →
      r1.2.mapping L id q = k.mapping L id q := by
    intro id q hid
    by_cases h : r1.1 < 0
    · exact hframe1n h id q
    · obtain ⟨-, sid, se, did, de, m, -, hd, -, hmap⟩ := hok1 h
      have hdid := (Kern.envid2env_some k envid did de hd).2.1
      rw [hmap, if_neg (fun hh => hid (hh.1.trans hdid))]
  have hid2 : ∀ id q, id ≠ k.cur → r2.2.mapping L id q = r1.2.mapping L id q := by
    intro id q hid
    by_cases h : r2.1 < 0
    · exact Kern.mapping_congr L _ _ (hneg2 h) id q
    · obtain ⟨-, sid, se, did, de, m, -, hd, -, hmap⟩ := hok2 h
      have hdid := (Kern.envid2env_some r1.2 0 did de hd).2.1
      simp only [if_true] at hdid
      rw [hmap, if_neg (fun hh => hid (hh.1.trans (hdid.trans hcur1)))]
  by_cases h1 : r1.1 < 0
  · rw [if_pos h1]
    refine ⟨hcur1, hmem1, fun id q _ => hframe1n h1 id q, fun id q _ h => hid1 id q h, hpde1,
      Or.inl hlog1, fun h => absurd h1 h⟩
  · rw [if_neg h1]
    obtain ⟨-, sid, se, did, de, m, hs, hd, hm, hmap⟩ := hok1 h1
    have hsid : sid = k.cur := by
      have := (Kern.envid2env_some k 0 sid se hs).2.1
      simpa using this
    rw [hsid, hpn] at hm
    rw [hpn] at hmap
    have hu : uvpt L k pn = m.perm := uvpt_of_mapping L k pn m hm
    have hperm2 : perm = dupperm m.perm := by rw [← hperm, hu]
    have hr1did : r1.2.mapping L did pn = some { frame := m.frame, perm := perm } := by
      rw [hmap, if_pos ⟨rfl, rfl⟩]
    have hr1cur : did ≠ k.cur → r1.2.mapping L k.cur pn = some m := by
      intro hdc
      rw [hmap, if_neg (fun h => hdc h.1.symm)]
      exact hm
    have hr1frame : ∀ m2, r1.2.mapping L k.cur pn = some m2 → m2.frame = m.frame := by
      intro m2 h2
      rw [hmap] at h2
      by_cases hdc : k.cur = did
      · rw [if_pos ⟨hdc, rfl⟩] at h2
        cases h2; rfl
      · rw [if_neg (fun h => hdc h.1), hm] at h2
        cases h2; rfl
    by_cases hc : uvpt L k pn &&& (PTE_COW ||| PTE_W) ≠ 0
    · rw [if_pos hc]
      have hlog : r2.2.log =
          k.log ++ [Req.page_map 0 va envid va perm, Req.page_map 0 va 0 va perm] := by
        rw [hlog2, hlog1]; simp
      have hcommon : r2.2.cur = k.cur ∧ r2.2.mem = k.mem ∧
          (∀ id q, q ≠ pn → r2.2.mapping L id q = k.mapping L id q) ∧
          (∀ id q, id ≠ k.cur → id ≠ (if envid = 0 then k.cur else envid.toNat) →
            r2.2.mapping L id q = k.mapping L id q) ∧
          (∀ id i, k.pde id i = true → r2.2.pde id i = true) ∧
          (r2.2.log = k.log ++ [Req.page_map 0 va envid va perm] ∨
            (uvpt L k pn &&& (PTE_COW ||| PTE_W) ≠ 0 ∧ r2.2.log =
              k.log ++ [Req.page_map 0 va envid va perm, Req.page_map 0 va 0 va perm])) :=
        ⟨hcur2.trans hcur1, hmem2.trans hmem1,
          fun id q hq => (hframe2 id q hq).trans (hframe1 h1 id q hq),
          fun id q ha hb => (hid2 id q ha).trans (hid1 id q hb),
          fun id i hp => hpde2 id i (hpde1 id i hp), Or.inr ⟨hc, hlog⟩⟩
      by_cases h2 : r2.1 < 0
      · rw [if_pos h2]
        exact ⟨hcommon.1, hcommon.2.1, hcommon.2.2.1, hcommon.2.2.2.1, hcommon.2.2.2.2.1,
          hcommon.2.2.2.2.2, fun h => absurd h2 h⟩
      · rw [if_neg h2]
        obtain ⟨-, sid2, se2, did2, de2, m2, hs2, hd2, hm2, hmap2⟩ := hok2 h2
        have hsid2 : sid2 = k.cur := by
          have := (Kern.envid2env_some r1.2 0 sid2 se2 hs2).2.1
          simpa [hcur1] using this
        have hdid2 : did2 = k.cur := by
          have := (Kern.envid2env_some r1.2 0 did2 de2 hd2).2.1
          simpa [hcur1] using this
        rw [hsid2, hpn] at hm2
        rw [hpn, hdid2] at hmap2
        have hf := hr1frame m2 hm2
        refine ⟨hcommon.1, hcommon.2.1, hcommon.2.2.1, hcommon.2.2.2.1, hcommon.2.2.2.2.1,
          hcommon.2.2.2.2.2, fun _ => ⟨rfl, m, did, de, hm, hd, ?_, ?_⟩⟩
        · show r2.2.mapping L did pn = _
          rw [hmap2]
          by_cases hdc : did = k.cur
          · rw [if_pos ⟨hdc, rfl⟩, hf, hperm2]
          · rw [if_neg (fun h => hdc h.1), hr1did, hperm2]
        · intro _
          show r2.2.mapping L k.cur pn = _
          rw [hu] at hc
          rw [hmap2, if_pos ⟨rfl, rfl⟩, hf, hperm2, if_pos hc]
    · rw [if_neg hc]
      refine ⟨hcur1, hmem1, hframe1 h1, fun id q _ h => hid1 id q h, hpde1, Or.inl hlog1,
        fun _ => ⟨rfl, m, did, de, hm, hd, ?_, ?_⟩⟩
      · show r1.2.mapping L did pn = _
        rw [hr1did, hperm2]
      · intro hdc
        show r1.2.mapping L k.cur pn = _
        rw [hu] at hc
        rw [hr1cur hdc, if_neg hc]

/-! ## The page walks -/

theorem forkWalk_eq (L : Layout) (envid : Int) (fuel pn : Nat) (k : Kern) :
    forkWalk L envid fuel pn k = walkWith L (forkBody L envid) fuel pn k := by
  induction fuel generalizing pn k with
  | zero => rfl
  | succ f ih =>
    unfold forkWalk walkWith
    by_cases h1 : pn < PGNUM L L.UTOP
    · rw [if_pos h1, if_pos h1]
      by_cases h2 : uvpd k (pn / L.NPTENTRIES) &&& PTE_P = 0
      · rw [if_pos h2, if_pos h2]; exact ih _ _
      · rw [if_neg h2, if_neg h2]
        simp only [forkBody]
        by_cases h3 : uvpt L k pn &&& PTE_P = 0
        · rw [if_pos h3, if_pos h3]; exact ih _ _
        · rw [if_neg h3, if_neg h3]
          by_cases h4 : (pn * L.PGSIZE) % 2 ^ 32 = L.UXSTACKTOP - L.PGSIZE
          · rw [if_pos h4, if_pos h4]
            by_cases h5 : (sys_page_alloc L envid ((pn * L.PGSIZE) % 2 ^ 32)
                (PTE_U ||| PTE_W ||| PTE_P) k).1 < 0
            · rw [if_pos h5, if_pos h5]
            · rw [if_neg h5, if_neg h5]; exact ih _ _
          · rw [if_neg h4, if_neg h4]
            by_cases h5 : (duppage L envid pn k).1 < 0
            · rw [if_pos h5, if_pos h5]
            · rw [if_neg h5, if_neg h5]; exact ih _ _
    · rw [if_neg h1, if_neg h1]

theorem sforkWalk_eq (L : Layout) (envid : Int) (fuel pn : Nat) (k : Kern) :
    sforkWalk L envid fuel pn k = walkWith L (sforkBody L envid) fuel pn k := by
  induction fuel generalizing pn k with
  | zero => rfl
  | succ f ih =>
    unfold sforkWalk walkWith
    by_cases h1 : pn < PGNUM L L.UTOP
    · rw [if_pos h1, if_pos h1]
      by_cases h2 : uvpd k (pn / L.NPTENTRIES) &&& PTE_P = 0
      · rw [if_pos h2, if_pos h2]; exact ih _ _
      · rw [if_neg h2, if_neg h2]
        simp only [sforkBody]
        by_cases h3 : (uvpt L k pn &&& PTE_SYSCALL) &&& PTE_P = 0
        · rw [if_pos h3, if_pos h3]; exact ih _ _
        · rw [if_neg h3, if_neg h3]
          by_cases h4 : (pn * L.PGSIZE) % 2 ^ 32 = L.UXSTACKTOP - L.PGSIZE
          · rw [if_pos h4, if_pos h4]
            by_cases h5 : (sys_page_alloc L envid ((pn * L.PGSIZE) % 2 ^ 32)
                (PTE_U ||| PTE_W ||| PTE_P) k).1 < 0
            · rw [if_pos h5, if_pos h5]
            · rw [if_neg h5, if_neg h5]; exact ih _ _
          · rw [if_neg h4, if_neg h4]
            by_cases h6 : (pn * L.PGSIZE) % 2 ^ 32 = L.USTACKTOP - L.PGSIZE
            · rw [if_pos h6, if_pos h6]
              by_cases h5 : (duppage L envid pn k).1 < 0
              · rw [if_pos h5, if_pos h5]
              · rw [if_neg h5, if_neg h5]; exact ih _ _
            · rw [if_neg h6, if_neg h6]
              by_cases h5 : (sys_page_map L 0 ((pn * L.PGSIZE) % 2 ^ 32) envid
                  ((pn * L.PGSIZE) % 2 ^ 32) (uvpt L k pn &&& PTE_SYSCALL) k).1 < 0
              · rw [if_pos h5, if_pos h5]
              · rw [if_neg h5, if_neg h5]; exact ih _ _
    · rw [if_neg h1, if_neg h1]

theorem div_eq_of_aligned {n pn q : Nat} (ha : pn % n = 0) (h1 : pn ≤ q)
    (h2 : q < pn + n) : q / n = pn / n := by
  have hpn : pn / n * n = pn := Nat.div_mul_cancel (Nat.dvd_of_mod_eq_zero ha)
  apply Nat.div_eq_of_lt_le
  · rw [hpn]; exact h1
  · rw [Nat.succ_mul, hpn]; exact h2

theorem succ_div_of_not_aligned {n pn : Nat} (h : (pn + 1) % n ≠ 0) :
    (pn + 1) / n = pn / n := by
  rw [Nat.succ_div]
  have : ¬ n ∣ pn + 1 := fun hd => h (Nat.mod_eq_zero_of_dvd hd)
  simp [this]

theorem add_mod_of_aligned {n pn : Nat} (ha : pn % n = 0) : (pn + n) % n = 0 := by
  rw [Nat.add_mod_right]; exact ha

/-- The page walk, run with enough fuel from an aligned page index: it ends, leaves
every page below its start alone, and when it reaches `PGNUM(UTOP)` it has run
`body` exactly on each page whose directory entry is present, on a state in which
that page and the pages above it were still as at the start. -/
theorem walkWith_spec (L : Layout) (hL : L.WF) (body : Nat → Kern → Option Outcome × Kern)
    (cur0 : Nat) (R : Kern → Kern → Prop) (hrefl : ∀ k, R k k)
    (htrans : ∀ a b c, R a b → R b c → R a c)
    (hbody : ∀ pn k, pn < PGNUM L L.UTOP → k.cur = cur0 →
      ((body pn k).1 = none → R k (body pn k).2) ∧ (body pn k).2.cur = k.cur ∧
      (∀ id q, q ≠ pn → (body pn k).2.mapping L id q = k.mapping L id q) ∧
      (∀ id i, k.pde id i = true → (body pn k).2.pde id i = true) ∧
      (body pn k).1 ≠ some Outcome.nofuel) :
    ∀ fuel pn k, PGNUM L L.UTOP - pn < fuel → k.cur = cur0 →
      (pn % L.NPTENTRIES = 0 ∨ k.pde k.cur (pn / L.NPTENTRIES) = true) →
      ((walkWith L body fuel pn k).1 = none → R k (walkWith L body fuel pn k).2) ∧
      (walkWith L body fuel pn k).2.cur = k.cur ∧
      (∀ id q, q < pn → (walkWith L body fuel pn k).2.mapping L id q = k.mapping L id q) ∧
      (∀ id i, k.pde id i = true → (walkWith L body fuel pn k).2.pde id i = true) ∧
      (walkWith L body fuel pn k).1 ≠ some Outcome.nofuel ∧
      (∀ o, (walkWith L body fuel pn k).1 = some o →
        ∃ q kq, q < PGNUM L L.UTOP ∧ R k kq ∧ kq.cur = k.cur ∧
          body q kq = (some o, (walkWith L body fuel pn k).2)) ∧
      ((walkWith L body fuel pn k).1 = none →
        ∀ q, pn ≤ q → q < PGNUM L L.UTOP → k.pde k.cur (q / L.NPTENTRIES) = true →
          ∃ kq, R k kq ∧ kq.cur = k.cur ∧
            (∀ id p, q ≤ p → kq.mapping L id p = k.mapping L id p) ∧
            (body q kq).1 = none ∧
            ∀ id, (walkWith L body fuel pn k).2.mapping L id q =
              (body q kq).2.mapping L id q) := by
  obtain ⟨hP, hN, -, hwrap, -, -, -⟩ := hL
  intro fuel
  induction fuel with
  | zero => intro pn k hf; omega
  | succ f ih =>
    intro pn k hf hk0 hal
    unfold walkWith
    by_cases h1 : pn < PGNUM L L.UTOP
    · rw [if_pos h1]
      have hlt : pn < L.UTOP / L.PGSIZE := h1
      by_cases h2 : uvpd k (pn / L.NPTENTRIES) &&& PTE_P = 0
      · rw [if_pos h2]
        have hnp : ¬ (k.pde k.cur (pn / L.NPTENTRIES) = true) :=
          fun hp => ((uvpd_present k _).mpr hp) h2
        have ha : pn % L.NPTENTRIES = 0 := hal.resolve_right hnp
        have hnext : (pn + (L.NPTENTRIES - 1) + 1) % 2 ^ 32 = pn + L.NPTENTRIES := by
          rw [Nat.mod_eq_of_lt (by omega)]; omega
        rw [hnext]
        obtain ⟨i1, i2, i3, i4, i5, i6, i7⟩ :=
          ih (pn + L.NPTENTRIES) k (by omega) hk0 (Or.inl (add_mod_of_aligned ha))
        refine ⟨i1, i2, fun id q hq => i3 id q (by omega), i4, i5, i6, ?_⟩
        intro hnone q hq1 hq2 hpde
        by_cases hq3 : q < pn + L.NPTENTRIES
        · rw [div_eq_of_aligned ha hq1 hq3] at hpde
          exact absurd hpde hnp
        · exact i7 hnone q (by omega) hq2 hpde
      · rw [if_neg h2]
        have hp : k.pde k.cur (pn / L.NPTENTRIES) = true := by
          by_contra hc
          exact h2 (by
            by_contra h3
            exact hc ((uvpd_present k _).mp h3))
        obtain ⟨b1, b2, b3, b4, b5⟩ := hbody pn k h1 hk0
        rcases hb : body pn k with ⟨o, k1⟩
        rw [hb] at b1 b2 b3 b4 b5
        dsimp only at b1 b2 b3 b4 b5
        cases o with
        | some o =>
          dsimp only
          refine ⟨(fun h => by cases h), b2, fun id q hq => b3 id q (by omega), b4, b5, ?_, ?_⟩
          · intro o2 ho
            cases ho
            exact ⟨pn, k, h1, hrefl k, rfl, by rw [hb]⟩
          · intro hnone; cases hnone
        | none =>
          dsimp only
          have hnext : (pn + 1) % 2 ^ 32 = pn + 1 := Nat.mod_eq_of_lt (by omega)
          rw [hnext]
          have hal1 : (pn + 1) % L.NPTENTRIES = 0 ∨
              k1.pde k1.cur ((pn + 1) / L.NPTENTRIES) = true := by
            by_cases hm : (pn + 1) % L.NPTENTRIES = 0
            · exact Or.inl hm
            · right
              rw [succ_div_of_not_aligned hm, b2]
              exact b4 _ _ hp
          obtain ⟨i1, i2, i3, i4, i5, i6, i7⟩ := ih (pn + 1) k1 (by omega) (b2.trans hk0) hal1
          have b1 := b1 rfl
          refine ⟨fun h => htrans _ _ _ b1 (i1 h), i2.trans b2, ?_,
            fun id i h => i4 id i (b4 id i h), i5, ?_, ?_⟩
          · intro id q hq
            rw [i3 id q (by omega)]
            exact b3 id q (by omega)
          · intro o2 ho
            obtain ⟨q, kq, hq, hR, hc, hbq⟩ := i6 o2 ho
            exact ⟨q, kq, hq, htrans _ _ _ b1 hR, hc.trans b2, hbq⟩
          · intro hnone q hq1 hq2 hpde
            by_cases hq3 : q = pn
            · subst hq3
              refine ⟨k, hrefl k, rfl, fun _ _ _ => rfl, by rw [hb], ?_⟩
              intro id
              rw [i3 id q (by omega), hb]
            · have hpde1 : k1.pde k1.cur (q / L.NPTENTRIES) = true := by
                rw [b2]; exact b4 _ _ hpde
              obtain ⟨kq, hR, hc, hsame, hbn, hfin⟩ := i7 hnone q (by omega) hq2 hpde1
              refine ⟨kq, htrans _ _ _ b1 hR, hc.trans b2, ?_, hbn, hfin⟩
              intro id p hp2
              rw [hsame id p hp2]
              exact b3 id p (by omega)
    · rw [if_neg h1]
      refine ⟨fun _ => hrefl k, rfl, fun _ _ _ => rfl, fun _ _ h => h, by simp, ?_, ?_⟩
      · intro o ho; cases ho
      · intro _ q hq1 hq2; omega

/-- A page below `UTOP`: its address fits a 32-bit pointer, is page-aligned and
below `UTOP`, and has the page's index. -/
theorem va_of_pn (L : Layout) (hL : L.WF) (pn : Nat) (h : pn < PGNUM L L.UTOP) :
    (pn * L.PGSIZE) % 2 ^ 32 = pn * L.PGSIZE ∧ PGNUM L (pn * L.PGSIZE) = pn ∧
    pn * L.PGSIZE < L.UTOP ∧ (pn * L.PGSIZE) % L.PGSIZE = 0 := by
  obtain ⟨hP, -, hU, -, -, -, -⟩ := hL
  have h1 : (pn + 1) * L.PGSIZE ≤ L.UTOP := (Nat.le_div_iff_mul_le hP).mp h
  have h2 : pn * L.PGSIZE < L.UTOP := by
    rw [Nat.succ_mul] at h1; omega
  refine ⟨Nat.mod_eq_of_lt (by omega), ?_, h2, Nat.mul_mod_left _ _⟩
  unfold PGNUM
  exact Nat.mul_div_cancel _ hP

/-- The exception-stack page lies below `UTOP`. -/
theorem xstack_pn (L : Layout) (hL : L.WF) :
    PGNUM L (L.UXSTACKTOP - L.PGSIZE) < PGNUM L L.UTOP ∧
    PGNUM L (L.UXSTACKTOP - L.PGSIZE) * L.PGSIZE = L.UXSTACKTOP - L.PGSIZE := by
  obtain ⟨hP, -, -, -, hle, hx, hal⟩ := hL
  obtain ⟨c, hc⟩ := Nat.dvd_of_mod_eq_zero hal
  have hc1 : 1 ≤ c := by
    rcases Nat.eq_zero_or_pos c with h0 | h0
    · subst h0; omega
    · exact h0
  have hsub : L.UXSTACKTOP - L.PGSIZE = (c - 1) * L.PGSIZE := by
    rw [Nat.sub_mul, Nat.one_mul, Nat.mul_comm c, ← hc]
  have hdiv : PGNUM L (L.UXSTACKTOP - L.PGSIZE) = c - 1 := by
    unfold PGNUM; rw [hsub]; exact Nat.mul_div_cancel _ hP
  refine ⟨?_, by rw [hdiv, hsub]⟩
  rw [hdiv]
  unfold PGNUM
  have : c ≤ L.UTOP / L.PGSIZE := by
    apply (Nat.le_div_iff_mul_le hP).mpr
    rw [Nat.mul_comm, ← hc]; exact hx
  omega

theorem WalkRel.refl (L : Layout) (c xva : Nat) (k : Kern) : WalkRel L c xva k k :=
  ⟨⟨[], by simp, fun r hr => by cases hr⟩, fun _ _ m _ h => ⟨m, h, rfl⟩, fun _ h => h⟩

theorem WalkRel.trans (L : Layout) (c xva : Nat) (a b d : Kern)
    (h1 : WalkRel L c xva a b) (h2 : WalkRel L c xva b d) : WalkRel L c xva a d := by
  obtain ⟨⟨r1, hl1, hp1⟩, hf1, hc1⟩ := h1
  obtain ⟨⟨r2, hl2, hp2⟩, hf2, hc2⟩ := h2
  refine ⟨⟨r1 ++ r2, by rw [hl2, hl1, List.append_assoc], ?_⟩, ?_, fun p h => hc1 p (hc2 p h)⟩
  · intro r hr
    rcases List.mem_append.mp hr with h | h
    · exact hp1 r h
    · refine ⟨(hp2 r h).1, fun s sva dva perm hr2 => ?_⟩
      obtain ⟨p, hp, hd, hu⟩ := (hp2 r h).2 s sva dva perm hr2
      exact ⟨p, hp, hd, hc1 p hu⟩
  · intro id p m hid hm
    obtain ⟨m1, hm1, hfr1⟩ := hf1 id p m hid hm
    obtain ⟨m2, hm2, hfr2⟩ := hf2 id p m1 hid hm1
    exact ⟨m2, hm2, hfr2.trans hfr1⟩

theorem forkBody_unfold (L : Layout) (envid : Int) (pn : Nat) (k : Kern) :
    forkBody L envid pn k =
      if uvpt L k pn &&& PTE_P = 0 then (none, k)
      else if (pn * L.PGSIZE) % 2 ^ 32 = L.UXSTACKTOP - L.PGSIZE then
        (if (sys_page_alloc L envid ((pn * L.PGSIZE) % 2 ^ 32)
              (PTE_U ||| PTE_W ||| PTE_P) k).1 < 0 then
          (some (Outcome.panic "sys_page_alloc: %e"
            (sys_page_alloc L envid ((pn * L.PGSIZE) % 2 ^ 32)
              (PTE_U ||| PTE_W ||| PTE_P) k).1),
           (sys_page_alloc L envid ((pn * L.PGSIZE) % 2 ^ 32) (PTE_U ||| PTE_W ||| PTE_P) k).2)
         else
          (none,
           (sys_page_alloc L envid ((pn * L.PGSIZE) % 2 ^ 32) (PTE_U ||| PTE_W ||| PTE_P) k).2))
      else
        (if (duppage L envid pn k).1 < 0 then
          (some (Outcome.panic "duppage: %e" (duppage L envid pn k).1), (duppage L envid pn k).2)
         else (none, (duppage L envid pn k).2)) := by
  simp only [forkBody]

/-- One allocation of a page for the child `envid` at page `pn`, as the walks make
it for the exception stack. -/
theorem alloc_step (L : Layout) (hL : L.WF) (envid : Int) (hpos : 0 < envid) (perm pn : Nat)
    (k : Kern) (hne : envid.toNat ≠ k.cur) (hpn : pn < PGNUM L L.UTOP) (xva : Nat) :
    (sys_page_alloc L envid ((pn * L.PGSIZE) % 2 ^ 32) perm k).2.cur = k.cur ∧
    (∀ id q, q ≠ pn →
      (sys_page_alloc L envid ((pn * L.PGSIZE) % 2 ^ 32) perm k).2.mapping L id q =
        k.mapping L id q) ∧
    (∀ id q, id ≠ envid.toNat →
      (sys_page_alloc L envid ((pn * L.PGSIZE) % 2 ^ 32) perm k).2.mapping L id q =
        k.mapping L id q) ∧
    (∀ id i, k.pde id i = true →
      (sys_page_alloc L envid ((pn * L.PGSIZE) % 2 ^ 32) perm k).2.pde id i = true) ∧
    WalkRel L envid.toNat xva k (sys_page_alloc L envid ((pn * L.PGSIZE) % 2 ^ 32) perm k).2 ∧
    (¬ (sys_page_alloc L envid ((pn * L.PGSIZE) % 2 ^ 32) perm k).1 < 0 →
      (sys_page_alloc L envid ((pn * L.PGSIZE) % 2 ^ 32) perm k).2.mapping L envid.toNat pn =
        some { frame := k.freshFrame, perm := perm }) := by
  obtain ⟨hva, hpg, -, -⟩ := va_of_pn L hL pn hpn
  rw [hva]
  obtain ⟨hcur, hlog, -, hpde, hneg, hok⟩ := sys_page_alloc_obs L envid (pn * L.PGSIZE) perm k
  have hmap : ∀ id q, (q ≠ pn ∨ id ≠ envid.toNat) →
      (sys_page_alloc L envid (pn * L.PGSIZE) perm k).2.mapping L id q = k.mapping L id q := by
    intro id q hq
    by_cases h : (sys_page_alloc L envid (pn * L.PGSIZE) perm k).1 < 0
    · exact Kern.mapping_congr L k _ (hneg h).1 id q
    · obtain ⟨-, -, did, de, hd, -, -, hm⟩ := hok h
      have hdid := (Kern.envid2env_some k envid did de hd).2.1
      rw [if_neg (by omega)] at hdid
      rw [hm, hpg, hdid]
      rw [if_neg]
      rintro ⟨h1, h2⟩
      rcases hq with hq | hq
      · exact hq h2
      · exact hq h1
  refine ⟨hcur, fun id q hq => hmap id q (Or.inl hq), fun id q hq => hmap id q (Or.inr hq),
    hpde, ⟨⟨_, hlog, ?_⟩, ?_, ?_⟩, ?_⟩
  · intro r hr
    simp only [List.mem_singleton] at hr
    subst hr
    exact ⟨rfl, fun s sva dva perm2 h => by cases h⟩
  · intro id p m hid hm
    exact ⟨m, by rw [hmap id p (Or.inr hid)]; exact hm, rfl⟩
  · intro p hp
    have : uvpt L (sys_page_alloc L envid (pn * L.PGSIZE) perm k).2 p = uvpt L k p := by
      unfold uvpt
      rw [hcur, hmap k.cur p (Or.inr (fun h => hne h.symm))]
    rw [← this]; exact hp
  · intro h
    obtain ⟨-, -, did, de, hd, -, -, hm⟩ := hok h
    have hdid := (Kern.envid2env_some k envid did de hd).2.1
    rw [if_neg (by omega)] at hdid
    rw [hm, hpg, hdid, if_pos ⟨rfl, rfl⟩]

/-- One `duppage` of page `pn` for the child `envid`, as the walks make it. -/
theorem duppage_step (L : Layout) (hL : L.WF) (envid : Int) (hpos : 0 < envid) (pn : Nat)
    (k : Kern) (hne : envid.toNat ≠ k.cur) (hpn : pn < PGNUM L L.UTOP) (xva : Nat)
    (hx : (pn * L.PGSIZE) % 2 ^ 32 ≠ xva) :
    (duppage L envid pn k).2.cur = k.cur ∧
    (∀ id q, q ≠ pn → (duppage L envid pn k).2.mapping L id q = k.mapping L id q) ∧
    (∀ id i, k.pde id i = true → (duppage L envid pn k).2.pde id i = true) ∧
    (¬ (duppage L envid pn k).1 < 0 →
      WalkRel L envid.toNat xva k (duppage L envid pn k).2 ∧
      ∃ m, k.mapping L k.cur pn = some m ∧
        (duppage L envid pn k).2.mapping L envid.toNat pn =
          some { frame := m.frame, perm := dupperm m.perm } ∧
        (duppage L envid pn k).2.mapping L k.cur pn =
          some { frame := m.frame,
                 perm := if m.perm &&& (PTE_COW ||| PTE_W) ≠ 0 then dupperm m.perm
                         else m.perm }) := by
  obtain ⟨hva, hpg, -, -⟩ := va_of_pn L hL pn hpn
  have hpn2 : PGNUM L ((pn * L.PGSIZE) % 2 ^ 32) = pn := by rw [hva]; exact hpg
  obtain ⟨hcur, -, hfr, hid, hpde, hlog, hok⟩ := duppage_obs L envid pn k hpn2
  refine ⟨hcur, hfr, hpde, fun h => ?_⟩
  obtain ⟨-, m, did, de, hm, hd, hmc, hmp⟩ := hok h
  have hdid := (Kern.envid2env_some k envid did de hd).2.1
  rw [if_neg (by omega)] at hdid
  subst hdid
  have hmp2 := hmp hne
  have hu : uvpt L k pn = m.perm := uvpt_of_mapping L k pn m hm
  refine ⟨⟨?_, ?_, ?_⟩, m, hm, hmc, hmp2⟩
  · have hfirst : Req.isMapOf xva (Req.page_map 0 ((pn * L.PGSIZE) % 2 ^ 32) envid
        ((pn * L.PGSIZE) % 2 ^ 32) (dupperm (uvpt L k pn))) = false ∧
        ∀ s sva dva perm, Req.page_map 0 ((pn * L.PGSIZE) % 2 ^ 32) envid
          ((pn * L.PGSIZE) % 2 ^ 32) (dupperm (uvpt L k pn)) = Req.page_map s sva 0 dva perm →
          ∃ p, p < PGNUM L L.UTOP ∧ dva = p * L.PGSIZE ∧
            uvpt L k p &&& (PTE_COW ||| PTE_W) ≠ 0 := by
      refine ⟨?_, ?_⟩
      · simp only [Req.isMapOf, decide_eq_false_iff_not]; exact hx
      · intro s sva dva perm hr
        injection hr with _ _ h3 _ _
        omega
    rcases hlog with hl | ⟨hcw, hl⟩
    · refine ⟨_, hl, ?_⟩
      intro r hr
      simp only [List.mem_singleton] at hr
      subst hr
      exact hfirst
    · refine ⟨_, hl, ?_⟩
      intro r hr
      simp only [List.mem_cons, List.mem_singleton, List.not_mem_nil, or_false] at hr
      rcases hr with hr | hr
      · subst hr; exact hfirst
      · subst hr
        refine ⟨?_, ?_⟩
        · simp only [Req.isMapOf, decide_eq_false_iff_not]; exact hx
        · intro s sva dva perm hr
          injection hr with _ _ _ h4 _
          exact ⟨pn, hpn, by rw [← h4, hva], hcw⟩
  · intro id p m0 hidc hm0
    by_cases hic : id = k.cur
    · by_cases hp : p = pn
      · subst hic hp
        rw [hm] at hm0
        cases hm0
        exact ⟨_, hmp2, rfl⟩
      · exact ⟨m0, by rw [hfr id p hp]; exact hm0, rfl⟩
    · refine ⟨m0, ?_, rfl⟩
      rw [hid id p hic (by rw [if_neg (by omega)]; exact hidc)]
      exact hm0
  · intro p hp
    by_cases hpp : p = pn
    · subst hpp
      have h2 : uvpt L (duppage L envid p k).2 p =
          (if m.perm &&& (PTE_COW ||| PTE_W) ≠ 0 then dupperm m.perm else m.perm) := by
        unfold uvpt; rw [hcur, hmp2]
      rw [h2] at hp
      rw [hu]
      by_cases hcw : m.perm &&& (PTE_COW ||| PTE_W) ≠ 0
      · exact hcw
      · rw [if_neg hcw] at hp; exact hp
    · have h2 : uvpt L (duppage L envid pn k).2 p = uvpt L k p := by
        unfold uvpt; rw [hcur, hfr k.cur p hpp]
      rw [← h2]; exact hp

/-- What one step of the walk of `fork` keeps. -/
theorem forkBody_step (L : Layout) (hL : L.WF) (envid : Int) (hpos : 0 < envid) (cur0 : Nat)
    (hne : envid.toNat ≠ cur0) (pn : Nat) (k : Kern) (hpn : pn < PGNUM L L.UTOP)
    (hcur : k.cur = cur0) :
    ((forkBody L envid pn k).1 = none →
      WalkRel L envid.toNat (L.UXSTACKTOP - L.PGSIZE) k (forkBody L envid pn k).2) ∧
    (forkBody L envid pn k).2.cur = k.cur ∧
    (∀ id q, q ≠ pn → (forkBody L envid pn k).2.mapping L id q = k.mapping L id q) ∧
    (∀ id i, k.pde id i = true → (forkBody L envid pn k).2.pde id i = true) ∧
    (forkBody L envid pn k).1 ≠ some Outcome.nofuel := by
  rw [forkBody_unfold]
  by_cases h3 : uvpt L k pn &&& PTE_P = 0
  · rw [if_pos h3]
    exact ⟨fun _ => WalkRel.refl _ _ _ _, rfl, fun _ _ _ => rfl, fun _ _ h => h, by simp⟩
  · rw [if_neg h3]
    by_cases h4 : (pn * L.PGSIZE) % 2 ^ 32 = L.UXSTACKTOP - L.PGSIZE
    · rw [if_pos h4]
      obtain ⟨a1, a2, -, a4, a5, -⟩ :=
        alloc_step L hL envid hpos (PTE_U ||| PTE_W ||| PTE_P) pn k (hcur ▸ hne) hpn
          (L.UXSTACKTOP - L.PGSIZE)
      by_cases h5 : (sys_page_alloc L envid ((pn * L.PGSIZE) % 2 ^ 32)
          (PTE_U ||| PTE_W ||| PTE_P) k).1 < 0
      · rw [if_pos h5]
        exact ⟨(fun h => by cases h), a1, a2, a4, by simp⟩
      · rw [if_neg h5]
        exact ⟨fun _ => a5, a1, a2, a4, by simp⟩
    · rw [if_neg h4]
      obtain ⟨d1, d2, d3, d4⟩ :=
        duppage_step L hL envid hpos pn k (hcur ▸ hne) hpn (L.UXSTACKTOP - L.PGSIZE) h4
      by_cases h5 : (duppage L envid pn k).1 < 0
      · rw [if_pos h5]
        exact ⟨(fun h => by cases h), d1, d2, d3, by simp⟩
      · rw [if_neg h5]
        exact ⟨fun _ => (d4 h5).1, d1, d2, d3, by simp⟩

/-- What a step of the walk of `fork` that does not end `fork` has done with a
present page `pn`: the exception-stack page got a fresh page in the child and the
parent's mapping is as before; any other page is mapped in the child with the
permission `duppage` computes, and the parent's mapping got that permission too
when it was writable or copy-on-write. -/
theorem forkBody_page (L : Layout) (hL : L.WF) (envid : Int) (hpos : 0 < envid) (pn : Nat)
    (k : Kern) (hne : envid.toNat ≠ k.cur) (hpn : pn < PGNUM L L.UTOP)
    (hnone : (forkBody L envid pn k).1 = none) (m : Mapping)
    (hm : k.mapping L k.cur pn = some m) (hP : m.perm &&& PTE_P ≠ 0) :
    if pn * L.PGSIZE = L.UXSTACKTOP - L.PGSIZE then
      (forkBody L envid pn k).2.mapping L envid.toNat pn =
        some { frame := k.freshFrame, perm := PTE_U ||| PTE_W ||| PTE_P } ∧
      (forkBody L envid pn k).2.mapping L k.cur pn = some m
    else
      (forkBody L envid pn k).2.mapping L envid.toNat pn =
        some { frame := m.frame, perm := dupperm m.perm } ∧
      (forkBody L envid pn k).2.mapping L k.cur pn =
        some { frame := m.frame,
               perm := if m.perm &&& (PTE_COW ||| PTE_W) ≠ 0 then dupperm m.perm
                       else m.perm } := by
  obtain ⟨hva, -, -, -⟩ := va_of_pn L hL pn hpn
  have h3 : ¬ (uvpt L k pn &&& PTE_P = 0) := by
    rw [uvpt_of_mapping L k pn m hm]; exact hP
  rw [forkBody_unfold, if_neg h3] at hnone ⊢
  by_cases h4 : (pn * L.PGSIZE) % 2 ^ 32 = L.UXSTACKTOP - L.PGSIZE
  · rw [if_pos h4] at hnone ⊢
    rw [if_pos (hva ▸ h4)]
    obtain ⟨-, -, a3, -, -, a6⟩ :=
      alloc_step L hL envid hpos (PTE_U ||| PTE_W ||| PTE_P) pn k hne hpn
        (L.UXSTACKTOP - L.PGSIZE)
    by_cases h5 : (sys_page_alloc L envid ((pn * L.PGSIZE) % 2 ^ 32)
        (PTE_U ||| PTE_W ||| PTE_P) k).1 < 0
    · rw [if_pos h5] at hnone; cases hnone
    · rw [if_neg h5]
      exact ⟨a6 h5, by rw [a3 k.cur pn (fun h => hne h.symm)]; exact hm⟩
  · rw [if_neg h4] at hnone ⊢
    rw [if_neg (hva ▸ h4)]
    obtain ⟨-, -, -, d4⟩ :=
      duppage_step L hL envid hpos pn k hne hpn (L.UXSTACKTOP - L.PGSIZE) h4
    by_cases h5 : (duppage L envid pn k).1 < 0
    · rw [if_pos h5] at hnone; cases hnone
    · rw [if_neg h5]
      obtain ⟨-, m2, hm2, hc, hp⟩ := d4 h5
      rw [hm] at hm2
      cases hm2
      exact ⟨hc, hp⟩

/-! ## Around the walk -/

theorem Kern.mapping_setEnv_same_pgdir (L : Layout) (k : Kern) (id : Nat) (e e2 : Env)
    (hg : Tbl.get k.envs id = some e) (hp : e2.pgdir = e.pgdir) (id2 q : Nat) :
    (k.setEnv id e2).mapping L id2 q = k.mapping L id2 q := by
  rw [Kern.mapping_setEnv]
  by_cases h : id2 = id
  · subst h
    rw [if_pos rfl, Kern.mapping_of_get L k id2 q e hg]
    unfold Env.lookup; rw [hp]
  · rw [if_neg h]

theorem Kern.pde_setEnv_same_pgdir (k : Kern) (id : Nat) (e e2 : Env)
    (hg : Tbl.get k.envs id = some e) (hp : e2.pgdir = e.pgdir) (id2 i : Nat) :
    (k.setEnv id e2).pde id2 i = k.pde id2 i := by
  unfold Kern.pde Kern.setEnv
  simp only [Tbl.get_put]
  by_cases h : id2 = id
  · subst h
    rw [if_pos rfl, hg]
    show (Tbl.get e2.pgdir i).isSome = (Tbl.get e.pgdir i).isSome
    rw [hp]
  · rw [if_neg h]

/-- What `sys_exofork` does: it fails with a negative code and changes no context,
or it returns a positive identifier that is not the caller's and names a context
with nothing mapped, and leaves the other contexts as they were. -/
theorem sys_exofork_obs (L : Layout) (k : Kern) :
    (sys_exofork k).2.cur = k.cur ∧
    (sys_exofork k).2.mem = k.mem ∧
    (sys_exofork k).2.log = k.log ++ [Req.exofork] ∧
    (sys_exofork k).2.script = k.script.tail ∧
    (((sys_exofork k).1 < 0 ∧ (sys_exofork k).2.envs = k.envs ∧
        (k.enter Req.exofork).1 = some (sys_exofork k).1) ∨
     (0 < (sys_exofork k).1 ∧ (sys_exofork k).1.toNat ≠ k.cur ∧
        (k.enter Req.exofork).1 = none ∧
        (∀ q, k.mapping L (sys_exofork k).1.toNat q = none) ∧
        (∀ id q, (sys_exofork k).2.mapping L id q =
          if id = (sys_exofork k).1.toNat then none else k.mapping L id q) ∧
        (∀ id i, (sys_exofork k).2.pde id i =
          if id = (sys_exofork k).1.toNat then false else k.pde id i))) := by
  have hcur := Kern.enter_cur k Req.exofork
  have henvs := Kern.enter_envs k Req.exofork
  have hmem := Kern.enter_mem k Req.exofork
  have hlog := Kern.enter_log k Req.exofork
  have hscr := Kern.enter_script k Req.exofork
  have hneg := Kern.enter_neg k Req.exofork
  unfold sys_exofork
  rcases hk : k.enter Req.exofork with ⟨o, k1⟩
  rw [hk] at hcur henvs hmem hlog hscr hneg
  dsimp only at hcur henvs hmem hlog hscr hneg
  cases o with
  | some e =>
    dsimp only
    exact ⟨hcur, hmem, hlog, hscr, Or.inl ⟨hneg e rfl, henvs, rfl⟩⟩
  | none =>
    dsimp only
    have hfe : k1.freshEnv = k.freshEnv := by
      unfold Kern.freshEnv; rw [henvs, hcur]
    obtain ⟨f1, f2, f3⟩ := Kern.freshEnv_spec k
    rw [hfe]
    refine ⟨hcur, hmem, hlog, hscr, Or.inr ⟨?_, ?_, rfl, ?_, ?_, ?_⟩⟩
    · exact Int.ofNat_pos.mpr f1
    · simpa using f2
    · intro q
      simp only [Int.toNat_ofNat]
      unfold Kern.mapping; rw [f3]
    · intro id q
      simp only [Int.toNat_ofNat]
      rw [Kern.mapping_setEnv]
      by_cases h : id = k.freshEnv
      · rw [if_pos h, if_pos h]; rfl
      · rw [if_neg h, if_neg h]; exact Kern.mapping_congr L k k1 henvs id q
    · intro id i
      simp only [Int.toNat_ofNat]
      unfold Kern.pde Kern.setEnv
      simp only [Tbl.get_put]
      by_cases h : id = k.freshEnv
      · rw [if_pos h, if_pos h]; rfl
      · rw [if_neg h, if_neg h, henvs]

/-- What the end of `fork` and `sfork` does: it changes no mapping; it ends in a
panic, or returns `envid` with the child's upcall registered and the child
runnable. -/
theorem forkFinish_obs (L : Layout) (envid : Int) (k : Kern) :
    (forkFinish envid k).2.cur = k.cur ∧
    (forkFinish envid k).2.mem = k.mem ∧
    (∀ id q, (forkFinish envid k).2.mapping L id q = k.mapping L id q) ∧
    ((∃ msg r, r < 0 ∧ (forkFinish envid k).1 = Outcome.panic msg r) ∨
     ((forkFinish envid k).1 = Outcome.ret envid ∧
       (forkFinish envid k).2.log = k.log ++
         [Req.env_set_pgfault_upcall envid, Req.env_set_status envid ENV_RUNNABLE] ∧
       ∃ e, Tbl.get (forkFinish envid k).2.envs (if envid = 0 then k.cur else envid.toNat) = some e
         ∧ e.pgfault_upcall = true ∧ e.status = ENV_RUNNABLE)) := by
  unfold forkFinish
  have hc1 := Kern.enter_cur k (Req.env_set_pgfault_upcall envid)
  have he1 := Kern.enter_envs k (Req.env_set_pgfault_upcall envid)
  have hm1 := Kern.enter_mem k (Req.env_set_pgfault_upcall envid)
  have hl1 := Kern.enter_log k (Req.env_set_pgfault_upcall envid)
  rcases sys_env_set_pgfault_upcall_cases envid k with ⟨e, he, h⟩ | ⟨id, en, hd, -, h⟩
  · rw [h]
    dsimp only
    rw [if_pos he]
    exact ⟨hc1, hm1, fun id q => Kern.mapping_congr L k _ he1 id q, Or.inl ⟨_, e, he, rfl⟩⟩
  · rw [h]
    dsimp only
    rw [if_neg (by decide)]
    obtain ⟨-, hid, hget⟩ := Kern.envid2env_some k envid id en hd
    generalize hk1 : (k.enter (Req.env_set_pgfault_upcall envid)).2.setEnv id
      { en with pgfault_upcall := true } = k1
    have hget0 : Tbl.get (k.enter (Req.env_set_pgfault_upcall envid)).2.envs id = some en := by
      rw [he1]; exact hget
    have hk1cur : k1.cur = k.cur := by rw [← hk1]; exact hc1
    have hk1mem : k1.mem = k.mem := by rw [← hk1]; exact hm1
    have hk1log : k1.log = k.log ++ [Req.env_set_pgfault_upcall envid] := by
      rw [← hk1]; exact hl1
    have hk1map : ∀ id2 q, k1.mapping L id2 q = k.mapping L id2 q := by
      intro id2 q
      rw [← hk1, Kern.mapping_setEnv_same_pgdir L _ id en
        { en with pgfault_upcall := true } hget0 rfl]
      exact Kern.mapping_congr L k _ he1 id2 q
    have hk1get : Tbl.get k1.envs id = some { en with pgfault_upcall := true } := by
      rw [← hk1]; unfold Kern.setEnv; simp [Tbl.get_put]
    have hc2 := Kern.enter_cur k1 (Req.env_set_status envid ENV_RUNNABLE)
    have he2 := Kern.enter_envs k1 (Req.env_set_status envid ENV_RUNNABLE)
    have hm2 := Kern.enter_mem k1 (Req.env_set_status envid ENV_RUNNABLE)
    have hl2 := Kern.enter_log k1 (Req.env_set_status envid ENV_RUNNABLE)
    rcases sys_env_set_status_cases envid ENV_RUNNABLE k1 with ⟨e, he, h2⟩ | ⟨id2, en2, hd2, -, h2⟩
    · rw [h2]
      dsimp only
      rw [if_pos he]
      exact ⟨hc2.trans hk1cur, hm2.trans hk1mem,
        fun id q => (Kern.mapping_congr L k1 _ he2 id q).trans (hk1map id q),
        Or.inl ⟨_, e, he, rfl⟩⟩
    · rw [h2]
      dsimp only
      rw [if_neg (by decide)]
      obtain ⟨-, hid2, hget2⟩ := Kern.envid2env_some k1 envid id2 en2 hd2
      have hidd : id2 = id := by rw [hid2, hid, hk1cur]
      subst hidd
      rw [hk1get] at hget2
      have hget3 : Tbl.get (k1.enter (Req.env_set_status envid ENV_RUNNABLE)).2.envs id2 =
          some en2 := by
        rw [he2, hk1get, hget2]
      refine ⟨hc2.trans hk1cur, hm2.trans hk1mem, ?_, Or.inr ⟨rfl, ?_, ?_⟩⟩
      · intro id q
        rw [Kern.mapping_setEnv_same_pgdir L _ id2 en2
          { en2 with status := ENV_RUNNABLE } hget3 rfl]
        exact (Kern.mapping_congr L k1 _ he2 id q).trans (hk1map id q)
      · show (k1.enter (Req.env_set_status envid ENV_RUNNABLE)).2.log = _
        rw [hl2, hk1log]; simp
      · refine ⟨{ en2 with status := ENV_RUNNABLE }, ?_, ?_, rfl⟩
        · rw [← hid]; unfold Kern.setEnv; simp [Tbl.get_put]
        · cases hget2; rfl

/-- A step of the walk of `fork` ends `fork` only in a panic. -/
theorem forkBody_fail (L : Layout) (envid : Int) (pn : Nat) (k : Kern) (o : Outcome)
    (h : (forkBody L envid pn k).1 = some o) : ∃ msg r, r < 0 ∧ o = Outcome.panic msg r := by
  rw [forkBody_unfold] at h
  by_cases h3 : uvpt L k pn &&& PTE_P = 0
  · rw [if_pos h3] at h; cases h
  · rw [if_neg h3] at h
    by_cases h4 : (pn * L.PGSIZE) % 2 ^ 32 = L.UXSTACKTOP - L.PGSIZE
    · rw [if_pos h4] at h
      by_cases h5 : (sys_page_alloc L envid ((pn * L.PGSIZE) % 2 ^ 32)
          (PTE_U ||| PTE_W ||| PTE_P) k).1 < 0
      · rw [if_pos h5] at h
        cases h
        exact ⟨_, _, h5, rfl⟩
      · rw [if_neg h5] at h; cases h
    · rw [if_neg h4] at h
      by_cases h5 : (duppage L envid pn k).1 < 0
      · rw [if_pos h5] at h
        cases h
        exact ⟨_, _, h5, rfl⟩
      · rw [if_neg h5] at h; cases h

theorem fork_resume_pos (L : Layout) (envid : Int) (hpos : 0 < envid) (k : Kern) :
    fork_resume L envid k =
      if (walkWith L (forkBody L envid) (PGNUM L L.UTOP + 1) 0 k).1 = none then
        forkFinish envid (walkWith L (forkBody L envid) (PGNUM L L.UTOP + 1) 0 k).2
      else
        (((walkWith L (forkBody L envid) (PGNUM L L.UTOP + 1) 0 k).1).getD Outcome.nofuel,
         (walkWith L (forkBody L envid) (PGNUM L L.UTOP + 1) 0 k).2) := by
  unfold fork_resume
  rw [if_neg (by omega), if_neg (by omega), forkWalk_eq]
  rcases walkWith L (forkBody L envid) (PGNUM L L.UTOP + 1) 0 k with ⟨o, k1⟩
  cases o <;> simp

/-- The walk of `fork`, as `fork` starts it, with what `walkWith_spec` gives. -/
theorem fork_walk (L : Layout) (hL : L.WF) (envid : Int) (hpos : 0 < envid) (k : Kern)
    (hne : envid.toNat ≠ k.cur) :
    ((walkWith L (forkBody L envid) (PGNUM L L.UTOP + 1) 0 k).1 = none →
      WalkRel L envid.toNat (L.UXSTACKTOP - L.PGSIZE) k
        (walkWith L (forkBody L envid) (PGNUM L L.UTOP + 1) 0 k).2) ∧
    (walkWith L (forkBody L envid) (PGNUM L L.UTOP + 1) 0 k).2.cur = k.cur ∧
    (walkWith L (forkBody L envid) (PGNUM L L.UTOP + 1) 0 k).1 ≠ some Outcome.nofuel ∧
    (∀ o, (walkWith L (forkBody L envid) (PGNUM L L.UTOP + 1) 0 k).1 = some o →
      ∃ q kq, q < PGNUM L L.UTOP ∧ WalkRel L envid.toNat (L.UXSTACKTOP - L.PGSIZE) k kq ∧
        kq.cur = k.cur ∧
        forkBody L envid q kq =
          (some o, (walkWith L (forkBody L envid) (PGNUM L L.UTOP + 1) 0 k).2)) ∧
    ((walkWith L (forkBody L envid) (PGNUM L L.UTOP + 1) 0 k).1 = none →
      ∀ q, q < PGNUM L L.UTOP → k.pde k.cur (q / L.NPTENTRIES) = true →
        ∃ kq, WalkRel L envid.toNat (L.UXSTACKTOP - L.PGSIZE) k kq ∧ kq.cur = k.cur ∧
          (∀ id p, q ≤ p → kq.mapping L id p = k.mapping L id p) ∧
          (forkBody L envid q kq).1 = none ∧
          ∀ id, (walkWith L (forkBody L envid) (PGNUM L L.UTOP + 1) 0 k).2.mapping L id q =
            (forkBody L envid q kq).2.mapping L id q) := by
  obtain ⟨w1, w2, -, -, w5, w6, w7⟩ :=
    walkWith_spec L hL (forkBody L envid) k.cur (WalkRel L envid.toNat (L.UXSTACKTOP - L.PGSIZE))
      (WalkRel.refl L _ _) (WalkRel.trans L _ _)
      (fun pn k2 hpn hc => forkBody_step L hL envid hpos k.cur hne pn k2 hpn hc)
      (PGNUM L L.UTOP + 1) 0 k (by omega) rfl (Or.inl (Nat.zero_mod _))
  exact ⟨w1, w2, w5, w6, fun h q hq hp => w7 h q (Nat.zero_le _) hq hp⟩

/-! ## `fork` -/

/-! ## `pgfault` -/

theorem Kern.byte_congr (k k1 : Kern) (h : k1.mem = k.mem) (f off : Nat) :
    k1.byte f off = k.byte f off := by
  unfold Kern.byte Kern.page; rw [h]

theorem Kern.page_congr (k k1 : Kern) (h : k1.mem = k.mem) (f : Nat) :
    k1.page f = k.page f := by
  unfold Kern.page; rw [h]

theorem Kern.page_of_put (k k1 : Kern) (f : Nat) (pg : List (Nat × Nat))
    (h : k1.mem = Tbl.put k.mem f pg) (f2 : Nat) :
    k1.page f2 = if f2 = f then pg else k.page f2 := by
  unfold Kern.page
  rw [h, Tbl.get_put]
  by_cases hf : f2 = f
  · rw [if_pos hf, if_pos hf]; rfl
  · rw [if_neg hf, if_neg hf]

theorem Kern.byte_of_page (k k1 : Kern) (f f1 : Nat) (h : k1.page f1 = k.page f) (off : Nat) :
    k1.byte f1 off = k.byte f off := by
  unfold Kern.byte; rw [h]

theorem rounddown_pgnum (L : Layout) (a : Nat) : PGNUM L (ROUNDDOWN a L.PGSIZE) = PGNUM L a := by
  unfold PGNUM ROUNDDOWN
  rcases Nat.eq_zero_or_pos L.PGSIZE with h0 | hpos
  · rw [h0]; simp
  · have h1 : a - a % L.PGSIZE = L.PGSIZE * (a / L.PGSIZE) := by
      have := Nat.div_add_mod a L.PGSIZE
      omega
    rw [h1, Nat.mul_div_cancel_left _ hpos]

/-- What `memmove` of a page does: nothing but the bytes of the destination's
physical page changes, and these become the bytes of the source's physical page. -/
theorem memmove_page_obs (L : Layout) (dst src : Nat) (k : Kern) :
    (memmove_page L dst src k).cur = k.cur ∧
    (memmove_page L dst src k).envs = k.envs ∧
    (memmove_page L dst src k).log = k.log ∧
    (memmove_page L dst src k).script = k.script ∧
    (∀ d, k.mapping L k.cur (PGNUM L dst) = some d →
      ∀ f, f ≠ d.frame → (memmove_page L dst src k).page f = k.page f) ∧
    (k.mapping L k.cur (PGNUM L dst) = none → (memmove_page L dst src k).mem = k.mem) ∧
    (∀ d sm, k.mapping L k.cur (PGNUM L dst) = some d →
      k.mapping L k.cur (PGNUM L src) = some sm →
      (memmove_page L dst src k).page d.frame = k.page sm.frame) := by
  unfold memmove_page
  cases hd : k.mapping L k.cur (PGNUM L dst) with
  | none =>
    refine ⟨rfl, rfl, rfl, rfl, ?_, fun _ => rfl, ?_⟩
    · intro d h; cases h
    · intro d sm h; cases h
  | some d =>
    cases hs : k.mapping L k.cur (PGNUM L src) with
    | none =>
      refine ⟨rfl, rfl, rfl, rfl, fun d2 _ f _ => rfl, ?_, ?_⟩
      · intro h; cases h
      · intro d2 sm _ h; cases h
    | some sm =>
      dsimp only
      refine ⟨rfl, rfl, rfl, rfl, ?_, ?_, ?_⟩
      · intro d2 hd2 f hf
        cases hd2
        rw [Kern.page_of_put k _ d.frame (k.page sm.frame) rfl, if_neg hf]
      · intro h; cases h
      · intro d2 sm2 hd2 hs2
        cases hd2; cases hs2
        rw [Kern.page_of_put k _ d.frame (k.page sm.frame) rfl, if_pos rfl]

theorem pgfault_unfold (L : Layout) (utf : UTrapframe) (k : Kern) :
    pgfault L utf k =
      if utf.utf_err &&& FEC_WR = 0 ∨ uvpt L k (PGNUM L utf.utf_fault_va) &&& PTE_COW = 0 then
        (Outcome.panic "pgfault: not a copy-on-write page" 0, k)
      else if (pgfault_alloc L k).1 < 0 then
        (Outcome.panic "sys_page_alloc: %e" (pgfault_alloc L k).1, (pgfault_alloc L k).2)
      else if (pgfault_map L utf k).1 < 0 then
        (Outcome.panic "sys_page_map: %e" (pgfault_map L utf k).1, (pgfault_map L utf k).2)
      else if (pgfault_unmap L utf k).1 < 0 then
        (Outcome.panic "sys_page_unmap: %e" (pgfault_unmap L utf k).1, (pgfault_unmap L utf k).2)
      else (Outcome.ret 0, (pgfault_unmap L utf k).2) := by
  simp only [pgfault, pgfault_alloc, pgfault_map, pgfault_unmap]

/-- C7.  `pgfault` returns normally if and only if the error code has the write
flag, the page of the faulting address is mapped copy-on-write, and the
allocation, the re-map and the unmap all succeed; in every other case it ends in
a panic; when one of the two entry conditions fails it panics with the state,
the request log included, exactly as at entry. -/
theorem pgfault_returns_iff (L : Layout) (utf : UTrapframe) (k : Kern) :
    ((∃ v, (pgfault L utf k).1 = Outcome.ret v) ↔
      (utf.utf_err &&& FEC_WR ≠ 0 ∧ uvpt L k (PGNUM L utf.utf_fault_va) &&& PTE_COW ≠ 0 ∧
        ¬ (pgfault_alloc L k).1 < 0 ∧ ¬ (pgfault_map L utf k).1 < 0 ∧
        ¬ (pgfault_unmap L utf k).1 < 0)) ∧
    ((¬ ∃ v, (pgfault L utf k).1 = Outcome.ret v) →
      ∃ msg r, (pgfault L utf k).1 = Outcome.panic msg r) ∧
    (¬ (utf.utf_err &&& FEC_WR ≠ 0 ∧ uvpt L k (PGNUM L utf.utf_fault_va) &&& PTE_COW ≠ 0) →
      pgfault L utf k = (Outcome.panic "pgfault: not a copy-on-write page" 0, k)) := by
  rw [pgfault_unfold]
  by_cases h0 : utf.utf_err &&& FEC_WR = 0 ∨
      uvpt L k (PGNUM L utf.utf_fault_va) &&& PTE_COW = 0
  · rw [if_pos h0]
    refine ⟨⟨?_, ?_⟩, fun _ => ⟨_, _, rfl⟩, fun _ => rfl⟩
    · rintro ⟨v, hv⟩; cases hv
    · rintro ⟨h1, h2, -⟩
      rcases h0 with h0 | h0
      · exact absurd h0 h1
      · exact absurd h0 h2
  · rw [if_neg h0]
    have hpre : utf.utf_err &&& FEC_WR ≠ 0 ∧
        uvpt L k (PGNUM L utf.utf_fault_va) &&& PTE_COW ≠ 0 :=
      ⟨fun h => h0 (Or.inl h), fun h => h0 (Or.inr h)⟩
    by_cases h1 : (pgfault_alloc L k).1 < 0
    · rw [if_pos h1]
      refine ⟨⟨?_, ?_⟩, fun _ => ⟨_, _, rfl⟩, fun h => absurd hpre h⟩
      · rintro ⟨v, hv⟩; cases hv
      · rintro ⟨-, -, h, -⟩; exact absurd h1 h
    · rw [if_neg h1]
      by_cases h2 : (pgfault_map L utf k).1 < 0
      · rw [if_pos h2]
        refine ⟨⟨?_, ?_⟩, fun _ => ⟨_, _, rfl⟩, fun h => absurd hpre h⟩
        · rintro ⟨v, hv⟩; cases hv
        · rintro ⟨-, -, -, h, -⟩; exact absurd h2 h
      · rw [if_neg h2]
        by_cases h3 : (pgfault_unmap L utf k).1 < 0
        · rw [if_pos h3]
          refine ⟨⟨?_, ?_⟩, fun _ => ⟨_, _, rfl⟩, fun h => absurd hpre h⟩
          · rintro ⟨v, hv⟩; cases hv
          · rintro ⟨-, -, -, -, h⟩; exact absurd h3 h
        · rw [if_neg h3]
          refine ⟨⟨fun _ => ⟨hpre.1, hpre.2, h1, h2, h3⟩, fun _ => ⟨0, rfl⟩⟩, ?_,
            fun h => absurd hpre h⟩
          intro h; exact absurd ⟨0, rfl⟩ h

/-- What a `pgfault` that returns has done. -/
theorem pgfault_ok (L : Layout) (utf : UTrapframe) (k : Kern) (v : Int)
    (h : (pgfault L utf k).1 = Outcome.ret v) :
    utf.utf_err &&& FEC_WR ≠ 0 ∧
    ∃ m, k.mapping L k.cur (PGNUM L utf.utf_fault_va) = some m ∧ m.perm &&& PTE_COW ≠ 0 ∧
      (pgfault L utf k).2.cur = k.cur ∧
      (∀ id q, (pgfault L utf k).2.mapping L id q =
        if id = k.cur ∧ q = PGNUM L L.PFTEMP then none
        else if id = k.cur ∧ q = PGNUM L utf.utf_fault_va then
          some { frame := k.freshFrame, perm := PTE_U ||| PTE_W ||| PTE_P }
        else k.mapping L id q) ∧
      (∀ f, f ≠ k.freshFrame → (pgfault L utf k).2.page f = k.page f) ∧
      (PGNUM L utf.utf_fault_va ≠ PGNUM L L.PFTEMP →
        (pgfault L utf k).2.page k.freshFrame = k.page m.frame) ∧
      (pgfault L utf k).2.log = k.log ++
        [Req.page_alloc 0 L.PFTEMP (PTE_U ||| PTE_W ||| PTE_P),
         Req.page_map 0 L.PFTEMP 0 (ROUNDDOWN utf.utf_fault_va L.PGSIZE)
           (PTE_U ||| PTE_W ||| PTE_P),
         Req.page_unmap 0 L.PFTEMP] := by
  rw [pgfault_unfold] at h ⊢
  by_cases h0 : utf.utf_err &&& FEC_WR = 0 ∨
      uvpt L k (PGNUM L utf.utf_fault_va) &&& PTE_COW = 0
  · rw [if_pos h0] at h; cases h
  rw [if_neg h0] at h ⊢
  by_cases h1 : (pgfault_alloc L k).1 < 0
  · rw [if_pos h1] at h; cases h
  rw [if_neg h1] at h ⊢
  by_cases h2 : (pgfault_map L utf k).1 < 0
  · rw [if_pos h2] at h; cases h
  rw [if_neg h2] at h ⊢
  by_cases h3 : (pgfault_unmap L utf k).1 < 0
  · rw [if_pos h3] at h; cases h
  rw [if_neg h3]
  have hwr : utf.utf_err &&& FEC_WR ≠ 0 := fun hh => h0 (Or.inl hh)
  have hcow : uvpt L k (PGNUM L utf.utf_fault_va) &&& PTE_COW ≠ 0 := fun hh => h0 (Or.inr hh)
  obtain ⟨m, hm, hmp⟩ := mapping_of_uvpt L k _ (ne_zero_of_and_ne_zero _ _ hcow)
  refine ⟨hwr, m, hm, by rw [hmp]; exact hcow, ?_⟩
  -- the allocation
  obtain ⟨a1, a2, -, -, -, a6⟩ :=
    sys_page_alloc_obs L 0 L.PFTEMP (PTE_U ||| PTE_W ||| PTE_P) k
  obtain ⟨-, amem, adid, ade, had, -, -, amap⟩ := a6 h1
  have hadid : adid = k.cur := by
    have := (Kern.envid2env_some k 0 adid ade had).2.1
    simpa using this
  subst hadid
  -- the copy
  obtain ⟨c1, c2, c3, -, c5, -, c7⟩ := memmove_page_obs L L.PFTEMP
    (ROUNDDOWN utf.utf_fault_va L.PGSIZE) (pgfault_alloc L k).2
  have hka : (pgfault_alloc L k).2 =
      (sys_page_alloc L 0 L.PFTEMP (PTE_U ||| PTE_W ||| PTE_P) k).2 := rfl
  rw [hka] at c1 c2 c3 c5 c7
  rw [a1] at c5 c7
  have hdst : (sys_page_alloc L 0 L.PFTEMP (PTE_U ||| PTE_W ||| PTE_P) k).2.mapping L k.cur
      (PGNUM L L.PFTEMP) = some { frame := k.freshFrame, perm := PTE_U ||| PTE_W ||| PTE_P } := by
    rw [amap, if_pos ⟨rfl, rfl⟩]
  have c5 := c5 _ hdst
  have hpagea := Kern.page_of_put k _ k.freshFrame [] amem
  -- the re-map
  obtain ⟨m1, m2, m3, -, -, -, m7⟩ :=
    sys_page_map_obs L 0 L.PFTEMP 0 (ROUNDDOWN utf.utf_fault_va L.PGSIZE)
      (PTE_U ||| PTE_W ||| PTE_P)
      (memmove_page L L.PFTEMP (ROUNDDOWN utf.utf_fault_va L.PGSIZE) (pgfault_alloc L k).2)
  have hkm : (pgfault_map L utf k) =
      sys_page_map L 0 L.PFTEMP 0 (ROUNDDOWN utf.utf_fault_va L.PGSIZE)
        (PTE_U ||| PTE_W ||| PTE_P)
        (memmove_page L L.PFTEMP (ROUNDDOWN utf.utf_fault_va L.PGSIZE) (pgfault_alloc L k).2) :=
    rfl
  rw [← hkm] at m1 m2 m3 m7
  obtain ⟨-, sid, se, did, de, ms, hs, hd, hms, mmap⟩ := m7 h2
  rw [hka] at hs hd hms mmap m1 m2 m3
  have hcurm : (memmove_page L L.PFTEMP (ROUNDDOWN utf.utf_fault_va L.PGSIZE)
      (sys_page_alloc L 0 L.PFTEMP (PTE_U ||| PTE_W ||| PTE_P) k).2).cur = k.cur := c1.trans a1
  have hsid : sid = k.cur := by
    have := (Kern.envid2env_some _ 0 sid se hs).2.1
    simpa [hcurm] using this
  have hdid : did = k.cur := by
    have := (Kern.envid2env_some _ 0 did de hd).2.1
    simpa [hcurm] using this
  subst hsid
  rw [Kern.mapping_congr L _ _ c2, hdst] at hms
  cases hms
  rw [hdid, rounddown_pgnum] at mmap
  -- the unmap
  obtain ⟨u1, u2, u3, -, -, u6⟩ := sys_page_unmap_obs L 0 L.PFTEMP (pgfault_map L utf k).2
  have hku : pgfault_unmap L utf k = sys_page_unmap L 0 L.PFTEMP (pgfault_map L utf k).2 := rfl
  rw [← hku] at u1 u2 u3 u6
  obtain ⟨-, udid, ude, hud, umap⟩ := u6 h3
  have hudid : udid = k.cur := by
    have := (Kern.envid2env_some _ 0 udid ude hud).2.1
    simpa [m1, hcurm] using this
  subst hudid
  refine ⟨u1.trans (m1.trans hcurm), ?_, ?_, ?_, ?_⟩
  · intro id q
    rw [umap]
    by_cases hq1 : id = k.cur ∧ q = PGNUM L L.PFTEMP
    · rw [if_pos hq1, if_pos hq1]
    · rw [if_neg hq1, if_neg hq1, mmap]
      by_cases hq2 : id = k.cur ∧ q = PGNUM L utf.utf_fault_va
      · rw [if_pos hq2, if_pos hq2]
      · rw [if_neg hq2, if_neg hq2, Kern.mapping_congr L _ _ c2, amap, if_neg hq1]
  · intro f hf
    rw [Kern.page_congr _ _ (u2.trans m2), c5 f hf, hpagea, if_neg hf]
  · intro hne
    have hsrc : (sys_page_alloc L 0 L.PFTEMP (PTE_U ||| PTE_W ||| PTE_P) k).2.mapping L k.cur
        (PGNUM L (ROUNDDOWN utf.utf_fault_va L.PGSIZE)) = some m := by
      rw [amap, rounddown_pgnum, if_neg (fun hh => hne hh.2)]
      exact hm
    have hfr : m.frame ≠ k.freshFrame := by
      have := Kern.lt_freshFrame L k k.cur _ m hm
      omega
    rw [Kern.page_congr _ _ (u2.trans m2), c7 _ m hdst hsrc, hpagea, if_neg hfr]
  · rw [u3, m3, c3, a2]
    simp

/-- C3, amended.  For every write fault at an address `addr` outside the scratch
page of `PFTEMP` whose page is mapped copy-on-write in the running context, when
the three kernel calls succeed, `pgfault` returns and afterwards: the page of
`addr` is mapped with permission exactly present, user-accessible and writable
(no copy-on-write) to a physical page that no context mapped before, whose bytes
are those the page had before the fault; the scratch page is unmapped; the bytes
of the physical page that was mapped there before, and the mappings of every
other context, are as before. -/
theorem pgfault_private_copy (L : Layout) (utf : UTrapframe) (k : Kern) (m : Mapping)
    (hwr : utf.utf_err &&& FEC_WR ≠ 0)
    (hm : k.mapping L k.cur (PGNUM L utf.utf_fault_va) = some m)
    (hcow : m.perm &&& PTE_COW ≠ 0)
    (h1 : ¬ (pgfault_alloc L k).1 < 0) (h2 : ¬ (pgfault_map L utf k).1 < 0)
    (h3 : ¬ (pgfault_unmap L utf k).1 < 0)
    (hne : PGNUM L utf.utf_fault_va ≠ PGNUM L L.PFTEMP) :
    (pgfault L utf k).1 = Outcome.ret 0 ∧
    (pgfault L utf k).2.mapping L k.cur (PGNUM L utf.utf_fault_va) =
      some { frame := k.freshFrame, perm := PTE_U ||| PTE_W ||| PTE_P } ∧
    (PTE_U ||| PTE_W ||| PTE_P) &&& PTE_COW = 0 ∧
    (∀ id p m0, k.mapping L id p = some m0 → m0.frame ≠ k.freshFrame) ∧
    (∀ off, (pgfault L utf k).2.byte k.freshFrame off = k.byte m.frame off) ∧
    (pgfault L utf k).2.mapping L k.cur (PGNUM L L.PFTEMP) = none ∧
    (∀ off, (pgfault L utf k).2.byte m.frame off = k.byte m.frame off) ∧
    (∀ id p, id ≠ k.cur → (pgfault L utf k).2.mapping L id p = k.mapping L id p) := by
  have hret : (pgfault L utf k).1 = Outcome.ret 0 := by
    rw [pgfault_unfold, if_neg, if_neg h1, if_neg h2, if_neg h3]
    rintro (h | h)
    · exact hwr h
    · rw [uvpt_of_mapping L k _ m hm] at h; exact hcow h
  obtain ⟨-, m2, hm2, -, -, hmap, hpg, hcopy, -⟩ := pgfault_ok L utf k 0 hret
  rw [hm] at hm2
  cases hm2
  have hfr : m.frame ≠ k.freshFrame := by
    have := Kern.lt_freshFrame L k k.cur _ m hm
    omega
  refine ⟨hret, ?_, by decide, ?_, ?_, ?_, ?_, ?_⟩
  · rw [hmap, if_neg (fun hh => hne hh.2), if_pos ⟨rfl, rfl⟩]
  · intro id p m0 hm0
    have := Kern.lt_freshFrame L k id p m0 hm0
    omega
  · intro off
    exact Kern.byte_of_page _ _ _ _ (hcopy hne) off
  · rw [hmap, if_pos ⟨rfl, rfl⟩]
  · intro off
    exact Kern.byte_of_page _ _ _ _ (hpg m.frame hfr) off
  · intro id p hid
    rw [hmap, if_neg (fun hh => hid hh.1), if_neg (fun hh => hid hh.1)]

theorem pgfault_private_copy_witness :
    ((pgfault toyLayout { utf_fault_va := 8, utf_err := FEC_WR } toyKernCow).1 = Outcome.ret 0 ∧
      (pgfault toyLayout { utf_fault_va := 8, utf_err := FEC_WR } toyKernCow).2.mapping toyLayout
        toyKernCow.cur (PGNUM toyLayout 8) =
        some { frame := toyKernCow.freshFrame, perm := PTE_U ||| PTE_W ||| PTE_P }) ∧
    (pgfault toyLayout { utf_fault_va := 8, utf_err := FEC_WR } toyKernCow).2.byte 12 0 = 65 :=
  ⟨⟨(pgfault_private_copy toyLayout { utf_fault_va := 8, utf_err := FEC_WR } toyKernCow
      { frame := 11, perm := PTE_P ||| PTE_U ||| PTE_COW } (by decide) (by decide) (by decide)
      (by decide) (by decide) (by decide) (by decide)).1,
    (pgfault_private_copy toyLayout { utf_fault_va := 8, utf_err := FEC_WR } toyKernCow
      { frame := 11, perm := PTE_P ||| PTE_U ||| PTE_COW } (by decide) (by decide) (by decide)
      (by decide) (by decide) (by decide) (by decide)).2.1⟩, by decide⟩

/-- C3 as stated fails at the scratch page itself.  A write fault at address 5, in
the scratch page of `PFTEMP`, which is mapped copy-on-write: the three kernel calls
succeed and `pgfault` returns, and the page of the faulting address is left
unmapped. -/
theorem pgfault_private_copy_counterexample :
    PGNUM toyLayout 5 = PGNUM toyLayout toyLayout.PFTEMP ∧
    uvpt toyLayout toyKernCow (PGNUM toyLayout 5) &&& PTE_COW ≠ 0 ∧
    (pgfault_alloc toyLayout toyKernCow).1 = 0 ∧
    (pgfault_map toyLayout { utf_fault_va := 5, utf_err := FEC_WR } toyKernCow).1 = 0 ∧
    (pgfault_unmap toyLayout { utf_fault_va := 5, utf_err := FEC_WR } toyKernCow).1 = 0 ∧
    (pgfault toyLayout { utf_fault_va := 5, utf_err := FEC_WR } toyKernCow).1 = Outcome.ret 0 ∧
    (pgfault toyLayout { utf_fault_va := 5, utf_err := FEC_WR } toyKernCow).2.mapping toyLayout
      toyKernCow.cur (PGNUM toyLayout 5) = none := by
  decide

/-! ## Stores by user code -/

theorem Kern.byte_poke (k : Kern) (f off b f2 off2 : Nat) :
    (k.poke f off b).byte f2 off2 = if f2 = f ∧ off2 = off then b else k.byte f2 off2 := by
  unfold Kern.poke Kern.byte
  rw [Kern.page_of_put k _ f (Tbl.put (k.page f) off b) rfl]
  by_cases hf : f2 = f
  · subst hf
    rw [if_pos rfl, Tbl.get_put]
    by_cases ho : off2 = off
    · rw [if_pos ho, if_pos ⟨rfl, ho⟩]; rfl
    · rw [if_neg ho, if_neg (fun h => ho h.2)]
  · rw [if_neg hf, if_neg (fun h => hf h.1)]

theorem Kern.mapping_poke (L : Layout) (k : Kern) (f off b id q : Nat) :
    (k.poke f off b).mapping L id q = k.mapping L id q := rfl

theorem store_zero (L : Layout) (va b : Nat) (k : Kern) :
    store L va b 0 k = (Outcome.nofuel, k) := rfl

theorem store_succ (L : Layout) (va b fuel : Nat) (k : Kern) :
    store L va b (fuel + 1) k =
      if uvpt L k (PGNUM L va) &&& PTE_P ≠ 0 ∧ uvpt L k (PGNUM L va) &&& PTE_U ≠ 0 ∧
          uvpt L k (PGNUM L va) &&& PTE_W ≠ 0 then
        match k.mapping L k.cur (PGNUM L va) with
        | some m => (Outcome.ret 0, k.poke m.frame (va % L.PGSIZE) b)
        | none => (Outcome.panic "unmapped" 0, k)
      else
        match Tbl.get k.envs k.cur with
        | none => (Outcome.panic "no context" 0, k)
        | some e =>
          if e.pgfault_upcall then
            if k.xstackWritable L then
              match pgfault L (write_fault L k va) k with
              | (Outcome.ret _, k1) => store L va b fuel k1
              | (o, k1) => (o, k1)
            else (Outcome.panic "user fault, no exception stack" 0, k)
          else (Outcome.panic "user fault, no upcall" 0, k) := rfl

/-- A store that faults on its last attempt does not complete. -/
theorem store_last_fault (L : Layout) (va b : Nat) (k : Kern)
    (h : ¬ (uvpt L k (PGNUM L va) &&& PTE_P ≠ 0 ∧ uvpt L k (PGNUM L va) &&& PTE_U ≠ 0 ∧
      uvpt L k (PGNUM L va) &&& PTE_W ≠ 0)) (v : Int) :
    (store L va b 1 k).1 ≠ Outcome.ret v := by
  rw [store_succ, if_neg h]
  cases Tbl.get k.envs k.cur with
  | none => intro hh; cases hh
  | some e =>
    dsimp only
    by_cases hu : e.pgfault_upcall = true
    · rw [if_pos hu]
      by_cases hxs : k.xstackWritable L
      · rw [if_pos hxs]
        rcases pgfault L (write_fault L k va) k with ⟨o, k1⟩
        cases o with
        | ret v2 => dsimp only; rw [store_zero]; intro hh; cases hh
        | panic msg r => intro hh; cases hh
        | nofuel => intro hh; cases hh
      · rw [if_neg hxs]; intro hh; cases hh
    · rw [if_neg hu]; intro hh; cases hh

/-- A completed store to a page that is mapped without the writable permission:
the handler has given the running context a private copy of the page, at a
physical page no context mapped before, and the byte went there. -/
theorem store_cow (L : Layout) (k : Kern) (va b : Nat) (m : Mapping)
    (hm : k.mapping L k.cur (PGNUM L va) = some m) (hnw : m.perm &&& PTE_W = 0) (kc : Kern)
    (hs : store L va b 2 k = (Outcome.ret 0, kc)) :
    m.perm &&& PTE_COW ≠ 0 ∧ PGNUM L va ≠ PGNUM L L.PFTEMP ∧ kc.cur = k.cur ∧
    (∀ id q, kc.mapping L id q =
      if id = k.cur ∧ q = PGNUM L L.PFTEMP then none
      else if id = k.cur ∧ q = PGNUM L va then
        some { frame := k.freshFrame, perm := PTE_U ||| PTE_W ||| PTE_P }
      else k.mapping L id q) ∧
    (∀ f off, f ≠ k.freshFrame → kc.byte f off = k.byte f off) ∧
    kc.byte k.freshFrame (va % L.PGSIZE) = b ∧
    (∀ off, off ≠ va % L.PGSIZE → kc.byte k.freshFrame off = k.byte m.frame off) := by
  have hu : uvpt L k (PGNUM L va) = m.perm := uvpt_of_mapping L k _ m hm
  have hcond : ¬ (uvpt L k (PGNUM L va) &&& PTE_P ≠ 0 ∧ uvpt L k (PGNUM L va) &&& PTE_U ≠ 0 ∧
      uvpt L k (PGNUM L va) &&& PTE_W ≠ 0) := by
    rw [hu]; exact fun h => h.2.2 hnw
  rw [store_succ, if_neg hcond] at hs
  cases hget : Tbl.get k.envs k.cur with
  | none => rw [hget] at hs; cases hs
  | some e =>
    rw [hget] at hs
    dsimp only at hs
    by_cases hup : e.pgfault_upcall = true
    · rw [if_pos hup] at hs
      have hxs : k.xstackWritable L := by
        by_cases hxs : k.xstackWritable L
        · exact hxs
        · rw [if_neg hxs] at hs; cases hs
      rw [if_pos hxs] at hs
      generalize hutf : write_fault L k va = utf at hs
      have hva : utf.utf_fault_va = va := by rw [← hutf]; rfl
      rcases hpf : pgfault L utf k with ⟨o, k1⟩
      rw [hpf] at hs
      cases o with
      | panic msg r => cases hs
      | nofuel => cases hs
      | ret v =>
        dsimp only at hs
        obtain ⟨-, m2, hm2, hcow, hcur, hmap, hpg, hcopy, -⟩ :=
          pgfault_ok L utf k v (by rw [hpf])
        rw [hpf] at hcur hmap hpg hcopy
        dsimp only at hcur hmap hpg hcopy
        rw [hva] at hm2 hmap hcopy
        rw [hm] at hm2
        cases hm2
        by_cases hne : PGNUM L va = PGNUM L L.PFTEMP
        · exfalso
          have hnone : k1.mapping L k1.cur (PGNUM L va) = none := by
            rw [hcur, hmap, if_pos ⟨rfl, hne⟩]
          have hu1 : uvpt L k1 (PGNUM L va) = 0 := by
            unfold uvpt; rw [hnone]
          have := store_last_fault L va b k1 (by rw [hu1]; simp) 0
          rw [hs] at this
          exact this rfl
        · have hsome : k1.mapping L k1.cur (PGNUM L va) =
              some { frame := k.freshFrame, perm := PTE_U ||| PTE_W ||| PTE_P } := by
            rw [hcur, hmap, if_neg (fun hh => hne hh.2), if_pos ⟨rfl, rfl⟩]
          have hu1 : uvpt L k1 (PGNUM L va) = PTE_U ||| PTE_W ||| PTE_P :=
            uvpt_of_mapping L k1 _ _ hsome
          rw [store_succ, hu1, if_pos (by decide), hsome] at hs
          dsimp only at hs
          cases hs
          have hfr : m.frame ≠ k.freshFrame := by
            have := Kern.lt_freshFrame L k k.cur _ m hm
            omega
          refine ⟨hcow, hne, hcur, fun id q => by rw [Kern.mapping_poke, hmap], ?_, ?_, ?_⟩
          · intro f off hf
            rw [Kern.byte_poke, if_neg (fun hh => hf hh.1)]
            exact Kern.byte_of_page _ _ _ _ (hpg f hf) off
          · rw [Kern.byte_poke, if_pos ⟨rfl, rfl⟩]
          · intro off hoff
            rw [Kern.byte_poke, if_neg (fun hh => hoff hh.2)]
            exact Kern.byte_of_page _ _ _ _ (hcopy hne) off
    · rw [if_neg hup] at hs; cases hs

theorem Kern.read_eq (L : Layout) (k : Kern) (id a : Nat) (m : Mapping)
    (h : k.mapping L id (PGNUM L a) = some m) :
    k.read L id a = some (k.byte m.frame (a % L.PGSIZE)) := by
  unfold Kern.read; rw [h]

/-! ## `sfork` -/

theorem syscall_present (x : Nat) : (x &&& PTE_SYSCALL) &&& PTE_P = x &&& PTE_P := by
  rw [Nat.land_assoc]
  rfl

theorem sforkBody_unfold (L : Layout) (envid : Int) (pn : Nat) (k : Kern) :
    sforkBody L envid pn k =
      if uvpt L k pn &&& PTE_P = 0 then (none, k)
      else if (pn * L.PGSIZE) % 2 ^ 32 = L.UXSTACKTOP - L.PGSIZE then
        (if (sys_page_alloc L envid ((pn * L.PGSIZE) % 2 ^ 32)
              (PTE_U ||| PTE_W ||| PTE_P) k).1 < 0 then
          (some (Outcome.panic "sys_page_alloc: %e"
            (sys_page_alloc L envid ((pn * L.PGSIZE) % 2 ^ 32)
              (PTE_U ||| PTE_W ||| PTE_P) k).1),
           (sys_page_alloc L envid ((pn * L.PGSIZE) % 2 ^ 32) (PTE_U ||| PTE_W ||| PTE_P) k).2)
         else
          (none,
           (sys_page_alloc L envid ((pn * L.PGSIZE) % 2 ^ 32) (PTE_U ||| PTE_W ||| PTE_P) k).2))
      else if (pn * L.PGSIZE) % 2 ^ 32 = L.USTACKTOP - L.PGSIZE then
        (if (duppage L envid pn k).1 < 0 then
          (some (Outcome.panic "duppage: %e" (duppage L envid pn k).1), (duppage L envid pn k).2)
         else (none, (duppage L envid pn k).2))
      else
        (if (sys_page_map L 0 ((pn * L.PGSIZE) % 2 ^ 32) envid ((pn * L.PGSIZE) % 2 ^ 32)
              (uvpt L k pn &&& PTE_SYSCALL) k).1 < 0 then
          (some (Outcome.ret (sys_page_map L 0 ((pn * L.PGSIZE) % 2 ^ 32) envid
              ((pn * L.PGSIZE) % 2 ^ 32) (uvpt L k pn &&& PTE_SYSCALL) k).1),
           (sys_page_map L 0 ((pn * L.PGSIZE) % 2 ^ 32) envid ((pn * L.PGSIZE) % 2 ^ 32)
              (uvpt L k pn &&& PTE_SYSCALL) k).2)
         else
          (none, (sys_page_map L 0 ((pn * L.PGSIZE) % 2 ^ 32) envid ((pn * L.PGSIZE) % 2 ^ 32)
              (uvpt L k pn &&& PTE_SYSCALL) k).2)) := by
  simp only [sforkBody, syscall_present]

/-- One direct mapping of page `pn` into the child `envid`, as the walk of `sfork`
makes it. -/
theorem map_step (L : Layout) (hL : L.WF) (envid : Int) (hpos : 0 < envid) (perm pn : Nat)
    (k : Kern) (hne : envid.toNat ≠ k.cur) (hpn : pn < PGNUM L L.UTOP) (xva : Nat)
    (hx : (pn * L.PGSIZE) % 2 ^ 32 ≠ xva) :
    (sys_page_map L 0 ((pn * L.PGSIZE) % 2 ^ 32) envid ((pn * L.PGSIZE) % 2 ^ 32) perm k).2.cur =
      k.cur ∧
    (∀ id q, q ≠ pn →
      (sys_page_map L 0 ((pn * L.PGSIZE) % 2 ^ 32) envid ((pn * L.PGSIZE) % 2 ^ 32) perm
        k).2.mapping L id q = k.mapping L id q) ∧
    (∀ id q, id ≠ envid.toNat →
      (sys_page_map L 0 ((pn * L.PGSIZE) % 2 ^ 32) envid ((pn * L.PGSIZE) % 2 ^ 32) perm
        k).2.mapping L id q = k.mapping L id q) ∧
    (∀ id i, k.pde id i = true →
      (sys_page_map L 0 ((pn * L.PGSIZE) % 2 ^ 32) envid ((pn * L.PGSIZE) % 2 ^ 32) perm
        k).2.pde id i = true) ∧
    WalkRel L envid.toNat xva k
      (sys_page_map L 0 ((pn * L.PGSIZE) % 2 ^ 32) envid ((pn * L.PGSIZE) % 2 ^ 32) perm k).2 ∧
    (¬ (sys_page_map L 0 ((pn * L.PGSIZE) % 2 ^ 32) envid ((pn * L.PGSIZE) % 2 ^ 32) perm
        k).1 < 0 →
      ∃ m, k.mapping L k.cur pn = some m ∧
        (sys_page_map L 0 ((pn * L.PGSIZE) % 2 ^ 32) envid ((pn * L.PGSIZE) % 2 ^ 32) perm
          k).2.mapping L envid.toNat pn = some { frame := m.frame, perm := perm }) := by
  obtain ⟨hva, hpg, -, -⟩ := va_of_pn L hL pn hpn
  rw [hva] at hx ⊢
  obtain ⟨hcur, -, hlog, -, hpde, hneg, hok⟩ :=
    sys_page_map_obs L 0 (pn * L.PGSIZE) envid (pn * L.PGSIZE) perm k
  have hmap : ∀ id q, (q ≠ pn ∨ id ≠ envid.toNat) →
      (sys_page_map L 0 (pn * L.PGSIZE) envid (pn * L.PGSIZE) perm k).2.mapping L id q =
        k.mapping L id q := by
    intro id q hq
    by_cases h : (sys_page_map L 0 (pn * L.PGSIZE) envid (pn * L.PGSIZE) perm k).1 < 0
    · exact Kern.mapping_congr L k _ (hneg h) id q
    · obtain ⟨-, sid, se, did, de, m, -, hd, -, hm⟩ := hok h
      have hdid := (Kern.envid2env_some k envid did de hd).2.1
      rw [if_neg (by omega)] at hdid
      rw [hm, hpg, hdid]
      rw [if_neg]
      rintro ⟨h1, h2⟩
      rcases hq with hq | hq
      · exact hq h2
      · exact hq h1
  refine ⟨hcur, fun id q hq => hmap id q (Or.inl hq), fun id q hq => hmap id q (Or.inr hq),
    hpde, ⟨⟨_, hlog, ?_⟩, ?_, ?_⟩, ?_⟩
  · intro r hr
    simp only [List.mem_singleton] at hr
    subst hr
    refine ⟨?_, ?_⟩
    · simp only [Req.isMapOf, decide_eq_false_iff_not]; exact hx
    · intro s sva dva perm2 h
      injection h with _ _ h3 _ _
      omega
  · intro id p m hid hm
    exact ⟨m, by rw [hmap id p (Or.inr hid)]; exact hm, rfl⟩
  · intro p hp
    have : uvpt L (sys_page_map L 0 (pn * L.PGSIZE) envid (pn * L.PGSIZE) perm k).2 p =
        uvpt L k p := by
      unfold uvpt
      rw [hcur, hmap k.cur p (Or.inr (fun h => hne h.symm))]
    rw [← this]; exact hp
  · intro h
    obtain ⟨-, sid, se, did, de, m, hs, hd, hms, hm⟩ := hok h
    have hdid := (Kern.envid2env_some k envid did de hd).2.1
    rw [if_neg (by omega)] at hdid
    have hsid := (Kern.envid2env_some k 0 sid se hs).2.1
    rw [if_pos rfl] at hsid
    rw [hsid, hpg] at hms
    exact ⟨m, hms, by rw [hm, hpg, hdid, if_pos ⟨rfl, rfl⟩]⟩

/-- What one step of the walk of `sfork` keeps. -/
theorem sforkBody_step (L : Layout) (hL : L.WF) (envid : Int) (hpos : 0 < envid) (cur0 : Nat)
    (hne : envid.toNat ≠ cur0) (pn : Nat) (k : Kern) (hpn : pn < PGNUM L L.UTOP)
    (hcur : k.cur = cur0) :
    ((sforkBody L envid pn k).1 = none →
      WalkRel L envid.toNat (L.UXSTACKTOP - L.PGSIZE) k (sforkBody L envid pn k).2) ∧
    (sforkBody L envid pn k).2.cur = k.cur ∧
    (∀ id q, q ≠ pn → (sforkBody L envid pn k).2.mapping L id q = k.mapping L id q) ∧
    (∀ id i, k.pde id i = true → (sforkBody L envid pn k).2.pde id i = true) ∧
    (sforkBody L envid pn k).1 ≠ some Outcome.nofuel := by
  rw [sforkBody_unfold]
  by_cases h3 : uvpt L k pn &&& PTE_P = 0
  · rw [if_pos h3]
    exact ⟨fun _ => WalkRel.refl _ _ _ _, rfl, fun _ _ _ => rfl, fun _ _ h => h, by simp⟩
  · rw [if_neg h3]
    by_cases h4 : (pn * L.PGSIZE) % 2 ^ 32 = L.UXSTACKTOP - L.PGSIZE
    · rw [if_pos h4]
      obtain ⟨a1, a2, -, a4, a5, -⟩ :=
        alloc_step L hL envid hpos (PTE_U ||| PTE_W ||| PTE_P) pn k (hcur ▸ hne) hpn
          (L.UXSTACKTOP - L.PGSIZE)
      by_cases h5 : (sys_page_alloc L envid ((pn * L.PGSIZE) % 2 ^ 32)
          (PTE_U ||| PTE_W ||| PTE_P) k).1 < 0
      · rw [if_pos h5]
        exact ⟨(fun h => by cases h), a1, a2, a4, by simp⟩
      · rw [if_neg h5]
        exact ⟨fun _ => a5, a1, a2, a4, by simp⟩
    · rw [if_neg h4]
      by_cases h6 : (pn * L.PGSIZE) % 2 ^ 32 = L.USTACKTOP - L.PGSIZE
      · rw [if_pos h6]
        obtain ⟨d1, d2, d3, d4⟩ :=
          duppage_step L hL envid hpos pn k (hcur ▸ hne) hpn (L.UXSTACKTOP - L.PGSIZE) h4
        by_cases h5 : (duppage L envid pn k).1 < 0
        · rw [if_pos h5]
          exact ⟨(fun h => by cases h), d1, d2, d3, by simp⟩
        · rw [if_neg h5]
          exact ⟨fun _ => (d4 h5).1, d1, d2, d3, by simp⟩
      · rw [if_neg h6]
        obtain ⟨p1, p2, -, p4, p5, -⟩ :=
          map_step L hL envid hpos (uvpt L k pn &&& PTE_SYSCALL) pn k (hcur ▸ hne) hpn
            (L.UXSTACKTOP - L.PGSIZE) h4
        by_cases h5 : (sys_page_map L 0 ((pn * L.PGSIZE) % 2 ^ 32) envid
            ((pn * L.PGSIZE) % 2 ^ 32) (uvpt L k pn &&& PTE_SYSCALL) k).1 < 0
        · rw [if_pos h5]
          exact ⟨(fun h => by cases h), p1, p2, p4, by simp⟩
        · rw [if_neg h5]
          exact ⟨fun _ => p5, p1, p2, p4, by simp⟩

/-- What a step of the walk of `sfork` that does not end `sfork` has done with a
present page `pn`: the exception-stack page got a fresh page in the child; the
top page of the normal stack went through `duppage`; any other page is mapped in
the child with the parent's `PTE_SYSCALL` bits; the parent's mapping changed only
for the stack page. -/
theorem sforkBody_page (L : Layout) (hL : L.WF) (envid : Int) (hpos : 0 < envid) (pn : Nat)
    (k : Kern) (hne : envid.toNat ≠ k.cur) (hpn : pn < PGNUM L L.UTOP)
    (hnone : (sforkBody L envid pn k).1 = none) (m : Mapping)
    (hm : k.mapping L k.cur pn = some m) (hP : m.perm &&& PTE_P ≠ 0) :
    if pn * L.PGSIZE = L.UXSTACKTOP - L.PGSIZE then
      (sforkBody L envid pn k).2.mapping L envid.toNat pn =
        some { frame := k.freshFrame, perm := PTE_U ||| PTE_W ||| PTE_P } ∧
      (sforkBody L envid pn k).2.mapping L k.cur pn = some m
    else if pn * L.PGSIZE = L.USTACKTOP - L.PGSIZE then
      (sforkBody L envid pn k).2.mapping L envid.toNat pn =
        some { frame := m.frame, perm := dupperm m.perm } ∧
      (sforkBody L envid pn k).2.mapping L k.cur pn =
        some { frame := m.frame,
               perm := if m.perm &&& (PTE_COW ||| PTE_W) ≠ 0 then dupperm m.perm
                       else m.perm }
    else
      (sforkBody L envid pn k).2.mapping L envid.toNat pn =
        some { frame := m.frame, perm := m.perm &&& PTE_SYSCALL } ∧
      (sforkBody L envid pn k).2.mapping L k.cur pn = some m := by
  obtain ⟨hva, -, -, -⟩ := va_of_pn L hL pn hpn
  have hu : uvpt L k pn = m.perm := uvpt_of_mapping L k pn m hm
  have h3 : ¬ (uvpt L k pn &&& PTE_P = 0) := by rw [hu]; exact hP
  rw [sforkBody_unfold, if_neg h3] at hnone ⊢
  by_cases h4 : (pn * L.PGSIZE) % 2 ^ 32 = L.UXSTACKTOP - L.PGSIZE
  · rw [if_pos h4] at hnone ⊢
    rw [if_pos (hva ▸ h4)]
    obtain ⟨-, -, a3, -, -, a6⟩ :=
      alloc_step L hL envid hpos (PTE_U ||| PTE_W ||| PTE_P) pn k hne hpn
        (L.UXSTACKTOP - L.PGSIZE)
    by_cases h5 : (sys_page_alloc L envid ((pn * L.PGSIZE) % 2 ^ 32)
        (PTE_U ||| PTE_W ||| PTE_P) k).1 < 0
    · rw [if_pos h5] at hnone; cases hnone
    · rw [if_neg h5]
      exact ⟨a6 h5, by rw [a3 k.cur pn (fun h => hne h.symm)]; exact hm⟩
  · rw [if_neg h4] at hnone ⊢
    rw [if_neg (hva ▸ h4)]
    by_cases h6 : (pn * L.PGSIZE) % 2 ^ 32 = L.USTACKTOP - L.PGSIZE
    · rw [if_pos h6] at hnone ⊢
      rw [if_pos (hva ▸ h6)]
      obtain ⟨-, -, -, d4⟩ :=
        duppage_step L hL envid hpos pn k hne hpn (L.UXSTACKTOP - L.PGSIZE) h4
      by_cases h5 : (duppage L envid pn k).1 < 0
      · rw [if_pos h5] at hnone; cases hnone
      · rw [if_neg h5]
        obtain ⟨-, m2, hm2, hc, hp⟩ := d4 h5
        rw [hm] at hm2
        cases hm2
        exact ⟨hc, hp⟩
    · rw [if_neg h6] at hnone ⊢
      rw [if_neg (hva ▸ h6)]
      obtain ⟨-, -, p3, -, -, p6⟩ :=
        map_step L hL envid hpos (uvpt L k pn &&& PTE_SYSCALL) pn k hne hpn
          (L.UXSTACKTOP - L.PGSIZE) h4
      by_cases h5 : (sys_page_map L 0 ((pn * L.PGSIZE) % 2 ^ 32) envid
          ((pn * L.PGSIZE) % 2 ^ 32) (uvpt L k pn &&& PTE_SYSCALL) k).1 < 0
      · rw [if_pos h5] at hnone; cases hnone
      · rw [if_neg h5]
        obtain ⟨m2, hm2, hc⟩ := p6 h5
        rw [hm] at hm2
        cases hm2
        refine ⟨by rw [hc, hu], ?_⟩
        rw [p3 k.cur pn (fun h => hne h.symm)]
        exact hm

/-- A step of the walk of `sfork` ends `sfork` in a panic or, when a direct mapping
failed, by returning the negative error code. -/
theorem sforkBody_fail (L : Layout) (envid : Int) (pn : Nat) (k : Kern) (o : Outcome)
    (h : (sforkBody L envid pn k).1 = some o) :
    (∃ msg r, r < 0 ∧ o = Outcome.panic msg r) ∨
    (o = Outcome.ret (sys_page_map L 0 ((pn * L.PGSIZE) % 2 ^ 32) envid
        ((pn * L.PGSIZE) % 2 ^ 32) (uvpt L k pn &&& PTE_SYSCALL) k).1 ∧
      (sys_page_map L 0 ((pn * L.PGSIZE) % 2 ^ 32) envid
        ((pn * L.PGSIZE) % 2 ^ 32) (uvpt L k pn &&& PTE_SYSCALL) k).1 < 0 ∧
      uvpt L k pn &&& PTE_P ≠ 0 ∧
      (pn * L.PGSIZE) % 2 ^ 32 ≠ L.UXSTACKTOP - L.PGSIZE ∧
      (pn * L.PGSIZE) % 2 ^ 32 ≠ L.USTACKTOP - L.PGSIZE) := by
  rw [sforkBody_unfold] at h
  by_cases h3 : uvpt L k pn &&& PTE_P = 0
  · rw [if_pos h3] at h; cases h
  · rw [if_neg h3] at h
    by_cases h4 : (pn * L.PGSIZE) % 2 ^ 32 = L.UXSTACKTOP - L.PGSIZE
    · rw [if_pos h4] at h
      by_cases h5 : (sys_page_alloc L envid ((pn * L.PGSIZE) % 2 ^ 32)
          (PTE_U ||| PTE_W ||| PTE_P) k).1 < 0
      · rw [if_pos h5] at h
        cases h
        exact Or.inl ⟨_, _, h5, rfl⟩
      · rw [if_neg h5] at h; cases h
    · rw [if_neg h4] at h
      by_cases h6 : (pn * L.PGSIZE) % 2 ^ 32 = L.USTACKTOP - L.PGSIZE
      · rw [if_pos h6] at h
        by_cases h5 : (duppage L envid pn k).1 < 0
        · rw [if_pos h5] at h
          cases h
          exact Or.inl ⟨_, _, h5, rfl⟩
        · rw [if_neg h5] at h; cases h
      · rw [if_neg h6] at h
        by_cases h5 : (sys_page_map L 0 ((pn * L.PGSIZE) % 2 ^ 32) envid
            ((pn * L.PGSIZE) % 2 ^ 32) (uvpt L k pn &&& PTE_SYSCALL) k).1 < 0
        · rw [if_pos h5] at h
          cases h
          exact Or.inr ⟨rfl, h5, h3, h4, h6⟩
        · rw [if_neg h5] at h; cases h

theorem sfork_resume_pos (L : Layout) (envid : Int) (hpos : 0 < envid) (k : Kern) :
    sfork_resume L envid k =
      if (walkWith L (sforkBody L envid) (PGNUM L L.UTOP + 1) 0 k).1 = none then
        forkFinish envid (walkWith L (sforkBody L envid) (PGNUM L L.UTOP + 1) 0 k).2
      else
        (((walkWith L (sforkBody L envid) (PGNUM L L.UTOP + 1) 0 k).1).getD Outcome.nofuel,
         (walkWith L (sforkBody L envid) (PGNUM L L.UTOP + 1) 0 k).2) := by
  unfold sfork_resume
  rw [if_neg (by omega), if_neg (by omega), sforkWalk_eq]
  rcases walkWith L (sforkBody L envid) (PGNUM L L.UTOP + 1) 0 k with ⟨o, k1⟩
  cases o <;> simp

/-- The walk of `sfork`, as `sfork` starts it, with what `walkWith_spec` gives. -/
theorem sfork_walk (L : Layout) (hL : L.WF) (envid : Int) (hpos : 0 < envid) (k : Kern)
    (hne : envid.toNat ≠ k.cur) :
    ((walkWith L (sforkBody L envid) (PGNUM L L.UTOP + 1) 0 k).1 = none →
      WalkRel L envid.toNat (L.UXSTACKTOP - L.PGSIZE) k
        (walkWith L (sforkBody L envid) (PGNUM L L.UTOP + 1) 0 k).2) ∧
    (walkWith L (sforkBody L envid) (PGNUM L L.UTOP + 1) 0 k).2.cur = k.cur ∧
    (walkWith L (sforkBody L envid) (PGNUM L L.UTOP + 1) 0 k).1 ≠ some Outcome.nofuel ∧
    (∀ o, (walkWith L (sforkBody L envid) (PGNUM L L.UTOP + 1) 0 k).1 = some o →
      ∃ q kq, q < PGNUM L L.UTOP ∧ WalkRel L envid.toNat (L.UXSTACKTOP - L.PGSIZE) k kq ∧
        kq.cur = k.cur ∧
        sforkBody L envid q kq =
          (some o, (walkWith L (sforkBody L envid) (PGNUM L L.UTOP + 1) 0 k).2)) ∧
    ((walkWith L (sforkBody L envid) (PGNUM L L.UTOP + 1) 0 k).1 = none →
      ∀ q, q < PGNUM L L.UTOP → k.pde k.cur (q / L.NPTENTRIES) = true →
        ∃ kq, WalkRel L envid.toNat (L.UXSTACKTOP - L.PGSIZE) k kq ∧ kq.cur = k.cur ∧
          (∀ id p, q ≤ p → kq.mapping L id p = k.mapping L id p) ∧
          (sforkBody L envid q kq).1 = none ∧
          ∀ id, (walkWith L (sforkBody L envid) (PGNUM L L.UTOP + 1) 0 k).2.mapping L id q =
            (sforkBody L envid q kq).2.mapping L id q) := by
  obtain ⟨w1, w2, -, -, w5, w6, w7⟩ :=
    walkWith_spec L hL (sforkBody L envid) k.cur
      (WalkRel L envid.toNat (L.UXSTACKTOP - L.PGSIZE))
      (WalkRel.refl L _ _) (WalkRel.trans L _ _)
      (fun pn k2 hpn hc => sforkBody_step L hL envid hpos k.cur hne pn k2 hpn hc)
      (PGNUM L L.UTOP + 1) 0 k (by omega) rfl (Or.inl (Nat.zero_mod _))
  exact ⟨w1, w2, w5, w6, fun h q hq hp => w7 h q (Nat.zero_le _) hq hp⟩

/-! ## The requests of a call, whatever its outcome -/

/-- The log after a walk, whatever its outcome, when every step adds only requests
that satisfy `P`. -/
theorem walkWith_log (L : Layout) (body : Nat → Kern → Option Outcome × Kern)
    (P : Req → Prop)
    (hbody : ∀ pn k, ∃ rest, (body pn k).2.log = k.log ++ rest ∧ ∀ r ∈ rest, P r) :
    ∀ fuel pn k, ∃ rest, (walkWith L body fuel pn k).2.log = k.log ++ rest ∧
      ∀ r ∈ rest, P r := by
  intro fuel
  induction fuel with
  | zero => intro pn k; exact ⟨[], by simp [walkWith], fun r hr => by cases hr⟩
  | succ f ih =>
    intro pn k
    unfold walkWith
    by_cases h1 : pn < PGNUM L L.UTOP
    · rw [if_pos h1]
      by_cases h2 : uvpd k (pn / L.NPTENTRIES) &&& PTE_P = 0
      · rw [if_pos h2]; exact ih _ _
      · rw [if_neg h2]
        obtain ⟨rest, hl, hp⟩ := hbody pn k
        rcases hb : body pn k with ⟨o, k1⟩
        rw [hb] at hl
        dsimp only at hl
        cases o with
        | some o => exact ⟨rest, hl, hp⟩
        | none =>
          dsimp only
          obtain ⟨rest2, hl2, hp2⟩ := ih ((pn + 1) % 2 ^ 32) k1
          refine ⟨rest ++ rest2, by rw [hl2, hl, List.append_assoc], ?_⟩
          intro r hr
          rcases List.mem_append.mp hr with h | h
          · exact hp r h
          · exact hp2 r h
    · rw [if_neg h1]
      exact ⟨[], by simp, fun r hr => by cases hr⟩

/-- The requests of `duppage`, whatever its outcome: the mapping into `envid`,
then possibly the re-mapping of the caller's page, both of the page's address. -/
theorem duppage_log (L : Layout) (envid : Int) (pn : Nat) (k : Kern) :
    (duppage L envid pn k).2.log =
        k.log ++ [Req.page_map 0 ((pn * L.PGSIZE) % 2 ^ 32) envid ((pn * L.PGSIZE) % 2 ^ 32)
          (dupperm (uvpt L k pn))] ∨
    (duppage L envid pn k).2.log =
        k.log ++ [Req.page_map 0 ((pn * L.PGSIZE) % 2 ^ 32) envid ((pn * L.PGSIZE) % 2 ^ 32)
            (dupperm (uvpt L k pn)),
          Req.page_map 0 ((pn * L.PGSIZE) % 2 ^ 32) 0 ((pn * L.PGSIZE) % 2 ^ 32)
            (dupperm (uvpt L k pn))] := by
  rw [duppage_unfold]
  obtain ⟨-, -, hlog1, -, -, -, -⟩ := sys_page_map_obs L 0 ((pn * L.PGSIZE) % 2 ^ 32) envid
    ((pn * L.PGSIZE) % 2 ^ 32) (dupperm (uvpt L k pn)) k
  obtain ⟨-, -, hlog2, -, -, -, -⟩ := sys_page_map_obs L 0 ((pn * L.PGSIZE) % 2 ^ 32) 0
    ((pn * L.PGSIZE) % 2 ^ 32) (dupperm (uvpt L k pn))
    (sys_page_map L 0 ((pn * L.PGSIZE) % 2 ^ 32) envid
      ((pn * L.PGSIZE) % 2 ^ 32) (dupperm (uvpt L k pn)) k).2
  have hlog12 : (sys_page_map L 0 ((pn * L.PGSIZE) % 2 ^ 32) 0
      ((pn * L.PGSIZE) % 2 ^ 32) (dupperm (uvpt L k pn))
      (sys_page_map L 0 ((pn * L.PGSIZE) % 2 ^ 32) envid
        ((pn * L.PGSIZE) % 2 ^ 32) (dupperm (uvpt L k pn)) k).2).2.log =
      k.log ++ [Req.page_map 0 ((pn * L.PGSIZE) % 2 ^ 32) envid ((pn * L.PGSIZE) % 2 ^ 32)
            (dupperm (uvpt L k pn)),
          Req.page_map 0 ((pn * L.PGSIZE) % 2 ^ 32) 0 ((pn * L.PGSIZE) % 2 ^ 32)
            (dupperm (uvpt L k pn))] := by
    rw [hlog2, hlog1]; simp
  split
  · exact Or.inl hlog1
  · split
    · split
      · exact Or.inr hlog12
      · exact Or.inr hlog12
    · exact Or.inl hlog1

theorem forkBody_log (L : Layout) (envid : Int) (pn : Nat) (k : Kern) :
    ∃ rest, (forkBody L envid pn k).2.log = k.log ++ rest ∧
      ∀ r ∈ rest, Req.isMapOf (L.UXSTACKTOP - L.PGSIZE) r = false ∧ Req.isPaging r = true := by
  rw [forkBody_unfold]
  by_cases h3 : uvpt L k pn &&& PTE_P = 0
  · rw [if_pos h3]; exact ⟨[], by simp, fun r hr => by cases hr⟩
  · rw [if_neg h3]
    by_cases h4 : (pn * L.PGSIZE) % 2 ^ 32 = L.UXSTACKTOP - L.PGSIZE
    · rw [if_pos h4]
      obtain ⟨-, hlog, -⟩ := sys_page_alloc_obs L envid ((pn * L.PGSIZE) % 2 ^ 32)
        (PTE_U ||| PTE_W ||| PTE_P) k
      refine ⟨_, by split <;> exact hlog, ?_⟩
      intro r hr
      simp only [List.mem_singleton] at hr
      subst hr
      exact ⟨rfl, rfl⟩
    · rw [if_neg h4]
      have hm : ∀ d perm, Req.isMapOf (L.UXSTACKTOP - L.PGSIZE)
          (Req.page_map 0 ((pn * L.PGSIZE) % 2 ^ 32) d ((pn * L.PGSIZE) % 2 ^ 32) perm) = false := by
        intro d perm
        simp only [Req.isMapOf, decide_eq_false_iff_not]; exact h4
      rcases duppage_log L envid pn k with hl | hl
      · refine ⟨_, by split <;> exact hl, ?_⟩
        intro r hr
        simp only [List.mem_singleton] at hr
        subst hr
        exact ⟨hm _ _, rfl⟩
      · refine ⟨_, by split <;> exact hl, ?_⟩
        intro r hr
        simp only [List.mem_cons, List.mem_singleton, List.not_mem_nil, or_false] at hr
        rcases hr with hr | hr <;> subst hr <;> exact ⟨hm _ _, rfl⟩

theorem sforkBody_log (L : Layout) (envid : Int) (pn : Nat) (k : Kern) :
    ∃ rest, (sforkBody L envid pn k).2.log = k.log ++ rest ∧
      ∀ r ∈ rest, Req.isMapOf (L.UXSTACKTOP - L.PGSIZE) r = false ∧ Req.isPaging r = true := by
  rw [sforkBody_unfold]
  by_cases h3 : uvpt L k pn &&& PTE_P = 0
  · rw [if_pos h3]; exact ⟨[], by simp, fun r hr => by cases hr⟩
  · rw [if_neg h3]
    by_cases h4 : (pn * L.PGSIZE) % 2 ^ 32 = L.UXSTACKTOP - L.PGSIZE
    · rw [if_pos h4]
      obtain ⟨-, hlog, -⟩ := sys_page_alloc_obs L envid ((pn * L.PGSIZE) % 2 ^ 32)
        (PTE_U ||| PTE_W ||| PTE_P) k
      refine ⟨_, by split <;> exact hlog, ?_⟩
      intro r hr
      simp only [List.mem_singleton] at hr
      subst hr
      exact ⟨rfl, rfl⟩
    · rw [if_neg h4]
      have hm : ∀ d perm, Req.isMapOf (L.UXSTACKTOP - L.PGSIZE)
          (Req.page_map 0 ((pn * L.PGSIZE) % 2 ^ 32) d ((pn * L.PGSIZE) % 2 ^ 32) perm) = false := by
        intro d perm
        simp only [Req.isMapOf, decide_eq_false_iff_not]; exact h4
      by_cases h6 : (pn * L.PGSIZE) % 2 ^ 32 = L.USTACKTOP - L.PGSIZE
      · rw [if_pos h6]
        rcases duppage_log L envid pn k with hl | hl
        · refine ⟨_, by split <;> exact hl, ?_⟩
          intro r hr
          simp only [List.mem_singleton] at hr
          subst hr
          exact ⟨hm _ _, rfl⟩
        · refine ⟨_, by split <;> exact hl, ?_⟩
          intro r hr
          simp only [List.mem_cons, List.mem_singleton, List.not_mem_nil, or_false] at hr
          rcases hr with hr | hr <;> subst hr <;> exact ⟨hm _ _, rfl⟩
      · rw [if_neg h6]
        obtain ⟨-, -, hlog, -⟩ := sys_page_map_obs L 0 ((pn * L.PGSIZE) % 2 ^ 32) envid
          ((pn * L.PGSIZE) % 2 ^ 32) (uvpt L k pn &&& PTE_SYSCALL) k
        refine ⟨_, by split <;> exact hlog, ?_⟩
        intro r hr
        simp only [List.mem_singleton] at hr
        subst hr
        exact ⟨hm _ _, rfl⟩

theorem fix_thisenv_log (k : Kern) : (fix_thisenv k).log = k.log := by
  unfold fix_thisenv
  cases Tbl.get k.envs k.cur <;> rfl

/-- The requests of the end of `fork` and `sfork`, whatever its outcome: none of
them maps a page. -/
theorem forkFinish_log (envid : Int) (k : Kern) :
    ∃ rest, (forkFinish envid k).2.log = k.log ++ rest ∧
      ∀ r ∈ rest, ∀ va, Req.isMapOf va r = false := by
  unfold forkFinish
  have hl1 := Kern.enter_log k (Req.env_set_pgfault_upcall envid)
  have hsound : ∀ r ∈ [Req.env_set_pgfault_upcall envid], ∀ va, Req.isMapOf va r = false := by
    intro r hr va
    simp only [List.mem_singleton] at hr
    subst hr; rfl
  have hsound2 : ∀ r ∈ [Req.env_set_pgfault_upcall envid,
      Req.env_set_status envid ENV_RUNNABLE], ∀ va, Req.isMapOf va r = false := by
    intro r hr va
    simp only [List.mem_cons, List.mem_singleton, List.not_mem_nil, or_false] at hr
    rcases hr with hr | hr <;> subst hr <;> rfl
  rcases sys_env_set_pgfault_upcall_cases envid k with ⟨e, he, h⟩ | ⟨id, en, hd, -, h⟩
  · rw [h]
    dsimp only
    rw [if_pos he]
    exact ⟨_, hl1, hsound⟩
  · rw [h]
    dsimp only
    rw [if_neg (by decide)]
    generalize hk1 : (k.enter (Req.env_set_pgfault_upcall envid)).2.setEnv id
      { en with pgfault_upcall := true } = k1
    have hk1log : k1.log = k.log ++ [Req.env_set_pgfault_upcall envid] := by
      rw [← hk1]; exact hl1
    have hl2 := Kern.enter_log k1 (Req.env_set_status envid ENV_RUNNABLE)
    have hfull : (k1.enter (Req.env_set_status envid ENV_RUNNABLE)).2.log =
        k.log ++ [Req.env_set_pgfault_upcall envid, Req.env_set_status envid ENV_RUNNABLE] := by
      rw [hl2, hk1log]; simp
    rcases sys_env_set_status_cases envid ENV_RUNNABLE k1 with ⟨e, he, h2⟩ | ⟨id2, en2, hd2, -, h2⟩
    · rw [h2]
      dsimp only
      rw [if_pos he]
      exact ⟨_, hfull, hsound2⟩
    · rw [h2]
      dsimp only
      rw [if_neg (by decide)]
      exact ⟨_, hfull, hsound2⟩

/-- The layout of JOS meets both conditions on a layout. -/
theorem josLayout_wf : josLayout.WF ∧ josLayout.WFS := by decide

/-! ## The layout of the stacks -/

/-- The top page of the normal stack and the scratch page of `PFTEMP` in a layout
that is `WF` and `WFS`: both lie below `UTOP`, their addresses are page-aligned,
and the scratch page, the stack page and the exception-stack page follow each other
in this order. -/
theorem stack_pn (L : Layout) (hL : L.WF) (hS : L.WFS) :
    PGNUM L (L.USTACKTOP - L.PGSIZE) < PGNUM L L.UTOP ∧
    PGNUM L (L.USTACKTOP - L.PGSIZE) * L.PGSIZE = L.USTACKTOP - L.PGSIZE ∧
    PGNUM L L.PFTEMP * L.PGSIZE = L.PFTEMP ∧ L.PFTEMP < L.UTOP ∧
    PGNUM L L.PFTEMP < PGNUM L (L.USTACKTOP - L.PGSIZE) ∧
    PGNUM L (L.USTACKTOP - L.PGSIZE) < PGNUM L (L.UXSTACKTOP - L.PGSIZE) ∧
    L.PFTEMP ≠ L.UXSTACKTOP - L.PGSIZE ∧
    L.USTACKTOP - L.PGSIZE ≠ L.UXSTACKTOP - L.PGSIZE := by
  obtain ⟨hx1, hx2⟩ := xstack_pn L hL
  obtain ⟨hP, -, -, -, hle, hx, hal⟩ := hL
  obtain ⟨ht, hts, hsle, hsal, hsx⟩ := hS
  obtain ⟨a, ha⟩ := Nat.dvd_of_mod_eq_zero hsal
  obtain ⟨b, hb⟩ := Nat.dvd_of_mod_eq_zero ht
  have ha1 : 1 ≤ a := by
    rcases Nat.eq_zero_or_pos a with h0 | h0
    · subst h0; omega
    · exact h0
  have hsub : L.USTACKTOP - L.PGSIZE = (a - 1) * L.PGSIZE := by
    rw [Nat.sub_mul, Nat.one_mul, Nat.mul_comm a, ← ha]
  have hs : PGNUM L (L.USTACKTOP - L.PGSIZE) = a - 1 := by
    unfold PGNUM; rw [hsub]; exact Nat.mul_div_cancel _ hP
  have htn : PGNUM L L.PFTEMP = b := by
    unfold PGNUM; rw [hb]; exact Nat.mul_div_cancel_left _ hP
  have hxs : L.USTACKTOP - L.PGSIZE < L.UXSTACKTOP - L.PGSIZE := by omega
  have hlt : PGNUM L (L.USTACKTOP - L.PGSIZE) < PGNUM L (L.UXSTACKTOP - L.PGSIZE) := by
    rw [hs]
    have h1 : (a - 1) * L.PGSIZE < PGNUM L (L.UXSTACKTOP - L.PGSIZE) * L.PGSIZE := by
      rw [hx2, ← hsub]; exact hxs
    exact Nat.lt_of_mul_lt_mul_right h1
  have htlt : b < a - 1 := by
    have h1 : b * L.PGSIZE + L.PGSIZE ≤ (a - 1) * L.PGSIZE := by
      rw [← hsub, Nat.mul_comm b, ← hb]; exact hts
    have h2 : (b + 1) * L.PGSIZE ≤ (a - 1) * L.PGSIZE := by
      rw [Nat.succ_mul]; exact h1
    have := Nat.le_of_mul_le_mul_right h2 hP
    omega
  refine ⟨by omega, by rw [hs, hsub], by rw [htn, Nat.mul_comm, ← hb], by omega, by rw [htn, hs]; exact htlt,
    hlt, by omega, by omega⟩

/-! ## The registered upcalls -/

theorem Kern.upcall_setEnv (k : Kern) (id : Nat) (e : Env) (id2 : Nat) :
    (k.setEnv id e).upcall id2 = if id2 = id then e.pgfault_upcall else k.upcall id2 := by
  unfold Kern.upcall Kern.setEnv
  simp only [Tbl.get_put]
  by_cases h : id2 = id
  · rw [if_pos h, if_pos h]
  · rw [if_neg h, if_neg h]

theorem Kern.upcall_congr (k k1 : Kern) (h : k1.envs = k.envs) (id : Nat) :
    k1.upcall id = k.upcall id := by
  unfold Kern.upcall; rw [h]

theorem Kern.upcall_of_get (k : Kern) (id : Nat) (e : Env) (h : Tbl.get k.envs id = some e) :
    k.upcall id = e.pgfault_upcall := by
  unfold Kern.upcall; rw [h]

theorem Kern.upcall_setEnv_same (k : Kern) (id : Nat) (e e2 : Env)
    (hg : Tbl.get k.envs id = some e) (hp : e2.pgfault_upcall = e.pgfault_upcall) (id2 : Nat) :
    (k.setEnv id e2).upcall id2 = k.upcall id2 := by
  rw [Kern.upcall_setEnv]
  by_cases h : id2 = id
  · subst h
    rw [if_pos rfl, hp, Kern.upcall_of_get k id2 e hg]
  · rw [if_neg h]

theorem Env.set_upcall (L : Layout) (e : Env) (pn : Nat) (m : Mapping) :
    (e.set L pn m).pgfault_upcall = e.pgfault_upcall := rfl

theorem Env.unset_upcall (L : Layout) (e : Env) (pn : Nat) :
    (e.unset L pn).pgfault_upcall = e.pgfault_upcall := by
  unfold Env.unset
  cases Tbl.get e.pgdir (pn / L.NPTENTRIES) <;> rfl

theorem sys_page_map_upcall (L : Layout) (s : Int) (sva : Nat) (d : Int) (dva perm : Nat)
    (k : Kern) (id : Nat) : (sys_page_map L s sva d dva perm k).2.upcall id = k.upcall id := by
  have henvs := Kern.enter_envs k (Req.page_map s sva d dva perm)
  rcases sys_page_map_cases L s sva d dva perm k with ⟨e, he, h⟩ | ⟨sid, se, did, de, m, hs, hd, hm, _, h⟩
  · rw [h]; exact Kern.upcall_congr _ _ henvs id
  · rw [h]
    have hds := (Kern.envid2env_some k d did de hd).2.2
    exact (Kern.upcall_setEnv_same _ did de _ (by rw [henvs]; exact hds)
      (Env.set_upcall L de _ _) id).trans (Kern.upcall_congr _ _ henvs id)

theorem sys_page_alloc_upcall (L : Layout) (envid : Int) (va perm : Nat) (k : Kern) (id : Nat) :
    (sys_page_alloc L envid va perm k).2.upcall id = k.upcall id := by
  have henvs := Kern.enter_envs k (Req.page_alloc envid va perm)
  rcases sys_page_alloc_cases L envid va perm k with ⟨e, he, h⟩ | ⟨did, de, hd, hva, hal, _, h⟩
  · rw [h]; exact Kern.upcall_congr _ _ henvs id
  · rw [h]
    have hds := (Kern.envid2env_some k envid did de hd).2.2
    have : ∀ (k2 : Kern) (mm : List (Nat × List (Nat × Nat))),
        Kern.upcall { k2 with mem := mm } id = Kern.upcall k2 id := fun _ _ => rfl
    exact (this _ _).trans ((Kern.upcall_setEnv_same _ did de _ (by rw [henvs]; exact hds)
      (Env.set_upcall L de _ _) id).trans (Kern.upcall_congr _ _ henvs id))

theorem sys_page_unmap_upcall (L : Layout) (envid : Int) (va : Nat) (k : Kern) (id : Nat) :
    (sys_page_unmap L envid va k).2.upcall id = k.upcall id := by
  have henvs := Kern.enter_envs k (Req.page_unmap envid va)
  rcases sys_page_unmap_cases L envid va k with ⟨e, he, h⟩ | ⟨did, de, hd, _, h⟩
  · rw [h]; exact Kern.upcall_congr _ _ henvs id
  · rw [h]
    have hds := (Kern.envid2env_some k envid did de hd).2.2
    exact (Kern.upcall_setEnv_same _ did de _ (by rw [henvs]; exact hds)
      (Env.unset_upcall L de _) id).trans (Kern.upcall_congr _ _ henvs id)

theorem Env.unset_pde (L : Layout) (e : Env) (pn i : Nat) :
    (Tbl.get (e.unset L pn).pgdir i).isSome = (Tbl.get e.pgdir i).isSome := by
  unfold Env.unset
  cases ht : Tbl.get e.pgdir (pn / L.NPTENTRIES) with
  | none => rfl
  | some t =>
    dsimp only
    rw [Tbl.get_put]
    by_cases h : i = pn / L.NPTENTRIES
    · rw [if_pos h, h, ht]; rfl
    · rw [if_neg h]

theorem sys_page_unmap_pde (L : Layout) (envid : Int) (va : Nat) (k : Kern) (id i : Nat) :
    (sys_page_unmap L envid va k).2.pde id i = k.pde id i := by
  have henvs := Kern.enter_envs k (Req.page_unmap envid va)
  rcases sys_page_unmap_cases L envid va k with ⟨e, he, h⟩ | ⟨did, de, hd, _, h⟩
  · rw [h]; exact Kern.pde_congr _ _ henvs id i
  · rw [h]
    have hds := (Kern.envid2env_some k envid did de hd).2.2
    show ((k.enter (Req.page_unmap envid va)).2.setEnv did (de.unset L (PGNUM L va))).pde id i = _
    unfold Kern.pde Kern.setEnv
    simp only [Tbl.get_put]
    by_cases hid : id = did
    · subst hid
      rw [if_pos rfl, hds]
      exact Env.unset_pde L de _ i
    · rw [if_neg hid, henvs]

theorem duppage_upcall (L : Layout) (envid : Int) (pn : Nat) (k : Kern) (id : Nat) :
    (duppage L envid pn k).2.upcall id = k.upcall id := by
  rw [duppage_unfold]
  split
  · exact sys_page_map_upcall _ _ _ _ _ _ _ _
  · split
    · split
      · exact (sys_page_map_upcall _ _ _ _ _ _ _ _).trans (sys_page_map_upcall _ _ _ _ _ _ _ _)
      · exact (sys_page_map_upcall _ _ _ _ _ _ _ _).trans (sys_page_map_upcall _ _ _ _ _ _ _ _)
    · exact sys_page_map_upcall _ _ _ _ _ _ _ _

theorem forkBody_upcall (L : Layout) (envid : Int) (pn : Nat) (k : Kern) (id : Nat) :
    (forkBody L envid pn k).2.upcall id = k.upcall id := by
  rw [forkBody_unfold]
  split
  · rfl
  · split
    · split <;> exact sys_page_alloc_upcall _ _ _ _ _ _
    · split <;> exact duppage_upcall _ _ _ _ _

theorem sforkBody_upcall (L : Layout) (envid : Int) (pn : Nat) (k : Kern) (id : Nat) :
    (sforkBody L envid pn k).2.upcall id = k.upcall id := by
  rw [sforkBody_unfold]
  split
  · rfl
  · split
    · split <;> exact sys_page_alloc_upcall _ _ _ _ _ _
    · split
      · split <;> exact duppage_upcall _ _ _ _ _
      · split <;> exact sys_page_map_upcall _ _ _ _ _ _ _ _

/-! ## What a request leaves alone -/

theorem sys_page_alloc_frame (L : Layout) (envid : Int) (va perm : Nat) (k : Kern) (id q : Nat)
    (h : ¬ (id = (if envid = 0 then k.cur else envid.toNat) ∧ q = PGNUM L va)) :
    (sys_page_alloc L envid va perm k).2.mapping L id q = k.mapping L id q := by
  obtain ⟨-, -, -, -, hneg, hok⟩ := sys_page_alloc_obs L envid va perm k
  by_cases hr : (sys_page_alloc L envid va perm k).1 < 0
  · exact Kern.mapping_congr L k _ (hneg hr).1 id q
  · obtain ⟨-, -, did, de, hd, -, -, hm⟩ := hok hr
    have hdid := (Kern.envid2env_some k envid did de hd).2.1
    rw [hm, if_neg]
    rw [hdid]; exact h

theorem sys_page_map_frame (L : Layout) (s : Int) (sva : Nat) (d : Int) (dva perm : Nat)
    (k : Kern) (id q : Nat)
    (h : ¬ (id = (if d = 0 then k.cur else d.toNat) ∧ q = PGNUM L dva)) :
    (sys_page_map L s sva d dva perm k).2.mapping L id q = k.mapping L id q := by
  obtain ⟨-, -, -, -, -, hneg, hok⟩ := sys_page_map_obs L s sva d dva perm k
  by_cases hr : (sys_page_map L s sva d dva perm k).1 < 0
  · exact Kern.mapping_congr L k _ (hneg hr) id q
  · obtain ⟨-, sid, se, did, de, m, -, hd, -, hm⟩ := hok hr
    have hdid := (Kern.envid2env_some k d did de hd).2.1
    rw [hm, if_neg]
    rw [hdid]; exact h

theorem sys_page_unmap_frame (L : Layout) (envid : Int) (va : Nat) (k : Kern) (id q : Nat)
    (h : ¬ (id = (if envid = 0 then k.cur else envid.toNat) ∧ q = PGNUM L va)) :
    (sys_page_unmap L envid va k).2.mapping L id q = k.mapping L id q := by
  obtain ⟨-, -, -, -, hneg, hok⟩ := sys_page_unmap_obs L envid va k
  by_cases hr : (sys_page_unmap L envid va k).1 < 0
  · exact Kern.mapping_congr L k _ (hneg hr) id q
  · obtain ⟨-, did, de, hd, hm⟩ := hok hr
    have hdid := (Kern.envid2env_some k envid did de hd).2.1
    rw [hm, if_neg]
    rw [hdid]; exact h

/-- What `pgfault` does to the observable state, whatever its outcome: it changes
no mapping but those of the scratch page and of the page of the fault in the
running context, keeps the page tables and the registered upcalls, and its
requests are the allocation at `PFTEMP`, the re-map of the page of the fault and
the unmap of `PFTEMP`. -/
theorem pgfault_obs (L : Layout) (utf : UTrapframe) (k : Kern) :
    (pgfault L utf k).2.cur = k.cur ∧
    (∀ id q, ¬ (id = k.cur ∧ (q = PGNUM L L.PFTEMP ∨ q = PGNUM L utf.utf_fault_va)) →
      (pgfault L utf k).2.mapping L id q = k.mapping L id q) ∧
    (∀ id i, k.pde id i = true → (pgfault L utf k).2.pde id i = true) ∧
    (∀ id, (pgfault L utf k).2.upcall id = k.upcall id) ∧
    (∃ rest, (pgfault L utf k).2.log = k.log ++ rest ∧
      ∀ r ∈ rest, r = Req.page_alloc 0 L.PFTEMP (PTE_U ||| PTE_W ||| PTE_P) ∨
        r = Req.page_map 0 L.PFTEMP 0 (ROUNDDOWN utf.utf_fault_va L.PGSIZE)
          (PTE_U ||| PTE_W ||| PTE_P) ∨
        r = Req.page_unmap 0 L.PFTEMP) ∧
    (pgfault L utf k).1 ≠ Outcome.nofuel := by
  -- the allocation
  obtain ⟨a1, a2, -, a4, -, -⟩ := sys_page_alloc_obs L 0 L.PFTEMP (PTE_U ||| PTE_W ||| PTE_P) k
  have a5 := sys_page_alloc_frame L 0 L.PFTEMP (PTE_U ||| PTE_W ||| PTE_P) k
  have a6 := sys_page_alloc_upcall L 0 L.PFTEMP (PTE_U ||| PTE_W ||| PTE_P) k
  have hka : (pgfault_alloc L k) =
      (sys_page_alloc L 0 L.PFTEMP (PTE_U ||| PTE_W ||| PTE_P) k) := rfl
  rw [← hka] at a1 a2 a4 a5 a6
  -- the copy
  obtain ⟨c1, c2, c3, -, -, -, -⟩ := memmove_page_obs L L.PFTEMP
    (ROUNDDOWN utf.utf_fault_va L.PGSIZE) (pgfault_alloc L k).2
  -- the re-map
  obtain ⟨m1, -, m3, -, m4, -, -⟩ :=
    sys_page_map_obs L 0 L.PFTEMP 0 (ROUNDDOWN utf.utf_fault_va L.PGSIZE)
      (PTE_U ||| PTE_W ||| PTE_P)
      (memmove_page L L.PFTEMP (ROUNDDOWN utf.utf_fault_va L.PGSIZE) (pgfault_alloc L k).2)
  have m5 := sys_page_map_frame L 0 L.PFTEMP 0 (ROUNDDOWN utf.utf_fault_va L.PGSIZE)
      (PTE_U ||| PTE_W ||| PTE_P)
      (memmove_page L L.PFTEMP (ROUNDDOWN utf.utf_fault_va L.PGSIZE) (pgfault_alloc L k).2)
  have m6 := sys_page_map_upcall L 0 L.PFTEMP 0 (ROUNDDOWN utf.utf_fault_va L.PGSIZE)
      (PTE_U ||| PTE_W ||| PTE_P)
      (memmove_page L L.PFTEMP (ROUNDDOWN utf.utf_fault_va L.PGSIZE) (pgfault_alloc L k).2)
  have hkm : (pgfault_map L utf k) =
      sys_page_map L 0 L.PFTEMP 0 (ROUNDDOWN utf.utf_fault_va L.PGSIZE)
        (PTE_U ||| PTE_W ||| PTE_P)
        (memmove_page L L.PFTEMP (ROUNDDOWN utf.utf_fault_va L.PGSIZE) (pgfault_alloc L k).2) :=
    rfl
  rw [← hkm] at m1 m3 m4 m5 m6
  rw [c1, a1] at m1
  rw [c3, a2] at m3
  -- the unmap
  obtain ⟨u1, -, u3, -, -, -⟩ := sys_page_unmap_obs L 0 L.PFTEMP (pgfault_map L utf k).2
  have u4 := sys_page_unmap_pde L 0 L.PFTEMP (pgfault_map L utf k).2
  have u5 := sys_page_unmap_frame L 0 L.PFTEMP (pgfault_map L utf k).2
  have u6 := sys_page_unmap_upcall L 0 L.PFTEMP (pgfault_map L utf k).2
  have hku : pgfault_unmap L utf k = sys_page_unmap L 0 L.PFTEMP (pgfault_map L utf k).2 := rfl
  rw [← hku] at u1 u3 u4 u5 u6
  rw [m1] at u1
  rw [m3] at u3
  -- the three states
  have hA : ∀ id q, ¬ (id = k.cur ∧ (q = PGNUM L L.PFTEMP ∨ q = PGNUM L utf.utf_fault_va)) →
      (pgfault_alloc L k).2.mapping L id q = k.mapping L id q := by
    intro id q h
    apply a5
    rw [if_pos rfl]
    exact fun hh => h ⟨hh.1, Or.inl hh.2⟩
  have hM : ∀ id q, ¬ (id = k.cur ∧ (q = PGNUM L L.PFTEMP ∨ q = PGNUM L utf.utf_fault_va)) →
      (pgfault_map L utf k).2.mapping L id q = k.mapping L id q := by
    intro id q h
    rw [m5, Kern.mapping_congr L _ _ c2]
    · exact hA id q h
    · rw [if_pos rfl, c1, a1, rounddown_pgnum]
      exact fun hh => h ⟨hh.1, Or.inr hh.2⟩
  have hU : ∀ id q, ¬ (id = k.cur ∧ (q = PGNUM L L.PFTEMP ∨ q = PGNUM L utf.utf_fault_va)) →
      (pgfault_unmap L utf k).2.mapping L id q = k.mapping L id q := by
    intro id q h
    rw [u5]
    · exact hM id q h
    · rw [if_pos rfl, m1]
      exact fun hh => h ⟨hh.1, Or.inl hh.2⟩
  have hpA : ∀ id i, k.pde id i = true → (pgfault_alloc L k).2.pde id i = true := a4
  have hpM : ∀ id i, k.pde id i = true → (pgfault_map L utf k).2.pde id i = true := by
    intro id i h
    apply m4
    rw [Kern.pde_congr _ _ c2]
    exact a4 id i h
  have hpU : ∀ id i, k.pde id i = true → (pgfault_unmap L utf k).2.pde id i = true := by
    intro id i h
    rw [u4]; exact hpM id i h
  have hfM : ∀ id, (pgfault_map L utf k).2.upcall id = k.upcall id := by
    intro id
    rw [m6, Kern.upcall_congr _ _ c2, a6]
  have hfU : ∀ id, (pgfault_unmap L utf k).2.upcall id = k.upcall id := by
    intro id
    rw [u6, hfM]
  rw [pgfault_unfold]
  split
  · exact ⟨rfl, fun _ _ _ => rfl, fun _ _ h => h, fun _ => rfl,
      ⟨[], by simp, fun r hr => by cases hr⟩, fun h => by cases h⟩
  · split
    · refine ⟨a1, hA, hpA, a6, ⟨_, a2, ?_⟩, fun h => by cases h⟩
      intro r hr
      simp only [List.mem_singleton] at hr
      exact Or.inl hr
    · split
      · refine ⟨m1, hM, hpM, hfM,
          ⟨[Req.page_alloc 0 L.PFTEMP (PTE_U ||| PTE_W ||| PTE_P)] ++
            [Req.page_map 0 L.PFTEMP 0 (ROUNDDOWN utf.utf_fault_va L.PGSIZE)
              (PTE_U ||| PTE_W ||| PTE_P)], by rw [m3]; simp, ?_⟩, fun h => by cases h⟩
        intro r hr
        simp only [List.mem_append, List.mem_singleton] at hr
        rcases hr with hr | hr
        · exact Or.inl hr
        · exact Or.inr (Or.inl hr)
      · have hlog : ∀ r ∈ [Req.page_alloc 0 L.PFTEMP (PTE_U ||| PTE_W ||| PTE_P)] ++
            [Req.page_map 0 L.PFTEMP 0 (ROUNDDOWN utf.utf_fault_va L.PGSIZE)
              (PTE_U ||| PTE_W ||| PTE_P)] ++ [Req.page_unmap 0 L.PFTEMP],
            r = Req.page_alloc 0 L.PFTEMP (PTE_U ||| PTE_W ||| PTE_P) ∨
            r = Req.page_map 0 L.PFTEMP 0 (ROUNDDOWN utf.utf_fault_va L.PGSIZE)
              (PTE_U ||| PTE_W ||| PTE_P) ∨
            r = Req.page_unmap 0 L.PFTEMP := by
          intro r hr
          simp only [List.mem_append, List.mem_singleton] at hr
          rcases hr with (hr | hr) | hr
          · exact Or.inl hr
          · exact Or.inr (Or.inl hr)
          · exact Or.inr (Or.inr hr)
        have hl : (pgfault_unmap L utf k).2.log = k.log ++
            ([Req.page_alloc 0 L.PFTEMP (PTE_U ||| PTE_W ||| PTE_P)] ++
            [Req.page_map 0 L.PFTEMP 0 (ROUNDDOWN utf.utf_fault_va L.PGSIZE)
              (PTE_U ||| PTE_W ||| PTE_P)] ++ [Req.page_unmap 0 L.PFTEMP]) := by
          rw [u3]; simp
        split
        · exact ⟨u1, hU, hpU, hfU, ⟨_, hl, hlog⟩, fun h => by cases h⟩
        · exact ⟨u1, hU, hpU, hfU, ⟨_, hl, hlog⟩, fun h => by cases h⟩

/-! ## Writes to the stack -/

theorem touch_zero (L : Layout) (va : Nat) (k : Kern) :
    touch L va 0 k = (some Outcome.nofuel, k) := rfl

theorem touch_succ (L : Layout) (va fuel : Nat) (k : Kern) :
    touch L va (fuel + 1) k =
      if uvpt L k (PGNUM L va) &&& PTE_P ≠ 0 ∧ uvpt L k (PGNUM L va) &&& PTE_U ≠ 0 ∧
          uvpt L k (PGNUM L va) &&& PTE_W ≠ 0 then (none, k)
      else
        match Tbl.get k.envs k.cur with
        | none => (some (Outcome.panic "no context" 0), k)
        | some e =>
          if e.pgfault_upcall then
            if k.xstackWritable L then
              match pgfault L (write_fault L k va) k with
              | (Outcome.ret _, k1) => touch L va fuel k1
              | (o, k1) => (some o, k1)
            else (some (Outcome.panic "user fault, no exception stack" 0), k)
          else (some (Outcome.panic "user fault, no upcall" 0), k) := rfl

/-- A write to a page that the handler has just been run for: it completes, or it
faults again and the context does not survive; the state does not change. -/
theorem touch_retry (L : Layout) (va : Nat) (k : Kern)
    (hc : uvpt L k (PGNUM L va) &&& PTE_COW = 0) :
    (touch L va 1 k).2 = k ∧
    ((touch L va 1 k).1 = none ∨ ∃ msg r, (touch L va 1 k).1 = some (Outcome.panic msg r)) ∧
    ((touch L va 1 k).1 = none →
      uvpt L k (PGNUM L va) &&& PTE_P ≠ 0 ∧ uvpt L k (PGNUM L va) &&& PTE_U ≠ 0 ∧
        uvpt L k (PGNUM L va) &&& PTE_W ≠ 0) := by
  rw [touch_succ]
  by_cases hw : uvpt L k (PGNUM L va) &&& PTE_P ≠ 0 ∧ uvpt L k (PGNUM L va) &&& PTE_U ≠ 0 ∧
      uvpt L k (PGNUM L va) &&& PTE_W ≠ 0
  · rw [if_pos hw]
    exact ⟨rfl, Or.inl rfl, fun _ => hw⟩
  · rw [if_neg hw]
    cases Tbl.get k.envs k.cur with
    | none => exact ⟨rfl, Or.inr ⟨_, _, rfl⟩, fun h => by cases h⟩
    | some e =>
      dsimp only
      by_cases hu : e.pgfault_upcall = true
      · rw [if_pos hu]
        by_cases hxs : k.xstackWritable L
        · rw [if_pos hxs]
          have hp : pgfault L (write_fault L k va) k =
              (Outcome.panic "pgfault: not a copy-on-write page" 0, k) := by
            have hc2 : (write_fault L k va).utf_err &&& FEC_WR = 0 ∨
                uvpt L k (PGNUM L (write_fault L k va).utf_fault_va) &&& PTE_COW = 0 :=
              Or.inr hc
            rw [pgfault_unfold, if_pos hc2]
          rw [hp]
          exact ⟨rfl, Or.inr ⟨_, _, rfl⟩, fun h => by cases h⟩
        · rw [if_neg hxs]
          exact ⟨rfl, Or.inr ⟨_, _, rfl⟩, fun h => by cases h⟩
      · rw [if_neg hu]
        exact ⟨rfl, Or.inr ⟨_, _, rfl⟩, fun h => by cases h⟩

/-- A write of the running code to its stack: with a writable stack page nothing
happens; otherwise the state is left as it was or as one run of `pgfault` for the
stack page leaves it; the write completes only on a writable stack page, after
`pgfault` has returned when the page was not writable before; if it does not
complete the context ends in a panic. -/
theorem stack_touch_spec (L : Layout) (k : Kern) :
    (k.stackWritable L → stack_touch L k = (none, k)) ∧
    ((stack_touch L k).2 = k ∨
      (stack_touch L k).2 = (pgfault L (write_fault L k (L.USTACKTOP - L.PGSIZE)) k).2) ∧
    ((stack_touch L k).1 = none ∨ ∃ msg r, (stack_touch L k).1 = some (Outcome.panic msg r)) ∧
    ((stack_touch L k).1 = none → (stack_touch L k).2.stackWritable L ∧
      (¬ k.stackWritable L →
        (stack_touch L k).2 = (pgfault L (write_fault L k (L.USTACKTOP - L.PGSIZE)) k).2 ∧
        ∃ v, (pgfault L (write_fault L k (L.USTACKTOP - L.PGSIZE)) k).1 = Outcome.ret v)) ∧
    ((stack_touch L k).1 = none → ¬ k.stackWritable L → k.xstackWritable L) := by
  unfold stack_touch
  rw [touch_succ]
  by_cases hw : uvpt L k (PGNUM L (L.USTACKTOP - L.PGSIZE)) &&& PTE_P ≠ 0 ∧
      uvpt L k (PGNUM L (L.USTACKTOP - L.PGSIZE)) &&& PTE_U ≠ 0 ∧
      uvpt L k (PGNUM L (L.USTACKTOP - L.PGSIZE)) &&& PTE_W ≠ 0
  · rw [if_pos hw]
    exact ⟨fun _ => rfl, Or.inl rfl, Or.inl rfl, (fun _ => ⟨hw, fun h => absurd hw h⟩),
      (fun _ h => absurd hw h)⟩
  · rw [if_neg hw]
    have hnw : ¬ k.stackWritable L := hw
    cases Tbl.get k.envs k.cur with
    | none =>
      exact ⟨fun h => absurd h hnw, Or.inl rfl, Or.inr ⟨_, _, rfl⟩, (fun h => by cases h),
        (fun h => by cases h)⟩
    | some e =>
      dsimp only
      by_cases hu : e.pgfault_upcall = true
      · rw [if_pos hu]
        by_cases hxs : k.xstackWritable L
        swap
        · rw [if_neg hxs]
          exact ⟨fun h => absurd h hnw, Or.inl rfl, Or.inr ⟨_, _, rfl⟩, (fun h => by cases h),
            (fun h => by cases h)⟩
        rw [if_pos hxs]
        obtain ⟨-, -, -, -, -, hnf⟩ :=
          pgfault_obs L (write_fault L k (L.USTACKTOP - L.PGSIZE)) k
        have hok := pgfault_ok L (write_fault L k (L.USTACKTOP - L.PGSIZE)) k
        rcases hpf : pgfault L (write_fault L k (L.USTACKTOP - L.PGSIZE)) k with ⟨o, k1⟩
        rw [hpf] at hnf hok
        cases o with
        | panic msg r =>
          exact ⟨fun h => absurd h hnw, Or.inr rfl, Or.inr ⟨_, _, rfl⟩, (fun h => by cases h),
            (fun h => by cases h)⟩
        | nofuel => exact absurd rfl hnf
        | ret v =>
          dsimp only
          obtain ⟨-, m, -, -, hcur, hmap, -⟩ := hok v rfl
          dsimp only at hcur hmap
          have hva : (write_fault L k (L.USTACKTOP - L.PGSIZE)).utf_fault_va =
              L.USTACKTOP - L.PGSIZE := rfl
          rw [hva] at hmap
          have hc : uvpt L k1 (PGNUM L (L.USTACKTOP - L.PGSIZE)) &&& PTE_COW = 0 := by
            unfold uvpt
            rw [hcur, hmap]
            by_cases h1 : k.cur = k.cur ∧
                PGNUM L (L.USTACKTOP - L.PGSIZE) = PGNUM L L.PFTEMP
            · rw [if_pos h1]; rfl
            · rw [if_neg h1, if_pos ⟨rfl, rfl⟩]
              show (PTE_U ||| PTE_W ||| PTE_P) &&& PTE_COW = 0
              decide
          obtain ⟨t1, t2, t3⟩ := touch_retry L (L.USTACKTOP - L.PGSIZE) k1 hc
          refine ⟨fun h => absurd h hnw, Or.inr t1, t2, (fun h => ⟨?_, fun _ => ⟨t1, v, rfl⟩⟩),
            (fun _ _ => hxs)⟩
          rw [t1]
          exact t3 h
      · rw [if_neg hu]
        exact ⟨fun h => absurd h hnw, Or.inl rfl, Or.inr ⟨_, _, rfl⟩, (fun h => by cases h),
          (fun h => by cases h)⟩

/-- What a write to the stack does to the observable state, whatever its outcome. -/
theorem stack_touch_obs (L : Layout) (k : Kern) :
    (stack_touch L k).2.cur = k.cur ∧
    (∀ id q, ¬ (id = k.cur ∧ (q = PGNUM L L.PFTEMP ∨ q = PGNUM L (L.USTACKTOP - L.PGSIZE))) →
      (stack_touch L k).2.mapping L id q = k.mapping L id q) ∧
    (∀ id i, k.pde id i = true → (stack_touch L k).2.pde id i = true) ∧
    (∀ id, (stack_touch L k).2.upcall id = k.upcall id) ∧
    (∃ rest, (stack_touch L k).2.log = k.log ++ rest ∧
      ∀ r ∈ rest, r = Req.page_alloc 0 L.PFTEMP (PTE_U ||| PTE_W ||| PTE_P) ∨
        r = Req.page_map 0 L.PFTEMP 0 (ROUNDDOWN (L.USTACKTOP - L.PGSIZE) L.PGSIZE)
          (PTE_U ||| PTE_W ||| PTE_P) ∨
        r = Req.page_unmap 0 L.PFTEMP) := by
  obtain ⟨-, h2, -, -, -⟩ := stack_touch_spec L k
  rcases h2 with h | h
  · rw [h]
    exact ⟨rfl, fun _ _ _ => rfl, fun _ _ h => h, fun _ => rfl,
      ⟨[], by simp, fun r hr => by cases hr⟩⟩
  · rw [h]
    obtain ⟨p1, p2, p3, p4, p5, -⟩ := pgfault_obs L (write_fault L k (L.USTACKTOP - L.PGSIZE)) k
    exact ⟨p1, p2, p3, p4, p5⟩

/-! ## The page walks on the stack -/

/-- The page walk with steps that keep an invariant `I` of the state and may change
the caller's mapping of one more page `t`: run with enough fuel from an aligned page
index it ends, keeps `I`, leaves every page below its start alone, and when it
reaches `PGNUM(UTOP)` it has run `body` exactly once on each page whose directory
entry is present, on a state in which that page and the pages above it were still
as at the start. -/
theorem walkWith_inv (L : Layout) (hL : L.WF) (body : Nat → Kern → Option Outcome × Kern)
    (cur0 t : Nat) (R : Kern → Kern → Prop) (I : Kern → Prop) (hrefl : ∀ k, R k k)
    (htrans : ∀ a b c, R a b → R b c → R a c)
    (hbody : ∀ pn k, pn < PGNUM L L.UTOP → k.cur = cur0 → I k →
      ((body pn k).1 = none → R k (body pn k).2 ∧ I (body pn k).2) ∧
      (body pn k).2.cur = k.cur ∧
      (∀ id q, q ≠ pn → ¬ (id = cur0 ∧ q = t) →
        (body pn k).2.mapping L id q = k.mapping L id q) ∧
      (∀ id i, k.pde id i = true → (body pn k).2.pde id i = true) ∧
      (body pn k).1 ≠ some Outcome.nofuel) :
    ∀ fuel pn k, PGNUM L L.UTOP - pn < fuel → k.cur = cur0 → I k →
      (pn % L.NPTENTRIES = 0 ∨ k.pde k.cur (pn / L.NPTENTRIES) = true) →
      ((walkWith L body fuel pn k).1 = none →
        R k (walkWith L body fuel pn k).2 ∧ I (walkWith L body fuel pn k).2) ∧
      (walkWith L body fuel pn k).2.cur = k.cur ∧
      (∀ id q, q < pn → ¬ (id = cur0 ∧ q = t) →
        (walkWith L body fuel pn k).2.mapping L id q = k.mapping L id q) ∧
      (∀ id i, k.pde id i = true → (walkWith L body fuel pn k).2.pde id i = true) ∧
      (walkWith L body fuel pn k).1 ≠ some Outcome.nofuel ∧
      ((walkWith L body fuel pn k).1 = none →
        ∀ q, pn ≤ q → q < PGNUM L L.UTOP → k.pde k.cur (q / L.NPTENTRIES) = true →
          ∃ kq, R k kq ∧ kq.cur = k.cur ∧ I kq ∧
            (∀ id p, q ≤ p → ¬ (id = cur0 ∧ p = t) → kq.mapping L id p = k.mapping L id p) ∧
            (body q kq).1 = none ∧ R (body q kq).2 (walkWith L body fuel pn k).2 ∧
            ∀ id, ¬ (id = cur0 ∧ q = t) → (walkWith L body fuel pn k).2.mapping L id q =
              (body q kq).2.mapping L id q) := by
  obtain ⟨hP, hN, -, hwrap, -, -, -⟩ := hL
  intro fuel
  induction fuel with
  | zero => intro pn k hf; omega
  | succ f ih =>
    intro pn k hf hk0 hI hal
    unfold walkWith
    by_cases h1 : pn < PGNUM L L.UTOP
    · rw [if_pos h1]
      have hlt : pn < L.UTOP / L.PGSIZE := h1
      by_cases h2 : uvpd k (pn / L.NPTENTRIES) &&& PTE_P = 0
      · rw [if_pos h2]
        have hnp : ¬ (k.pde k.cur (pn / L.NPTENTRIES) = true) :=
          fun hp => ((uvpd_present k _).mpr hp) h2
        have ha : pn % L.NPTENTRIES = 0 := hal.resolve_right hnp
        have hnext : (pn + (L.NPTENTRIES - 1) + 1) % 2 ^ 32 = pn + L.NPTENTRIES := by
          rw [Nat.mod_eq_of_lt (by omega)]; omega
        rw [hnext]
        obtain ⟨i1, i2, i3, i4, i5, i7⟩ :=
          ih (pn + L.NPTENTRIES) k (by omega) hk0 hI (Or.inl (add_mod_of_aligned ha))
        refine ⟨i1, i2, fun id q hq => i3 id q (by omega), i4, i5, ?_⟩
        intro hnone q hq1 hq2 hpde
        by_cases hq3 : q < pn + L.NPTENTRIES
        · rw [div_eq_of_aligned ha hq1 hq3] at hpde
          exact absurd hpde hnp
        · exact i7 hnone q (by omega) hq2 hpde
      · rw [if_neg h2]
        have hp : k.pde k.cur (pn / L.NPTENTRIES) = true := by
          by_contra hc
          exact h2 (by
            by_contra h3
            exact hc ((uvpd_present k _).mp h3))
        obtain ⟨b1, b2, b3, b4, b5⟩ := hbody pn k h1 hk0 hI
        rcases hb : body pn k with ⟨o, k1⟩
        rw [hb] at b1 b2 b3 b4 b5
        dsimp only at b1 b2 b3 b4 b5
        cases o with
        | some o =>
          dsimp only
          refine ⟨(fun h => by cases h), b2, fun id q hq => b3 id q (by omega), b4, b5, ?_⟩
          intro hnone; cases hnone
        | none =>
          dsimp only
          have hnext : (pn + 1) % 2 ^ 32 = pn + 1 := Nat.mod_eq_of_lt (by omega)
          rw [hnext]
          have hal1 : (pn + 1) % L.NPTENTRIES = 0 ∨
              k1.pde k1.cur ((pn + 1) / L.NPTENTRIES) = true := by
            by_cases hm : (pn + 1) % L.NPTENTRIES = 0
            · exact Or.inl hm
            · right
              rw [succ_div_of_not_aligned hm, b2]
              exact b4 _ _ hp
          obtain ⟨b1, bI⟩ := b1 rfl
          obtain ⟨i1, i2, i3, i4, i5, i7⟩ :=
            ih (pn + 1) k1 (by omega) (b2.trans hk0) bI hal1
          refine ⟨fun h => ⟨htrans _ _ _ b1 (i1 h).1, (i1 h).2⟩, i2.trans b2, ?_,
            fun id i h => i4 id i (b4 id i h), i5, ?_⟩
          · intro id q hq hex
            rw [i3 id q (by omega) hex]
            exact b3 id q (by omega) hex
          · intro hnone q hq1 hq2 hpde
            by_cases hq3 : q = pn
            · subst hq3
              refine ⟨k, hrefl k, rfl, hI, fun _ _ _ _ => rfl, by rw [hb], ?_, ?_⟩
              · rw [hb]; exact (i1 hnone).1
              · intro id hex
                rw [i3 id q (by omega) hex, hb]
            · have hpde1 : k1.pde k1.cur (q / L.NPTENTRIES) = true := by
                rw [b2]; exact b4 _ _ hpde
              obtain ⟨kq, hR, hc, hIq, hsame, hbn, hR2, hfin⟩ :=
                i7 hnone q (by omega) hq2 hpde1
              refine ⟨kq, htrans _ _ _ b1 hR, hc.trans b2, hIq, ?_, hbn, hR2, hfin⟩
              intro id p hp2 hex
              rw [hsame id p hp2 hex]
              exact b3 id p (by omega) hex
    · rw [if_neg h1]
      refine ⟨fun _ => ⟨hrefl k, hI⟩, rfl, fun _ _ _ _ => rfl, fun _ _ h => h, by simp, ?_⟩
      intro _ q hq1 hq2; omega

/-- An outcome with which a walk ends early is the outcome of one of its steps, or
the fuel ran out. -/
theorem walkWith_fail (L : Layout) (body : Nat → Kern → Option Outcome × Kern) :
    ∀ fuel pn k o, (walkWith L body fuel pn k).1 = some o →
      o = Outcome.nofuel ∨ ∃ q kq, (body q kq).1 = some o := by
  intro fuel
  induction fuel with
  | zero =>
    intro pn k o h
    unfold walkWith at h
    cases h
    exact Or.inl rfl
  | succ f ih =>
    intro pn k o h
    unfold walkWith at h
    by_cases h1 : pn < PGNUM L L.UTOP
    · rw [if_pos h1] at h
      by_cases h2 : uvpd k (pn / L.NPTENTRIES) &&& PTE_P = 0
      · rw [if_pos h2] at h; exact ih _ _ _ h
      · rw [if_neg h2] at h
        rcases hb : body pn k with ⟨ob, kb⟩
        rw [hb] at h
        cases ob with
        | none => exact ih _ _ _ h
        | some o3 =>
          dsimp only at h
          cases h
          exact Or.inr ⟨pn, k, by rw [hb]⟩
    · rw [if_neg h1] at h; cases h

theorem runRel_refl (L : Layout) (xva : Nat) (k : Kern) : RunRel L xva k k :=
  ⟨⟨[], by simp, fun r hr => by cases hr⟩, fun _ h => h, fun _ => rfl⟩

theorem runRel_trans (L : Layout) (xva : Nat) (a b d : Kern)
    (h1 : RunRel L xva a b) (h2 : RunRel L xva b d) : RunRel L xva a d := by
  obtain ⟨⟨r1, hl1, hp1⟩, hc1, hu1⟩ := h1
  obtain ⟨⟨r2, hl2, hp2⟩, hc2, hu2⟩ := h2
  refine ⟨⟨r1 ++ r2, by rw [hl2, hl1, List.append_assoc], ?_⟩, fun p h => hc1 p (hc2 p h),
    fun id => (hu2 id).trans (hu1 id)⟩
  intro r hr
  rcases List.mem_append.mp hr with h | h
  · exact hp1 r h
  · refine ⟨(hp2 r h).1, fun s sva dva perm hr2 => ?_⟩
    obtain ⟨p, hp, hd, hu⟩ := (hp2 r h).2 s sva dva perm hr2
    exact ⟨p, hp, hd, hc1 p hu⟩

theorem runRel_of_walk (L : Layout) (c xva : Nat) (k k1 : Kern) (h : WalkRel L c xva k k1)
    (hu : ∀ id, k1.upcall id = k.upcall id) : RunRel L xva k k1 :=
  ⟨h.1, h.2.2, hu⟩

theorem rounddown_aligned (a n : Nat) (h : a % n = 0) : ROUNDDOWN a n = a := by
  unfold ROUNDDOWN; rw [h]; rfl

/-- A completed write to the stack keeps what the steps of a walk keep. -/
theorem stack_touch_rel (L : Layout) (hL : L.WF) (hS : L.WFS) (k : Kern)
    (h : (stack_touch L k).1 = none) :
    RunRel L (L.UXSTACKTOP - L.PGSIZE) k (stack_touch L k).2 := by
  obtain ⟨hslt, hsva, -, -, hts, -, htx, -⟩ := stack_pn L hL hS
  obtain ⟨t1, -, -, t4, -⟩ := stack_touch_spec L k
  by_cases hw : k.stackWritable L
  · rw [t1 hw]; exact runRel_refl _ _ _
  · obtain ⟨hst, v, hv⟩ := (t4 h).2 hw
    rw [hst]
    obtain ⟨-, m, hm, hcow, hcur, hmap, -, -, hlog⟩ :=
      pgfault_ok L (write_fault L k (L.USTACKTOP - L.PGSIZE)) k v hv
    obtain ⟨-, -, -, hup, -, -⟩ := pgfault_obs L (write_fault L k (L.USTACKTOP - L.PGSIZE)) k
    have hva : (write_fault L k (L.USTACKTOP - L.PGSIZE)).utf_fault_va =
        L.USTACKTOP - L.PGSIZE := rfl
    rw [hva] at hm hmap hlog
    have hal : (L.USTACKTOP - L.PGSIZE) % L.PGSIZE = 0 := by
      rw [← hsva]; exact Nat.mul_mod_left _ _
    rw [rounddown_aligned _ _ hal] at hlog
    have hu : uvpt L k (PGNUM L (L.USTACKTOP - L.PGSIZE)) &&& (PTE_COW ||| PTE_W) ≠ 0 := by
      rw [uvpt_of_mapping L k _ m hm]
      exact (cow_or_w _).mpr (Or.inr hcow)
    refine ⟨⟨_, hlog, ?_⟩, ?_, hup⟩
    · intro r hr
      simp only [List.mem_cons, List.mem_singleton, List.not_mem_nil, or_false] at hr
      rcases hr with hr | hr | hr
      · subst hr
        exact ⟨rfl, fun s sva dva perm h => by cases h⟩
      · subst hr
        refine ⟨?_, ?_⟩
        · simp only [Req.isMapOf, decide_eq_false_iff_not]; exact htx
        · intro s sva dva perm hr
          injection hr with _ _ _ h4 _
          exact ⟨_, hslt, by rw [← h4, hsva], hu⟩
      · subst hr
        exact ⟨rfl, fun s sva dva perm h => by cases h⟩
    · intro p hp
      by_cases hp1 : p = PGNUM L L.PFTEMP
      · exfalso
        have hn : (pgfault L (write_fault L k (L.USTACKTOP - L.PGSIZE)) k).2.mapping L
            (pgfault L (write_fault L k (L.USTACKTOP - L.PGSIZE)) k).2.cur p = none := by
          rw [hcur, hmap, if_pos ⟨rfl, hp1⟩]
        have h0 : uvpt L (pgfault L (write_fault L k (L.USTACKTOP - L.PGSIZE)) k).2 p = 0 := by
          unfold uvpt; rw [hn]
        rw [h0] at hp
        exact hp (Nat.zero_and _)
      · by_cases hp2 : p = PGNUM L (L.USTACKTOP - L.PGSIZE)
        · rw [hp2]; exact hu
        · have hn : (pgfault L (write_fault L k (L.USTACKTOP - L.PGSIZE)) k).2.mapping L
              (pgfault L (write_fault L k (L.USTACKTOP - L.PGSIZE)) k).2.cur p =
              k.mapping L k.cur p := by
            rw [hcur, hmap, if_neg (fun hh => hp1 hh.2), if_neg (fun hh => hp2 hh.2)]
          have h0 : uvpt L (pgfault L (write_fault L k (L.USTACKTOP - L.PGSIZE)) k).2 p =
              uvpt L k p := by
            unfold uvpt; rw [hn]
          rw [← h0]; exact hp

/-- A write to the stack after a step of a walk that started on a writable stack:
what the step kept is kept, the stack is writable again, and besides the step's own
page only the caller's scratch page may have changed. -/
theorem run_step (L : Layout) (hL : L.WF) (hS : L.WFS) (cur0 pn : Nat) (k k1 : Kern)
    (hk : k.cur = cur0) (hI : k.stackWritable L)
    (h1 : RunRel L (L.UXSTACKTOP - L.PGSIZE) k k1) (h2 : k1.cur = k.cur)
    (h3 : ∀ id q, q ≠ pn → k1.mapping L id q = k.mapping L id q)
    (h4 : ∀ id i, k.pde id i = true → k1.pde id i = true) :
    ((stack_touch L k1).1 = none →
      RunRel L (L.UXSTACKTOP - L.PGSIZE) k (stack_touch L k1).2 ∧
      (stack_touch L k1).2.stackWritable L) ∧
    (stack_touch L k1).2.cur = k.cur ∧
    (∀ id q, q ≠ pn → ¬ (id = cur0 ∧ q = PGNUM L L.PFTEMP) →
      (stack_touch L k1).2.mapping L id q = k.mapping L id q) ∧
    (∀ id i, k.pde id i = true → (stack_touch L k1).2.pde id i = true) ∧
    (stack_touch L k1).1 ≠ some Outcome.nofuel := by
  obtain ⟨t1, -, t3, t4, -⟩ := stack_touch_spec L k1
  obtain ⟨o1, o2, o3, -, -⟩ := stack_touch_obs L k1
  refine ⟨fun h => ⟨runRel_trans _ _ _ _ _ h1 (stack_touch_rel L hL hS k1 h), (t4 h).1⟩,
    o1.trans h2, ?_, fun id i h => o3 id i (h4 id i h), ?_⟩
  · intro id q hq hex
    by_cases hs : pn = PGNUM L (L.USTACKTOP - L.PGSIZE)
    · rw [o2 id q, h3 id q hq]
      rintro ⟨e1, e2 | e2⟩
      · exact hex ⟨by rw [e1, h2, hk], e2⟩
      · exact hq (by rw [hs, e2])
    · have hw1 : k1.stackWritable L := by
        unfold Kern.stackWritable uvpt at hI ⊢
        rw [h2, h3 _ _ (fun hh => hs hh.symm)]
        exact hI
      rw [t1 hw1]
      exact h3 id q hq
  · rcases t3 with h | ⟨msg, r, h⟩
    · rw [h]; simp
    · rw [h]; simp

theorem run_forkBody_eq (L : Layout) (envid : Int) (pn : Nat) (k : Kern) :
    run_forkBody L envid pn k =
      if uvpt L k pn &&& PTE_P = 0 then (none, k)
      else if (forkBody L envid pn k).1 = none then stack_touch L (forkBody L envid pn k).2
      else forkBody L envid pn k := by
  unfold run_forkBody
  rw [forkBody_unfold]
  by_cases h3 : uvpt L k pn &&& PTE_P = 0
  · rw [if_pos h3, if_pos h3]
  · rw [if_neg h3, if_neg h3, if_neg h3]
    by_cases h4 : (pn * L.PGSIZE) % 2 ^ 32 = L.UXSTACKTOP - L.PGSIZE
    · rw [if_pos h4, if_pos h4]
      by_cases h5 : (sys_page_alloc L envid ((pn * L.PGSIZE) % 2 ^ 32)
          (PTE_U ||| PTE_W ||| PTE_P) k).1 < 0
      · simp only [h5, if_true]
        rw [if_neg (by simp)]
      · simp only [h5, if_false, if_true]
    · rw [if_neg h4, if_neg h4]
      by_cases h5 : (duppage L envid pn k).1 < 0
      · simp only [h5, if_true]
        rw [if_neg (by simp)]
      · simp only [h5, if_false, if_true]

theorem run_sforkBody_eq (L : Layout) (envid : Int) (pn : Nat) (k : Kern) :
    run_sforkBody L envid pn k =
      if uvpt L k pn &&& PTE_P = 0 then (none, k)
      else if (sforkBody L envid pn k).1 = none then stack_touch L (sforkBody L envid pn k).2
      else sforkBody L envid pn k := by
  unfold run_sforkBody
  rw [sforkBody_unfold, syscall_present]
  by_cases h3 : uvpt L k pn &&& PTE_P = 0
  · rw [if_pos h3, if_pos h3]
  · rw [if_neg h3, if_neg h3, if_neg h3]
    by_cases h4 : (pn * L.PGSIZE) % 2 ^ 32 = L.UXSTACKTOP - L.PGSIZE
    · rw [if_pos h4, if_pos h4]
      by_cases h5 : (sys_page_alloc L envid ((pn * L.PGSIZE) % 2 ^ 32)
          (PTE_U ||| PTE_W ||| PTE_P) k).1 < 0
      · simp only [h5, if_true]
        rw [if_neg (by simp)]
      · simp only [h5, if_false, if_true]
    · rw [if_neg h4, if_neg h4]
      by_cases h6 : (pn * L.PGSIZE) % 2 ^ 32 = L.USTACKTOP - L.PGSIZE
      · rw [if_pos h6, if_pos h6]
        by_cases h5 : (duppage L envid pn k).1 < 0
        · simp only [h5, if_true]
          rw [if_neg (by simp)]
        · simp only [h5, if_false, if_true]
      · rw [if_neg h6, if_neg h6]
        by_cases h5 : (sys_page_map L 0 ((pn * L.PGSIZE) % 2 ^ 32) envid
            ((pn * L.PGSIZE) % 2 ^ 32) (uvpt L k pn &&& PTE_SYSCALL) k).1 < 0
        · simp only [h5, if_true]
          rw [if_neg (by simp)]
        · simp only [h5, if_false, if_true]

/-- What one step of a walk on the stack keeps, from what the step without the
stack keeps. -/
theorem run_body_step (L : Layout) (hL : L.WF) (hS : L.WFS) (c cur0 pn : Nat) (k : Kern)
    (b : Option Outcome × Kern) (hcur : k.cur = cur0) (hI : k.stackWritable L)
    (f1 : b.1 = none → WalkRel L c (L.UXSTACKTOP - L.PGSIZE) k b.2)
    (fu : ∀ id, b.2.upcall id = k.upcall id) (f2 : b.2.cur = k.cur)
    (f3 : ∀ id q, q ≠ pn → b.2.mapping L id q = k.mapping L id q)
    (f4 : ∀ id i, k.pde id i = true → b.2.pde id i = true)
    (f5 : b.1 ≠ some Outcome.nofuel) :
    ((if b.1 = none then stack_touch L b.2 else b).1 = none →
      RunRel L (L.UXSTACKTOP - L.PGSIZE) k (if b.1 = none then stack_touch L b.2 else b).2 ∧
      (if b.1 = none then stack_touch L b.2 else b).2.stackWritable L) ∧
    (if b.1 = none then stack_touch L b.2 else b).2.cur = k.cur ∧
    (∀ id q, q ≠ pn → ¬ (id = cur0 ∧ q = PGNUM L L.PFTEMP) →
      (if b.1 = none then stack_touch L b.2 else b).2.mapping L id q = k.mapping L id q) ∧
    (∀ id i, k.pde id i = true →
      (if b.1 = none then stack_touch L b.2 else b).2.pde id i = true) ∧
    (if b.1 = none then stack_touch L b.2 else b).1 ≠ some Outcome.nofuel := by
  by_cases hn : b.1 = none
  · rw [if_pos hn]
    exact run_step L hL hS cur0 pn k b.2 hcur hI (runRel_of_walk _ _ _ _ _ (f1 hn) fu) f2 f3 f4
  · rw [if_neg hn]
    exact ⟨fun h => absurd h hn, f2, fun id q hq _ => f3 id q hq, f4, f5⟩

theorem run_forkBody_step (L : Layout) (hL : L.WF) (hS : L.WFS) (envid : Int) (hpos : 0 < envid)
    (cur0 : Nat) (hne : envid.toNat ≠ cur0) (pn : Nat) (k : Kern) (hpn : pn < PGNUM L L.UTOP)
    (hcur : k.cur = cur0) (hI : k.stackWritable L) :
    ((run_forkBody L envid pn k).1 = none →
      RunRel L (L.UXSTACKTOP - L.PGSIZE) k (run_forkBody L envid pn k).2 ∧
      (run_forkBody L envid pn k).2.stackWritable L) ∧
    (run_forkBody L envid pn k).2.cur = k.cur ∧
    (∀ id q, q ≠ pn → ¬ (id = cur0 ∧ q = PGNUM L L.PFTEMP) →
      (run_forkBody L envid pn k).2.mapping L id q = k.mapping L id q) ∧
    (∀ id i, k.pde id i = true → (run_forkBody L envid pn k).2.pde id i = true) ∧
    (run_forkBody L envid pn k).1 ≠ some Outcome.nofuel := by
  rw [run_forkBody_eq]
  by_cases h3 : uvpt L k pn &&& PTE_P = 0
  · rw [if_pos h3]
    exact ⟨fun _ => ⟨runRel_refl _ _ _, hI⟩, rfl, fun _ _ _ _ => rfl, fun _ _ h => h, by simp⟩
  · rw [if_neg h3]
    obtain ⟨f1, f2, f3, f4, f5⟩ := forkBody_step L hL envid hpos cur0 hne pn k hpn hcur
    exact run_body_step L hL hS envid.toNat cur0 pn k _ hcur hI f1
      (forkBody_upcall L envid pn k) f2 f3 f4 f5

theorem run_sforkBody_step (L : Layout) (hL : L.WF) (hS : L.WFS) (envid : Int)
    (hpos : 0 < envid) (cur0 : Nat) (hne : envid.toNat ≠ cur0) (pn : Nat) (k : Kern)
    (hpn : pn < PGNUM L L.UTOP) (hcur : k.cur = cur0) (hI : k.stackWritable L) :
    ((run_sforkBody L envid pn k).1 = none →
      RunRel L (L.UXSTACKTOP - L.PGSIZE) k (run_sforkBody L envid pn k).2 ∧
      (run_sforkBody L envid pn k).2.stackWritable L) ∧
    (run_sforkBody L envid pn k).2.cur = k.cur ∧
    (∀ id q, q ≠ pn → ¬ (id = cur0 ∧ q = PGNUM L L.PFTEMP) →
      (run_sforkBody L envid pn k).2.mapping L id q = k.mapping L id q) ∧
    (∀ id i, k.pde id i = true → (run_sforkBody L envid pn k).2.pde id i = true) ∧
    (run_sforkBody L envid pn k).1 ≠ some Outcome.nofuel := by
  rw [run_sforkBody_eq]
  by_cases h3 : uvpt L k pn &&& PTE_P = 0
  · rw [if_pos h3]
    exact ⟨fun _ => ⟨runRel_refl _ _ _, hI⟩, rfl, fun _ _ _ _ => rfl, fun _ _ h => h, by simp⟩
  · rw [if_neg h3]
    obtain ⟨f1, f2, f3, f4, f5⟩ := sforkBody_step L hL envid hpos cur0 hne pn k hpn hcur
    exact run_body_step L hL hS envid.toNat cur0 pn k _ hcur hI f1
      (sforkBody_upcall L envid pn k) f2 f3 f4 f5

/-- The mappings of a page after a completed write to the stack: those of another
context are untouched; the caller's mapping of a page other than the scratch page
is untouched unless the page is the stack page and was not writable, and then it is
a private writable copy on a fresh physical page. -/
theorem stack_touch_page (L : Layout) (k : Kern) (pn : Nat)
    (ht : pn ≠ PGNUM L L.PFTEMP) (hnone : (stack_touch L k).1 = none) :
    (∀ id, id ≠ k.cur → (stack_touch L k).2.mapping L id pn = k.mapping L id pn) ∧
    (pn ≠ PGNUM L (L.USTACKTOP - L.PGSIZE) →
      (stack_touch L k).2.mapping L k.cur pn = k.mapping L k.cur pn) ∧
    (k.stackWritable L → (stack_touch L k).2 = k) ∧
    (¬ k.stackWritable L → pn = PGNUM L (L.USTACKTOP - L.PGSIZE) →
      (stack_touch L k).2.mapping L k.cur pn =
        some { frame := k.freshFrame, perm := PTE_U ||| PTE_W ||| PTE_P }) := by
  obtain ⟨t1, -, -, t4, -⟩ := stack_touch_spec L k
  obtain ⟨-, o2, -, -, -⟩ := stack_touch_obs L k
  refine ⟨fun id hid => o2 id pn (fun hh => hid hh.1), ?_, fun hw => by rw [t1 hw], ?_⟩
  · intro hs
    apply o2
    rintro ⟨-, e | e⟩
    · exact ht e
    · exact hs e
  · intro hw hs
    obtain ⟨hst, v, hv⟩ := (t4 hnone).2 hw
    obtain ⟨-, m, -, -, -, hmap, -⟩ :=
      pgfault_ok L (write_fault L k (L.USTACKTOP - L.PGSIZE)) k v hv
    have hva : (write_fault L k (L.USTACKTOP - L.PGSIZE)).utf_fault_va =
        L.USTACKTOP - L.PGSIZE := rfl
    rw [hva] at hmap
    rw [hst, hmap, if_neg (fun hh => ht hh.2), if_pos ⟨rfl, hs⟩]

/-- The walk of `fork` on the stack, as `run_fork` starts it on a writable stack,
with what `walkWith_inv` gives. -/
theorem run_fork_walk (L : Layout) (hL : L.WF) (hS : L.WFS) (envid : Int) (hpos : 0 < envid)
    (k : Kern) (hne : envid.toNat ≠ k.cur) (hI : k.stackWritable L) :
    ((run_forkWalk L envid (PGNUM L L.UTOP + 1) 0 k).1 = none →
      RunRel L (L.UXSTACKTOP - L.PGSIZE) k (run_forkWalk L envid (PGNUM L L.UTOP + 1) 0 k).2 ∧
      (run_forkWalk L envid (PGNUM L L.UTOP + 1) 0 k).2.stackWritable L) ∧
    (run_forkWalk L envid (PGNUM L L.UTOP + 1) 0 k).2.cur = k.cur ∧
    (run_forkWalk L envid (PGNUM L L.UTOP + 1) 0 k).1 ≠ some Outcome.nofuel ∧
    ((run_forkWalk L envid (PGNUM L L.UTOP + 1) 0 k).1 = none →
      ∀ q, q < PGNUM L L.UTOP → k.pde k.cur (q / L.NPTENTRIES) = true →
        ∃ kq, RunRel L (L.UXSTACKTOP - L.PGSIZE) k kq ∧ kq.cur = k.cur ∧ kq.stackWritable L ∧
          (∀ id p, q ≤ p → ¬ (id = k.cur ∧ p = PGNUM L L.PFTEMP) →
            kq.mapping L id p = k.mapping L id p) ∧
          (run_forkBody L envid q kq).1 = none ∧
          RunRel L (L.UXSTACKTOP - L.PGSIZE) (run_forkBody L envid q kq).2
            (run_forkWalk L envid (PGNUM L L.UTOP + 1) 0 k).2 ∧
          ∀ id, ¬ (id = k.cur ∧ q = PGNUM L L.PFTEMP) →
            (run_forkWalk L envid (PGNUM L L.UTOP + 1) 0 k).2.mapping L id q =
              (run_forkBody L envid q kq).2.mapping L id q) := by
  unfold run_forkWalk
  obtain ⟨w1, w2, -, -, w5, w7⟩ :=
    walkWith_inv L hL (run_forkBody L envid) k.cur (PGNUM L L.PFTEMP)
      (RunRel L (L.UXSTACKTOP - L.PGSIZE)) (fun k2 => k2.stackWritable L)
      (runRel_refl L _) (runRel_trans L _)
      (fun pn k2 hpn hc hI2 => run_forkBody_step L hL hS envid hpos k.cur hne pn k2 hpn hc hI2)
      (PGNUM L L.UTOP + 1) 0 k (by omega) rfl hI (Or.inl (Nat.zero_mod _))
  exact ⟨w1, w2, w5, fun h q hq hp => w7 h q (Nat.zero_le _) hq hp⟩

/-- The walk of `sfork` on the stack, as `run_sfork` starts it on a writable stack,
with what `walkWith_inv` gives. -/
theorem run_sfork_walk (L : Layout) (hL : L.WF) (hS : L.WFS) (envid : Int) (hpos : 0 < envid)
    (k : Kern) (hne : envid.toNat ≠ k.cur) (hI : k.stackWritable L) :
    ((run_sforkWalk L envid (PGNUM L L.UTOP + 1) 0 k).1 = none →
      RunRel L (L.UXSTACKTOP - L.PGSIZE) k (run_sforkWalk L envid (PGNUM L L.UTOP + 1) 0 k).2 ∧
      (run_sforkWalk L envid (PGNUM L L.UTOP + 1) 0 k).2.stackWritable L) ∧
    (run_sforkWalk L envid (PGNUM L L.UTOP + 1) 0 k).2.cur = k.cur ∧
    (run_sforkWalk L envid (PGNUM L L.UTOP + 1) 0 k).1 ≠ some Outcome.nofuel ∧
    ((run_sforkWalk L envid (PGNUM L L.UTOP + 1) 0 k).1 = none →
      ∀ q, q < PGNUM L L.UTOP → k.pde k.cur (q / L.NPTENTRIES) = true →
        ∃ kq, RunRel L (L.UXSTACKTOP - L.PGSIZE) k kq ∧ kq.cur = k.cur ∧ kq.stackWritable L ∧
          (∀ id p, q ≤ p → ¬ (id = k.cur ∧ p = PGNUM L L.PFTEMP) →
            kq.mapping L id p = k.mapping L id p) ∧
          (run_sforkBody L envid q kq).1 = none ∧
          RunRel L (L.UXSTACKTOP - L.PGSIZE) (run_sforkBody L envid q kq).2
            (run_sforkWalk L envid (PGNUM L L.UTOP + 1) 0 k).2 ∧
          ∀ id, ¬ (id = k.cur ∧ q = PGNUM L L.PFTEMP) →
            (run_sforkWalk L envid (PGNUM L L.UTOP + 1) 0 k).2.mapping L id q =
              (run_sforkBody L envid q kq).2.mapping L id q) := by
  unfold run_sforkWalk
  obtain ⟨w1, w2, -, -, w5, w7⟩ :=
    walkWith_inv L hL (run_sforkBody L envid) k.cur (PGNUM L L.PFTEMP)
      (RunRel L (L.UXSTACKTOP - L.PGSIZE)) (fun k2 => k2.stackWritable L)
      (runRel_refl L _) (runRel_trans L _)
      (fun pn k2 hpn hc hI2 => run_sforkBody_step L hL hS envid hpos k.cur hne pn k2 hpn hc hI2)
      (PGNUM L L.UTOP + 1) 0 k (by omega) rfl hI (Or.inl (Nat.zero_mod _))
  exact ⟨w1, w2, w5, fun h q hq hp => w7 h q (Nat.zero_le _) hq hp⟩

/-! ## Around the walk: the installation of the handler -/

/-- What `sys_env_set_pgfault_upcall` does to the observable state. -/
theorem sys_env_set_pgfault_upcall_obs (L : Layout) (envid : Int) (k : Kern) :
    (sys_env_set_pgfault_upcall envid k).2.cur = k.cur ∧
    (sys_env_set_pgfault_upcall envid k).2.mem = k.mem ∧
    (sys_env_set_pgfault_upcall envid k).2.log = k.log ++ [Req.env_set_pgfault_upcall envid] ∧
    (∀ id q, (sys_env_set_pgfault_upcall envid k).2.mapping L id q = k.mapping L id q) ∧
    (∀ id i, (sys_env_set_pgfault_upcall envid k).2.pde id i = k.pde id i) ∧
    (∀ id, id ≠ (if envid = 0 then k.cur else envid.toNat) →
      (sys_env_set_pgfault_upcall envid k).2.upcall id = k.upcall id) ∧
    (¬ (sys_env_set_pgfault_upcall envid k).1 < 0 →
      (sys_env_set_pgfault_upcall envid k).2.upcall (if envid = 0 then k.cur else envid.toNat) =
        true) := by
  have hc1 := Kern.enter_cur k (Req.env_set_pgfault_upcall envid)
  have he1 := Kern.enter_envs k (Req.env_set_pgfault_upcall envid)
  have hm1 := Kern.enter_mem k (Req.env_set_pgfault_upcall envid)
  have hl1 := Kern.enter_log k (Req.env_set_pgfault_upcall envid)
  rcases sys_env_set_pgfault_upcall_cases envid k with ⟨e, he, h⟩ | ⟨id, en, hd, -, h⟩
  · rw [h]
    exact ⟨hc1, hm1, hl1, fun id q => Kern.mapping_congr L k _ he1 id q,
      fun id i => Kern.pde_congr _ _ he1 id i, fun id _ => Kern.upcall_congr _ _ he1 id,
      fun hn => absurd he hn⟩
  · rw [h]
    obtain ⟨-, hid, hget⟩ := Kern.envid2env_some k envid id en hd
    have hget0 : Tbl.get (k.enter (Req.env_set_pgfault_upcall envid)).2.envs id = some en := by
      rw [he1]; exact hget
    refine ⟨hc1, hm1, hl1, ?_, ?_, ?_, ?_⟩
    · intro id2 q
      exact (Kern.mapping_setEnv_same_pgdir L _ id en { en with pgfault_upcall := true }
        hget0 rfl id2 q).trans (Kern.mapping_congr L k _ he1 id2 q)
    · intro id2 i
      exact (Kern.pde_setEnv_same_pgdir _ id en { en with pgfault_upcall := true }
        hget0 rfl id2 i).trans (Kern.pde_congr _ _ he1 id2 i)
    · intro id2 hne
      show ((k.enter (Req.env_set_pgfault_upcall envid)).2.setEnv id
        { en with pgfault_upcall := true }).upcall id2 = _
      rw [Kern.upcall_setEnv, if_neg (by rw [hid]; exact hne)]
      exact Kern.upcall_congr _ _ he1 id2
    · intro _
      show ((k.enter (Req.env_set_pgfault_upcall envid)).2.setEnv id
        { en with pgfault_upcall := true }).upcall _ = true
      rw [Kern.upcall_setEnv, if_pos hid.symm]

theorem set_pgfault_handler_unfold (L : Layout) (k : Kern) :
    set_pgfault_handler L k =
      if k.upcall k.cur = true then (none, k)
      else if (sys_page_alloc L 0 (L.UXSTACKTOP - L.PGSIZE) (PTE_U ||| PTE_W ||| PTE_P) k).1 < 0
      then
        (some (Outcome.panic "set_pgfault_handler: %e"
          (sys_page_alloc L 0 (L.UXSTACKTOP - L.PGSIZE) (PTE_U ||| PTE_W ||| PTE_P) k).1),
         (sys_page_alloc L 0 (L.UXSTACKTOP - L.PGSIZE) (PTE_U ||| PTE_W ||| PTE_P) k).2)
      else if (sys_env_set_pgfault_upcall 0
          (sys_page_alloc L 0 (L.UXSTACKTOP - L.PGSIZE) (PTE_U ||| PTE_W ||| PTE_P) k).2).1 < 0
      then
        (some (Outcome.panic "set_pgfault_handler: %e"
          (sys_env_set_pgfault_upcall 0
            (sys_page_alloc L 0 (L.UXSTACKTOP - L.PGSIZE) (PTE_U ||| PTE_W ||| PTE_P) k).2).1),
         (sys_env_set_pgfault_upcall 0
            (sys_page_alloc L 0 (L.UXSTACKTOP - L.PGSIZE) (PTE_U ||| PTE_W ||| PTE_P) k).2).2)
      else
        (none, (sys_env_set_pgfault_upcall 0
            (sys_page_alloc L 0 (L.UXSTACKTOP - L.PGSIZE) (PTE_U ||| PTE_W ||| PTE_P) k).2).2) := by
  simp only [set_pgfault_handler]

/-- What the installation of the handler does: nothing when the upcall of the caller
is registered; otherwise it changes no mapping but the caller's mapping of the
exception-stack page, which it allocates, and registers the upcall; it ends in a
panic when one of its two requests fails. -/
theorem set_pgfault_handler_obs (L : Layout) (k : Kern) :
    (k.upcall k.cur = true → set_pgfault_handler L k = (none, k)) ∧
    (set_pgfault_handler L k).2.cur = k.cur ∧
    (∀ id q, ¬ (id = k.cur ∧ q = PGNUM L (L.UXSTACKTOP - L.PGSIZE)) →
      (set_pgfault_handler L k).2.mapping L id q = k.mapping L id q) ∧
    (∀ id i, k.pde id i = true → (set_pgfault_handler L k).2.pde id i = true) ∧
    (∃ rest, (set_pgfault_handler L k).2.log = k.log ++ rest ∧
      ∀ r ∈ rest, r = Req.page_alloc 0 (L.UXSTACKTOP - L.PGSIZE) (PTE_U ||| PTE_W ||| PTE_P) ∨
        r = Req.env_set_pgfault_upcall 0) ∧
    ((set_pgfault_handler L k).1 = none →
      (set_pgfault_handler L k).2.upcall k.cur = true ∧
      (k.upcall k.cur = false →
        (set_pgfault_handler L k).2.mapping L k.cur (PGNUM L (L.UXSTACKTOP - L.PGSIZE)) =
          some { frame := k.freshFrame, perm := PTE_U ||| PTE_W ||| PTE_P } ∧
        (set_pgfault_handler L k).2.log = k.log ++
          [Req.page_alloc 0 (L.UXSTACKTOP - L.PGSIZE) (PTE_U ||| PTE_W ||| PTE_P),
           Req.env_set_pgfault_upcall 0])) ∧
    (∀ o, (set_pgfault_handler L k).1 = some o → ∃ msg r, r < 0 ∧ o = Outcome.panic msg r) ∧
    (∀ id, id ≠ k.cur → (set_pgfault_handler L k).2.upcall id = k.upcall id) := by
  obtain ⟨a1, a2, -, a4, -, a6⟩ :=
    sys_page_alloc_obs L 0 (L.UXSTACKTOP - L.PGSIZE) (PTE_U ||| PTE_W ||| PTE_P) k
  have a5 := sys_page_alloc_frame L 0 (L.UXSTACKTOP - L.PGSIZE) (PTE_U ||| PTE_W ||| PTE_P) k
  have a7 := sys_page_alloc_upcall L 0 (L.UXSTACKTOP - L.PGSIZE) (PTE_U ||| PTE_W ||| PTE_P) k
  obtain ⟨u1, -, u3, u4, u5, u6, u7⟩ := sys_env_set_pgfault_upcall_obs L 0
    (sys_page_alloc L 0 (L.UXSTACKTOP - L.PGSIZE) (PTE_U ||| PTE_W ||| PTE_P) k).2
  rw [if_pos rfl] at u6 u7
  rw [a1] at u1 u6 u7
  rw [a2] at u3
  have hA : ∀ id q, ¬ (id = k.cur ∧ q = PGNUM L (L.UXSTACKTOP - L.PGSIZE)) →
      (sys_page_alloc L 0 (L.UXSTACKTOP - L.PGSIZE) (PTE_U ||| PTE_W ||| PTE_P) k).2.mapping L
        id q = k.mapping L id q := by
    intro id q h
    apply a5
    rw [if_pos rfl]; exact h
  rw [set_pgfault_handler_unfold]
  by_cases h0 : k.upcall k.cur = true
  · rw [if_pos h0]
    exact ⟨fun _ => rfl, rfl, fun _ _ _ => rfl, fun _ _ h => h,
      ⟨[], by simp, fun r hr => by cases hr⟩,
      (fun _ => ⟨h0, fun hf => by rw [h0] at hf; cases hf⟩), (fun o h => by cases h),
      (fun _ _ => rfl)⟩
  · rw [if_neg h0]
    by_cases h1 : (sys_page_alloc L 0 (L.UXSTACKTOP - L.PGSIZE)
        (PTE_U ||| PTE_W ||| PTE_P) k).1 < 0
    · rw [if_pos h1]
      refine ⟨fun h => absurd h h0, a1, hA, a4, ⟨_, a2, ?_⟩, (fun h => by cases h), ?_,
        (fun id _ => a7 id)⟩
      · intro r hr
        simp only [List.mem_singleton] at hr
        exact Or.inl hr
      · intro o ho
        cases ho
        exact ⟨_, _, h1, rfl⟩
    · rw [if_neg h1]
      have hlog : ∀ r ∈ [Req.page_alloc 0 (L.UXSTACKTOP - L.PGSIZE) (PTE_U ||| PTE_W ||| PTE_P),
          Req.env_set_pgfault_upcall 0],
          r = Req.page_alloc 0 (L.UXSTACKTOP - L.PGSIZE) (PTE_U ||| PTE_W ||| PTE_P) ∨
          r = Req.env_set_pgfault_upcall 0 := by
        intro r hr
        simp only [List.mem_cons, List.mem_singleton, List.not_mem_nil, or_false] at hr
        exact hr
      have hl : (sys_env_set_pgfault_upcall 0
          (sys_page_alloc L 0 (L.UXSTACKTOP - L.PGSIZE) (PTE_U ||| PTE_W ||| PTE_P) k).2).2.log =
          k.log ++ [Req.page_alloc 0 (L.UXSTACKTOP - L.PGSIZE) (PTE_U ||| PTE_W ||| PTE_P),
            Req.env_set_pgfault_upcall 0] := by
        rw [u3]; simp
      have hU : ∀ id q, ¬ (id = k.cur ∧ q = PGNUM L (L.UXSTACKTOP - L.PGSIZE)) →
          (sys_env_set_pgfault_upcall 0 (sys_page_alloc L 0 (L.UXSTACKTOP - L.PGSIZE)
            (PTE_U ||| PTE_W ||| PTE_P) k).2).2.mapping L id q = k.mapping L id q := by
        intro id q h
        rw [u4]; exact hA id q h
      have hP : ∀ id i, k.pde id i = true →
          (sys_env_set_pgfault_upcall 0 (sys_page_alloc L 0 (L.UXSTACKTOP - L.PGSIZE)
            (PTE_U ||| PTE_W ||| PTE_P) k).2).2.pde id i = true := by
        intro id i h
        rw [u5]; exact a4 id i h
      have hO : ∀ id, id ≠ k.cur →
          (sys_env_set_pgfault_upcall 0 (sys_page_alloc L 0 (L.UXSTACKTOP - L.PGSIZE)
            (PTE_U ||| PTE_W ||| PTE_P) k).2).2.upcall id = k.upcall id := by
        intro id h
        rw [u6 id h]; exact a7 id
      by_cases h2 : (sys_env_set_pgfault_upcall 0 (sys_page_alloc L 0 (L.UXSTACKTOP - L.PGSIZE)
          (PTE_U ||| PTE_W ||| PTE_P) k).2).1 < 0
      · rw [if_pos h2]
        refine ⟨fun h => absurd h h0, u1, hU, hP, ⟨_, hl, hlog⟩, (fun h => by cases h), ?_, hO⟩
        intro o ho
        cases ho
        exact ⟨_, _, h2, rfl⟩
      · rw [if_neg h2]
        refine ⟨fun h => absurd h h0, u1, hU, hP, ⟨_, hl, hlog⟩,
          (fun _ => ⟨u7 h2, fun _ => ⟨?_, hl⟩⟩), (fun o h => by cases h), hO⟩
        obtain ⟨-, -, did, de, hd, -, -, hm⟩ := a6 h1
        have hdid := (Kern.envid2env_some k 0 did de hd).2.1
        rw [if_pos rfl] at hdid
        show (sys_env_set_pgfault_upcall 0 (sys_page_alloc L 0 (L.UXSTACKTOP - L.PGSIZE)
          (PTE_U ||| PTE_W ||| PTE_P) k).2).2.mapping L k.cur _ = _
        rw [u4, hm, if_pos ⟨hdid.symm, rfl⟩]

/-! ## The shape of `fork` and `sfork` -/

theorem fork_eq (L : Layout) (k : Kern) :
    fork L k = forkWith L (fun c k1 => walkWith L (forkBody L c) (PGNUM L L.UTOP + 1) 0 k1) k := by
  unfold fork forkWith fork_resume
  simp only [forkWalk_eq]

theorem sfork_eq (L : Layout) (k : Kern) :
    sfork L k =
      forkWith L (fun c k1 => walkWith L (sforkBody L c) (PGNUM L L.UTOP + 1) 0 k1) k := by
  unfold sfork forkWith sfork_resume
  simp only [sforkWalk_eq]

theorem run_fork_eq (L : Layout) (k : Kern) :
    run_fork L k =
      forkWith L (fun c k1 => run_forkWalk L c (PGNUM L L.UTOP + 1) 0 k1) k := by
  unfold run_fork forkWith run_fork_resume
  rfl

theorem run_sfork_eq (L : Layout) (k : Kern) :
    run_sfork L k =
      forkWith L (fun c k1 => run_sforkWalk L c (PGNUM L L.UTOP + 1) 0 k1) k := by
  unfold run_sfork forkWith run_sfork_resume
  rfl

theorem forkWith_unfold (L : Layout) (walk : Int → Kern → Option Outcome × Kern) (k : Kern) :
    forkWith L walk k =
      if (set_pgfault_handler L k).1 ≠ none then
        (((set_pgfault_handler L k).1).getD Outcome.nofuel, (set_pgfault_handler L k).2)
      else if (sys_exofork (set_pgfault_handler L k).2).1 < 0 then
        (Outcome.ret (sys_exofork (set_pgfault_handler L k).2).1,
          (sys_exofork (set_pgfault_handler L k).2).2)
      else if (sys_exofork (set_pgfault_handler L k).2).1 = 0 then
        (Outcome.ret 0, fix_thisenv (sys_exofork (set_pgfault_handler L k).2).2)
      else if (walk (sys_exofork (set_pgfault_handler L k).2).1
          (sys_exofork (set_pgfault_handler L k).2).2).1 = none then
        forkFinish (sys_exofork (set_pgfault_handler L k).2).1
          (walk (sys_exofork (set_pgfault_handler L k).2).1
            (sys_exofork (set_pgfault_handler L k).2).2).2
      else
        (((walk (sys_exofork (set_pgfault_handler L k).2).1
            (sys_exofork (set_pgfault_handler L k).2).2).1).getD Outcome.nofuel,
         (walk (sys_exofork (set_pgfault_handler L k).2).1
            (sys_exofork (set_pgfault_handler L k).2).2).2) := by
  unfold forkWith
  rcases set_pgfault_handler L k with ⟨o0, k0⟩
  cases o0 with
  | some o => simp
  | none =>
    dsimp only
    rw [if_neg (show ¬ ((none : Option Outcome) ≠ none) from fun h => h rfl)]
    generalize sys_exofork k0 = x
    obtain ⟨e, k1⟩ := x
    dsimp only
    by_cases h1 : e < 0
    · rw [if_pos h1, if_pos h1]
    · rw [if_neg h1, if_neg h1]
      by_cases h2 : e = 0
      · rw [if_pos h2, if_pos h2]
      · rw [if_neg h2, if_neg h2]
        generalize walk e k1 = y
        obtain ⟨ow, k2⟩ := y
        cases ow <;> simp

/-- A call of the shape of `fork` that returns the positive value `c`, when the
walk itself never ends the call by returning `c`: the installation of the handler
succeeded, `sys_exofork` returned `c`, the walk reached its end and `forkFinish`
returned `c`. -/
theorem forkWith_ok (L : Layout) (walk : Int → Kern → Option Outcome × Kern) (k : Kern)
    (c : Int) (hc : 0 < c)
    (hwalk : ∀ c1 k1 o, (walk c1 k1).1 = some o → o ≠ Outcome.ret c)
    (h : (forkWith L walk k).1 = Outcome.ret c) :
    (set_pgfault_handler L k).1 = none ∧
    (sys_exofork (set_pgfault_handler L k).2).1 = c ∧
    (walk c (sys_exofork (set_pgfault_handler L k).2).2).1 = none ∧
    (forkWith L walk k).2 =
      (forkFinish c (walk c (sys_exofork (set_pgfault_handler L k).2).2).2).2 ∧
    (forkFinish c (walk c (sys_exofork (set_pgfault_handler L k).2).2).2).1 = Outcome.ret c := by
  obtain ⟨-, -, -, -, -, -, s7, -⟩ := set_pgfault_handler_obs L k
  rw [forkWith_unfold] at h ⊢
  by_cases h0 : (set_pgfault_handler L k).1 ≠ none
  · exfalso
    rw [if_pos h0] at h
    cases ho : (set_pgfault_handler L k).1 with
    | none => exact h0 ho
    | some o =>
      rw [ho] at h
      obtain ⟨msg, r, -, hp⟩ := s7 o ho
      rw [hp] at h
      cases h
  · rw [if_neg h0] at h ⊢
    have h0' : (set_pgfault_handler L k).1 = none := by
      by_contra hh; exact h0 hh
    by_cases h1 : (sys_exofork (set_pgfault_handler L k).2).1 < 0
    · rw [if_pos h1] at h
      cases h
      omega
    · rw [if_neg h1] at h ⊢
      by_cases h2 : (sys_exofork (set_pgfault_handler L k).2).1 = 0
      · rw [if_pos h2] at h
        cases h
        omega
      · rw [if_neg h2] at h ⊢
        by_cases hw : (walk (sys_exofork (set_pgfault_handler L k).2).1
            (sys_exofork (set_pgfault_handler L k).2).2).1 = none
        · rw [if_pos hw] at h ⊢
          obtain ⟨-, -, -, hfin⟩ := forkFinish_obs L (sys_exofork (set_pgfault_handler L k).2).1
            (walk (sys_exofork (set_pgfault_handler L k).2).1
              (sys_exofork (set_pgfault_handler L k).2).2).2
          have hcc : (sys_exofork (set_pgfault_handler L k).2).1 = c := by
            rcases hfin with ⟨msg, r, -, hp⟩ | ⟨hr, -⟩
            · rw [hp] at h; cases h
            · rw [hr] at h; cases h; rfl
          rw [hcc] at hw h ⊢
          exact ⟨h0', rfl, hw, rfl, h⟩
        · exfalso
          rw [if_neg hw] at h
          cases ho : (walk (sys_exofork (set_pgfault_handler L k).2).1
              (sys_exofork (set_pgfault_handler L k).2).2).1 with
          | none => exact hw ho
          | some o =>
            rw [ho] at h
            dsimp only [Option.getD] at h
            exact hwalk _ _ o ho h

/-- The requests of the end of `fork` and `sfork`, whatever its outcome: the
registration of the upcall and the activation of the child, or the first of them. -/
theorem forkFinish_requests (envid : Int) (k : Kern) :
    ∃ rest, (forkFinish envid k).2.log = k.log ++ rest ∧
      ∀ r ∈ rest, r = Req.env_set_pgfault_upcall envid ∨
        r = Req.env_set_status envid ENV_RUNNABLE := by
  unfold forkFinish
  have hl1 := Kern.enter_log k (Req.env_set_pgfault_upcall envid)
  have hsound : ∀ r ∈ [Req.env_set_pgfault_upcall envid],
      r = Req.env_set_pgfault_upcall envid ∨ r = Req.env_set_status envid ENV_RUNNABLE := by
    intro r hr
    simp only [List.mem_singleton] at hr
    exact Or.inl hr
  have hsound2 : ∀ r ∈ [Req.env_set_pgfault_upcall envid,
      Req.env_set_status envid ENV_RUNNABLE],
      r = Req.env_set_pgfault_upcall envid ∨ r = Req.env_set_status envid ENV_RUNNABLE := by
    intro r hr
    simp only [List.mem_cons, List.mem_singleton, List.not_mem_nil, or_false] at hr
    exact hr
  rcases sys_env_set_pgfault_upcall_cases envid k with ⟨e, he, h⟩ | ⟨id, en, hd, -, h⟩
  · rw [h]
    dsimp only
    rw [if_pos he]
    exact ⟨_, hl1, hsound⟩
  · rw [h]
    dsimp only
    rw [if_neg (by decide)]
    generalize hk1 : (k.enter (Req.env_set_pgfault_upcall envid)).2.setEnv id
      { en with pgfault_upcall := true } = k1
    have hk1log : k1.log = k.log ++ [Req.env_set_pgfault_upcall envid] := by
      rw [← hk1]; exact hl1
    have hl2 := Kern.enter_log k1 (Req.env_set_status envid ENV_RUNNABLE)
    have hfull : (k1.enter (Req.env_set_status envid ENV_RUNNABLE)).2.log =
        k.log ++ [Req.env_set_pgfault_upcall envid, Req.env_set_status envid ENV_RUNNABLE] := by
      rw [hl2, hk1log]; simp
    rcases sys_env_set_status_cases envid ENV_RUNNABLE k1 with ⟨e, he, h2⟩ | ⟨id2, en2, hd2, -, h2⟩
    · rw [h2]
      dsimp only
      rw [if_pos he]
      exact ⟨_, hfull, hsound2⟩
    · rw [h2]
      dsimp only
      rw [if_neg (by decide)]
      exact ⟨_, hfull, hsound2⟩

/-- The requests of a call of the shape of `fork`, whatever its outcome, when every
request of the walk satisfies `P`: those of the installation of the handler, the
creation of the child, those of the walk, and those of `forkFinish`. -/
theorem forkWith_log (L : Layout) (walk : Int → Kern → Option Outcome × Kern) (k : Kern)
    (P : Req → Prop)
    (hwalk : ∀ c1 k1, ∃ rest, (walk c1 k1).2.log = k1.log ++ rest ∧ ∀ r ∈ rest, P r) :
    ∃ rest, (forkWith L walk k).2.log = k.log ++ rest ∧
      ∀ r ∈ rest, P r ∨ r = Req.exofork ∨
        r = Req.page_alloc 0 (L.UXSTACKTOP - L.PGSIZE) (PTE_U ||| PTE_W ||| PTE_P) ∨
        r = Req.env_set_pgfault_upcall 0 ∨
        r = Req.env_set_pgfault_upcall (sys_exofork (set_pgfault_handler L k).2).1 ∨
        r = Req.env_set_status (sys_exofork (set_pgfault_handler L k).2).1 ENV_RUNNABLE := by
  obtain ⟨-, -, -, -, ⟨r0, hl0, hp0⟩, -, -, -⟩ := set_pgfault_handler_obs L k
  obtain ⟨-, -, e3, -, -⟩ := sys_exofork_obs L (set_pgfault_handler L k).2
  obtain ⟨rw_, hlw, hpw⟩ := hwalk (sys_exofork (set_pgfault_handler L k).2).1
    (sys_exofork (set_pgfault_handler L k).2).2
  have h0 : ∀ r ∈ r0, P r ∨ r = Req.exofork ∨
        r = Req.page_alloc 0 (L.UXSTACKTOP - L.PGSIZE) (PTE_U ||| PTE_W ||| PTE_P) ∨
        r = Req.env_set_pgfault_upcall 0 ∨
        r = Req.env_set_pgfault_upcall (sys_exofork (set_pgfault_handler L k).2).1 ∨
        r = Req.env_set_status (sys_exofork (set_pgfault_handler L k).2).1 ENV_RUNNABLE := by
    intro r hr
    rcases hp0 r hr with h | h
    · exact Or.inr (Or.inr (Or.inl h))
    · exact Or.inr (Or.inr (Or.inr (Or.inl h)))
  have h1 : ∀ r ∈ r0 ++ [Req.exofork], P r ∨ r = Req.exofork ∨
        r = Req.page_alloc 0 (L.UXSTACKTOP - L.PGSIZE) (PTE_U ||| PTE_W ||| PTE_P) ∨
        r = Req.env_set_pgfault_upcall 0 ∨
        r = Req.env_set_pgfault_upcall (sys_exofork (set_pgfault_handler L k).2).1 ∨
        r = Req.env_set_status (sys_exofork (set_pgfault_handler L k).2).1 ENV_RUNNABLE := by
    intro r hr
    rcases List.mem_append.mp hr with h | h
    · exact h0 r h
    · simp only [List.mem_singleton] at h
      exact Or.inr (Or.inl h)
  have hl1 : (sys_exofork (set_pgfault_handler L k).2).2.log = k.log ++ (r0 ++ [Req.exofork]) := by
    rw [e3, hl0, List.append_assoc]
  have h2 : ∀ r ∈ r0 ++ [Req.exofork] ++ rw_, P r ∨ r = Req.exofork ∨
        r = Req.page_alloc 0 (L.UXSTACKTOP - L.PGSIZE) (PTE_U ||| PTE_W ||| PTE_P) ∨
        r = Req.env_set_pgfault_upcall 0 ∨
        r = Req.env_set_pgfault_upcall (sys_exofork (set_pgfault_handler L k).2).1 ∨
        r = Req.env_set_status (sys_exofork (set_pgfault_handler L k).2).1 ENV_RUNNABLE := by
    intro r hr
    rcases List.mem_append.mp hr with h | h
    · exact h1 r h
    · exact Or.inl (hpw r h)
  have hl2 : (walk (sys_exofork (set_pgfault_handler L k).2).1
      (sys_exofork (set_pgfault_handler L k).2).2).2.log =
      k.log ++ (r0 ++ [Req.exofork] ++ rw_) := by
    rw [hlw, hl1, List.append_assoc]
  rw [forkWith_unfold]
  split
  · exact ⟨r0, hl0, h0⟩
  · split
    · exact ⟨_, hl1, h1⟩
    · split
      · exact ⟨_, by rw [fix_thisenv_log]; exact hl1, h1⟩
      · split
        · rcases forkFinish_obs L (sys_exofork (set_pgfault_handler L k).2).1
            (walk (sys_exofork (set_pgfault_handler L k).2).1
              (sys_exofork (set_pgfault_handler L k).2).2).2 with
            ⟨-, -, -, hfin⟩
          have hfl := forkFinish_requests (sys_exofork (set_pgfault_handler L k).2).1
            (walk (sys_exofork (set_pgfault_handler L k).2).1
              (sys_exofork (set_pgfault_handler L k).2).2).2
          obtain ⟨rf, hlf, hpf⟩ := hfl
          refine ⟨r0 ++ [Req.exofork] ++ rw_ ++ rf, by rw [hlf, hl2, List.append_assoc], ?_⟩
          intro r hr
          rcases List.mem_append.mp hr with h | h
          · exact h2 r h
          · rcases hpf r h with h | h
            · exact Or.inr (Or.inr (Or.inr (Or.inr (Or.inl h))))
            · exact Or.inr (Or.inr (Or.inr (Or.inr (Or.inr h))))
        · exact ⟨_, hl2, h2⟩

/-- C9, the code at the failing input.  The creation of the child succeeds
(identifier 2) and the kernel fails the next request with -4.  In `sfork` that
request is the direct mapping of page 0, and `sfork` returns -4 to its caller; in
`fork` it is the mapping `duppage` asks for, and `fork` panics. -/
theorem sfork_returns_mapping_error :
    (sys_exofork (set_pgfault_handler toyLayout toyKernNoMem).2).1 = 2 ∧
    (sfork toyLayout toyKernNoMem).1 = Outcome.ret (-4) ∧
    (sfork toyLayout toyKernNoMem).2.log =
      [Req.exofork, Req.page_map 0 0 2 0 (PTE_P ||| PTE_U)] ∧
    (fork toyLayout toyKernNoMem).1 = Outcome.panic "duppage: %e" (-4) := by
  decide

theorem syscall_writable (x : Nat) : (x &&& PTE_SYSCALL) &&& PTE_W = x &&& PTE_W := by
  rw [Nat.land_assoc]
  rfl

theorem syscall_user (x : Nat) : (x &&& PTE_SYSCALL) &&& PTE_U = x &&& PTE_U := by
  rw [Nat.land_assoc]
  rfl

/-- A store to a page that is mapped present, user-accessible and writable writes
the byte into the mapped physical page and changes nothing else. -/
theorem store_direct (L : Layout) (k : Kern) (va b fuel : Nat) (m : Mapping)
    (hm : k.mapping L k.cur (PGNUM L va) = some m) (hP : m.perm &&& PTE_P ≠ 0)
    (hU : m.perm &&& PTE_U ≠ 0) (hW : m.perm &&& PTE_W ≠ 0) :
    store L va b (fuel + 1) k = (Outcome.ret 0, k.poke m.frame (va % L.PGSIZE) b) := by
  rw [store_succ, uvpt_of_mapping L k _ m hm, if_pos ⟨hP, hU, hW⟩, hm]

/-! ## The activation of the child -/

theorem Req.not_setStatus_of_paging (r : Req) (h : Req.isPaging r = true) :
    Req.isSetStatus r = false := by
  cases r <;> first | rfl | cases h

/-- The end of `fork` and `sfork` for a child `envid`: either the registration of
the upcall fails and it is the only request, or it succeeds and the request to
activate the child follows on the state the registration left. -/
theorem forkFinish_activation (envid : Int) (hpos : 0 < envid) (k : Kern) :
    ((sys_env_set_pgfault_upcall envid k).1 < 0 ∧
      (forkFinish envid k).2.log = k.log ++ [Req.env_set_pgfault_upcall envid]) ∨
    (¬ (sys_env_set_pgfault_upcall envid k).1 < 0 ∧
      (forkFinish envid k).2 =
        (sys_env_set_status envid ENV_RUNNABLE (sys_env_set_pgfault_upcall envid k).2).2 ∧
      (forkFinish envid k).2.log = k.log ++
        [Req.env_set_pgfault_upcall envid, Req.env_set_status envid ENV_RUNNABLE] ∧
      ((forkFinish envid k).1 = Outcome.ret envid ∨
        ∃ r, r < 0 ∧ (forkFinish envid k).1 = Outcome.panic "sys_env_set_status: %e" r) ∧
      ∃ e, Tbl.get (sys_env_set_pgfault_upcall envid k).2.envs envid.toNat = some e ∧
        e.pgfault_upcall = true) := by
  unfold forkFinish
  have hl1 := Kern.enter_log k (Req.env_set_pgfault_upcall envid)
  rcases sys_env_set_pgfault_upcall_cases envid k with ⟨e, he, h⟩ | ⟨id, en, hd, -, h⟩
  · left
    rw [h]
    dsimp only
    rw [if_pos he]
    exact ⟨he, hl1⟩
  · right
    rw [h]
    dsimp only
    rw [if_neg (by decide)]
    obtain ⟨-, hid, -⟩ := Kern.envid2env_some k envid id en hd
    rw [if_neg (by omega)] at hid
    subst hid
    generalize hk1 : (k.enter (Req.env_set_pgfault_upcall envid)).2.setEnv envid.toNat
      { en with pgfault_upcall := true } = k1
    have hk1log : k1.log = k.log ++ [Req.env_set_pgfault_upcall envid] := by
      rw [← hk1]; exact hl1
    have hget : Tbl.get k1.envs envid.toNat = some { en with pgfault_upcall := true } := by
      rw [← hk1]
      unfold Kern.setEnv
      dsimp only
      rw [Tbl.get_put, if_pos rfl]
    have hl2 := Kern.enter_log k1 (Req.env_set_status envid ENV_RUNNABLE)
    have hfull : (k1.enter (Req.env_set_status envid ENV_RUNNABLE)).2.log =
        k.log ++ [Req.env_set_pgfault_upcall envid, Req.env_set_status envid ENV_RUNNABLE] := by
      rw [hl2, hk1log]; simp
    refine ⟨by decide, ?_, ?_, ?_, _, hget, rfl⟩
    · rcases sys_env_set_status_cases envid ENV_RUNNABLE k1 with ⟨e, he, h2⟩ | ⟨i2, e2, -, -, h2⟩
      · rw [h2]; dsimp only; rw [if_pos he]
      · rw [h2]; dsimp only; rw [if_neg (by decide)]
    · rcases sys_env_set_status_cases envid ENV_RUNNABLE k1 with ⟨e, he, h2⟩ | ⟨i2, e2, -, -, h2⟩
      · rw [h2]; dsimp only; rw [if_pos he]; exact hfull
      · rw [h2]; dsimp only; rw [if_neg (by decide)]; exact hfull
    · rcases sys_env_set_status_cases envid ENV_RUNNABLE k1 with ⟨e, he, h2⟩ | ⟨i2, e2, -, -, h2⟩
      · rw [h2]; dsimp only; rw [if_pos he]; exact Or.inr ⟨e, he, rfl⟩
      · rw [h2]; dsimp only; rw [if_neg (by decide)]; exact Or.inl rfl

theorem forkWalk_pages (L : Layout) (hL : L.WF) (c : Int) (hc : 0 < c) (k1 : Kern)
    (hne : c.toNat ≠ k1.cur)
    (hw : (walkWith L (forkBody L c) (PGNUM L L.UTOP + 1) 0 k1).1 = none)
    (q : Nat) (m : Mapping) (hq : q < PGNUM L L.UTOP)
    (hm : k1.mapping L k1.cur q = some m) (hP : m.perm &&& PTE_P ≠ 0) :
    ∃ mc, (walkWith L (forkBody L c) (PGNUM L L.UTOP + 1) 0 k1).2.mapping L c.toNat q =
        some mc ∧ mc.perm &&& PTE_P ≠ 0 := by
  obtain ⟨-, -, -, -, w7⟩ := fork_walk L hL c hc k1 hne
  obtain ⟨kq, -, hkc, hsame, hbn, hfinal⟩ :=
    w7 hw q hq (Kern.pde_of_mapping L k1 k1.cur q m hm)
  have hmq : kq.mapping L kq.cur q = some m := by
    rw [hkc, hsame k1.cur q (Nat.le_refl _)]; exact hm
  have hneq : c.toNat ≠ kq.cur := by rw [hkc]; exact hne
  have hpage := forkBody_page L hL c hc q kq hneq hq hbn m hmq hP
  rw [hfinal]
  by_cases hx : q * L.PGSIZE = L.UXSTACKTOP - L.PGSIZE
  · rw [if_pos hx] at hpage
    exact ⟨_, hpage.1, by show (PTE_U ||| PTE_W ||| PTE_P) &&& PTE_P ≠ 0; decide⟩
  · rw [if_neg hx] at hpage
    exact ⟨_, hpage.1, dupperm_present _⟩

theorem sforkWalk_pages (L : Layout) (hL : L.WF) (c : Int) (hc : 0 < c) (k1 : Kern)
    (hne : c.toNat ≠ k1.cur)
    (hw : (walkWith L (sforkBody L c) (PGNUM L L.UTOP + 1) 0 k1).1 = none)
    (q : Nat) (m : Mapping) (hq : q < PGNUM L L.UTOP)
    (hm : k1.mapping L k1.cur q = some m) (hP : m.perm &&& PTE_P ≠ 0) :
    ∃ mc, (walkWith L (sforkBody L c) (PGNUM L L.UTOP + 1) 0 k1).2.mapping L c.toNat q =
        some mc ∧ mc.perm &&& PTE_P ≠ 0 := by
  obtain ⟨-, -, -, -, w7⟩ := sfork_walk L hL c hc k1 hne
  obtain ⟨kq, -, hkc, hsame, hbn, hfinal⟩ :=
    w7 hw q hq (Kern.pde_of_mapping L k1 k1.cur q m hm)
  have hmq : kq.mapping L kq.cur q = some m := by
    rw [hkc, hsame k1.cur q (Nat.le_refl _)]; exact hm
  have hneq : c.toNat ≠ kq.cur := by rw [hkc]; exact hne
  have hpage := sforkBody_page L hL c hc q kq hneq hq hbn m hmq hP
  rw [hfinal]
  by_cases hx : q * L.PGSIZE = L.UXSTACKTOP - L.PGSIZE
  · rw [if_pos hx] at hpage
    exact ⟨_, hpage.1, by show (PTE_U ||| PTE_W ||| PTE_P) &&& PTE_P ≠ 0; decide⟩
  · rw [if_neg hx] at hpage
    by_cases hs : q * L.PGSIZE = L.USTACKTOP - L.PGSIZE
    · rw [if_pos hs] at hpage
      exact ⟨_, hpage.1, dupperm_present _⟩
    · rw [if_neg hs] at hpage
      refine ⟨_, hpage.1, ?_⟩
      show (m.perm &&& PTE_SYSCALL) &&& PTE_P ≠ 0
      rw [syscall_present]; exact hP

theorem forkBody_paging (L : Layout) (envid : Int) (pn : Nat) (k : Kern) :
    ∃ rest, (forkBody L envid pn k).2.log = k.log ++ rest ∧
      ∀ r ∈ rest, Req.isPaging r = true := by
  obtain ⟨rest, h1, h2⟩ := forkBody_log L envid pn k
  exact ⟨rest, h1, fun r hr => (h2 r hr).2⟩

theorem sforkBody_paging (L : Layout) (envid : Int) (pn : Nat) (k : Kern) :
    ∃ rest, (sforkBody L envid pn k).2.log = k.log ++ rest ∧
      ∀ r ∈ rest, Req.isPaging r = true := by
  obtain ⟨rest, h1, h2⟩ := sforkBody_log L envid pn k
  exact ⟨rest, h1, fun r hr => (h2 r hr).2⟩

/-- A page that is present in the caller is present after the installation of the
handler. -/
theorem set_pgfault_handler_present (L : Layout) (k : Kern)
    (h : (set_pgfault_handler L k).1 = none) (q : Nat) (m : Mapping)
    (hm : k.mapping L k.cur q = some m) (hP : m.perm &&& PTE_P ≠ 0) :
    ∃ m1, (set_pgfault_handler L k).2.mapping L k.cur q = some m1 ∧ m1.perm &&& PTE_P ≠ 0 := by
  obtain ⟨s1, -, s3, -, -, s6, -, -⟩ := set_pgfault_handler_obs L k
  by_cases hu : k.upcall k.cur = true
  · rw [s1 hu]; exact ⟨m, hm, hP⟩
  · by_cases hq : q = PGNUM L (L.UXSTACKTOP - L.PGSIZE)
    · have hf : k.upcall k.cur = false := by
        cases hb : k.upcall k.cur with
        | true => exact absurd hb hu
        | false => rfl
      rw [hq, ((s6 h).2 hf).1]
      exact ⟨_, rfl, by show (PTE_U ||| PTE_W ||| PTE_P) &&& PTE_P ≠ 0; decide⟩
    · rw [s3 k.cur q (fun hh => hq hh.2)]
      exact ⟨m, hm, hP⟩

theorem activation_generic (L : Layout) (k : Kern)
    (body : Int → Nat → Kern → Option Outcome × Kern)
    (hlog : ∀ c pn k1, ∃ rest, (body c pn k1).2.log = k1.log ++ rest ∧
      ∀ r ∈ rest, Req.isPaging r = true)
    (hpages : ∀ c k1, 0 < c → c.toNat ≠ k1.cur →
      (walkWith L (body c) (PGNUM L L.UTOP + 1) 0 k1).1 = none →
      ∀ q m, q < PGNUM L L.UTOP → k1.mapping L k1.cur q = some m → m.perm &&& PTE_P ≠ 0 →
        ∃ mc, (walkWith L (body c) (PGNUM L L.UTOP + 1) 0 k1).2.mapping L c.toNat q = some mc ∧
          mc.perm &&& PTE_P ≠ 0) :
    ActivatedLast L k
      (forkWith L (fun c k1 => walkWith L (body c) (PGNUM L L.UTOP + 1) 0 k1) k) := by
  obtain ⟨-, s1, -, -, ⟨r0, hl0, hp0⟩, -, -, -⟩ := set_pgfault_handler_obs L k
  have hr0 : ∀ r ∈ r0, Req.isSetStatus r = false := by
    intro r hr
    rcases hp0 r hr with h | h <;> rw [h] <;> rfl
  rw [forkWith_unfold]
  by_cases h0 : (set_pgfault_handler L k).1 ≠ none
  · rw [if_pos h0]
    exact ⟨r0, hl0, Or.inl hr0⟩
  rw [if_neg h0]
  have h0' : (set_pgfault_handler L k).1 = none := by
    by_contra hh; exact h0 hh
  have hpres := set_pgfault_handler_present L k h0'
  obtain ⟨e1, -, e3, -, e5⟩ := sys_exofork_obs L (set_pgfault_handler L k).2
  rw [hl0] at e3
  rw [s1] at e1
  generalize (set_pgfault_handler L k).2 = k0 at hpres e1 e3 e5 s1 ⊢
  generalize hc : (sys_exofork k0).1 = c at e5 ⊢
  generalize hk1 : (sys_exofork k0).2 = k1 at e1 e3 e5 ⊢
  have hone : ∀ r ∈ r0 ++ [Req.exofork], Req.isSetStatus r = false := by
    intro r hr
    rcases List.mem_append.mp hr with h | h
    · exact hr0 r h
    · simp only [List.mem_singleton] at h
      subst h; rfl
  have e3' : k1.log = k.log ++ (r0 ++ [Req.exofork]) := by
    rw [e3, List.append_assoc]
  rcases e5 with ⟨hneg, -, -⟩ | ⟨hpos, hne, -, hfresh, hmap, -⟩
  · rw [if_pos hneg]
    exact ⟨_, e3', Or.inl hone⟩
  · rw [if_neg (by omega), if_neg (by omega)]
    rw [s1] at hne
    obtain ⟨wrest, hwl, hwp⟩ := walkWith_log L (body c) (fun r => Req.isPaging r = true)
      (hlog c) (PGNUM L L.UTOP + 1) 0 k1
    have hpre : ∀ r ∈ r0 ++ [Req.exofork] ++ wrest, Req.isSetStatus r = false := by
      intro r hr
      rcases List.mem_append.mp hr with h | h
      · exact hone r h
      · exact Req.not_setStatus_of_paging r (hwp r h)
    have hwl' : (walkWith L (body c) (PGNUM L L.UTOP + 1) 0 k1).2.log =
        k.log ++ (r0 ++ [Req.exofork] ++ wrest) := by
      rw [hwl, e3', List.append_assoc]
    by_cases hw : (walkWith L (body c) (PGNUM L L.UTOP + 1) 0 k1).1 = none
    · rw [if_pos hw]
      have hne1 : c.toNat ≠ k1.cur := by rw [e1]; exact hne
      rcases forkFinish_activation c hpos (walkWith L (body c) (PGNUM L L.UTOP + 1) 0 k1).2 with
        ⟨-, hl⟩ | ⟨hok, hst, hl, hout, hup⟩
      · refine ⟨r0 ++ [Req.exofork] ++ wrest ++ [Req.env_set_pgfault_upcall c], ?_, Or.inl ?_⟩
        · rw [hl, hwl', List.append_assoc]
        · intro r hr
          rcases List.mem_append.mp hr with h | h
          · exact hpre r h
          · simp only [List.mem_singleton] at h
            subst h; rfl
      · refine ⟨r0 ++ [Req.exofork] ++ wrest ++
          [Req.env_set_pgfault_upcall c, Req.env_set_status c ENV_RUNNABLE], ?_, Or.inr ?_⟩
        · rw [hl, hwl', List.append_assoc]
        · refine ⟨c, r0 ++ [Req.exofork] ++ wrest,
            (walkWith L (body c) (PGNUM L L.UTOP + 1) 0 k1).2,
            hpos, hne, rfl, hpre, hwl', ?_, hok, hup, hst, hout⟩
          intro q m hq hm hP
          obtain ⟨m1, hm1, hP1⟩ := hpres q m hm hP
          refine hpages c k1 hpos hne1 hw q m1 hq ?_ hP1
          rw [hmap, e1, if_neg (fun hh => hne hh.symm)]
          exact hm1
    · rw [if_neg hw]
      exact ⟨_, hwl', Or.inl hpre⟩

theorem fork_activated (L : Layout) (hL : L.WF) (k : Kern) : ActivatedLast L k (fork L k) := by
  rw [fork_eq]
  exact activation_generic L k (forkBody L) (forkBody_paging L)
    (fun c k1 hc hne hw q m hq hm hP => forkWalk_pages L hL c hc k1 hne hw q m hq hm hP)

theorem sfork_activated (L : Layout) (hL : L.WF) (k : Kern) :
    ActivatedLast L k (sfork L k) := by
  rw [sfork_eq]
  exact activation_generic L k (sforkBody L) (sforkBody_paging L)
    (fun c k1 hc hne hw q m hq hm hP => sforkWalk_pages L hL c hc k1 hne hw q m hq hm hP)

/-- C11.  In every execution of `fork` (`shared = false`) and of `sfork`
(`shared = true`), among the requests of the call either none asks to change a
scheduling status, or exactly one does: it is the last request, it asks to make the
child `c` runnable, and the request before it is the registration of the upcall in
`c`.  In that case the walk had ended without failure on a state `kw` in which every
page that was present in the caller below `UTOP` is present in `c`, the registration
succeeded on `kw`, and the activation is requested on the state the registration
left; the call then returns `c` or aborts on the failure of the activation. -/
theorem set_runnable_last (L : Layout) (hL : L.WF) (k : Kern) (shared : Bool) :
    ∃ rest, (if shared then sfork L k else fork L k).2.log = k.log ++ rest ∧
      ((∀ r ∈ rest, Req.isSetStatus r = false) ∨
       ∃ c pre kw, 0 < c ∧ c.toNat ≠ k.cur ∧
         rest = pre ++ [Req.env_set_pgfault_upcall c, Req.env_set_status c ENV_RUNNABLE] ∧
         (∀ r ∈ pre, Req.isSetStatus r = false) ∧
         kw.log = k.log ++ pre ∧
         (∀ q m, q < PGNUM L L.UTOP → k.mapping L k.cur q = some m → m.perm &&& PTE_P ≠ 0 →
           ∃ mc, kw.mapping L c.toNat q = some mc ∧ mc.perm &&& PTE_P ≠ 0) ∧
         ¬ (sys_env_set_pgfault_upcall c kw).1 < 0 ∧
         (∃ e, Tbl.get (sys_env_set_pgfault_upcall c kw).2.envs c.toNat = some e ∧
           e.pgfault_upcall = true) ∧
         (if shared then sfork L k else fork L k).2 =
           (sys_env_set_status c ENV_RUNNABLE (sys_env_set_pgfault_upcall c kw).2).2 ∧
         ((if shared then sfork L k else fork L k).1 = Outcome.ret c ∨
           ∃ r, r < 0 ∧ (if shared then sfork L k else fork L k).1 =
             Outcome.panic "sys_env_set_status: %e" r)) := by
  cases shared with
  | false => exact fork_activated L hL k
  | true => exact sfork_activated L hL k

theorem set_runnable_last_witness :
    toyLayout.WF ∧
    ∃ rest, (fork toyLayout toyKern).2.log =
        toyKern.log ++ rest ∧
      ((∀ r ∈ rest, Req.isSetStatus r = false) ∨
       ∃ c pre kw, 0 < c ∧ c.toNat ≠ toyKern.cur ∧
         rest = pre ++ [Req.env_set_pgfault_upcall c, Req.env_set_status c ENV_RUNNABLE] ∧
         (∀ r ∈ pre, Req.isSetStatus r = false) ∧
         kw.log = toyKern.log ++ pre ∧
         (∀ q m, q < PGNUM toyLayout toyLayout.UTOP →
           toyKern.mapping toyLayout toyKern.cur q = some m → m.perm &&& PTE_P ≠ 0 →
           ∃ mc, kw.mapping toyLayout c.toNat q = some mc ∧ mc.perm &&& PTE_P ≠ 0) ∧
         ¬ (sys_env_set_pgfault_upcall c kw).1 < 0 ∧
         (∃ e, Tbl.get (sys_env_set_pgfault_upcall c kw).2.envs c.toNat = some e ∧
           e.pgfault_upcall = true) ∧
         (fork toyLayout toyKern).2 =
           (sys_env_set_status c ENV_RUNNABLE (sys_env_set_pgfault_upcall c kw).2).2 ∧
         ((fork toyLayout toyKern).1 = Outcome.ret c ∨
           ∃ r, r < 0 ∧ (fork toyLayout toyKern).1 =
             Outcome.panic "sys_env_set_status: %e" r)) :=
  ⟨by decide, set_runnable_last toyLayout (by decide) toyKern false⟩

/-! ## The walk with and without the skip -/

theorem forkWalkEvery_succ (L : Layout) (envid : Int) (n pn : Nat) (k : Kern) :
    forkWalkEvery L envid (n + 1) pn k =
      if uvpd k (pn / L.NPTENTRIES) &&& PTE_P = 0 then forkWalkEvery L envid n (pn + 1) k
      else if (forkBody L envid pn k).1 = none then
        forkWalkEvery L envid n (pn + 1) (forkBody L envid pn k).2
      else forkBody L envid pn k := by
  rw [forkWalkEvery, forkBody_unfold]
  by_cases h1 : uvpd k (pn / L.NPTENTRIES) &&& PTE_P = 0
  · rw [if_neg (fun h => h.1 h1), if_pos h1]
  · rw [if_neg h1]
    by_cases h2 : uvpt L k pn &&& PTE_P = 0
    · rw [if_neg (fun h => h.2 h2), if_pos h2, if_pos rfl]
    · rw [if_pos ⟨h1, h2⟩, if_neg h2]
      by_cases h3 : (pn * L.PGSIZE) % 2 ^ 32 = L.UXSTACKTOP - L.PGSIZE
      · rw [if_pos h3, if_pos h3]
        generalize sys_page_alloc L envid ((pn * L.PGSIZE) % 2 ^ 32)
          (PTE_U ||| PTE_W ||| PTE_P) k = x
        obtain ⟨r, k1⟩ := x
        dsimp only
        by_cases h4 : r < 0
        · simp only [if_pos h4]
          rw [if_neg (fun h => by cases h)]
        · simp only [if_neg h4]
          rw [if_pos trivial]
      · rw [if_neg h3, if_neg h3]
        generalize duppage L envid pn k = x
        obtain ⟨r, k1⟩ := x
        dsimp only
        by_cases h4 : r < 0
        · simp only [if_pos h4]
          rw [if_neg (fun h => by cases h)]
        · simp only [if_neg h4]
          rw [if_pos trivial]

theorem forkWalkEvery_absent (L : Layout) (envid : Int) (k : Kern) :
    ∀ j n pn, (∀ q, pn ≤ q → q < pn + j → uvpd k (q / L.NPTENTRIES) &&& PTE_P = 0) →
      forkWalkEvery L envid (j + n) pn k = forkWalkEvery L envid n (pn + j) k := by
  intro j
  induction j with
  | zero => intro n pn _; simp
  | succ j ih =>
    intro n pn h
    have h1 : j + 1 + n = (j + n) + 1 := by omega
    have h2 : pn + (j + 1) = pn + 1 + j := by omega
    rw [h1, forkWalkEvery_succ, if_pos (h pn (Nat.le_refl _) (by omega)), h2]
    exact ih n (pn + 1) (fun q q1 q2 => h q (by omega) (by omega))

/-- The walk with the skip and the walk over every index give the same result
from any point the former reaches. -/
theorem walkWith_every (L : Layout) (hL : L.WF) (envid : Int) (hpos : 0 < envid) (cur0 : Nat)
    (hne : envid.toNat ≠ cur0) :
    ∀ fuel pn k, PGNUM L L.UTOP - pn < fuel → pn ≤ PGNUM L L.UTOP → k.cur = cur0 →
      (pn % L.NPTENTRIES = 0 ∨ k.pde k.cur (pn / L.NPTENTRIES) = true) →
      walkWith L (forkBody L envid) fuel pn k =
        forkWalkEvery L envid (PGNUM L L.UTOP - pn) pn k := by
  have hL0 := hL
  obtain ⟨hpg, hnpt, hutop, hwrap, -, -, -⟩ := hL
  intro fuel
  induction fuel with
  | zero => intro pn k hf; omega
  | succ f ih =>
    intro pn k hf hle hk0 hal
    unfold walkWith
    by_cases h1 : pn < PGNUM L L.UTOP
    · rw [if_pos h1]
      have hlt : pn < L.UTOP / L.PGSIZE := h1
      have hsplit : PGNUM L L.UTOP - pn = (PGNUM L L.UTOP - pn - 1) + 1 := by omega
      by_cases h2 : uvpd k (pn / L.NPTENTRIES) &&& PTE_P = 0
      · rw [if_pos h2]
        have hnp : ¬ (k.pde k.cur (pn / L.NPTENTRIES) = true) :=
          fun hp => ((uvpd_present k _).mpr hp) h2
        have ha : pn % L.NPTENTRIES = 0 := hal.resolve_right hnp
        have hnext : (pn + (L.NPTENTRIES - 1) + 1) % 2 ^ 32 = pn + L.NPTENTRIES := by
          rw [Nat.mod_eq_of_lt (by unfold PGNUM at h1; omega)]; omega
        rw [hnext]
        by_cases h3 : pn + L.NPTENTRIES ≤ PGNUM L L.UTOP
        · rw [ih (pn + L.NPTENTRIES) k (by omega) h3 hk0 (Or.inl (add_mod_of_aligned ha))]
          have hj : PGNUM L L.UTOP - pn =
              L.NPTENTRIES + (PGNUM L L.UTOP - (pn + L.NPTENTRIES)) := by omega
          rw [hj, forkWalkEvery_absent L envid k L.NPTENTRIES _ pn]
          · intro q q1 q2
            rw [div_eq_of_aligned ha q1 q2]; exact h2
        · have hj : PGNUM L L.UTOP - pn = (PGNUM L L.UTOP - pn) + 0 := by omega
          rw [hj, forkWalkEvery_absent L envid k (PGNUM L L.UTOP - pn) 0 pn]
          · cases f with
            | zero => omega
            | succ g =>
              unfold walkWith
              rw [if_neg (by omega)]
              rfl
          · intro q q1 q2
            rw [div_eq_of_aligned ha q1 (by omega)]; exact h2
      · rw [if_neg h2, hsplit, forkWalkEvery_succ, if_neg h2]
        have hp : k.pde k.cur (pn / L.NPTENTRIES) = true := by
          by_contra hc
          exact h2 (by
            by_contra h3
            exact hc ((uvpd_present k _).mp h3))
        obtain ⟨-, b2, -, b4, -⟩ := forkBody_step L hL0
          envid hpos cur0 hne pn k h1 hk0
        rcases hb : forkBody L envid pn k with ⟨o, k1⟩
        rw [hb] at b2 b4
        dsimp only at b2 b4 ⊢
        cases o with
        | some o => rw [if_neg (fun h => by cases h)]
        | none =>
          rw [if_pos rfl]
          have hnext : (pn + 1) % 2 ^ 32 = pn + 1 :=
            Nat.mod_eq_of_lt (by unfold PGNUM at h1; omega)
          rw [hnext]
          have hal1 : (pn + 1) % L.NPTENTRIES = 0 ∨
              k1.pde k1.cur ((pn + 1) / L.NPTENTRIES) = true := by
            by_cases hm : (pn + 1) % L.NPTENTRIES = 0
            · exact Or.inl hm
            · right
              rw [succ_div_of_not_aligned hm, b2]
              exact b4 _ _ hp
          show walkWith L (forkBody L envid) f (pn + 1) k1 = _
          rw [ih (pn + 1) k1 (by omega) (by omega) (b2.trans hk0) hal1]
          congr 1
    · rw [if_neg h1]
      have h0 : PGNUM L L.UTOP - pn = 0 := by omega
      rw [h0]; rfl

/-- A page is present for the walk (directory entry and table entry) exactly when
its table entry is. -/
theorem present_iff (L : Layout) (k : Kern) (pn : Nat) :
    (uvpd k (pn / L.NPTENTRIES) &&& PTE_P ≠ 0 ∧ uvpt L k pn &&& PTE_P ≠ 0) ↔
      uvpt L k pn &&& PTE_P ≠ 0 := by
  refine ⟨fun h => h.2, fun h => ⟨?_, h⟩⟩
  have h0 : uvpt L k pn ≠ 0 := by
    intro h1
    rw [h1] at h
    exact h (Nat.zero_and _)
  obtain ⟨m, hm, -⟩ := mapping_of_uvpt L k pn h0
  exact (uvpd_present k _).mpr (Kern.pde_of_mapping L k k.cur pn m hm)

/-- The requests `fork` makes for a present page hand exactly that page to the
child. -/
theorem forkBody_pageFor (L : Layout) (hL : L.WF) (c : Int) (hc : 0 < c) (pn : Nat)
    (k : Kern) (hpn : pn < PGNUM L L.UTOP) (hP : uvpt L k pn &&& PTE_P ≠ 0) :
    ∃ rest, (forkBody L c pn k).2.log = k.log ++ rest ∧
      rest.filterMap (Req.pageFor L c) = [pn] := by
  obtain ⟨hva, hpg, -, -⟩ := va_of_pn L hL pn hpn
  have hc0 : ¬ (0 = c) := by omega
  have hva2 : pn * L.PGSIZE % 4294967296 = pn * L.PGSIZE := by simpa using hva
  rw [forkBody_unfold, if_neg hP]
  by_cases hx : (pn * L.PGSIZE) % 2 ^ 32 = L.UXSTACKTOP - L.PGSIZE
  · rw [if_pos hx]
    obtain ⟨-, hl, -⟩ := sys_page_alloc_obs L c ((pn * L.PGSIZE) % 2 ^ 32)
      (PTE_U ||| PTE_W ||| PTE_P) k
    refine ⟨[Req.page_alloc c ((pn * L.PGSIZE) % 2 ^ 32) (PTE_U ||| PTE_W ||| PTE_P)], ?_, ?_⟩
    · split <;> exact hl
    · simp [Req.pageFor, hva2, hpg]
  · rw [if_neg hx]
    have hlog : (if (duppage L c pn k).1 < 0 then
          (some (Outcome.panic "duppage: %e" (duppage L c pn k).1), (duppage L c pn k).2)
        else (none, (duppage L c pn k).2)).2 = (duppage L c pn k).2 := by
      split <;> rfl
    rw [hlog]
    rcases duppage_log L c pn k with h | h
    · exact ⟨_, h, by simp [Req.pageFor, hva2, hpg]⟩
    · exact ⟨_, h, by simp [Req.pageFor, hva2, hpg, hc0]⟩

/-- The pages the walk over every index hands to the child, read off the log: the
present pages in increasing order, up to the page at which the walk fails. -/
theorem forkWalkEvery_trace (L : Layout) (hL : L.WF) (c : Int) (hc : 0 < c) (cur0 : Nat)
    (hne : c.toNat ≠ cur0) :
    ∀ n pn k, pn + n ≤ PGNUM L L.UTOP → k.cur = cur0 →
      ∃ rest, (forkWalkEvery L c n pn k).2.log = k.log ++ rest ∧
        rest.filterMap (Req.pageFor L c) <+:
          (List.range' pn n).filter (fun q => decide (uvpt L k q &&& PTE_P ≠ 0)) ∧
        ((forkWalkEvery L c n pn k).1 = none →
          rest.filterMap (Req.pageFor L c) =
            (List.range' pn n).filter (fun q => decide (uvpt L k q &&& PTE_P ≠ 0))) := by
  intro n
  induction n with
  | zero =>
    intro pn k _ _
    exact ⟨[], by simp [forkWalkEvery], by simp, fun _ => by simp⟩
  | succ n ih =>
    intro pn k hle hk0
    rw [forkWalkEvery_succ, List.range'_succ]
    by_cases hP : uvpt L k pn &&& PTE_P ≠ 0
    · have hpd := ((present_iff L k pn).mpr hP).1
      rw [if_neg hpd, List.filter_cons_of_pos (by simpa using hP)]
      obtain ⟨r1, hl1, ht1⟩ := forkBody_pageFor L hL c hc pn k (by omega) hP
      obtain ⟨-, b2, b3, -, -⟩ := forkBody_step L hL c hc cur0 hne pn k (by omega) hk0
      by_cases hb : (forkBody L c pn k).1 = none
      · rw [if_pos hb]
        obtain ⟨r2, hl2, hp2, he2⟩ := ih (pn + 1) (forkBody L c pn k).2 (by omega) (b2.trans hk0)
        have hcongr : (List.range' (pn + 1) n).filter
              (fun q => decide (uvpt L (forkBody L c pn k).2 q &&& PTE_P ≠ 0)) =
            (List.range' (pn + 1) n).filter (fun q => decide (uvpt L k q &&& PTE_P ≠ 0)) := by
          apply List.filter_congr
          intro q hq
          have hq1 : pn + 1 ≤ q := (List.mem_range'_1.mp hq).1
          have : uvpt L (forkBody L c pn k).2 q = uvpt L k q := by
            unfold uvpt
            rw [b2, b3 k.cur q (by omega)]
          rw [this]
        rw [hcongr] at hp2 he2
        refine ⟨r1 ++ r2, ?_, ?_, ?_⟩
        · rw [hl2, hl1, List.append_assoc]
        · rw [List.filterMap_append, ht1]
          exact (List.prefix_cons_inj pn).mpr hp2
        · intro hn
          rw [List.filterMap_append, ht1, he2 hn]
          rfl
      · rw [if_neg hb]
        refine ⟨r1, hl1, ?_, fun hn => absurd hn hb⟩
        rw [ht1]
        exact List.prefix_iff_eq_take.mpr (by simp)
    · have hP0 : uvpt L k pn &&& PTE_P = 0 := by
        by_contra h; exact hP h
      have hskip : (if uvpd k (pn / L.NPTENTRIES) &&& PTE_P = 0 then
            forkWalkEvery L c n (pn + 1) k
          else if (forkBody L c pn k).1 = none then
            forkWalkEvery L c n (pn + 1) (forkBody L c pn k).2
          else forkBody L c pn k) = forkWalkEvery L c n (pn + 1) k := by
        have hb : forkBody L c pn k = (none, k) := by
          rw [forkBody_unfold, if_pos hP0]
        by_cases hd : uvpd k (pn / L.NPTENTRIES) &&& PTE_P = 0
        · rw [if_pos hd]
        · rw [if_neg hd, hb, if_pos rfl]
      rw [hskip, List.filter_cons_of_neg (by simpa using hP0)]
      exact ih (pn + 1) k (by omega) hk0

/-- C18.  The page walk of `fork` for a child `c` (positive and not the caller, as
`sys_exofork` gives it), with its jump over a page table whose directory entry is
not present, ends without running out of fuel and gives the same outcome and the
same kernel state, request log included, as the walk that tests every page index
from 0 to `PGNUM(UTOP)` one by one.  The pages its requests hand to the child, in
the order of the log, are the indices below `PGNUM(UTOP)` whose directory entry and
table entry are both present, in increasing order and each once: all of them when
the walk completes, and an initial part of them when a request fails. -/
theorem fork_walk_skip_refines (L : Layout) (hL : L.WF) (c : Int) (hc : 0 < c) (k : Kern)
    (hne : c.toNat ≠ k.cur) :
    forkWalk L c (PGNUM L L.UTOP + 1) 0 k = forkWalkEvery L c (PGNUM L L.UTOP) 0 k ∧
    (forkWalk L c (PGNUM L L.UTOP + 1) 0 k).1 ≠ some Outcome.nofuel ∧
    ∃ rest, (forkWalk L c (PGNUM L L.UTOP + 1) 0 k).2.log = k.log ++ rest ∧
      rest.filterMap (Req.pageFor L c) <+: (List.range (PGNUM L L.UTOP)).filter
        (fun pn => decide (uvpd k (pn / L.NPTENTRIES) &&& PTE_P ≠ 0 ∧
          uvpt L k pn &&& PTE_P ≠ 0)) ∧
      ((forkWalk L c (PGNUM L L.UTOP + 1) 0 k).1 = none →
        rest.filterMap (Req.pageFor L c) = (List.range (PGNUM L L.UTOP)).filter
          (fun pn => decide (uvpd k (pn / L.NPTENTRIES) &&& PTE_P ≠ 0 ∧
            uvpt L k pn &&& PTE_P ≠ 0))) := by
  have heq : forkWalk L c (PGNUM L L.UTOP + 1) 0 k =
      forkWalkEvery L c (PGNUM L L.UTOP) 0 k := by
    rw [forkWalk_eq]
    exact walkWith_every L hL c hc k.cur hne (PGNUM L L.UTOP + 1) 0 k (by omega)
      (Nat.zero_le _) rfl (Or.inl (Nat.zero_mod _))
  have hfilter : (List.range (PGNUM L L.UTOP)).filter
        (fun pn => decide (uvpd k (pn / L.NPTENTRIES) &&& PTE_P ≠ 0 ∧
          uvpt L k pn &&& PTE_P ≠ 0)) =
      (List.range' 0 (PGNUM L L.UTOP)).filter (fun q => decide (uvpt L k q &&& PTE_P ≠ 0)) := by
    rw [List.range_eq_range']
    apply List.filter_congr
    intro q _
    exact decide_eq_decide.mpr (present_iff L k q)
  refine ⟨heq, ?_, ?_⟩
  · rw [forkWalk_eq]
    exact (fork_walk L hL c hc k hne).2.2.1
  · rw [heq, hfilter]
    exact forkWalkEvery_trace L hL c hc k.cur hne (PGNUM L L.UTOP) 0 k (by omega) rfl

theorem fork_walk_skip_refines_witness :
    toyLayout.WF ∧ (0 : Int) < 2 ∧
    (2 : Int).toNat ≠ (sys_exofork toyKern).2.cur ∧
    forkWalk toyLayout 2 (PGNUM toyLayout toyLayout.UTOP + 1) 0
        (sys_exofork toyKern).2 =
      forkWalkEvery toyLayout 2 (PGNUM toyLayout toyLayout.UTOP) 0
        (sys_exofork toyKern).2 ∧
    (forkWalk toyLayout 2 (PGNUM toyLayout toyLayout.UTOP + 1) 0
      (sys_exofork toyKern).2).1 ≠ some Outcome.nofuel ∧
    ∃ rest, (forkWalk toyLayout 2 (PGNUM toyLayout toyLayout.UTOP + 1) 0
        (sys_exofork toyKern).2).2.log =
          (sys_exofork toyKern).2.log ++ rest ∧
      rest.filterMap (Req.pageFor toyLayout 2) <+:
        (List.range (PGNUM toyLayout toyLayout.UTOP)).filter
          (fun pn => decide (uvpd (sys_exofork toyKern).2
              (pn / toyLayout.NPTENTRIES) &&& PTE_P ≠ 0 ∧
            uvpt toyLayout (sys_exofork toyKern).2 pn &&& PTE_P ≠ 0)) ∧
      ((forkWalk toyLayout 2 (PGNUM toyLayout toyLayout.UTOP + 1) 0
          (sys_exofork toyKern).2).1 = none →
        rest.filterMap (Req.pageFor toyLayout 2) =
          (List.range (PGNUM toyLayout toyLayout.UTOP)).filter
            (fun pn => decide (uvpd (sys_exofork toyKern).2
                (pn / toyLayout.NPTENTRIES) &&& PTE_P ≠ 0 ∧
              uvpt toyLayout (sys_exofork toyKern).2 pn &&&
                PTE_P ≠ 0))) :=
  ⟨by decide, by decide, by decide,
    fork_walk_skip_refines toyLayout (by decide) 2 (by decide)
      (sys_exofork toyKern).2 (by decide)⟩

/-! ## `fork` and `sfork` on the stack -/

/-- A step of the walk of `fork` on the stack ends `fork` only in a panic. -/
theorem run_forkBody_fail (L : Layout) (envid : Int) (pn : Nat) (k : Kern) (o : Outcome)
    (h : (run_forkBody L envid pn k).1 = some o) : ∃ msg r, o = Outcome.panic msg r := by
  rw [run_forkBody_eq] at h
  by_cases h3 : uvpt L k pn &&& PTE_P = 0
  · rw [if_pos h3] at h; cases h
  · rw [if_neg h3] at h
    by_cases hn : (forkBody L envid pn k).1 = none
    · rw [if_pos hn] at h
      obtain ⟨-, -, t3, -, -⟩ := stack_touch_spec L (forkBody L envid pn k).2
      rcases t3 with h1 | ⟨msg, r, h1⟩
      · rw [h1] at h; cases h
      · rw [h1] at h; cases h; exact ⟨msg, r, rfl⟩
    · rw [if_neg hn] at h
      obtain ⟨msg, r, -, hp⟩ := forkBody_fail L envid pn k o h
      exact ⟨msg, r, hp⟩

/-- A step of the walk of `sfork` on the stack ends `sfork` in a panic or by
returning a negative error code. -/
theorem run_sforkBody_fail (L : Layout) (envid : Int) (pn : Nat) (k : Kern) (o : Outcome)
    (h : (run_sforkBody L envid pn k).1 = some o) :
    (∃ msg r, o = Outcome.panic msg r) ∨ ∃ r, r < 0 ∧ o = Outcome.ret r := by
  rw [run_sforkBody_eq] at h
  by_cases h3 : uvpt L k pn &&& PTE_P = 0
  · rw [if_pos h3] at h; cases h
  · rw [if_neg h3] at h
    by_cases hn : (sforkBody L envid pn k).1 = none
    · rw [if_pos hn] at h
      obtain ⟨-, -, t3, -, -⟩ := stack_touch_spec L (sforkBody L envid pn k).2
      rcases t3 with h1 | ⟨msg, r, h1⟩
      · rw [h1] at h; cases h
      · rw [h1] at h; cases h; exact Or.inl ⟨msg, r, rfl⟩
    · rw [if_neg hn] at h
      rcases sforkBody_fail L envid pn k o h with ⟨msg, r, -, hp⟩ | ⟨hp, hr, -⟩
      · exact Or.inl ⟨msg, r, hp⟩
      · exact Or.inr ⟨_, hr, hp⟩

theorem run_forkWalk_not_ret (L : Layout) (c : Int) (c1 : Int) (k1 : Kern) (o : Outcome)
    (h : (run_forkWalk L c1 (PGNUM L L.UTOP + 1) 0 k1).1 = some o) : o ≠ Outcome.ret c := by
  unfold run_forkWalk at h
  rcases walkWith_fail L _ _ _ _ o h with h1 | ⟨q, kq, h1⟩
  · rw [h1]; intro hh; cases hh
  · obtain ⟨msg, r, hp⟩ := run_forkBody_fail L c1 q kq o h1
    rw [hp]; intro hh; cases hh

theorem run_sforkWalk_not_ret (L : Layout) (c : Int) (hc : 0 < c) (c1 : Int) (k1 : Kern)
    (o : Outcome) (h : (run_sforkWalk L c1 (PGNUM L L.UTOP + 1) 0 k1).1 = some o) :
    o ≠ Outcome.ret c := by
  unfold run_sforkWalk at h
  rcases walkWith_fail L _ _ _ _ o h with h1 | ⟨q, kq, h1⟩
  · rw [h1]; intro hh; cases hh
  · rcases run_sforkBody_fail L c1 q kq o h1 with ⟨msg, r, hp⟩ | ⟨r, hr, hp⟩
    · rw [hp]; intro hh; cases hh
    · rw [hp]; intro hh; cases hh; omega

theorem sys_exofork_upcall (k : Kern) (id : Nat) (h : id ≠ (sys_exofork k).1.toNat) :
    (sys_exofork k).2.upcall id = k.upcall id := by
  have henvs := Kern.enter_envs k Req.exofork
  have hcur := Kern.enter_cur k Req.exofork
  unfold sys_exofork at h ⊢
  rcases hk : k.enter Req.exofork with ⟨o, k1⟩
  rw [hk] at henvs hcur h
  dsimp only at henvs hcur h
  cases o with
  | some e =>
    dsimp only
    exact Kern.upcall_congr _ _ henvs id
  | none =>
    dsimp only at h ⊢
    rw [Kern.upcall_setEnv, if_neg]
    · exact Kern.upcall_congr _ _ henvs id
    · simpa using h

theorem sys_env_set_status_upcall (envid : Int) (st : Nat) (k : Kern) (id : Nat) :
    (sys_env_set_status envid st k).2.upcall id = k.upcall id := by
  have henvs := Kern.enter_envs k (Req.env_set_status envid st)
  rcases sys_env_set_status_cases envid st k with ⟨e, he, h⟩ | ⟨did, de, hd, _, h⟩
  · rw [h]; exact Kern.upcall_congr _ _ henvs id
  · rw [h]
    have hds := (Kern.envid2env_some k envid did de hd).2.2
    exact (Kern.upcall_setEnv_same _ did de { de with status := st }
      (by rw [henvs]; exact hds) rfl id).trans (Kern.upcall_congr _ _ henvs id)

theorem forkFinish_unfold (envid : Int) (k : Kern) :
    forkFinish envid k =
      if (sys_env_set_pgfault_upcall envid k).1 < 0 then
        (Outcome.panic "sys_env_set_pgfault_upcall: %e" (sys_env_set_pgfault_upcall envid k).1,
          (sys_env_set_pgfault_upcall envid k).2)
      else if (sys_env_set_status envid ENV_RUNNABLE (sys_env_set_pgfault_upcall envid k).2).1 < 0
      then
        (Outcome.panic "sys_env_set_status: %e"
          (sys_env_set_status envid ENV_RUNNABLE (sys_env_set_pgfault_upcall envid k).2).1,
          (sys_env_set_status envid ENV_RUNNABLE (sys_env_set_pgfault_upcall envid k).2).2)
      else
        (Outcome.ret envid,
          (sys_env_set_status envid ENV_RUNNABLE (sys_env_set_pgfault_upcall envid k).2).2) := by
  simp only [forkFinish]

/-- The end of `fork` and `sfork` for a child keeps the registered upcall of every
other context. -/
theorem forkFinish_upcall (L : Layout) (envid : Int) (hpos : 0 < envid) (k : Kern) (id : Nat)
    (h : id ≠ envid.toNat) : (forkFinish envid k).2.upcall id = k.upcall id := by
  obtain ⟨-, -, -, -, -, u6, -⟩ := sys_env_set_pgfault_upcall_obs L envid k
  rw [if_neg (by omega)] at u6
  have hs := sys_env_set_status_upcall envid ENV_RUNNABLE (sys_env_set_pgfault_upcall envid k).2 id
  rw [forkFinish_unfold]
  split
  · exact u6 id h
  · split
    · exact hs.trans (u6 id h)
    · exact hs.trans (u6 id h)

/-- The state in which the walk starts when the handler is installed and the child
`c` created: the caller still runs on a writable stack with its upcall registered,
the child has nothing mapped, and the caller's mappings are as at the call but for
the exception-stack page when the handler was first installed. -/
theorem run_start (L : Layout) (hL : L.WF) (hS : L.WFS) (k : Kern) (hstk : k.stackWritable L)
    (h0 : (set_pgfault_handler L k).1 = none)
    (hc : 0 < (sys_exofork (set_pgfault_handler L k).2).1) :
    (sys_exofork (set_pgfault_handler L k).2).1.toNat ≠ k.cur ∧
    (sys_exofork (set_pgfault_handler L k).2).2.cur = k.cur ∧
    (sys_exofork (set_pgfault_handler L k).2).2.stackWritable L ∧
    (sys_exofork (set_pgfault_handler L k).2).2.upcall k.cur = true ∧
    (∀ q, (sys_exofork (set_pgfault_handler L k).2).2.mapping L
      (sys_exofork (set_pgfault_handler L k).2).1.toNat q = none) ∧
    (∀ q, q ≠ PGNUM L (L.UXSTACKTOP - L.PGSIZE) →
      (sys_exofork (set_pgfault_handler L k).2).2.mapping L k.cur q = k.mapping L k.cur q) ∧
    (k.upcall k.cur = true →
      (sys_exofork (set_pgfault_handler L k).2).2.mapping L k.cur
        (PGNUM L (L.UXSTACKTOP - L.PGSIZE)) =
          k.mapping L k.cur (PGNUM L (L.UXSTACKTOP - L.PGSIZE))) ∧
    (k.upcall k.cur = false →
      (sys_exofork (set_pgfault_handler L k).2).2.mapping L k.cur
        (PGNUM L (L.UXSTACKTOP - L.PGSIZE)) =
          some { frame := k.freshFrame, perm := PTE_U ||| PTE_W ||| PTE_P }) ∧
    (∃ rest, (sys_exofork (set_pgfault_handler L k).2).2.log = k.log ++ rest ++ [Req.exofork] ∧
      ∀ r ∈ rest, r = Req.page_alloc 0 (L.UXSTACKTOP - L.PGSIZE) (PTE_U ||| PTE_W ||| PTE_P) ∨
        r = Req.env_set_pgfault_upcall 0) := by
  obtain ⟨-, -, -, -, -, hsx, -, -⟩ := stack_pn L hL hS
  obtain ⟨s0, s1, s3, -, ⟨r0, hl0, hp0⟩, s6, -, -⟩ := set_pgfault_handler_obs L k
  obtain ⟨e1, -, e3, -, e5⟩ := sys_exofork_obs L (set_pgfault_handler L k).2
  rcases e5 with ⟨hneg, -, -⟩ | ⟨-, hne, -, -, hmap, -⟩
  · omega
  rw [s1] at hne e1
  have hpar : ∀ q, (sys_exofork (set_pgfault_handler L k).2).2.mapping L k.cur q =
      (set_pgfault_handler L k).2.mapping L k.cur q := by
    intro q
    rw [hmap, if_neg (fun hh => hne hh.symm)]
  refine ⟨hne, e1, ?_, ?_, ?_, ?_, ?_, ?_, ⟨r0, by rw [e3, hl0], hp0⟩⟩
  · unfold Kern.stackWritable uvpt at hstk ⊢
    rw [e1, hpar, s3 _ _ (fun hh => Nat.ne_of_lt hsx hh.2)]
    exact hstk
  · rw [sys_exofork_upcall _ _ (fun hh => hne hh.symm)]
    exact (s6 h0).1
  · intro q
    rw [hmap, if_pos rfl]
  · intro q hq
    rw [hpar, s3 _ _ (fun hh => hq hh.2)]
  · intro hu
    rw [hpar, s0 hu]
  · intro hu
    rw [hpar]
    exact ((s6 h0).2 hu).1

theorem Kern.get_of_upcall (k : Kern) (id : Nat) (h : k.upcall id = true) :
    ∃ e, Tbl.get k.envs id = some e ∧ e.pgfault_upcall = true := by
  unfold Kern.upcall at h
  cases hg : Tbl.get k.envs id with
  | none => rw [hg] at h; cases h
  | some e => rw [hg] at h; exact ⟨e, rfl, h⟩

/-- A call of the shape of `fork` on the stack that returns the child's identifier
`c`, for a walk whose steps keep what `run_forkBody_step` says: the handler was
installed and the child created; afterwards the caller and the child have their
upcall registered; the requests after the creation of the child are those of the
walk, the registration of the child's upcall and its activation; and every page
whose directory entry was present when the walk started has been dealt with by one
step of the walk, on a state in which it was still as at the start, and has not
changed since. -/
theorem run_generic (L : Layout) (hL : L.WF) (hS : L.WFS)
    (body : Int → Nat → Kern → Option Outcome × Kern)
    (hstep : ∀ envid : Int, 0 < envid → ∀ cur0 : Nat, envid.toNat ≠ cur0 → ∀ pn k,
      pn < PGNUM L L.UTOP → k.cur = cur0 → k.stackWritable L →
      ((body envid pn k).1 = none →
        RunRel L (L.UXSTACKTOP - L.PGSIZE) k (body envid pn k).2 ∧
        (body envid pn k).2.stackWritable L) ∧
      (body envid pn k).2.cur = k.cur ∧
      (∀ id q, q ≠ pn → ¬ (id = cur0 ∧ q = PGNUM L L.PFTEMP) →
        (body envid pn k).2.mapping L id q = k.mapping L id q) ∧
      (∀ id i, k.pde id i = true → (body envid pn k).2.pde id i = true) ∧
      (body envid pn k).1 ≠ some Outcome.nofuel)
    (k : Kern) (hstk : k.stackWritable L) (c : Int) (hc : 0 < c)
    (hfail : ∀ c1 k1 o, (walkWith L (body c1) (PGNUM L L.UTOP + 1) 0 k1).1 = some o →
      o ≠ Outcome.ret c)
    (h : (forkWith L (fun c k1 => walkWith L (body c) (PGNUM L L.UTOP + 1) 0 k1) k).1 =
      Outcome.ret c) :
    (set_pgfault_handler L k).1 = none ∧
    (sys_exofork (set_pgfault_handler L k).2).1 = c ∧
    c.toNat ≠ k.cur ∧
    (forkWith L (fun c k1 => walkWith L (body c) (PGNUM L L.UTOP + 1) 0 k1) k).2.cur = k.cur ∧
    (forkWith L (fun c k1 => walkWith L (body c) (PGNUM L L.UTOP + 1) 0 k1) k).2.upcall k.cur =
      true ∧
    (forkWith L (fun c k1 => walkWith L (body c) (PGNUM L L.UTOP + 1) 0 k1) k).2.upcall c.toNat =
      true ∧
    (∃ rest, (forkWith L (fun c k1 => walkWith L (body c) (PGNUM L L.UTOP + 1) 0 k1) k).2.log =
        (sys_exofork (set_pgfault_handler L k).2).2.log ++ rest ++
          [Req.env_set_pgfault_upcall c, Req.env_set_status c ENV_RUNNABLE] ∧
      ∀ r ∈ rest, Req.isMapOf (L.UXSTACKTOP - L.PGSIZE) r = false ∧
        ∀ s sva dva perm, r = Req.page_map s sva 0 dva perm →
          ∃ p, p < PGNUM L L.UTOP ∧ dva = p * L.PGSIZE ∧
            uvpt L (sys_exofork (set_pgfault_handler L k).2).2 p &&& (PTE_COW ||| PTE_W) ≠ 0) ∧
    (∀ q, q < PGNUM L L.UTOP →
      (sys_exofork (set_pgfault_handler L k).2).2.pde k.cur (q / L.NPTENTRIES) = true →
      ∃ kq, kq.cur = k.cur ∧ kq.stackWritable L ∧
        (∃ pre, kq.log = (sys_exofork (set_pgfault_handler L k).2).2.log ++ pre) ∧
        (∀ id p, q ≤ p → ¬ (id = k.cur ∧ p = PGNUM L L.PFTEMP) →
          kq.mapping L id p = (sys_exofork (set_pgfault_handler L k).2).2.mapping L id p) ∧
        (body c q kq).1 = none ∧
        (∃ post, (forkWith L (fun c k1 => walkWith L (body c) (PGNUM L L.UTOP + 1) 0 k1) k).2.log =
          (body c q kq).2.log ++ post) ∧
        ∀ id, ¬ (id = k.cur ∧ q = PGNUM L L.PFTEMP) →
          (forkWith L (fun c k1 => walkWith L (body c) (PGNUM L L.UTOP + 1) 0 k1) k).2.mapping L
            id q = (body c q kq).2.mapping L id q) := by
  obtain ⟨g0, g1, gw, gfin, gret⟩ := forkWith_ok L _ k c hc hfail h
  have hc' : 0 < (sys_exofork (set_pgfault_handler L k).2).1 := by rw [g1]; exact hc
  obtain ⟨r1, r2, r3, r4, -, -, -, -, -⟩ := run_start L hL hS k hstk g0 hc'
  rw [g1] at r1
  generalize hk1 : (sys_exofork (set_pgfault_handler L k).2).2 = k1 at gw gfin gret r2 r3 r4 ⊢
  have hne1 : c.toNat ≠ k1.cur := by rw [r2]; exact r1
  obtain ⟨w1, w2, -, -, -, w7⟩ :=
    walkWith_inv L hL (body c) k1.cur (PGNUM L L.PFTEMP)
      (RunRel L (L.UXSTACKTOP - L.PGSIZE)) (fun k2 => k2.stackWritable L)
      (runRel_refl L _) (runRel_trans L _)
      (fun pn k2 hpn hcur hI2 => hstep c hc k1.cur hne1 pn k2 hpn hcur hI2)
      (PGNUM L L.UTOP + 1) 0 k1 (by omega) rfl r3 (Or.inl (Nat.zero_mod _))
  obtain ⟨⟨⟨rest, hl, hp⟩, -, hup⟩, -⟩ := w1 gw
  obtain ⟨f1, -, f3, f4⟩ := forkFinish_obs L c
    (walkWith L (body c) (PGNUM L L.UTOP + 1) 0 k1).2
  have hflog : (forkFinish c (walkWith L (body c) (PGNUM L L.UTOP + 1) 0 k1).2).2.log =
      (walkWith L (body c) (PGNUM L L.UTOP + 1) 0 k1).2.log ++
        [Req.env_set_pgfault_upcall c, Req.env_set_status c ENV_RUNNABLE] := by
    rcases f4 with ⟨msg, r, -, hp2⟩ | ⟨-, hlf, -⟩
    · rw [hp2] at gret; cases gret
    · exact hlf
  have hcup : (forkFinish c (walkWith L (body c) (PGNUM L L.UTOP + 1) 0 k1).2).2.upcall c.toNat =
      true := by
    rcases f4 with ⟨msg, r, -, hp2⟩ | ⟨-, -, e, hg, hu, -⟩
    · rw [hp2] at gret; cases gret
    · rw [if_neg (by omega)] at hg
      rw [Kern.upcall_of_get _ _ e hg]; exact hu
  rw [gfin]
  refine ⟨g0, g1, r1, by rw [f1, w2, r2], ?_, hcup, ⟨rest, by rw [hflog, hl], hp⟩, ?_⟩
  · rw [forkFinish_upcall L c hc _ _ (fun hh => r1 hh.symm), hup]
    exact r4
  · intro q hq hpde
    rw [← r2] at hpde
    obtain ⟨kq, hR, hkc, hIq, hsame, hbn, hR2, hfinal⟩ := w7 gw q (Nat.zero_le _) hq hpde
    obtain ⟨⟨pre, hlpre, -⟩, -, -⟩ := hR
    obtain ⟨⟨post, hlpost, -⟩, -, -⟩ := hR2
    refine ⟨kq, hkc.trans r2, hIq, ⟨pre, hlpre⟩, ?_, hbn, ⟨post ++
      [Req.env_set_pgfault_upcall c, Req.env_set_status c ENV_RUNNABLE], ?_⟩, ?_⟩
    · intro id p hp2 hex
      exact hsame id p hp2 (by rw [r2]; exact hex)
    · rw [hflog, hlpost, List.append_assoc]
    · intro id hex
      rw [f3, hfinal id (by rw [r2]; exact hex)]

theorem stack_page_iff (L : Layout) (hL : L.WF) (hS : L.WFS) (pn : Nat) :
    pn * L.PGSIZE = L.USTACKTOP - L.PGSIZE ↔ pn = PGNUM L (L.USTACKTOP - L.PGSIZE) := by
  obtain ⟨-, hsva, -, -, -, -, -, -⟩ := stack_pn L hL hS
  constructor
  · intro h
    rw [← hsva] at h
    exact Nat.eq_of_mul_eq_mul_right hL.1 h
  · intro h
    rw [h]; exact hsva

theorem stackWritable_of_mapping (L : Layout) (k k1 : Kern) (hc : k1.cur = k.cur)
    (hm : k1.mapping L k.cur (PGNUM L (L.USTACKTOP - L.PGSIZE)) =
      k.mapping L k.cur (PGNUM L (L.USTACKTOP - L.PGSIZE)))
    (h : k.stackWritable L) : k1.stackWritable L := by
  unfold Kern.stackWritable uvpt at h ⊢
  rw [hc, hm]; exact h

/-- What a step of the walk of `fork` on the stack that does not end `fork` has done
with a present page `pn` other than the scratch page: the exception-stack page got a
fresh page in the child, by one allocation request, and the parent's mapping is as
before; any other page is mapped in the child with the permission `duppage`
computes; the parent's mapping got that permission too when it was writable or
copy-on-write, but for the stack page, which the parent maps writable on a fresh
physical page again. -/
theorem run_forkBody_page (L : Layout) (hL : L.WF) (hS : L.WFS) (envid : Int) (hpos : 0 < envid)
    (pn : Nat) (k : Kern) (hne : envid.toNat ≠ k.cur) (hpn : pn < PGNUM L L.UTOP)
    (hI : k.stackWritable L) (hnone : (run_forkBody L envid pn k).1 = none) (m : Mapping)
    (hm : k.mapping L k.cur pn = some m) (hP : m.perm &&& PTE_P ≠ 0)
    (ht : pn ≠ PGNUM L L.PFTEMP) :
    if pn * L.PGSIZE = L.UXSTACKTOP - L.PGSIZE then
      (run_forkBody L envid pn k).2.mapping L envid.toNat pn =
        some { frame := k.freshFrame, perm := PTE_U ||| PTE_W ||| PTE_P } ∧
      (run_forkBody L envid pn k).2.mapping L k.cur pn = some m ∧
      (run_forkBody L envid pn k).2.log = k.log ++
        [Req.page_alloc envid (L.UXSTACKTOP - L.PGSIZE) (PTE_U ||| PTE_W ||| PTE_P)]
    else
      (run_forkBody L envid pn k).2.mapping L envid.toNat pn =
        some { frame := m.frame, perm := dupperm m.perm } ∧
      if pn = PGNUM L (L.USTACKTOP - L.PGSIZE) then
        ∃ g, g ≠ m.frame ∧ (run_forkBody L envid pn k).2.mapping L k.cur pn =
          some { frame := g, perm := PTE_U ||| PTE_W ||| PTE_P }
      else
        (run_forkBody L envid pn k).2.mapping L k.cur pn =
          some { frame := m.frame,
                 perm := if m.perm &&& (PTE_COW ||| PTE_W) ≠ 0 then dupperm m.perm
                         else m.perm } := by
  obtain ⟨hva, -, -, -⟩ := va_of_pn L hL pn hpn
  obtain ⟨-, -, -, -, -, hsx, -, -⟩ := stack_pn L hL hS
  obtain ⟨-, hxva⟩ := xstack_pn L hL
  have h3 : ¬ (uvpt L k pn &&& PTE_P = 0) := by
    rw [uvpt_of_mapping L k pn m hm]; exact hP
  rw [run_forkBody_eq, if_neg h3] at hnone ⊢
  by_cases hn : (forkBody L envid pn k).1 = none
  · rw [if_pos hn] at hnone ⊢
    have hpage := forkBody_page L hL envid hpos pn k hne hpn hn m hm hP
    obtain ⟨-, f2, f3, -, -⟩ := forkBody_step L hL envid hpos k.cur hne pn k hpn rfl
    obtain ⟨ta, tb, tc, td⟩ := stack_touch_page L (forkBody L envid pn k).2 pn ht hnone
    rw [f2] at ta tb td
    by_cases hx : pn * L.PGSIZE = L.UXSTACKTOP - L.PGSIZE
    · rw [if_pos hx] at hpage ⊢
      have hps : pn ≠ PGNUM L (L.USTACKTOP - L.PGSIZE) := by
        intro hh
        have : pn = PGNUM L (L.UXSTACKTOP - L.PGSIZE) := by
          rw [← hxva] at hx
          exact Nat.eq_of_mul_eq_mul_right hL.1 hx
        omega
      have hw1 : (forkBody L envid pn k).2.stackWritable L :=
        stackWritable_of_mapping L k _ f2 (f3 _ _ (fun hh => hps hh.symm)) hI
      refine ⟨by rw [ta _ hne]; exact hpage.1, by rw [tb hps]; exact hpage.2, ?_⟩
      rw [tc hw1, forkBody_unfold, if_neg h3, if_pos (by rw [hva]; exact hx), hva, hx]
      obtain ⟨-, hlog, -⟩ := sys_page_alloc_obs L envid (L.UXSTACKTOP - L.PGSIZE)
        (PTE_U ||| PTE_W ||| PTE_P) k
      split <;> exact hlog
    · rw [if_neg hx] at hpage ⊢
      refine ⟨by rw [ta _ hne]; exact hpage.1, ?_⟩
      by_cases hps : pn = PGNUM L (L.USTACKTOP - L.PGSIZE)
      · rw [if_pos hps]
        have hW : m.perm &&& PTE_W ≠ 0 := by
          have := hI.2.2
          rw [← hps, uvpt_of_mapping L k pn m hm] at this
          exact this
        have hcw : m.perm &&& (PTE_COW ||| PTE_W) ≠ 0 := (cow_or_w _).mpr (Or.inl hW)
        have hpar := hpage.2
        rw [if_pos hcw] at hpar
        have hnw : ¬ (forkBody L envid pn k).2.stackWritable L := by
          intro hh
          have h2 := hh.2.2
          rw [← hps] at h2
          have hu : uvpt L (forkBody L envid pn k).2 pn = dupperm m.perm := by
            unfold uvpt; rw [f2, hpar]
          rw [hu] at h2
          exact h2 (dupperm_not_w _)
        refine ⟨(forkBody L envid pn k).2.freshFrame, ?_, td hnw hps⟩
        have := Kern.lt_freshFrame L _ _ _ _ hpage.1
        exact Nat.ne_of_gt this
      · rw [if_neg hps, tb hps]
        exact hpage.2
  · rw [if_neg hn] at hnone
    exact absurd hnone hn

/-- What a step of the walk of `sfork` on the stack that does not end `sfork` has
done with a present page `pn` other than the scratch page: the exception-stack page
got a fresh page in the child, by one allocation request; the top page of the normal
stack went through `duppage` and the parent then maps it writable on a fresh
physical page again; any other page is mapped in the child with the parent's
`PTE_SYSCALL` bits and the parent's mapping is as before. -/
theorem run_sforkBody_page (L : Layout) (hL : L.WF) (hS : L.WFS) (envid : Int)
    (hpos : 0 < envid) (pn : Nat) (k : Kern) (hne : envid.toNat ≠ k.cur)
    (hpn : pn < PGNUM L L.UTOP) (hI : k.stackWritable L)
    (hnone : (run_sforkBody L envid pn k).1 = none) (m : Mapping)
    (hm : k.mapping L k.cur pn = some m) (hP : m.perm &&& PTE_P ≠ 0)
    (ht : pn ≠ PGNUM L L.PFTEMP) :
    if pn * L.PGSIZE = L.UXSTACKTOP - L.PGSIZE then
      (run_sforkBody L envid pn k).2.mapping L envid.toNat pn =
        some { frame := k.freshFrame, perm := PTE_U ||| PTE_W ||| PTE_P } ∧
      (run_sforkBody L envid pn k).2.mapping L k.cur pn = some m ∧
      (run_sforkBody L envid pn k).2.log = k.log ++
        [Req.page_alloc envid (L.UXSTACKTOP - L.PGSIZE) (PTE_U ||| PTE_W ||| PTE_P)]
    else if pn = PGNUM L (L.USTACKTOP - L.PGSIZE) then
      (run_sforkBody L envid pn k).2.mapping L envid.toNat pn =
        some { frame := m.frame, perm := dupperm m.perm } ∧
      ∃ g, g ≠ m.frame ∧ (run_sforkBody L envid pn k).2.mapping L k.cur pn =
        some { frame := g, perm := PTE_U ||| PTE_W ||| PTE_P }
    else
      (run_sforkBody L envid pn k).2.mapping L envid.toNat pn =
        some { frame := m.frame, perm := m.perm &&& PTE_SYSCALL } ∧
      (run_sforkBody L envid pn k).2.mapping L k.cur pn = some m := by
  obtain ⟨hva, -, -, -⟩ := va_of_pn L hL pn hpn
  obtain ⟨-, -, -, -, -, hsx, -, -⟩ := stack_pn L hL hS
  obtain ⟨-, hxva⟩ := xstack_pn L hL
  have h3 : ¬ (uvpt L k pn &&& PTE_P = 0) := by
    rw [uvpt_of_mapping L k pn m hm]; exact hP
  rw [run_sforkBody_eq, if_neg h3] at hnone ⊢
  by_cases hn : (sforkBody L envid pn k).1 = none
  · rw [if_pos hn] at hnone ⊢
    have hpage := sforkBody_page L hL envid hpos pn k hne hpn hn m hm hP
    obtain ⟨-, f2, f3, -, -⟩ := sforkBody_step L hL envid hpos k.cur hne pn k hpn rfl
    obtain ⟨ta, tb, tc, td⟩ := stack_touch_page L (sforkBody L envid pn k).2 pn ht hnone
    rw [f2] at ta tb td
    by_cases hx : pn * L.PGSIZE = L.UXSTACKTOP - L.PGSIZE
    · rw [if_pos hx] at hpage ⊢
      have hps : pn ≠ PGNUM L (L.USTACKTOP - L.PGSIZE) := by
        intro hh
        have : pn = PGNUM L (L.UXSTACKTOP - L.PGSIZE) := by
          rw [← hxva] at hx
          exact Nat.eq_of_mul_eq_mul_right hL.1 hx
        omega
      have hw1 : (sforkBody L envid pn k).2.stackWritable L :=
        stackWritable_of_mapping L k _ f2 (f3 _ _ (fun hh => hps hh.symm)) hI
      refine ⟨by rw [ta _ hne]; exact hpage.1, by rw [tb hps]; exact hpage.2, ?_⟩
      rw [tc hw1, sforkBody_unfold, if_neg h3, if_pos (by rw [hva]; exact hx), hva, hx]
      obtain ⟨-, hlog, -⟩ := sys_page_alloc_obs L envid (L.UXSTACKTOP - L.PGSIZE)
        (PTE_U ||| PTE_W ||| PTE_P) k
      split <;> exact hlog
    · rw [if_neg hx] at hpage ⊢
      by_cases hps : pn = PGNUM L (L.USTACKTOP - L.PGSIZE)
      · rw [if_pos hps]
        rw [if_pos ((stack_page_iff L hL hS pn).mpr hps)] at hpage
        refine ⟨by rw [ta _ hne]; exact hpage.1, ?_⟩
        have hW : m.perm &&& PTE_W ≠ 0 := by
          have := hI.2.2
          rw [← hps, uvpt_of_mapping L k pn m hm] at this
          exact this
        have hcw : m.perm &&& (PTE_COW ||| PTE_W) ≠ 0 := (cow_or_w _).mpr (Or.inl hW)
        have hpar := hpage.2
        rw [if_pos hcw] at hpar
        have hnw : ¬ (sforkBody L envid pn k).2.stackWritable L := by
          intro hh
          have h2 := hh.2.2
          rw [← hps] at h2
          have hu : uvpt L (sforkBody L envid pn k).2 pn = dupperm m.perm := by
            unfold uvpt; rw [f2, hpar]
          rw [hu] at h2
          exact h2 (dupperm_not_w _)
        refine ⟨(sforkBody L envid pn k).2.freshFrame, ?_, td hnw hps⟩
        have := Kern.lt_freshFrame L _ _ _ _ hpage.1
        exact Nat.ne_of_gt this
      · rw [if_neg hps]
        rw [if_neg (fun hh => hps ((stack_page_iff L hL hS pn).mp hh))] at hpage
        exact ⟨by rw [ta _ hne]; exact hpage.1, by rw [tb hps]; exact hpage.2⟩
  · rw [if_neg hn] at hnone
    exact absurd hnone hn

theorem run_fork_eq2 (L : Layout) (k : Kern) :
    run_fork L k =
      forkWith L (fun c k1 => walkWith L (run_forkBody L c) (PGNUM L L.UTOP + 1) 0 k1) k :=
  run_fork_eq L k

theorem run_sfork_eq2 (L : Layout) (k : Kern) :
    run_sfork L k =
      forkWith L (fun c k1 => walkWith L (run_sforkBody L c) (PGNUM L L.UTOP + 1) 0 k1) k :=
  run_sfork_eq L k

/-- A `run_fork` that returns the child's identifier `c`, with what `run_generic`
gives. -/
theorem run_fork_spec (L : Layout) (hL : L.WF) (hS : L.WFS) (k : Kern)
    (hstk : k.stackWritable L) (c : Int) (hc : 0 < c)
    (h : (run_fork L k).1 = Outcome.ret c) :
    (set_pgfault_handler L k).1 = none ∧
    (sys_exofork (set_pgfault_handler L k).2).1 = c ∧
    c.toNat ≠ k.cur ∧
    (run_fork L k).2.cur = k.cur ∧
    (run_fork L k).2.upcall k.cur = true ∧
    (run_fork L k).2.upcall c.toNat = true ∧
    (∃ rest, (run_fork L k).2.log =
        (sys_exofork (set_pgfault_handler L k).2).2.log ++ rest ++
          [Req.env_set_pgfault_upcall c, Req.env_set_status c ENV_RUNNABLE] ∧
      ∀ r ∈ rest, Req.isMapOf (L.UXSTACKTOP - L.PGSIZE) r = false ∧
        ∀ s sva dva perm, r = Req.page_map s sva 0 dva perm →
          ∃ p, p < PGNUM L L.UTOP ∧ dva = p * L.PGSIZE ∧
            uvpt L (sys_exofork (set_pgfault_handler L k).2).2 p &&& (PTE_COW ||| PTE_W) ≠ 0) ∧
    (∀ q, q < PGNUM L L.UTOP →
      (sys_exofork (set_pgfault_handler L k).2).2.pde k.cur (q / L.NPTENTRIES) = true →
      ∃ kq, kq.cur = k.cur ∧ kq.stackWritable L ∧
        (∃ pre, kq.log = (sys_exofork (set_pgfault_handler L k).2).2.log ++ pre) ∧
        (∀ id p, q ≤ p → ¬ (id = k.cur ∧ p = PGNUM L L.PFTEMP) →
          kq.mapping L id p = (sys_exofork (set_pgfault_handler L k).2).2.mapping L id p) ∧
        (run_forkBody L c q kq).1 = none ∧
        (∃ post, (run_fork L k).2.log = (run_forkBody L c q kq).2.log ++ post) ∧
        ∀ id, ¬ (id = k.cur ∧ q = PGNUM L L.PFTEMP) →
          (run_fork L k).2.mapping L id q = (run_forkBody L c q kq).2.mapping L id q) := by
  rw [run_fork_eq2] at h ⊢
  exact run_generic L hL hS (run_forkBody L)
    (fun envid hpos cur0 hne pn k2 hpn hcur hI =>
      run_forkBody_step L hL hS envid hpos cur0 hne pn k2 hpn hcur hI)
    k hstk c hc (fun c1 k1 o ho => run_forkWalk_not_ret L c c1 k1 o ho) h

/-- A `run_sfork` that returns the child's identifier `c`, with what `run_generic`
gives. -/
theorem run_sfork_spec (L : Layout) (hL : L.WF) (hS : L.WFS) (k : Kern)
    (hstk : k.stackWritable L) (c : Int) (hc : 0 < c)
    (h : (run_sfork L k).1 = Outcome.ret c) :
    (set_pgfault_handler L k).1 = none ∧
    (sys_exofork (set_pgfault_handler L k).2).1 = c ∧
    c.toNat ≠ k.cur ∧
    (run_sfork L k).2.cur = k.cur ∧
    (run_sfork L k).2.upcall k.cur = true ∧
    (run_sfork L k).2.upcall c.toNat = true ∧
    (∃ rest, (run_sfork L k).2.log =
        (sys_exofork (set_pgfault_handler L k).2).2.log ++ rest ++
          [Req.env_set_pgfault_upcall c, Req.env_set_status c ENV_RUNNABLE] ∧
      ∀ r ∈ rest, Req.isMapOf (L.UXSTACKTOP - L.PGSIZE) r = false ∧
        ∀ s sva dva perm, r = Req.page_map s sva 0 dva perm →
          ∃ p, p < PGNUM L L.UTOP ∧ dva = p * L.PGSIZE ∧
            uvpt L (sys_exofork (set_pgfault_handler L k).2).2 p &&& (PTE_COW ||| PTE_W) ≠ 0) ∧
    (∀ q, q < PGNUM L L.UTOP →
      (sys_exofork (set_pgfault_handler L k).2).2.pde k.cur (q / L.NPTENTRIES) = true →
      ∃ kq, kq.cur = k.cur ∧ kq.stackWritable L ∧
        (∃ pre, kq.log = (sys_exofork (set_pgfault_handler L k).2).2.log ++ pre) ∧
        (∀ id p, q ≤ p → ¬ (id = k.cur ∧ p = PGNUM L L.PFTEMP) →
          kq.mapping L id p = (sys_exofork (set_pgfault_handler L k).2).2.mapping L id p) ∧
        (run_sforkBody L c q kq).1 = none ∧
        (∃ post, (run_sfork L k).2.log = (run_sforkBody L c q kq).2.log ++ post) ∧
        ∀ id, ¬ (id = k.cur ∧ q = PGNUM L L.PFTEMP) →
          (run_sfork L k).2.mapping L id q = (run_sforkBody L c q kq).2.mapping L id q) := by
  rw [run_sfork_eq2] at h ⊢
  exact run_generic L hL hS (run_sforkBody L)
    (fun envid hpos cur0 hne pn k2 hpn hcur hI =>
      run_sforkBody_step L hL hS envid hpos cur0 hne pn k2 hpn hcur hI)
    k hstk c hc (fun c1 k1 o ho => run_sforkWalk_not_ret L c hc c1 k1 o ho) h

/-- What a `run_fork` that returns the child's identifier `c` has done with a page
other than the scratch page that was present in the parent below `UTOP` when the
walk started. -/
theorem run_fork_page (L : Layout) (hL : L.WF) (hS : L.WFS) (k : Kern)
    (hstk : k.stackWritable L) (c : Int) (hc : 0 < c)
    (h : (run_fork L k).1 = Outcome.ret c) (q : Nat) (m : Mapping) (hq : q < PGNUM L L.UTOP)
    (ht : q ≠ PGNUM L L.PFTEMP)
    (hm : (sys_exofork (set_pgfault_handler L k).2).2.mapping L k.cur q = some m)
    (hP : m.perm &&& PTE_P ≠ 0) :
    if q * L.PGSIZE = L.UXSTACKTOP - L.PGSIZE then
      (∃ g, g ≠ m.frame ∧ (run_fork L k).2.mapping L c.toNat q =
        some { frame := g, perm := PTE_U ||| PTE_W ||| PTE_P }) ∧
      (run_fork L k).2.mapping L k.cur q = some m ∧
      ∃ pre post, (run_fork L k).2.log =
        (sys_exofork (set_pgfault_handler L k).2).2.log ++ pre ++
          [Req.page_alloc c (L.UXSTACKTOP - L.PGSIZE) (PTE_U ||| PTE_W ||| PTE_P)] ++ post
    else
      (run_fork L k).2.mapping L c.toNat q = some { frame := m.frame, perm := dupperm m.perm } ∧
      if q = PGNUM L (L.USTACKTOP - L.PGSIZE) then
        ∃ g, g ≠ m.frame ∧ (run_fork L k).2.mapping L k.cur q =
          some { frame := g, perm := PTE_U ||| PTE_W ||| PTE_P }
      else
        (run_fork L k).2.mapping L k.cur q =
          some { frame := m.frame,
                 perm := if m.perm &&& (PTE_COW ||| PTE_W) ≠ 0 then dupperm m.perm
                         else m.perm } := by
  obtain ⟨-, -, hne, -, -, -, -, g8⟩ := run_fork_spec L hL hS k hstk c hc h
  obtain ⟨kq, hkc, hIq, ⟨pre, hpre⟩, hsame, hbn, ⟨post, hpost⟩, hfinal⟩ :=
    g8 q hq (Kern.pde_of_mapping L _ k.cur q m hm)
  have hmq : kq.mapping L kq.cur q = some m := by
    rw [hkc, hsame k.cur q (Nat.le_refl _) (fun hh => ht hh.2)]; exact hm
  have hneq : c.toNat ≠ kq.cur := by rw [hkc]; exact hne
  have hpage := run_forkBody_page L hL hS c hc q kq hneq hq hIq hbn m hmq hP ht
  rw [hfinal c.toNat (fun hh => ht hh.2), hfinal k.cur (fun hh => ht hh.2)]
  rw [hkc] at hpage
  by_cases hx : q * L.PGSIZE = L.UXSTACKTOP - L.PGSIZE
  · rw [if_pos hx] at hpage ⊢
    refine ⟨⟨kq.freshFrame, ?_, hpage.1⟩, hpage.2.1, pre, post, ?_⟩
    · have := Kern.lt_freshFrame L kq _ _ m hmq
      exact Nat.ne_of_gt this
    · rw [hpost, hpage.2.2, hpre]
  · rw [if_neg hx] at hpage ⊢
    exact hpage

/-- What a `run_sfork` that returns the child's identifier `c` has done with a page
other than the scratch page that was present in the parent below `UTOP` when the
walk started. -/
theorem run_sfork_page (L : Layout) (hL : L.WF) (hS : L.WFS) (k : Kern)
    (hstk : k.stackWritable L) (c : Int) (hc : 0 < c)
    (h : (run_sfork L k).1 = Outcome.ret c) (q : Nat) (m : Mapping) (hq : q < PGNUM L L.UTOP)
    (ht : q ≠ PGNUM L L.PFTEMP)
    (hm : (sys_exofork (set_pgfault_handler L k).2).2.mapping L k.cur q = some m)
    (hP : m.perm &&& PTE_P ≠ 0) :
    if q * L.PGSIZE = L.UXSTACKTOP - L.PGSIZE then
      (∃ g, g ≠ m.frame ∧ (run_sfork L k).2.mapping L c.toNat q =
        some { frame := g, perm := PTE_U ||| PTE_W ||| PTE_P }) ∧
      (run_sfork L k).2.mapping L k.cur q = some m ∧
      ∃ pre post, (run_sfork L k).2.log =
        (sys_exofork (set_pgfault_handler L k).2).2.log ++ pre ++
          [Req.page_alloc c (L.UXSTACKTOP - L.PGSIZE) (PTE_U ||| PTE_W ||| PTE_P)] ++ post
    else if q = PGNUM L (L.USTACKTOP - L.PGSIZE) then
      (run_sfork L k).2.mapping L c.toNat q = some { frame := m.frame, perm := dupperm m.perm } ∧
      ∃ g, g ≠ m.frame ∧ (run_sfork L k).2.mapping L k.cur q =
        some { frame := g, perm := PTE_U ||| PTE_W ||| PTE_P }
    else
      (run_sfork L k).2.mapping L c.toNat q =
        some { frame := m.frame, perm := m.perm &&& PTE_SYSCALL } ∧
      (run_sfork L k).2.mapping L k.cur q = some m := by
  obtain ⟨-, -, hne, -, -, -, -, g8⟩ := run_sfork_spec L hL hS k hstk c hc h
  obtain ⟨kq, hkc, hIq, ⟨pre, hpre⟩, hsame, hbn, ⟨post, hpost⟩, hfinal⟩ :=
    g8 q hq (Kern.pde_of_mapping L _ k.cur q m hm)
  have hmq : kq.mapping L kq.cur q = some m := by
    rw [hkc, hsame k.cur q (Nat.le_refl _) (fun hh => ht hh.2)]; exact hm
  have hneq : c.toNat ≠ kq.cur := by rw [hkc]; exact hne
  have hpage := run_sforkBody_page L hL hS c hc q kq hneq hq hIq hbn m hmq hP ht
  rw [hfinal c.toNat (fun hh => ht hh.2), hfinal k.cur (fun hh => ht hh.2)]
  rw [hkc] at hpage
  by_cases hx : q * L.PGSIZE = L.UXSTACKTOP - L.PGSIZE
  · rw [if_pos hx] at hpage ⊢
    refine ⟨⟨kq.freshFrame, ?_, hpage.1⟩, hpage.2.1, pre, post, ?_⟩
    · have := Kern.lt_freshFrame L kq _ _ m hmq
      exact Nat.ne_of_gt this
    · rw [hpost, hpage.2.2, hpre]
  · rw [if_neg hx] at hpage ⊢
    exact hpage

/-! ## The exception stack during the walk -/

/-- A step of a walk on the stack that deals with the stack page itself without
ending the call: the duplication has left the stack page without the writable
permission, the next write to the stack has faulted, and the fault was delivered on
a writable exception stack. -/
theorem run_body_xstack (L : Layout) (hL : L.WF) (hS : L.WFS)
    (body rbody : Nat → Kern → Option Outcome × Kern) (k : Kern)
    (heq : rbody (PGNUM L (L.USTACKTOP - L.PGSIZE)) k =
      if uvpt L k (PGNUM L (L.USTACKTOP - L.PGSIZE)) &&& PTE_P = 0 then (none, k)
      else if (body (PGNUM L (L.USTACKTOP - L.PGSIZE)) k).1 = none then
        stack_touch L (body (PGNUM L (L.USTACKTOP - L.PGSIZE)) k).2
      else body (PGNUM L (L.USTACKTOP - L.PGSIZE)) k)
    (hcur : (body (PGNUM L (L.USTACKTOP - L.PGSIZE)) k).2.cur = k.cur)
    (hmap : ∀ id q, q ≠ PGNUM L (L.USTACKTOP - L.PGSIZE) →
      (body (PGNUM L (L.USTACKTOP - L.PGSIZE)) k).2.mapping L id q = k.mapping L id q)
    (hnw : (body (PGNUM L (L.USTACKTOP - L.PGSIZE)) k).1 = none →
      ¬ (body (PGNUM L (L.USTACKTOP - L.PGSIZE)) k).2.stackWritable L)
    (hI : k.stackWritable L)
    (hnone : (rbody (PGNUM L (L.USTACKTOP - L.PGSIZE)) k).1 = none) :
    k.xstackWritable L := by
  obtain ⟨-, -, -, -, -, hsx, -, -⟩ := stack_pn L hL hS
  have h3 : ¬ (uvpt L k (PGNUM L (L.USTACKTOP - L.PGSIZE)) &&& PTE_P = 0) := hI.1
  rw [heq, if_neg h3] at hnone
  by_cases hn : (body (PGNUM L (L.USTACKTOP - L.PGSIZE)) k).1 = none
  · rw [if_pos hn] at hnone
    have hx := (stack_touch_spec L (body (PGNUM L (L.USTACKTOP - L.PGSIZE)) k).2).2.2.2.2
      hnone (hnw hn)
    unfold Kern.xstackWritable uvpt at hx ⊢
    rw [hcur, hmap _ _ (Nat.ne_of_gt hsx)] at hx
    exact hx
  · rw [if_neg hn] at hnone
    exact absurd hnone hn

theorem stack_mapping (L : Layout) (k : Kern) (hI : k.stackWritable L) :
    ∃ m, k.mapping L k.cur (PGNUM L (L.USTACKTOP - L.PGSIZE)) = some m ∧
      m.perm &&& PTE_P ≠ 0 ∧ m.perm &&& (PTE_COW ||| PTE_W) ≠ 0 := by
  have h0 : uvpt L k (PGNUM L (L.USTACKTOP - L.PGSIZE)) ≠ 0 := by
    intro hh
    have := hI.1
    rw [hh] at this
    exact this (Nat.zero_and _)
  obtain ⟨m, hm, hp⟩ := mapping_of_uvpt L k _ h0
  refine ⟨m, hm, ?_, ?_⟩
  · rw [hp]; exact hI.1
  · rw [hp]; exact (cow_or_w _).mpr (Or.inl hI.2.2)

theorem run_forkBody_xstack (L : Layout) (hL : L.WF) (hS : L.WFS) (envid : Int)
    (hpos : 0 < envid) (k : Kern) (hne : envid.toNat ≠ k.cur) (hI : k.stackWritable L)
    (hnone : (run_forkBody L envid (PGNUM L (L.USTACKTOP - L.PGSIZE)) k).1 = none) :
    k.xstackWritable L := by
  obtain ⟨hpn, hsva, -, -, -, -, -, hsne⟩ := stack_pn L hL hS
  obtain ⟨m, hm, hP, hcw⟩ := stack_mapping L k hI
  obtain ⟨-, f2, f3, -, -⟩ := forkBody_step L hL envid hpos k.cur hne _ k hpn rfl
  refine run_body_xstack L hL hS (forkBody L envid) (run_forkBody L envid) k
    (run_forkBody_eq L envid _ k) f2 f3 ?_ hI hnone
  intro hn hh
  have hpage := forkBody_page L hL envid hpos _ k hne hpn hn m hm hP
  rw [if_neg (by rw [hsva]; exact hsne), if_pos hcw] at hpage
  have h2 := hh.2.2
  have hu : uvpt L (forkBody L envid (PGNUM L (L.USTACKTOP - L.PGSIZE)) k).2
      (PGNUM L (L.USTACKTOP - L.PGSIZE)) = dupperm m.perm := by
    unfold uvpt; rw [f2, hpage.2]
  rw [hu] at h2
  exact h2 (dupperm_not_w _)

theorem run_sforkBody_xstack (L : Layout) (hL : L.WF) (hS : L.WFS) (envid : Int)
    (hpos : 0 < envid) (k : Kern) (hne : envid.toNat ≠ k.cur) (hI : k.stackWritable L)
    (hnone : (run_sforkBody L envid (PGNUM L (L.USTACKTOP - L.PGSIZE)) k).1 = none) :
    k.xstackWritable L := by
  obtain ⟨hpn, hsva, -, -, -, -, -, hsne⟩ := stack_pn L hL hS
  obtain ⟨m, hm, hP, hcw⟩ := stack_mapping L k hI
  obtain ⟨-, f2, f3, -, -⟩ := sforkBody_step L hL envid hpos k.cur hne _ k hpn rfl
  refine run_body_xstack L hL hS (sforkBody L envid) (run_sforkBody L envid) k
    (run_sforkBody_eq L envid _ k) f2 f3 ?_ hI hnone
  intro hn hh
  have hpage := sforkBody_page L hL envid hpos _ k hne hpn hn m hm hP
  rw [if_neg (by rw [hsva]; exact hsne), if_pos hsva, if_pos hcw] at hpage
  have h2 := hh.2.2
  have hu : uvpt L (sforkBody L envid (PGNUM L (L.USTACKTOP - L.PGSIZE)) k).2
      (PGNUM L (L.USTACKTOP - L.PGSIZE)) = dupperm m.perm := by
    unfold uvpt; rw [f2, hpage.2]
  rw [hu] at h2
  exact h2 (dupperm_not_w _)

/-- A `run_fork` that returned the child's identifier has had a fault delivered for
the parent's stack page: the parent entered the walk with a writable exception
stack, and after the call the parent and the child each have one. -/
theorem run_fork_xstack (L : Layout) (hL : L.WF) (hS : L.WFS) (k : Kern)
    (hstk : k.stackWritable L) (c : Int) (hc : 0 < c)
    (h : (run_fork L k).1 = Outcome.ret c) :
    (sys_exofork (set_pgfault_handler L k).2).2.xstackWritable L ∧
    (run_fork L k).2.xstackWritable L ∧
    ((run_fork L k).2.run c.toNat).xstackWritable L := by
  obtain ⟨hpn, -, -, -, hts, hsx, -, -⟩ := stack_pn L hL hS
  obtain ⟨hxlt, hxva⟩ := xstack_pn L hL
  obtain ⟨g0, g1, hne, hcur2, -, -, -, g8⟩ := run_fork_spec L hL hS k hstk c hc h
  obtain ⟨-, r2, r3, -⟩ := run_start L hL hS k hstk g0 (by rw [g1]; exact hc)
  obtain ⟨m, hm, -, -⟩ := stack_mapping L _ r3
  rw [r2] at hm
  obtain ⟨kq, hkc, hIq, -, hsame, hbn, -⟩ :=
    g8 _ hpn (Kern.pde_of_mapping L _ k.cur _ m hm)
  have hx := run_forkBody_xstack L hL hS c hc kq (by rw [hkc]; exact hne) hIq hbn
  have hx1 : (sys_exofork (set_pgfault_handler L k).2).2.xstackWritable L := by
    unfold Kern.xstackWritable uvpt at hx ⊢
    rw [hkc, hsame k.cur _ (Nat.le_of_lt hsx) (fun hh => by omega)] at hx
    rw [r2]
    exact hx
  have hne0 : uvpt L (sys_exofork (set_pgfault_handler L k).2).2
      (PGNUM L (L.UXSTACKTOP - L.PGSIZE)) ≠ 0 := by
    intro hh
    have := hx1.1
    rw [hh] at this
    exact this (Nat.zero_and _)
  obtain ⟨mx, hmx, hpx⟩ := mapping_of_uvpt L _ _ hne0
  rw [r2] at hmx
  have hp := run_fork_page L hL hS k hstk c hc h _ mx hxlt (by omega) hmx
    (by rw [hpx]; exact hx1.1)
  rw [if_pos hxva] at hp
  obtain ⟨⟨g, -, hchild⟩, hpar, -⟩ := hp
  refine ⟨hx1, ?_, ?_⟩
  · unfold Kern.xstackWritable uvpt at hx1 ⊢
    rw [r2, hmx] at hx1
    rw [hcur2, hpar]
    exact hx1
  · unfold Kern.xstackWritable uvpt
    have hcc : ((run_fork L k).2.run c.toNat).cur = c.toNat := rfl
    have hmm : ((run_fork L k).2.run c.toNat).mapping L c.toNat
        (PGNUM L (L.UXSTACKTOP - L.PGSIZE)) =
          some { frame := g, perm := PTE_U ||| PTE_W ||| PTE_P } := hchild
    rw [hcc, hmm]
    exact (show (PTE_U ||| PTE_W ||| PTE_P) &&& PTE_P ≠ 0 ∧
      (PTE_U ||| PTE_W ||| PTE_P) &&& PTE_U ≠ 0 ∧
      (PTE_U ||| PTE_W ||| PTE_P) &&& PTE_W ≠ 0 by decide)

/-- A `run_sfork` that returned the child's identifier has had a fault delivered
for the parent's stack page: the parent entered the walk with a writable exception
stack, and after the call the parent and the child each have one. -/
theorem run_sfork_xstack (L : Layout) (hL : L.WF) (hS : L.WFS) (k : Kern)
    (hstk : k.stackWritable L) (c : Int) (hc : 0 < c)
    (h : (run_sfork L k).1 = Outcome.ret c) :
    (sys_exofork (set_pgfault_handler L k).2).2.xstackWritable L ∧
    (run_sfork L k).2.xstackWritable L ∧
    ((run_sfork L k).2.run c.toNat).xstackWritable L := by
  obtain ⟨hpn, -, -, -, hts, hsx, -, -⟩ := stack_pn L hL hS
  obtain ⟨hxlt, hxva⟩ := xstack_pn L hL
  obtain ⟨g0, g1, hne, hcur2, -, -, -, g8⟩ := run_sfork_spec L hL hS k hstk c hc h
  obtain ⟨-, r2, r3, -⟩ := run_start L hL hS k hstk g0 (by rw [g1]; exact hc)
  obtain ⟨m, hm, -, -⟩ := stack_mapping L _ r3
  rw [r2] at hm
  obtain ⟨kq, hkc, hIq, -, hsame, hbn, -⟩ :=
    g8 _ hpn (Kern.pde_of_mapping L _ k.cur _ m hm)
  have hx := run_sforkBody_xstack L hL hS c hc kq (by rw [hkc]; exact hne) hIq hbn
  have hx1 : (sys_exofork (set_pgfault_handler L k).2).2.xstackWritable L := by
    unfold Kern.xstackWritable uvpt at hx ⊢
    rw [hkc, hsame k.cur _ (Nat.le_of_lt hsx) (fun hh => by omega)] at hx
    rw [r2]
    exact hx
  have hne0 : uvpt L (sys_exofork (set_pgfault_handler L k).2).2
      (PGNUM L (L.UXSTACKTOP - L.PGSIZE)) ≠ 0 := by
    intro hh
    have := hx1.1
    rw [hh] at this
    exact this (Nat.zero_and _)
  obtain ⟨mx, hmx, hpx⟩ := mapping_of_uvpt L _ _ hne0
  rw [r2] at hmx
  have hp := run_sfork_page L hL hS k hstk c hc h _ mx hxlt (by omega) hmx
    (by rw [hpx]; exact hx1.1)
  rw [if_pos hxva] at hp
  obtain ⟨⟨g, -, hchild⟩, hpar, -⟩ := hp
  refine ⟨hx1, ?_, ?_⟩
  · unfold Kern.xstackWritable uvpt at hx1 ⊢
    rw [r2, hmx] at hx1
    rw [hcur2, hpar]
    exact hx1
  · unfold Kern.xstackWritable uvpt
    have hcc : ((run_sfork L k).2.run c.toNat).cur = c.toNat := rfl
    have hmm : ((run_sfork L k).2.run c.toNat).mapping L c.toNat
        (PGNUM L (L.UXSTACKTOP - L.PGSIZE)) =
          some { frame := g, perm := PTE_U ||| PTE_W ||| PTE_P } := hchild
    rw [hcc, hmm]
    exact (show (PTE_U ||| PTE_W ||| PTE_P) &&& PTE_P ≠ 0 ∧
      (PTE_U ||| PTE_W ||| PTE_P) &&& PTE_U ≠ 0 ∧
      (PTE_U ||| PTE_W ||| PTE_P) &&& PTE_W ≠ 0 by decide)

theorem xstack_page_ne (L : Layout) (hL : L.WF) (pn : Nat)
    (hx : pn * L.PGSIZE ≠ L.UXSTACKTOP - L.PGSIZE) :
    pn ≠ PGNUM L (L.UXSTACKTOP - L.PGSIZE) := by
  intro h
  rw [h] at hx
  exact hx (xstack_pn L hL).2

/-- The mapping of a page other than the exception-stack page with which the walk of
a call that returns the child's identifier starts is the one the caller had at the
call. -/
theorem run_entry_page (L : Layout) (hL : L.WF) (hS : L.WFS) (k : Kern)
    (hstk : k.stackWritable L) (c : Int) (hc : 0 < c)
    (h0 : (set_pgfault_handler L k).1 = none)
    (h1 : (sys_exofork (set_pgfault_handler L k).2).1 = c) (pn : Nat)
    (hx : pn * L.PGSIZE ≠ L.UXSTACKTOP - L.PGSIZE) :
    (sys_exofork (set_pgfault_handler L k).2).2.mapping L k.cur pn = k.mapping L k.cur pn := by
  obtain ⟨-, -, -, -, -, r6, -⟩ := run_start L hL hS k hstk h0 (by rw [h1]; exact hc)
  exact r6 pn (xstack_page_ne L hL pn hx)

/-! ## `fork` on the stack: what the parent and the child map -/

/-- C1, amended.  `fork` is called by code that runs on a writable stack page.  For
every page below `UTOP`, other than the exception-stack page and the scratch page of
`PFTEMP`, that is present and writable in the parent at the call: after `fork` has
returned the child's identifier, the child's mapping of the page carries
copy-on-write, does not carry writable, and refers to the physical page the parent
mapped before the call; so does the parent's mapping, unless the page is the top
page of the parent's stack: that page the parent maps with permission exactly
present, user-accessible and writable on another physical page, the private copy
that `pgfault` made when the parent next wrote to its stack. -/
theorem run_fork_shares_copy_on_write (L : Layout) (hL : L.WF) (hS : L.WFS) (k : Kern)
    (hstk : k.stackWritable L) (c : Int) (hc : 0 < c)
    (h : (run_fork L k).1 = Outcome.ret c) (pn : Nat) (m : Mapping)
    (hpn : pn < PGNUM L L.UTOP) (hx : pn * L.PGSIZE ≠ L.UXSTACKTOP - L.PGSIZE)
    (ht : pn ≠ PGNUM L L.PFTEMP)
    (hm : k.mapping L k.cur pn = some m) (hP : m.perm &&& PTE_P ≠ 0)
    (hW : m.perm &&& PTE_W ≠ 0) :
    (∃ mc, (run_fork L k).2.mapping L c.toNat pn = some mc ∧
      mc.perm &&& PTE_COW ≠ 0 ∧ mc.perm &&& PTE_W = 0 ∧ mc.frame = m.frame) ∧
    (pn ≠ PGNUM L (L.USTACKTOP - L.PGSIZE) →
      ∃ mp, (run_fork L k).2.mapping L k.cur pn = some mp ∧
        mp.perm &&& PTE_COW ≠ 0 ∧ mp.perm &&& PTE_W = 0 ∧ mp.frame = m.frame) ∧
    (pn = PGNUM L (L.USTACKTOP - L.PGSIZE) →
      ∃ mp, (run_fork L k).2.mapping L k.cur pn = some mp ∧
        mp.perm = PTE_U ||| PTE_W ||| PTE_P ∧ mp.frame ≠ m.frame) := by
  obtain ⟨g0, g1, -⟩ := run_fork_spec L hL hS k hstk c hc h
  have hm1 := run_entry_page L hL hS k hstk c hc g0 g1 pn hx
  rw [hm] at hm1
  have hp := run_fork_page L hL hS k hstk c hc h pn m hpn ht hm1 hP
  rw [if_neg hx] at hp
  have hcw : m.perm &&& (PTE_COW ||| PTE_W) ≠ 0 := (cow_or_w _).mpr (Or.inl hW)
  have hd : dupperm m.perm = PTE_U ||| PTE_P ||| PTE_COW := by
    unfold dupperm; rw [if_pos hcw]
  have hdc : dupperm m.perm &&& PTE_COW ≠ 0 := by rw [hd]; decide
  refine ⟨⟨_, hp.1, hdc, dupperm_not_w _, rfl⟩, ?_, ?_⟩
  · intro hs
    have h2 := hp.2
    rw [if_neg hs, if_pos hcw] at h2
    exact ⟨_, h2, hdc, dupperm_not_w _, rfl⟩
  · intro hs
    have h2 := hp.2
    rw [if_pos hs] at h2
    obtain ⟨g, hg, hmap⟩ := h2
    exact ⟨_, hmap, rfl, hg⟩

theorem run_fork_shares_copy_on_write_witness :
    toyLayout.WF ∧ toyLayout.WFS ∧ toyKern.stackWritable toyLayout ∧
    (run_fork toyLayout toyKern).1 = Outcome.ret 2 ∧
    toyKern.mapping toyLayout toyKern.cur 2 =
      some { frame := 11, perm := PTE_P ||| PTE_U ||| PTE_W } ∧
    (∃ mc, (run_fork toyLayout toyKern).2.mapping toyLayout (2 : Int).toNat 2 = some mc ∧
      mc.perm &&& PTE_COW ≠ 0 ∧ mc.perm &&& PTE_W = 0 ∧ mc.frame = 11) ∧
    (∃ mp, (run_fork toyLayout toyKern).2.mapping toyLayout toyKern.cur 2 = some mp ∧
      mp.perm &&& PTE_COW ≠ 0 ∧ mp.perm &&& PTE_W = 0 ∧ mp.frame = 11) :=
  ⟨by decide, by decide, by decide, by decide, by decide,
    (run_fork_shares_copy_on_write toyLayout (by decide) (by decide) toyKern (by decide) 2
      (by decide) (by decide) 2 { frame := 11, perm := PTE_P ||| PTE_U ||| PTE_W } (by decide)
      (by decide) (by decide) (by decide) (by decide) (by decide)).1,
    (run_fork_shares_copy_on_write toyLayout (by decide) (by decide) toyKern (by decide) 2
      (by decide) (by decide) 2 { frame := 11, perm := PTE_P ||| PTE_U ||| PTE_W } (by decide)
      (by decide) (by decide) (by decide) (by decide) (by decide)).2.1 (by decide)⟩

/-- C1 as stated fails at two pages.  The toy parent runs on its stack page 3
(writable, physical page 12) and maps the scratch page 1 of `PFTEMP` writable
(physical page 14); neither is the exception-stack page.  `fork` returns the child's
identifier 2.  Afterwards the parent maps its stack page writable, without
copy-on-write, on the other physical page 15, and does not map the scratch page at
all; the child maps both copy-on-write on the pages the parent had. -/
theorem run_fork_shares_copy_on_write_counterexample :
    toyKernScratch.stackWritable toyLayout ∧
    (run_fork toyLayout toyKernScratch).1 = Outcome.ret 2 ∧
    PGNUM toyLayout (toyLayout.USTACKTOP - toyLayout.PGSIZE) = 3 ∧
    PGNUM toyLayout toyLayout.PFTEMP = 1 ∧
    PGNUM toyLayout (toyLayout.UXSTACKTOP - toyLayout.PGSIZE) = 5 ∧
    toyKernScratch.mapping toyLayout 1 3 =
      some { frame := 12, perm := PTE_P ||| PTE_U ||| PTE_W } ∧
    (run_fork toyLayout toyKernScratch).2.mapping toyLayout 1 3 =
      some { frame := 15, perm := PTE_U ||| PTE_W ||| PTE_P } ∧
    (run_fork toyLayout toyKernScratch).2.mapping toyLayout 2 3 =
      some { frame := 12, perm := PTE_U ||| PTE_P ||| PTE_COW } ∧
    toyKernScratch.mapping toyLayout 1 1 =
      some { frame := 14, perm := PTE_P ||| PTE_U ||| PTE_W } ∧
    (run_fork toyLayout toyKernScratch).2.mapping toyLayout 1 1 = none ∧
    (run_fork toyLayout toyKernScratch).2.mapping toyLayout 2 1 =
      some { frame := 14, perm := PTE_U ||| PTE_P ||| PTE_COW } := by
  decide

/-- C5, amended.  `fork` is called by code that runs on a writable stack page.  For
every page below `UTOP`, other than the exception-stack page and the scratch page of
`PFTEMP`, that is present in the parent and neither writable nor copy-on-write at the
call: after `fork` has returned the child's identifier the child maps the same
physical page with permission exactly present and user-accessible (the parent's
permission when the parent's mapping carries exactly these two bits), the parent's
mapping is unchanged, and no request to re-map the parent's page was made. -/
theorem run_fork_read_only_page (L : Layout) (hL : L.WF) (hS : L.WFS) (k : Kern)
    (hstk : k.stackWritable L) (c : Int) (hc : 0 < c)
    (h : (run_fork L k).1 = Outcome.ret c) (pn : Nat) (m : Mapping)
    (hpn : pn < PGNUM L L.UTOP) (hx : pn * L.PGSIZE ≠ L.UXSTACKTOP - L.PGSIZE)
    (ht : pn ≠ PGNUM L L.PFTEMP)
    (hm : k.mapping L k.cur pn = some m) (hP : m.perm &&& PTE_P ≠ 0)
    (hW : m.perm &&& PTE_W = 0) (hC : m.perm &&& PTE_COW = 0) :
    (run_fork L k).2.mapping L c.toNat pn = some { frame := m.frame, perm := PTE_P ||| PTE_U } ∧
    (m.perm = PTE_P ||| PTE_U → (run_fork L k).2.mapping L c.toNat pn = some m) ∧
    (run_fork L k).2.mapping L k.cur pn = some m ∧
    ∃ rest, (run_fork L k).2.log = k.log ++ rest ∧
      ∀ r ∈ rest, ∀ s sva perm, r ≠ Req.page_map s sva 0 (pn * L.PGSIZE) perm := by
  obtain ⟨g0, g1, -, -, -, -, ⟨rest, hl, hr⟩, -⟩ := run_fork_spec L hL hS k hstk c hc h
  obtain ⟨-, r2, -, -, -, -, -, -, ⟨r0, hl0, hp0⟩⟩ :=
    run_start L hL hS k hstk g0 (by rw [g1]; exact hc)
  have hm1 := run_entry_page L hL hS k hstk c hc g0 g1 pn hx
  rw [hm] at hm1
  have hp := run_fork_page L hL hS k hstk c hc h pn m hpn ht hm1 hP
  rw [if_neg hx] at hp
  have hcw : ¬ (m.perm &&& (PTE_COW ||| PTE_W) ≠ 0) := by
    rw [cow_or_w]; rintro (h1 | h1)
    · exact h1 hW
    · exact h1 hC
  have hps : pn ≠ PGNUM L (L.USTACKTOP - L.PGSIZE) := by
    intro hh
    have := hstk.2.2
    rw [← hh, uvpt_of_mapping L k pn m hm] at this
    exact this hW
  have hd : dupperm m.perm = PTE_P ||| PTE_U := by
    unfold dupperm; rw [if_neg hcw]; rfl
  obtain ⟨hchild, hpar⟩ := hp
  rw [if_neg hps, if_neg hcw] at hpar
  rw [hd] at hchild
  refine ⟨hchild, ?_, hpar, ?_⟩
  · intro he
    rw [hchild, ← he]
  · refine ⟨r0 ++ [Req.exofork] ++ rest ++
      [Req.env_set_pgfault_upcall c, Req.env_set_status c ENV_RUNNABLE], ?_, ?_⟩
    · rw [hl, hl0]; simp
    · intro r hmem s sva perm hreq
      simp only [List.mem_append, List.mem_singleton, List.mem_cons, List.not_mem_nil,
        or_false] at hmem
      rcases hmem with ((hmem | hmem) | hmem) | hmem | hmem
      · rcases hp0 r hmem with h1 | h1 <;> rw [h1] at hreq <;> cases hreq
      · rw [hmem] at hreq; cases hreq
      · obtain ⟨p, hpp, hd2, hu⟩ := (hr r hmem).2 s sva (pn * L.PGSIZE) perm hreq
        have hP0 : 0 < L.PGSIZE := hL.1
        have hpe : p = pn := (Nat.eq_of_mul_eq_mul_right hP0 hd2).symm
        subst hpe
        have hu1 : uvpt L (sys_exofork (set_pgfault_handler L k).2).2 p = m.perm := by
          unfold uvpt; rw [r2, hm1]
        rw [hu1] at hu
        exact hcw hu
      · rw [hmem] at hreq; cases hreq
      · rw [hmem] at hreq; cases hreq

theorem run_fork_read_only_page_witness :
    toyLayout.WF ∧ toyLayout.WFS ∧ toyKern.stackWritable toyLayout ∧
    (run_fork toyLayout toyKern).1 = Outcome.ret 2 ∧
    toyKern.mapping toyLayout toyKern.cur 0 = some { frame := 10, perm := PTE_P ||| PTE_U } ∧
    (run_fork toyLayout toyKern).2.mapping toyLayout (2 : Int).toNat 0 =
      some { frame := 10, perm := PTE_P ||| PTE_U } ∧
    (run_fork toyLayout toyKern).2.mapping toyLayout toyKern.cur 0 =
      some { frame := 10, perm := PTE_P ||| PTE_U } :=
  ⟨by decide, by decide, by decide, by decide, by decide,
    (run_fork_read_only_page toyLayout (by decide) (by decide) toyKern (by decide) 2 (by decide)
      (by decide) 0 { frame := 10, perm := PTE_P ||| PTE_U } (by decide) (by decide) (by decide)
      (by decide) (by decide) (by decide) (by decide)).1,
    (run_fork_read_only_page toyLayout (by decide) (by decide) toyKern (by decide) 2 (by decide)
      (by decide) 0 { frame := 10, perm := PTE_P ||| PTE_U } (by decide) (by decide) (by decide)
      (by decide) (by decide) (by decide) (by decide)).2.2.1⟩

/-- C5 as stated fails at two pages.  A read-only page that carries one of the bits
left to software (page 0, permission 0x405) is mapped in the child with permission
0x005, not with the parent's permission bits.  A read-only page at the scratch page
1 of `PFTEMP` is mapped in the child, and the parent's mapping of it does not stay
unchanged: `pgfault`, run for the parent's stack during `fork`, has removed it. -/
theorem run_fork_read_only_page_counterexample :
    toyKernRO.stackWritable toyLayout ∧
    (run_fork toyLayout toyKernRO).1 = Outcome.ret 2 ∧
    (toyKernRO.mapping toyLayout 1 0).map Mapping.perm = some 0x405 ∧
    ((run_fork toyLayout toyKernRO).2.mapping toyLayout 2 0).map Mapping.perm = some 0x005 ∧
    ((run_fork toyLayout toyKernRO).2.mapping toyLayout 2 0).map Mapping.perm ≠
      (toyKernRO.mapping toyLayout 1 0).map Mapping.perm ∧
    PGNUM toyLayout toyLayout.PFTEMP = 1 ∧
    PGNUM toyLayout (toyLayout.UXSTACKTOP - toyLayout.PGSIZE) = 5 ∧
    toyKernRO.mapping toyLayout 1 1 = some { frame := 11, perm := PTE_P ||| PTE_U } ∧
    (run_fork toyLayout toyKernRO).2.mapping toyLayout 2 1 =
      some { frame := 11, perm := PTE_P ||| PTE_U } ∧
    (run_fork toyLayout toyKernRO).2.mapping toyLayout 1 1 = none := by
  decide

/-! ## The exception stack and the failed creation of the child -/

/-- The requests of a touch of the stack do not map from the exception stack. -/
theorem stack_touch_log (L : Layout) (hL : L.WF) (hS : L.WFS) (k : Kern) :
    ∃ rest, (stack_touch L k).2.log = k.log ++ rest ∧
      ∀ r ∈ rest, Req.isMapOf (L.UXSTACKTOP - L.PGSIZE) r = false := by
  obtain ⟨-, -, -, -, -, -, hne, -⟩ := stack_pn L hL hS
  obtain ⟨-, -, -, -, ⟨rest, hl, hr⟩⟩ := stack_touch_obs L k
  refine ⟨rest, hl, ?_⟩
  intro r hmem
  rcases hr r hmem with h | h | h
  · rw [h]; rfl
  · rw [h]; exact decide_eq_false hne
  · rw [h]; rfl

theorem run_body_log (L : Layout) (hL : L.WF) (hS : L.WFS)
    (body rbody : Nat → Kern → Option Outcome × Kern)
    (heq : ∀ pn k, rbody pn k =
      if uvpt L k pn &&& PTE_P = 0 then (none, k)
      else if (body pn k).1 = none then stack_touch L (body pn k).2
      else body pn k)
    (hlog : ∀ pn k, ∃ rest, (body pn k).2.log = k.log ++ rest ∧
      ∀ r ∈ rest, Req.isMapOf (L.UXSTACKTOP - L.PGSIZE) r = false ∧ Req.isPaging r = true)
    (pn : Nat) (k : Kern) :
    ∃ rest, (rbody pn k).2.log = k.log ++ rest ∧
      ∀ r ∈ rest, Req.isMapOf (L.UXSTACKTOP - L.PGSIZE) r = false := by
  rw [heq]
  obtain ⟨r1, hl1, hp1⟩ := hlog pn k
  by_cases h3 : uvpt L k pn &&& PTE_P = 0
  · rw [if_pos h3]; exact ⟨[], by simp, fun r hr => by cases hr⟩
  · rw [if_neg h3]
    by_cases h4 : (body pn k).1 = none
    · rw [if_pos h4]
      obtain ⟨r2, hl2, hp2⟩ := stack_touch_log L hL hS (body pn k).2
      refine ⟨r1 ++ r2, by rw [hl2, hl1, List.append_assoc], ?_⟩
      intro r hmem
      rcases List.mem_append.mp hmem with h | h
      · exact (hp1 r h).1
      · exact hp2 r h
    · rw [if_neg h4]
      exact ⟨r1, hl1, fun r h => (hp1 r h).1⟩

/-- No request of a call of the shape of `fork` whose walk has the stack touched
after each call maps from the exception stack, whatever the outcome. -/
theorem run_log (L : Layout) (hL : L.WF) (hS : L.WFS)
    (body rbody : Int → Nat → Kern → Option Outcome × Kern)
    (heq : ∀ c pn k, rbody c pn k =
      if uvpt L k pn &&& PTE_P = 0 then (none, k)
      else if (body c pn k).1 = none then stack_touch L (body c pn k).2
      else body c pn k)
    (hlog : ∀ c pn k, ∃ rest, (body c pn k).2.log = k.log ++ rest ∧
      ∀ r ∈ rest, Req.isMapOf (L.UXSTACKTOP - L.PGSIZE) r = false ∧ Req.isPaging r = true)
    (k : Kern) :
    ∃ rest, (forkWith L (fun c k1 => walkWith L (rbody c) (PGNUM L L.UTOP + 1) 0 k1) k).2.log =
        k.log ++ rest ∧
      ∀ r ∈ rest, Req.isMapOf (L.UXSTACKTOP - L.PGSIZE) r = false := by
  obtain ⟨rest, hl, hp⟩ := forkWith_log L
    (fun c k1 => walkWith L (rbody c) (PGNUM L L.UTOP + 1) 0 k1) k
    (fun r => Req.isMapOf (L.UXSTACKTOP - L.PGSIZE) r = false)
    (fun c1 k1 => walkWith_log L (rbody c1)
      (fun r => Req.isMapOf (L.UXSTACKTOP - L.PGSIZE) r = false)
      (fun pn k2 => run_body_log L hL hS (body c1) (rbody c1) (heq c1) (hlog c1) pn k2)
      (PGNUM L L.UTOP + 1) 0 k1)
  refine ⟨rest, hl, ?_⟩
  intro r hmem
  rcases hp r hmem with h | h | h | h | h | h
  · exact h
  all_goals rw [h]; rfl

/-- What a call that returned the child's identifier did with a present
exception-stack page, from what its walk did with the page the walk found there. -/
theorem xstack_result (L : Layout) (hL : L.WF) (hS : L.WFS) (k : Kern)
    (hstk : k.stackWritable L) (c : Int) (hc : 0 < c) (F : Outcome × Kern)
    (h0 : (set_pgfault_handler L k).1 = none)
    (h1 : (sys_exofork (set_pgfault_handler L k).2).1 = c)
    (hpage : ∀ m1, (sys_exofork (set_pgfault_handler L k).2).2.mapping L k.cur
        (PGNUM L (L.UXSTACKTOP - L.PGSIZE)) = some m1 → m1.perm &&& PTE_P ≠ 0 →
      (∃ g, g ≠ m1.frame ∧ F.2.mapping L c.toNat (PGNUM L (L.UXSTACKTOP - L.PGSIZE)) =
        some { frame := g, perm := PTE_U ||| PTE_W ||| PTE_P }) ∧
      F.2.mapping L k.cur (PGNUM L (L.UXSTACKTOP - L.PGSIZE)) = some m1 ∧
      ∃ pre post, F.2.log =
        (sys_exofork (set_pgfault_handler L k).2).2.log ++ pre ++
          [Req.page_alloc c (L.UXSTACKTOP - L.PGSIZE) (PTE_U ||| PTE_W ||| PTE_P)] ++ post)
    (m : Mapping) (hm : k.mapping L k.cur (PGNUM L (L.UXSTACKTOP - L.PGSIZE)) = some m)
    (hP : m.perm &&& PTE_P ≠ 0) :
    ∃ g mp, F.2.mapping L c.toNat (PGNUM L (L.UXSTACKTOP - L.PGSIZE)) =
        some { frame := g, perm := PTE_U ||| PTE_W ||| PTE_P } ∧
      F.2.mapping L k.cur (PGNUM L (L.UXSTACKTOP - L.PGSIZE)) = some mp ∧
      mp.frame ≠ g ∧ (PTE_U ||| PTE_W ||| PTE_P) &&& PTE_COW = 0 ∧
      (k.upcall k.cur = true → mp = m) ∧
      (mp.perm &&& PTE_COW ≠ 0 → k.upcall k.cur = true ∧ m.perm &&& PTE_COW ≠ 0) ∧
      ∃ pre post, F.2.log = k.log ++ pre ++
        [Req.page_alloc c (L.UXSTACKTOP - L.PGSIZE) (PTE_U ||| PTE_W ||| PTE_P)] ++ post := by
  obtain ⟨-, -, -, -, -, -, r7, r8, ⟨r0, hl0, -⟩⟩ :=
    run_start L hL hS k hstk h0 (by rw [h1]; exact hc)
  by_cases hu : k.upcall k.cur = true
  · have hm1 := r7 hu
    rw [hm] at hm1
    obtain ⟨⟨g, hg, hchild⟩, hpar, pre, post, hlog⟩ := hpage m hm1 hP
    refine ⟨g, m, hchild, hpar, fun hh => hg hh.symm, by decide, fun _ => rfl,
      fun hcow => ⟨hu, hcow⟩, r0 ++ [Req.exofork] ++ pre, post, ?_⟩
    rw [hlog, hl0]; simp
  · have hu0 : k.upcall k.cur = false := by
      cases hh : k.upcall k.cur
      · rfl
      · exact absurd hh hu
    have hm1 := r8 hu0
    obtain ⟨⟨g, hg, hchild⟩, hpar, pre, post, hlog⟩ := hpage _ hm1
      (show (PTE_U ||| PTE_W ||| PTE_P) &&& PTE_P ≠ 0 by decide)
    refine ⟨g, _, hchild, hpar, fun hh => hg hh.symm, by decide, fun hh => absurd hh hu,
      fun hcow => absurd (show (PTE_U ||| PTE_W ||| PTE_P) &&& PTE_COW = 0 by decide) hcow,
      r0 ++ [Req.exofork] ++ pre, post, ?_⟩
    rw [hlog, hl0]; simp

/-- C4, amended.  In `fork` and in `sfork`, called on a writable stack page, no
request ever asks to map the exception-stack page (so it is never passed to
`duppage` nor mapped from the parent into the child), whatever the outcome of the
call.  When the page is present in the parent and the call returns the child's
identifier: the call has requested the allocation of a page at that address in the
child; the child maps there, with permission exactly present, user-accessible and
writable, so without copy-on-write, a physical page other than the one the parent
maps there after the call; the parent's mapping is the one it had when its handler
was installed before the call, and it carries copy-on-write only if the handler was
installed and the mapping carried copy-on-write before the call. -/
theorem run_exception_stack_private (L : Layout) (hL : L.WF) (hS : L.WFS) (k : Kern)
    (hstk : k.stackWritable L) (c : Int) (hc : 0 < c) (m : Mapping)
    (hm : k.mapping L k.cur (PGNUM L (L.UXSTACKTOP - L.PGSIZE)) = some m)
    (hP : m.perm &&& PTE_P ≠ 0) :
    (∃ rest, (run_fork L k).2.log = k.log ++ rest ∧
      ∀ r ∈ rest, Req.isMapOf (L.UXSTACKTOP - L.PGSIZE) r = false) ∧
    (∃ rest, (run_sfork L k).2.log = k.log ++ rest ∧
      ∀ r ∈ rest, Req.isMapOf (L.UXSTACKTOP - L.PGSIZE) r = false) ∧
    ((run_fork L k).1 = Outcome.ret c →
      ∃ g mp, (run_fork L k).2.mapping L c.toNat (PGNUM L (L.UXSTACKTOP - L.PGSIZE)) =
          some { frame := g, perm := PTE_U ||| PTE_W ||| PTE_P } ∧
        (run_fork L k).2.mapping L k.cur (PGNUM L (L.UXSTACKTOP - L.PGSIZE)) = some mp ∧
        mp.frame ≠ g ∧ (PTE_U ||| PTE_W ||| PTE_P) &&& PTE_COW = 0 ∧
        (k.upcall k.cur = true → mp = m) ∧
        (mp.perm &&& PTE_COW ≠ 0 → k.upcall k.cur = true ∧ m.perm &&& PTE_COW ≠ 0) ∧
        ∃ pre post, (run_fork L k).2.log = k.log ++ pre ++
          [Req.page_alloc c (L.UXSTACKTOP - L.PGSIZE) (PTE_U ||| PTE_W ||| PTE_P)] ++ post) ∧
    ((run_sfork L k).1 = Outcome.ret c →
      ∃ g mp, (run_sfork L k).2.mapping L c.toNat (PGNUM L (L.UXSTACKTOP - L.PGSIZE)) =
          some { frame := g, perm := PTE_U ||| PTE_W ||| PTE_P } ∧
        (run_sfork L k).2.mapping L k.cur (PGNUM L (L.UXSTACKTOP - L.PGSIZE)) = some mp ∧
        mp.frame ≠ g ∧ (PTE_U ||| PTE_W ||| PTE_P) &&& PTE_COW = 0 ∧
        (k.upcall k.cur = true → mp = m) ∧
        (mp.perm &&& PTE_COW ≠ 0 → k.upcall k.cur = true ∧ m.perm &&& PTE_COW ≠ 0) ∧
        ∃ pre post, (run_sfork L k).2.log = k.log ++ pre ++
          [Req.page_alloc c (L.UXSTACKTOP - L.PGSIZE) (PTE_U ||| PTE_W ||| PTE_P)] ++ post) := by
  obtain ⟨-, -, -, -, hts, hsx, -, -⟩ := stack_pn L hL hS
  obtain ⟨hxlt, hxva⟩ := xstack_pn L hL
  have hxt : PGNUM L (L.UXSTACKTOP - L.PGSIZE) ≠ PGNUM L L.PFTEMP := by omega
  refine ⟨?_, ?_, ?_, ?_⟩
  · rw [run_fork_eq2]
    exact run_log L hL hS (forkBody L) (run_forkBody L) (run_forkBody_eq L) (forkBody_log L) k
  · rw [run_sfork_eq2]
    exact run_log L hL hS (sforkBody L) (run_sforkBody L) (run_sforkBody_eq L)
      (sforkBody_log L) k
  · intro h
    obtain ⟨g0, g1, -⟩ := run_fork_spec L hL hS k hstk c hc h
    refine xstack_result L hL hS k hstk c hc _ g0 g1 ?_ m hm hP
    intro m1 hm1 hP1
    have hp := run_fork_page L hL hS k hstk c hc h _ m1 hxlt hxt hm1 hP1
    rw [if_pos hxva] at hp
    exact hp
  · intro h
    obtain ⟨g0, g1, -⟩ := run_sfork_spec L hL hS k hstk c hc h
    refine xstack_result L hL hS k hstk c hc _ g0 g1 ?_ m hm hP
    intro m1 hm1 hP1
    have hp := run_sfork_page L hL hS k hstk c hc h _ m1 hxlt hxt hm1 hP1
    rw [if_pos hxva] at hp
    exact hp

theorem run_exception_stack_private_witness :
    toyLayout.WF ∧ toyLayout.WFS ∧ toyKern.stackWritable toyLayout ∧
    toyKern.mapping toyLayout toyKern.cur (PGNUM toyLayout (toyLayout.UXSTACKTOP - toyLayout.PGSIZE))
      = some { frame := 13, perm := PTE_P ||| PTE_U ||| PTE_W } ∧
    (run_fork toyLayout toyKern).1 = Outcome.ret 2 ∧
    (run_sfork toyLayout toyKern).1 = Outcome.ret 2 ∧
    (∃ g mp, (run_fork toyLayout toyKern).2.mapping toyLayout (2 : Int).toNat
          (PGNUM toyLayout (toyLayout.UXSTACKTOP - toyLayout.PGSIZE)) =
          some { frame := g, perm := PTE_U ||| PTE_W ||| PTE_P } ∧
        (run_fork toyLayout toyKern).2.mapping toyLayout toyKern.cur
          (PGNUM toyLayout (toyLayout.UXSTACKTOP - toyLayout.PGSIZE)) = some mp ∧
        mp.frame ≠ g) ∧
    (∃ g mp, (run_sfork toyLayout toyKern).2.mapping toyLayout (2 : Int).toNat
          (PGNUM toyLayout (toyLayout.UXSTACKTOP - toyLayout.PGSIZE)) =
          some { frame := g, perm := PTE_U ||| PTE_W ||| PTE_P } ∧
        (run_sfork toyLayout toyKern).2.mapping toyLayout toyKern.cur
          (PGNUM toyLayout (toyLayout.UXSTACKTOP - toyLayout.PGSIZE)) = some mp ∧
        mp.frame ≠ g) :=
  ⟨by decide, by decide, by decide, by decide, by decide, by decide,
    (((run_exception_stack_private toyLayout (by decide) (by decide) toyKern (by decide) 2
      (by decide) { frame := 13, perm := PTE_P ||| PTE_U ||| PTE_W } (by decide)
      (by decide)).2.2.1 (by decide)).imp
      (fun _ hg => hg.imp (fun _ hmp => ⟨hmp.1, hmp.2.1, hmp.2.2.1⟩))),
    (((run_exception_stack_private toyLayout (by decide) (by decide) toyKern (by decide) 2
      (by decide) { frame := 13, perm := PTE_P ||| PTE_U ||| PTE_W } (by decide)
      (by decide)).2.2.2 (by decide)).imp
      (fun _ hg => hg.imp (fun _ hmp => ⟨hmp.1, hmp.2.1, hmp.2.2.1⟩)))⟩

/-- C4 as stated fails: the parent's mapping of the exception-stack page is left as
it was, so it carries copy-on-write after the call when it did before.  The toy
parent maps its exception-stack page 5 with permission 0x807 (present,
user-accessible, writable, copy-on-write); `fork` and `sfork` return the child's
identifier 2 and the parent's mapping of the page still carries copy-on-write. -/
theorem run_exception_stack_private_counterexample :
    toyKernXCow.stackWritable toyLayout ∧
    PGNUM toyLayout (toyLayout.UXSTACKTOP - toyLayout.PGSIZE) = 5 ∧
    toyKernXCow.mapping toyLayout 1 5 = some { frame := 13, perm := 0x807 } ∧
    (run_fork toyLayout toyKernXCow).1 = Outcome.ret 2 ∧
    (run_fork toyLayout toyKernXCow).2.mapping toyLayout 1 5 =
      some { frame := 13, perm := 0x807 } ∧
    (run_sfork toyLayout toyKernXCow).1 = Outcome.ret 2 ∧
    (run_sfork toyLayout toyKernXCow).2.mapping toyLayout 1 5 =
      some { frame := 13, perm := 0x807 } ∧
    (0x807 : Nat) &&& PTE_COW ≠ 0 := by
  decide

/-- C8, amended.  `set_pgfault_handler` is modelled from the spec.  When the
handler of the caller is installed and the creation of the child fails with the
negative code `e`, `fork` returns `e`, every mapping and every page-directory entry
of every context is as before the call, the bytes of the physical pages are as
before, and the creation of the child is the only request `fork` has made. -/
theorem run_fork_exofork_fails (L : Layout) (k : Kern) (e : Int) (he : e < 0)
    (hu : k.upcall k.cur = true) (h : (sys_exofork k).1 = e) :
    (run_fork L k).1 = Outcome.ret e ∧
    (∀ id q, (run_fork L k).2.mapping L id q = k.mapping L id q) ∧
    (∀ id i, (run_fork L k).2.pde id i = k.pde id i) ∧
    (run_fork L k).2.mem = k.mem ∧
    (run_fork L k).2.cur = k.cur ∧
    (run_fork L k).2.log = k.log ++ [Req.exofork] := by
  have hs : set_pgfault_handler L k = (none, k) := (set_pgfault_handler_obs L k).1 hu
  obtain ⟨e1, e2, e3, -, e5⟩ := sys_exofork_obs L k
  rw [run_fork_eq2, forkWith_unfold, hs]
  dsimp only
  rw [if_neg (fun hh => hh rfl), if_pos (by rw [h]; exact he), h]
  rcases e5 with ⟨-, henvs, -⟩ | ⟨hpos, -⟩
  · refine ⟨rfl, ?_, ?_, e2, e1, e3⟩
    · intro id q
      exact Kern.mapping_congr L _ _ henvs id q
    · intro id i
      exact Kern.pde_congr _ _ henvs id i
  · omega

theorem run_fork_exofork_fails_witness :
    toyKernNoEnv.upcall toyKernNoEnv.cur = true ∧ (sys_exofork toyKernNoEnv).1 = -5 ∧
    (run_fork toyLayout toyKernNoEnv).1 = Outcome.ret (-5) ∧
    (run_fork toyLayout toyKernNoEnv).2.log = toyKernNoEnv.log ++ [Req.exofork] :=
  ⟨by decide, by decide,
    (run_fork_exofork_fails toyLayout toyKernNoEnv (-5) (by decide) (by decide) (by decide)).1,
    (run_fork_exofork_fails toyLayout toyKernNoEnv (-5) (by decide) (by decide)
      (by decide)).2.2.2.2.2⟩

/-- C8 as stated fails in a parent that has not installed its handler yet.  The toy
context has no exception stack and no registered upcall; `fork` first installs the
handler, which allocates the exception-stack page 5 and registers the upcall, and
only then asks for the child, which the kernel refuses with -5.  `fork` returns -5
and the parent maps a page that it did not map before the call. -/
theorem run_fork_exofork_fails_counterexample :
    toyKernFirst.upcall toyKernFirst.cur = false ∧
    (sys_exofork (set_pgfault_handler toyLayout toyKernFirst).2).1 = -5 ∧
    (run_fork toyLayout toyKernFirst).1 = Outcome.ret (-5) ∧
    toyKernFirst.mapping toyLayout 1 5 = none ∧
    (run_fork toyLayout toyKernFirst).2.mapping toyLayout 1 5 =
      some { frame := 13, perm := PTE_U ||| PTE_W ||| PTE_P } ∧
    (run_fork toyLayout toyKernFirst).2.log =
      [Req.page_alloc 0 20 (PTE_U ||| PTE_W ||| PTE_P), Req.env_set_pgfault_upcall 0,
       Req.exofork] := by
  decide

/-! ## Stores after `fork` and `sfork` -/

/-- A store to a page outside the scratch page that the running context maps
copy-on-write and not writable completes when the context has its upcall registered
and a writable exception stack, and the kernel serves the three requests of
`pgfault`. -/
theorem store_faults (L : Layout) (k : Kern) (va b : Nat) (m : Mapping)
    (hm : k.mapping L k.cur (PGNUM L va) = some m) (hnw : m.perm &&& PTE_W = 0)
    (hcow : m.perm &&& PTE_COW ≠ 0) (hne : PGNUM L va ≠ PGNUM L L.PFTEMP)
    (hu : k.upcall k.cur = true) (hxs : k.xstackWritable L)
    (h1 : ¬ (pgfault_alloc L k).1 < 0)
    (h2 : ¬ (pgfault_map L (write_fault L k va) k).1 < 0)
    (h3 : ¬ (pgfault_unmap L (write_fault L k va) k).1 < 0) :
    ∃ kc, store L va b 2 k = (Outcome.ret 0, kc) := by
  have hperm : uvpt L k (PGNUM L va) = m.perm := uvpt_of_mapping L k _ m hm
  have hcond : ¬ (uvpt L k (PGNUM L va) &&& PTE_P ≠ 0 ∧ uvpt L k (PGNUM L va) &&& PTE_U ≠ 0 ∧
      uvpt L k (PGNUM L va) &&& PTE_W ≠ 0) := by
    rw [hperm]; exact fun h => h.2.2 hnw
  obtain ⟨e, hget, hup⟩ := Kern.get_of_upcall k k.cur hu
  have hva : (write_fault L k va).utf_fault_va = va := rfl
  have hwr : (write_fault L k va).utf_err &&& FEC_WR ≠ 0 := by
    unfold write_fault
    dsimp only
    by_cases hp : uvpt L k (PGNUM L va) &&& PTE_P ≠ 0
    · rw [if_pos hp]; decide
    · rw [if_neg hp]; decide
  have hpf : pgfault L (write_fault L k va) k =
      (Outcome.ret 0, (pgfault_unmap L (write_fault L k va) k).2) := by
    rw [pgfault_unfold, if_neg, if_neg h1, if_neg h2, if_neg h3]
    rintro (h | h)
    · exact hwr h
    · rw [hva, hperm] at h; exact hcow h
  obtain ⟨-, m2, -, -, hcur, hmap, -⟩ := pgfault_ok L (write_fault L k va) k 0 (by rw [hpf])
  rw [hpf] at hcur hmap
  dsimp only at hcur hmap
  have hm1 : (pgfault_unmap L (write_fault L k va) k).2.mapping L
      (pgfault_unmap L (write_fault L k va) k).2.cur (PGNUM L va) =
        some { frame := k.freshFrame, perm := PTE_U ||| PTE_W ||| PTE_P } := by
    rw [hcur, hmap, if_neg (fun hh => hne hh.2), hva, if_pos ⟨rfl, rfl⟩]
  refine ⟨(pgfault_unmap L (write_fault L k va) k).2.poke k.freshFrame (va % L.PGSIZE) b, ?_⟩
  rw [store_succ, if_neg hcond, hget]
  dsimp only
  rw [if_pos hup, if_pos hxs, hpf]
  dsimp only
  exact store_direct L _ va b 0 _ hm1
    (show (PTE_U ||| PTE_W ||| PTE_P) &&& PTE_P ≠ 0 by decide)
    (show (PTE_U ||| PTE_W ||| PTE_P) &&& PTE_U ≠ 0 by decide)
    (show (PTE_U ||| PTE_W ||| PTE_P) &&& PTE_W ≠ 0 by decide)

/-- C2, amended.  `fork` is called by code that runs on a writable stack page and
returns the child's identifier.  For a page other than the exception-stack page and
the scratch page of `PFTEMP` that the fork shared copy-on-write (present below
`UTOP`, writable or copy-on-write in the parent at the call): when the kernel serves
the three requests of `pgfault`, a store by the child to the page completes, the
parent reads the same bytes in that page as before the store and the child reads
the stored byte, the rest of the page as before; and a store by the parent
completes (through `pgfault` when the kernel serves its three requests, directly
when the page is the top page of the parent's stack, which the parent maps
writable again), the child reads the same bytes as before and the parent reads the
stored byte, the rest of the page as before. -/
theorem run_fork_cow_isolation (L : Layout) (hL : L.WF) (hS : L.WFS) (k : Kern)
    (hstk : k.stackWritable L) (c : Int) (hc : 0 < c)
    (h : (run_fork L k).1 = Outcome.ret c) (pn : Nat) (m : Mapping)
    (hpn : pn < PGNUM L L.UTOP) (hx : pn * L.PGSIZE ≠ L.UXSTACKTOP - L.PGSIZE)
    (ht : pn ≠ PGNUM L L.PFTEMP)
    (hm : k.mapping L k.cur pn = some m) (hP : m.perm &&& PTE_P ≠ 0)
    (hcw : m.perm &&& (PTE_COW ||| PTE_W) ≠ 0) (va b : Nat) (hva : PGNUM L va = pn) :
    (¬ (pgfault_alloc L ((run_fork L k).2.run c.toNat)).1 < 0 →
      ¬ (pgfault_map L (write_fault L ((run_fork L k).2.run c.toNat) va)
          ((run_fork L k).2.run c.toNat)).1 < 0 →
      ¬ (pgfault_unmap L (write_fault L ((run_fork L k).2.run c.toNat) va)
          ((run_fork L k).2.run c.toNat)).1 < 0 →
      (store L va b 2 ((run_fork L k).2.run c.toNat)).1 = Outcome.ret 0 ∧
      (∀ a, PGNUM L a = pn →
        (store L va b 2 ((run_fork L k).2.run c.toNat)).2.read L k.cur a =
          (run_fork L k).2.read L k.cur a) ∧
      (store L va b 2 ((run_fork L k).2.run c.toNat)).2.read L c.toNat va = some b ∧
      (∀ a, PGNUM L a = pn → a % L.PGSIZE ≠ va % L.PGSIZE →
        (store L va b 2 ((run_fork L k).2.run c.toNat)).2.read L c.toNat a =
          (run_fork L k).2.read L c.toNat a)) ∧
    ((pn = PGNUM L (L.USTACKTOP - L.PGSIZE) ∨
        (¬ (pgfault_alloc L (run_fork L k).2).1 < 0 ∧
         ¬ (pgfault_map L (write_fault L (run_fork L k).2 va) (run_fork L k).2).1 < 0 ∧
         ¬ (pgfault_unmap L (write_fault L (run_fork L k).2 va) (run_fork L k).2).1 < 0)) →
      (store L va b 2 (run_fork L k).2).1 = Outcome.ret 0 ∧
      (∀ a, PGNUM L a = pn →
        (store L va b 2 (run_fork L k).2).2.read L c.toNat a =
          (run_fork L k).2.read L c.toNat a) ∧
      (store L va b 2 (run_fork L k).2).2.read L k.cur va = some b ∧
      (∀ a, PGNUM L a = pn → a % L.PGSIZE ≠ va % L.PGSIZE →
        (store L va b 2 (run_fork L k).2).2.read L k.cur a =
          (run_fork L k).2.read L k.cur a)) := by
  obtain ⟨g0, g1, hne, hcur2, hupP, hupC, -⟩ := run_fork_spec L hL hS k hstk c hc h
  obtain ⟨-, hxsP, hxsC⟩ := run_fork_xstack L hL hS k hstk c hc h
  have hm1 := run_entry_page L hL hS k hstk c hc g0 g1 pn hx
  rw [hm] at hm1
  have hp := run_fork_page L hL hS k hstk c hc h pn m hpn ht hm1 hP
  rw [if_neg hx] at hp
  obtain ⟨hchild, hpar⟩ := hp
  have hd : dupperm m.perm = PTE_U ||| PTE_P ||| PTE_COW := by
    unfold dupperm; rw [if_pos hcw]
  have hdc : dupperm m.perm &&& PTE_COW ≠ 0 := by rw [hd]; decide
  have hnw := dupperm_not_w m.perm
  have hvt : PGNUM L va ≠ PGNUM L L.PFTEMP := by rw [hva]; exact ht
  generalize hk2 : (run_fork L k).2 = k2 at hchild hpar hcur2 hupP hupC hxsP hxsC ⊢
  have hfr : m.frame ≠ k2.freshFrame := by
    have := Kern.lt_freshFrame L k2 c.toNat pn _ hchild
    exact Nat.ne_of_lt this
  constructor
  · intro h1 h2 h3
    have hmc : (k2.run c.toNat).mapping L (k2.run c.toNat).cur (PGNUM L va) =
        some { frame := m.frame, perm := dupperm m.perm } := by
      rw [hva]; exact hchild
    obtain ⟨kc, hs⟩ := store_faults L (k2.run c.toNat) va b _ hmc hnw hdc hvt hupC hxsC
      h1 h2 h3
    obtain ⟨-, hnp, -, hmap, hbytes, hb, hrest⟩ :=
      store_cow L (k2.run c.toNat) va b _ hmc hnw kc hs
    rw [hs]
    dsimp only
    have hfresh : (k2.run c.toNat).freshFrame = k2.freshFrame := rfl
    rw [hfresh] at hmap hbytes hb hrest
    have hcc : (k2.run c.toNat).cur = c.toNat := rfl
    rw [hcc] at hmap
    have hmapc : kc.mapping L c.toNat pn =
        some { frame := k2.freshFrame, perm := PTE_U ||| PTE_W ||| PTE_P } := by
      rw [hmap, if_neg (fun hh => hnp (hva.trans hh.2)), if_pos ⟨rfl, hva.symm⟩]
    have hparent : ∃ mp, k2.mapping L k.cur pn = some mp := by
      by_cases hs2 : pn = PGNUM L (L.USTACKTOP - L.PGSIZE)
      · rw [if_pos hs2] at hpar
        obtain ⟨g, -, hg⟩ := hpar
        exact ⟨_, hg⟩
      · rw [if_neg hs2] at hpar
        exact ⟨_, hpar⟩
    obtain ⟨mp, hmp⟩ := hparent
    have hfp : mp.frame ≠ k2.freshFrame := by
      have := Kern.lt_freshFrame L k2 k.cur pn _ hmp
      exact Nat.ne_of_lt this
    refine ⟨rfl, ?_, ?_, ?_⟩
    · intro a ha
      have h4 : kc.mapping L k.cur (PGNUM L a) = some mp := by
        rw [hmap, if_neg (fun hh => hne hh.1.symm), if_neg (fun hh => hne hh.1.symm), ha]
        exact hmp
      rw [Kern.read_eq L kc k.cur a _ h4, Kern.read_eq L k2 k.cur a _ (ha ▸ hmp)]
      rw [hbytes mp.frame _ hfp]
      rfl
    · rw [Kern.read_eq L kc c.toNat va _ (hva ▸ hmapc)]
      exact congrArg some hb
    · intro a ha hoff
      rw [Kern.read_eq L kc c.toNat a _ (ha ▸ hmapc), Kern.read_eq L k2 c.toNat a _ (ha ▸ hchild)]
      rw [hrest _ hoff]
      rfl
  · intro hant
    by_cases hs2 : pn = PGNUM L (L.USTACKTOP - L.PGSIZE)
    · rw [if_pos hs2] at hpar
      obtain ⟨g, hg, hmg⟩ := hpar
      have hmp : k2.mapping L k2.cur (PGNUM L va) =
          some { frame := g, perm := PTE_U ||| PTE_W ||| PTE_P } := by
        rw [hva, hcur2]; exact hmg
      rw [store_direct L k2 va b 1 _ hmp
        (show (PTE_U ||| PTE_W ||| PTE_P) &&& PTE_P ≠ 0 by decide)
        (show (PTE_U ||| PTE_W ||| PTE_P) &&& PTE_U ≠ 0 by decide)
        (show (PTE_U ||| PTE_W ||| PTE_P) &&& PTE_W ≠ 0 by decide)]
      dsimp only
      refine ⟨rfl, ?_, ?_, ?_⟩
      · intro a ha
        have h4 : (k2.poke g (va % L.PGSIZE) b).mapping L c.toNat (PGNUM L a) =
            some { frame := m.frame, perm := dupperm m.perm } := by
          rw [ha]; exact hchild
        rw [Kern.read_eq L _ c.toNat a _ h4, Kern.read_eq L k2 c.toNat a _ (ha ▸ hchild),
          Kern.byte_poke, if_neg (fun hh => hg hh.1.symm)]
      · have h4 : (k2.poke g (va % L.PGSIZE) b).mapping L k.cur (PGNUM L va) =
            some { frame := g, perm := PTE_U ||| PTE_W ||| PTE_P } := by
          rw [hva]; exact hmg
        rw [Kern.read_eq L _ k.cur va _ h4, Kern.byte_poke, if_pos ⟨rfl, rfl⟩]
      · intro a ha hoff
        have h4 : (k2.poke g (va % L.PGSIZE) b).mapping L k.cur (PGNUM L a) =
            some { frame := g, perm := PTE_U ||| PTE_W ||| PTE_P } := by
          rw [ha]; exact hmg
        rw [Kern.read_eq L _ k.cur a _ h4, Kern.read_eq L k2 k.cur a _ (ha ▸ hmg),
          Kern.byte_poke, if_neg (fun hh => hoff hh.2)]
    · rw [if_neg hs2, if_pos hcw] at hpar
      rcases hant with hant | ⟨h1, h2, h3⟩
      · exact absurd hant hs2
      have hmp : k2.mapping L k2.cur (PGNUM L va) =
          some { frame := m.frame, perm := dupperm m.perm } := by
        rw [hva, hcur2]; exact hpar
      have hupP2 : k2.upcall k2.cur = true := by rw [hcur2]; exact hupP
      obtain ⟨kp, hs⟩ := store_faults L k2 va b _ hmp hnw hdc hvt hupP2 hxsP h1 h2 h3
      obtain ⟨-, hnp, -, hmap, hbytes, hb, hrest⟩ := store_cow L k2 va b _ hmp hnw kp hs
      rw [hs]
      dsimp only
      rw [hcur2] at hmap
      have hmapp : kp.mapping L k.cur pn =
          some { frame := k2.freshFrame, perm := PTE_U ||| PTE_W ||| PTE_P } := by
        rw [hmap, if_neg (fun hh => hnp (hva.trans hh.2)), if_pos ⟨rfl, hva.symm⟩]
      refine ⟨rfl, ?_, ?_, ?_⟩
      · intro a ha
        have h4 : kp.mapping L c.toNat (PGNUM L a) =
            some { frame := m.frame, perm := dupperm m.perm } := by
          rw [hmap, if_neg (fun hh => hne hh.1), if_neg (fun hh => hne hh.1), ha]
          exact hchild
        rw [Kern.read_eq L kp c.toNat a _ h4, Kern.read_eq L k2 c.toNat a _ (ha ▸ hchild)]
        rw [hbytes m.frame _ hfr]
      · rw [Kern.read_eq L kp k.cur va _ (hva ▸ hmapp)]
        exact congrArg some hb
      · intro a ha hoff
        rw [Kern.read_eq L kp k.cur a _ (ha ▸ hmapp), Kern.read_eq L k2 k.cur a _ (ha ▸ hpar)]
        rw [hrest _ hoff]

theorem run_fork_cow_isolation_witness :
    toyLayout.WF ∧ toyLayout.WFS ∧ toyKern.stackWritable toyLayout ∧
    (run_fork toyLayout toyKern).1 = Outcome.ret 2 ∧
    (run_fork toyLayout toyKern).2.read toyLayout 1 8 = some 65 ∧
    ((store toyLayout 8 66 2 ((run_fork toyLayout toyKern).2.run (2 : Int).toNat)).1 =
        Outcome.ret 0 ∧
      (∀ a, PGNUM toyLayout a = 2 →
        (store toyLayout 8 66 2 ((run_fork toyLayout toyKern).2.run (2 : Int).toNat)).2.read
          toyLayout toyKern.cur a = (run_fork toyLayout toyKern).2.read toyLayout toyKern.cur a) ∧
      (store toyLayout 8 66 2 ((run_fork toyLayout toyKern).2.run (2 : Int).toNat)).2.read
        toyLayout (2 : Int).toNat 8 = some 66 ∧
      (∀ a, PGNUM toyLayout a = 2 → a % toyLayout.PGSIZE ≠ 8 % toyLayout.PGSIZE →
        (store toyLayout 8 66 2 ((run_fork toyLayout toyKern).2.run (2 : Int).toNat)).2.read
          toyLayout (2 : Int).toNat a =
          (run_fork toyLayout toyKern).2.read toyLayout (2 : Int).toNat a)) ∧
    (store toyLayout 8 66 2 (run_fork toyLayout toyKern).2).1 = Outcome.ret 0 ∧
    (store toyLayout 8 66 2 (run_fork toyLayout toyKern).2).2.read toyLayout toyKern.cur 8 =
      some 66 :=
  ⟨by decide, by decide, by decide, by decide, by decide,
    (run_fork_cow_isolation toyLayout (by decide) (by decide) toyKern (by decide) 2 (by decide)
      (by decide) 2 { frame := 11, perm := PTE_P ||| PTE_U ||| PTE_W } (by decide) (by decide)
      (by decide) (by decide) (by decide) (by decide) 8 66 (by decide)).1
      (by decide) (by decide) (by decide),
    ((run_fork_cow_isolation toyLayout (by decide) (by decide) toyKern (by decide) 2 (by decide)
      (by decide) 2 { frame := 11, perm := PTE_P ||| PTE_U ||| PTE_W } (by decide) (by decide)
      (by decide) (by decide) (by decide) (by decide) 8 66 (by decide)).2
      (Or.inr ⟨by decide, by decide, by decide⟩)).1,
    ((run_fork_cow_isolation toyLayout (by decide) (by decide) toyKern (by decide) 2 (by decide)
      (by decide) 2 { frame := 11, perm := PTE_P ||| PTE_U ||| PTE_W } (by decide) (by decide)
      (by decide) (by decide) (by decide) (by decide) 8 66 (by decide)).2
      (Or.inr ⟨by decide, by decide, by decide⟩)).2.2.1⟩

/-- C2 as stated fails for a page at the scratch address `PFTEMP`.  The toy parent
maps the scratch page 1 writable (physical page 14, byte 70 at address 5); `fork`
returns the child's identifier 2 and the child maps the page copy-on-write.  The
kernel serves every request, yet the child's store of byte 66 at address 5 ends in
a panic of `pgfault`, which has left the page unmapped, and the child never reads
the byte; the parent's store ends in the same panic, its own stack fault during
`fork` having unmapped the page. -/
theorem run_fork_cow_isolation_counterexample :
    toyKernScratch.stackWritable toyLayout ∧
    (run_fork toyLayout toyKernScratch).1 = Outcome.ret 2 ∧
    PGNUM toyLayout 5 = 1 ∧ PGNUM toyLayout toyLayout.PFTEMP = 1 ∧
    toyKernScratch.mapping toyLayout 1 1 =
      some { frame := 14, perm := PTE_P ||| PTE_U ||| PTE_W } ∧
    toyKernScratch.read toyLayout 1 5 = some 70 ∧
    (run_fork toyLayout toyKernScratch).2.mapping toyLayout 2 1 =
      some { frame := 14, perm := PTE_U ||| PTE_P ||| PTE_COW } ∧
    (pgfault_alloc toyLayout ((run_fork toyLayout toyKernScratch).2.run 2)).1 = 0 ∧
    (pgfault_map toyLayout (write_fault toyLayout ((run_fork toyLayout toyKernScratch).2.run 2) 5)
      ((run_fork toyLayout toyKernScratch).2.run 2)).1 = 0 ∧
    (pgfault_unmap toyLayout
      (write_fault toyLayout ((run_fork toyLayout toyKernScratch).2.run 2) 5)
      ((run_fork toyLayout toyKernScratch).2.run 2)).1 = 0 ∧
    (store toyLayout 5 66 2 ((run_fork toyLayout toyKernScratch).2.run 2)).1 =
      Outcome.panic "pgfault: not a copy-on-write page" 0 ∧
    (store toyLayout 5 66 2 ((run_fork toyLayout toyKernScratch).2.run 2)).2.read toyLayout 2 5 =
      none ∧
    (run_fork toyLayout toyKernScratch).2.mapping toyLayout 1 1 = none ∧
    (store toyLayout 5 66 2 (run_fork toyLayout toyKernScratch).2).1 =
      Outcome.panic "pgfault: not a copy-on-write page" 0 := by
  decide

/-- C10, amended.  `sfork` is called by code that runs on a writable stack page and
returns the child's identifier.  For every page present in the parent below `UTOP`
other than the exception-stack page, the top page of the normal stack and the
scratch page of `PFTEMP`: the child maps the same physical page with the parent's
permission bits (those of `PTE_SYSCALL`) and the parent's mapping is as before; and
when the page is user-accessible and writable in the parent, a store by the child or
by the parent completes without a fault, changes no mapping (no private copy is
made), and the other one reads the stored byte at that address. -/
theorem run_sfork_shared_page (L : Layout) (hL : L.WF) (hS : L.WFS) (k : Kern)
    (hstk : k.stackWritable L) (c : Int) (hc : 0 < c)
    (h : (run_sfork L k).1 = Outcome.ret c) (pn : Nat) (m : Mapping)
    (hpn : pn < PGNUM L L.UTOP) (hx : pn * L.PGSIZE ≠ L.UXSTACKTOP - L.PGSIZE)
    (hs : pn * L.PGSIZE ≠ L.USTACKTOP - L.PGSIZE) (ht : pn ≠ PGNUM L L.PFTEMP)
    (hm : k.mapping L k.cur pn = some m) (hP : m.perm &&& PTE_P ≠ 0) :
    (run_sfork L k).2.mapping L c.toNat pn =
      some { frame := m.frame, perm := m.perm &&& PTE_SYSCALL } ∧
    (m.perm &&& PTE_SYSCALL = m.perm → (run_sfork L k).2.mapping L c.toNat pn = some m) ∧
    (run_sfork L k).2.mapping L k.cur pn = some m ∧
    (m.perm &&& PTE_U ≠ 0 → m.perm &&& PTE_W ≠ 0 → ∀ va b, PGNUM L va = pn →
      (store L va b 1 ((run_sfork L k).2.run c.toNat)).1 = Outcome.ret 0 ∧
      (store L va b 1 ((run_sfork L k).2.run c.toNat)).2.read L k.cur va = some b ∧
      (∀ id q, (store L va b 1 ((run_sfork L k).2.run c.toNat)).2.mapping L id q =
        (run_sfork L k).2.mapping L id q) ∧
      (store L va b 1 (run_sfork L k).2).1 = Outcome.ret 0 ∧
      (store L va b 1 (run_sfork L k).2).2.read L c.toNat va = some b ∧
      (∀ id q, (store L va b 1 (run_sfork L k).2).2.mapping L id q =
        (run_sfork L k).2.mapping L id q)) := by
  obtain ⟨g0, g1, -, hcur, -⟩ := run_sfork_spec L hL hS k hstk c hc h
  have hm1 := run_entry_page L hL hS k hstk c hc g0 g1 pn hx
  rw [hm] at hm1
  have hp := run_sfork_page L hL hS k hstk c hc h pn m hpn ht hm1 hP
  have hps : pn ≠ PGNUM L (L.USTACKTOP - L.PGSIZE) := by
    intro hh
    rw [hh] at hs
    exact hs (stack_pn L hL hS).2.1
  rw [if_neg hx, if_neg hps] at hp
  obtain ⟨hchild, hparent⟩ := hp
  refine ⟨hchild, ?_, hparent, ?_⟩
  · intro he
    rw [hchild, he]
  · intro hU hW va b hva
    generalize hk2 : (run_sfork L k).2 = k2 at hchild hparent hcur ⊢
    have hmc : (k2.run c.toNat).mapping L (k2.run c.toNat).cur (PGNUM L va) =
        some { frame := m.frame, perm := m.perm &&& PTE_SYSCALL } := by
      rw [hva]; exact hchild
    have hsc := store_direct L (k2.run c.toNat) va b 0 _ hmc
      (by rw [syscall_present]; exact hP) (by rw [syscall_user]; exact hU)
      (by rw [syscall_writable]; exact hW)
    have hmp : k2.mapping L k2.cur (PGNUM L va) = some m := by
      rw [hva, hcur]; exact hparent
    have hsp := store_direct L k2 va b 0 _ hmp hP hU hW
    rw [hsc, hsp]
    refine ⟨rfl, ?_, fun _ _ => rfl, rfl, ?_, fun _ _ => rfl⟩
    · have h1 : ((k2.run c.toNat).poke m.frame (va % L.PGSIZE) b).mapping L k.cur (PGNUM L va) =
          some m := by
        rw [hva]; exact hparent
      rw [Kern.read_eq L _ k.cur va m h1, Kern.byte_poke, if_pos ⟨rfl, rfl⟩]
    · have h1 : (k2.poke m.frame (va % L.PGSIZE) b).mapping L c.toNat (PGNUM L va) =
          some { frame := m.frame, perm := m.perm &&& PTE_SYSCALL } := by
        rw [hva]; exact hchild
      rw [Kern.read_eq L _ c.toNat va _ h1, Kern.byte_poke, if_pos ⟨rfl, rfl⟩]

theorem run_sfork_shared_page_witness :
    toyLayout.WF ∧ toyLayout.WFS ∧ toyKern.stackWritable toyLayout ∧
    (run_sfork toyLayout toyKern).1 = Outcome.ret 2 ∧
    toyKern.mapping toyLayout toyKern.cur 2 =
      some { frame := 11, perm := PTE_P ||| PTE_U ||| PTE_W } ∧
    (run_sfork toyLayout toyKern).2.mapping toyLayout (2 : Int).toNat 2 =
      some { frame := 11, perm := PTE_P ||| PTE_U ||| PTE_W } ∧
    (store toyLayout 8 66 1 ((run_sfork toyLayout toyKern).2.run (2 : Int).toNat)).2.read
      toyLayout toyKern.cur 8 = some 66 ∧
    (store toyLayout 8 66 1 (run_sfork toyLayout toyKern).2).2.read toyLayout (2 : Int).toNat 8 =
      some 66 :=
  ⟨by decide, by decide, by decide, by decide, by decide,
    (run_sfork_shared_page toyLayout (by decide) (by decide) toyKern (by decide) 2 (by decide)
      (by decide) 2 { frame := 11, perm := PTE_P ||| PTE_U ||| PTE_W } (by decide) (by decide)
      (by decide) (by decide) (by decide) (by decide)).2.1 (by decide),
    ((run_sfork_shared_page toyLayout (by decide) (by decide) toyKern (by decide) 2 (by decide)
      (by decide) 2 { frame := 11, perm := PTE_P ||| PTE_U ||| PTE_W } (by decide) (by decide)
      (by decide) (by decide) (by decide) (by decide)).2.2.2 (by decide) (by decide) 8 66
      (by decide)).2.1,
    ((run_sfork_shared_page toyLayout (by decide) (by decide) toyKern (by decide) 2 (by decide)
      (by decide) 2 { frame := 11, perm := PTE_P ||| PTE_U ||| PTE_W } (by decide) (by decide)
      (by decide) (by decide) (by decide) (by decide)).2.2.2 (by decide) (by decide) 8 66
      (by decide)).2.2.2.2.1⟩

/-- C10 as stated fails at two pages.  A page that is copy-on-write in the parent
(page 2 of the first toy parent) is mapped into the child with the parent's bits,
copy-on-write included; the child's store of byte 66 at address 8 faults, `pgfault`
gives the child a private copy, and the parent still reads 65 there while the child
reads 66.  A writable page at the scratch address `PFTEMP` (page 1 of the second
toy parent, byte 70 at address 5) is mapped writable into the child, but the
parent's own stack fault during `sfork` has unmapped it in the parent: the child's
store of byte 66 at address 5 completes and the parent reads nothing there. -/
theorem run_sfork_shared_page_counterexample :
    toyKernForked.stackWritable toyLayout ∧
    (run_sfork toyLayout toyKernForked).1 = Outcome.ret 2 ∧
    toyKernForked.mapping toyLayout 1 2 =
      some { frame := 11, perm := PTE_P ||| PTE_U ||| PTE_COW } ∧
    (run_sfork toyLayout toyKernForked).2.mapping toyLayout 2 2 =
      some { frame := 11, perm := PTE_P ||| PTE_U ||| PTE_COW } ∧
    (store toyLayout 8 66 2 ((run_sfork toyLayout toyKernForked).2.run 2)).1 = Outcome.ret 0 ∧
    (store toyLayout 8 66 2 ((run_sfork toyLayout toyKernForked).2.run 2)).2.read toyLayout 1 8 =
      some 65 ∧
    (store toyLayout 8 66 2 ((run_sfork toyLayout toyKernForked).2.run 2)).2.read toyLayout 2 8 =
      some 66 ∧
    ((store toyLayout 8 66 2 ((run_sfork toyLayout toyKernForked).2.run 2)).2.mapping toyLayout 2
      2).map Mapping.frame ≠ some 11 ∧
    toyKernScratch.stackWritable toyLayout ∧
    (run_sfork toyLayout toyKernScratch).1 = Outcome.ret 2 ∧
    PGNUM toyLayout toyLayout.PFTEMP = 1 ∧ PGNUM toyLayout 5 = 1 ∧
    toyKernScratch.mapping toyLayout 1 1 =
      some { frame := 14, perm := PTE_P ||| PTE_U ||| PTE_W } ∧
    (run_sfork toyLayout toyKernScratch).2.mapping toyLayout 2 1 =
      some { frame := 14, perm := PTE_P ||| PTE_U ||| PTE_W } ∧
    (run_sfork toyLayout toyKernScratch).2.mapping toyLayout 1 1 = none ∧
    (store toyLayout 5 66 2 ((run_sfork toyLayout toyKernScratch).2.run 2)).1 = Outcome.ret 0 ∧
    (store toyLayout 5 66 2 ((run_sfork toyLayout toyKernScratch).2.run 2)).2.read toyLayout 2 5 =
      some 66 ∧
    (store toyLayout 5 66 2 ((run_sfork toyLayout toyKernScratch).2.run 2)).2.read toyLayout 1 5 =
      none := by
  decide

/-! ## `lib/math.c` on the inputs of its test -/

/-- The embedding agrees with the assertions of `user/testmath.c` that compare
exactly: `ceil` and `floor` at -5.1, -5.0, -4.9, 4.9, 5.0 and 5.1, `fmod` at
(-7, 3), (2, 3) and (7, 3), `frexp` at -3.0 and 96.0, `ldexp` at (-3.0, 4) and
(96, -3), `modf` at -0.5 and 12.0.  For `fmod` and `ldexp` the word after the
parameter of `dclassify` is 0, which `dclassify` reports as a subnormal value. -/
theorem testmath_assertions :
    ceil (Dtype.ofBits 0xc014666666666666) = Dtype.ofBits 0xc014000000000000 ∧
    ceil (Dtype.ofBits 0xc014000000000000) = Dtype.ofBits 0xc014000000000000 ∧
    ceil (Dtype.ofBits 0xc01399999999999a) = Dtype.ofBits 0xc010000000000000 ∧
    ceil (Dtype.ofBits 0x401399999999999a) = Dtype.ofBits 0x4014000000000000 ∧
    ceil (Dtype.ofBits 0x4014000000000000) = Dtype.ofBits 0x4014000000000000 ∧
    ceil (Dtype.ofBits 0x4014666666666666) = Dtype.ofBits 0x4018000000000000 ∧
    floor (Dtype.ofBits 0xc014666666666666) = Dtype.ofBits 0xc018000000000000 ∧
    floor (Dtype.ofBits 0xc014000000000000) = Dtype.ofBits 0xc014000000000000 ∧
    floor (Dtype.ofBits 0xc01399999999999a) = Dtype.ofBits 0xc014000000000000 ∧
    floor (Dtype.ofBits 0x401399999999999a) = Dtype.ofBits 0x4010000000000000 ∧
    floor (Dtype.ofBits 0x4014000000000000) = Dtype.ofBits 0x4014000000000000 ∧
    floor (Dtype.ofBits 0x4014666666666666) = Dtype.ofBits 0x4014000000000000 ∧
    fmod (Dtype.ofBits 0xc01c000000000000) (Dtype.ofBits 0x4008000000000000)
      0xeebfdf80 0 0xeebfdf88 0 = some (Dtype.ofBits 0xbff0000000000000) ∧
    fmod (Dtype.ofBits 0x4000000000000000) (Dtype.ofBits 0x4008000000000000)
      0xeebfdf80 0 0xeebfdf88 0 = some (Dtype.ofBits 0x4000000000000000) ∧
    fmod (Dtype.ofBits 0x401c000000000000) (Dtype.ofBits 0x4008000000000000)
      0xeebfdf80 0 0xeebfdf88 0 = some (Dtype.ofBits 0x3ff0000000000000) ∧
    frexp (Dtype.ofBits 0xc008000000000000) = some (Dtype.ofBits 0xbfe8000000000000, 2) ∧
    frexp (Dtype.ofBits 0x4058000000000000) = some (Dtype.ofBits 0x3fe8000000000000, 7) ∧
    ldexp (Dtype.ofBits 0xc008000000000000) 4 0xeebfdf80 0 =
      some (Dtype.ofBits 0xc048000000000000) ∧
    ldexp (Dtype.ofBits 0x4058000000000000) (-3) 0xeebfdf80 0 =
      some (Dtype.ofBits 0x4028000000000000) ∧
    modf (Dtype.ofBits 0xbfe0000000000000) = (Dtype.ofBits 0xbfe0000000000000, d_zero) ∧
    modf (Dtype.ofBits 0x4028000000000000) = (d_zero, Dtype.ofBits 0x4028000000000000) := by
  refine ⟨?_, ?_, ?_, ?_, ?_, ?_, ?_, ?_, ?_, ?_, ?_, ?_, ?_, ?_, ?_, ?_, ?_, ?_, ?_, ?_, ?_⟩ <;>
    decide!

/-! ## `lib/math.c` at the inputs where it leaves its contract -/

/-- C12, the code at two failing inputs.  `floor(1.0)` is 0.0 although 1.0 is an
integer: with exponent field 1023 `dtrunc` computes `dropbits = 52`, takes the branch
`dropbits >= NBITS` and clears every word, the implicit integer bit included.
`floor(-0.5)` is 0.0, above -0.5: `dtrunc` clears the value to +0.0 and the test
`x < 0.0` that follows no longer sees the sign. -/
theorem floor_breaks_at_one :
    (Dtype.pack false 1023 0).val = 1 ∧
    floor (Dtype.pack false 1023 0) = d_zero ∧
    (Dtype.pack true 1022 0).val = -1 / 2 ∧
    floor (Dtype.pack true 1022 0) = d_zero ∧
    d_zero.val = 0 := by
  have h1 : (Dtype.pack false 1023 0).scaled = 2 ^ 1074 := by decide!
  have h2 : (Dtype.pack true 1022 0).scaled = -2 ^ 1073 := by decide!
  have h3 : d_zero.scaled = 0 := by decide
  refine ⟨?_, by decide, ?_, by decide, ?_⟩
  · unfold Dtype.val; rw [h1]; norm_num
  · unfold Dtype.val; rw [h2]; norm_num
  · unfold Dtype.val; rw [h3]; norm_num

/-- C13, the code at two failing inputs.  `ceil(1.0)` is 0.0 although 1.0 is an
integer (`dtrunc` clears every word when the exponent field is 1023), and
`ceil(0.5)` is 0.0, below 0.5 (after `dtrunc` the test `x > 0.0` fails). -/
theorem ceil_breaks_at_one :
    (Dtype.pack false 1023 0).val = 1 ∧
    ceil (Dtype.pack false 1023 0) = d_zero ∧
    (Dtype.pack false 1022 0).val = 1 / 2 ∧
    ceil (Dtype.pack false 1022 0) = d_zero ∧
    d_zero.val = 0 := by
  have h1 : (Dtype.pack false 1023 0).scaled = 2 ^ 1074 := by decide!
  have h2 : (Dtype.pack false 1022 0).scaled = 2 ^ 1073 := by decide!
  have h3 : d_zero.scaled = 0 := by decide
  refine ⟨?_, by decide, ?_, by decide, ?_⟩
  · unfold Dtype.val; rw [h1]; norm_num
  · unfold Dtype.val; rw [h2]; norm_num
  · unfold Dtype.val; rw [h3]; norm_num

/-- C14, the code at a failing input.  `modf(1.5, &i)` stores 0.0 in `i` and
returns 1.5: the integral part 1.0 is lost and the returned fraction is not below 1
in magnitude. -/
theorem modf_breaks_at_three_halves :
    (Dtype.pack false 1023 (2 ^ 51)).val = 3 / 2 ∧
    modf (Dtype.pack false 1023 (2 ^ 51)) = (Dtype.pack false 1023 (2 ^ 51), d_zero) ∧
    d_zero.val = 0 := by
  have h1 : (Dtype.pack false 1023 (2 ^ 51)).scaled = 3 * 2 ^ 1073 := by decide!
  have h3 : d_zero.scaled = 0 := by decide
  refine ⟨?_, by decide!, ?_⟩
  · unfold Dtype.val; rw [h1]; norm_num
  · unfold Dtype.val; rw [h3]; norm_num

/-- C15, the code at a failing input.  For the smallest subnormal `x = 2^-1074`,
`frexp` returns `f = 0.5` and stores `e = -1074`, and `0.5 * 2^-1074` is half of
`x`: `dnorm` counts the 52 shifts from exponent 0 where a subnormal has the exponent
of field 1, so `dunscale` stores an exponent one too small. -/
theorem frexp_breaks_at_subnormal :
    (Dtype.pack false 0 1).val = 1 / 2 ^ 1074 ∧
    frexp (Dtype.pack false 0 1) = some (Dtype.pack false 1022 0, -1074) ∧
    (Dtype.pack false 1022 0).val = 1 / 2 ∧
    (Dtype.pack false 1022 0).val * (1 / 2 ^ 1074) ≠ (Dtype.pack false 0 1).val := by
  have h1 : (Dtype.pack false 0 1).scaled = 1 := by decide
  have h2 : (Dtype.pack false 1022 0).scaled = 2 ^ 1073 := by decide!
  have v1 : (Dtype.pack false 0 1).val = 1 / 2 ^ 1074 := by
    unfold Dtype.val; rw [h1]; norm_num
  have v2 : (Dtype.pack false 1022 0).val = 1 / 2 := by
    unfold Dtype.val; rw [h2]; norm_num
  refine ⟨v1, by decide, v2, ?_⟩
  rw [v1, v2]
  norm_num

/-- C16, the code at two failing inputs, whatever `dclassify` reads (`px`, `next`).
A normal value scaled into the subnormal range: `ldexp(2^-1022, -1)` is `2^-1022`,
not `2^-1023`.  A subnormal value scaled into the normal range:
`ldexp(2^-1074, 1074)` is 0.5 when `dclassify` lets `dscale` run and `2^-1074`
otherwise, never 1.0. -/
theorem ldexp_breaks_across_subnormal (px next : Nat) :
    dmin.val = 1 / 2 ^ 1022 ∧
    ldexp dmin (-1) px next = some dmin ∧
    (Dtype.pack false 0 1).val = 1 / 2 ^ 1074 ∧
    (Dtype.pack false 1022 0).val = 1 / 2 ∧
    (ldexp (Dtype.pack false 0 1) 1074 px next = some (Dtype.pack false 1022 0) ∨
      ldexp (Dtype.pack false 0 1) 1074 px next = some (Dtype.pack false 0 1)) := by
  have h0 : dmin.scaled = 2 ^ 52 := by decide
  have h1 : (Dtype.pack false 0 1).scaled = 1 := by decide
  have h2 : (Dtype.pack false 1022 0).scaled = 2 ^ 1073 := by decide!
  have s1 : dscale dmin (-1) = some (FP_SUBNORMAL, dmin) := by decide
  have s2 : dscale (Dtype.pack false 0 1) 1074 = some (FP_NORMAL, Dtype.pack false 1022 0) := by
    decide
  refine ⟨?_, ?_, ?_, ?_, ?_⟩
  · unfold Dtype.val; rw [h0]; norm_num
  · unfold ldexp; rw [s1]; split <;> rfl
  · unfold Dtype.val; rw [h1]; norm_num
  · unfold Dtype.val; rw [h2]; norm_num
  · unfold ldexp; rw [s2]
    split
    · exact Or.inl rfl
    · exact Or.inr rfl

end Jos
